import Mathlib

/-!
# Basm: assembler and simulator of the 32-register virtual machine

A shallow embedding of `src/src/assembler.c` and `src/src/simulator.c`
(with the declarations of `src/include/beboasm.h` and `src/include/opcodes.h`).

Conventions of the embedding:

* a C string is the list of its bytes before the terminating NUL (`List Nat`,
  every element below 256); `cstr` turns a Lean string literal into that list;
* `uint8_t`, `uint16_t` and `uint32_t` values are `Nat`s, reduced `% 2^8`,
  `% 2^16`, `% 2^32` wherever the C code can wrap or truncate;
* the `value` union of an `Operand` is kept as the 32-bit little-endian word
  that its four bytes hold, and each member is a view of that word;
* the 16 MiB memory arrays are functions `Nat → Nat`;
* text printed with `printf` is not part of the state.
-/

namespace Basm

/-! ## Constants of `beboasm.h` -/

def MAX_LABEL_LEN : Nat := 64
def MAX_OPERANDS : Nat := 4
def MAX_SYMBOLS : Nat := 4096
def MEMORY_SIZE : Nat := 16777216
def NUM_REGISTERS : Nat := 32
def MAX_INCLUDE_DEPTH : Nat := 16
def CACHE_SIZE : Nat := 256

def REG_PC : Nat := 28
def REG_SP : Nat := 29
def REG_FP : Nat := 30
def REG_LR : Nat := 31

def FLAG_ZERO : Nat := 0x01
def FLAG_CARRY : Nat := 0x02
def FLAG_OVERFLOW : Nat := 0x04
def FLAG_NEGATIVE : Nat := 0x08
def FLAG_INTERRUPT : Nat := 0x10
def FLAG_DECIMAL : Nat := 0x20
def FLAG_BREAK : Nat := 0x40
def FLAG_DEBUG : Nat := 0x80

/-- The enum `AddressingMode`, in declaration order. -/
inductive AddressingMode
  | AM_IMMEDIATE
  | AM_DIRECT
  | AM_REGISTER
  | AM_REGISTER_INDIRECT
  | AM_REGISTER_INDEXED
  | AM_DISPLACEMENT
  | AM_PC_RELATIVE
  | AM_STACK
  | AM_ABSOLUTE
  deriving DecidableEq

open AddressingMode

/-! ## Opcode numbers of `opcodes.h` -/

def OP_MOV : Nat := 0x01
def OP_MOVW : Nat := 0x02
def OP_MOVB : Nat := 0x03
def OP_LOAD : Nat := 0x04
def OP_LOADB : Nat := 0x05
def OP_LOADH : Nat := 0x06
def OP_STORE : Nat := 0x07
def OP_STOREB : Nat := 0x08
def OP_STOREH : Nat := 0x09
def OP_PUSH : Nat := 0x0A
def OP_POP : Nat := 0x0B
def OP_XCHG : Nat := 0x0E
def OP_ADD : Nat := 0x10
def OP_SUB : Nat := 0x12
def OP_MUL : Nat := 0x14
def OP_DIV : Nat := 0x16
def OP_MOD : Nat := 0x18
def OP_INC : Nat := 0x1A
def OP_DEC : Nat := 0x1B
def OP_AND : Nat := 0x30
def OP_OR : Nat := 0x31
def OP_XOR : Nat := 0x32
def OP_NOT : Nat := 0x33
def OP_SHL : Nat := 0x37
def OP_SHR : Nat := 0x38
def OP_CLR : Nat := 0x3D
def OP_SETB : Nat := 0x3E
def OP_TEST : Nat := 0x3F
def OP_CMP : Nat := 0x40
def OP_JMP : Nat := 0x50
def OP_JZ : Nat := 0x51
def OP_JNZ : Nat := 0x52
def OP_JE : Nat := 0x53
def OP_JNE : Nat := 0x54
def OP_JG : Nat := 0x55
def OP_JGE : Nat := 0x56
def OP_JL : Nat := 0x57
def OP_JLE : Nat := 0x58
def OP_CALL : Nat := 0x5D
def OP_RET : Nat := 0x5E
def OP_HALT : Nat := 0x70
def OP_NOP : Nat := 0x71
def OP_IN : Nat := 0x80
def OP_OUT : Nat := 0x81
def OP_INB : Nat := 0x82
def OP_OUTB : Nat := 0x83

/-- The enum `InstructionFormat`: FORMAT_R = 0, FORMAT_I = 1, FORMAT_M = 2,
FORMAT_B = 3, FORMAT_S = 4, FORMAT_V = 5. -/
def FORMAT_R : Nat := 0
def FORMAT_I : Nat := 1
def FORMAT_M : Nat := 2
def FORMAT_B : Nat := 3
def FORMAT_S : Nat := 4

def IF_NONE : Nat := 0x0000
def IF_BRANCH : Nat := 0x0001
def IF_CALL : Nat := 0x0002
def IF_RETURN : Nat := 0x0004
def IF_MEMORY : Nat := 0x0008
def IF_ARITH : Nat := 0x0010
def IF_LOGIC : Nat := 0x0020
def IF_SHIFT : Nat := 0x0040
def IF_COMPARE : Nat := 0x0080
def IF_STACK : Nat := 0x0100
def IF_IO : Nat := 0x0200
def IF_CONDITIONAL : Nat := 0x0800

def OT_REG : Nat := 1
def OT_IMM : Nat := 2
def OT_MEM : Nat := 4
def OT_LABEL : Nat := 8

/-! ## C library functions on bytes and strings -/

/-- The bytes of a string literal. -/
def cstr (s : String) : List Nat := s.data.map Char.toNat

/-- C `isspace` in the "C" locale: space, `\t`, `\n`, `\v`, `\f`, `\r`. -/
def isspace (c : Nat) : Bool := c == 32 || (9 ≤ c && c ≤ 13)

/-- C `isdigit`. -/
def isdigit (c : Nat) : Bool := 48 ≤ c && c ≤ 57

/-- C `isalpha` in the "C" locale. -/
def isalpha (c : Nat) : Bool := (65 ≤ c && c ≤ 90) || (97 ≤ c && c ≤ 122)

/-- C `toupper` in the "C" locale. -/
def toupper (c : Nat) : Nat := if 97 ≤ c ∧ c ≤ 122 then c - 32 else c

/-- C `tolower` in the "C" locale. -/
def tolower (c : Nat) : Nat := if 65 ≤ c ∧ c ≤ 90 then c + 32 else c

/-- C `strcasecmp`: the difference of the first pair of bytes that differ after
`tolower` (the end of a string counting as the byte 0), and 0 when there is none. -/
def strcasecmp : List Nat → List Nat → Int
  | [], [] => 0
  | [], b :: _ => - (tolower b : Int)
  | a :: _, [] => (tolower a : Int)
  | a :: as, b :: bs =>
    if tolower a = tolower b then strcasecmp as bs
    else (tolower a : Int) - (tolower b : Int)

/-- C `strcmp(a, b) == 0`. -/
def streq (a b : List Nat) : Bool := a == b

/-- The value of the byte `c` as a digit (`0-9`, `a-z`, `A-Z`), if it is one. -/
def digit_value (c : Nat) : Option Nat :=
  if 48 ≤ c ∧ c ≤ 57 then some (c - 48)
  else if 97 ≤ c ∧ c ≤ 122 then some (c - 97 + 10)
  else if 65 ≤ c ∧ c ≤ 90 then some (c - 65 + 10)
  else none

/-- The test that `c` is a digit of the base `base`. -/
def is_digit_of (base c : Nat) : Bool :=
  match digit_value c with
  | some d => d < base
  | none => false

/-- The digit loop of `strtol`/`strtoul`: the number read in `base` from the
longest prefix of digits, and the text left. -/
def scan_digits (base : Nat) : List Nat → Nat → Nat × List Nat
  | [], acc => (acc, [])
  | c :: cs, acc =>
    match digit_value c with
    | some d => if d < base then scan_digits base cs (acc * base + d) else (acc, c :: cs)
    | none => (acc, c :: cs)

/-- The test that `t` starts with `0x` or `0X` followed by a hexadecimal digit. -/
def has_hex_prefix : List Nat → Bool
  | 48 :: x :: d :: _ => (x == 120 || x == 88) && is_digit_of 16 d
  | _ => false

/-- The part of `strtol` and `strtoul` before the range check (ISO C11, so
without a binary prefix): white space, an optional sign, the base prefix, the
digits.  The result is `none` when there is no digit to convert, else the sign,
the magnitude and the text at `endptr`. -/
def strto_scan (s : List Nat) (base : Nat) : Option (Bool × Nat × List Nat) :=
  let t := s.dropWhile isspace
  let (neg, t) : Bool × List Nat :=
    match t with
    | 45 :: r => (true, r)
    | 43 :: r => (false, r)
    | _ => (false, t)
  let (base, t) : Nat × List Nat :=
    if (base = 0 ∨ base = 16) ∧ has_hex_prefix t then (16, t.drop 2)
    else if base = 0 then (if t.head? = some 48 then 8 else 10, t)
    else (base, t)
  match t with
  | c :: _ =>
    if is_digit_of base c then
      let (v, rest) := scan_digits base t 0
      some (neg, v, rest)
    else none
  | [] => none

/-- C `strtol` for a 64-bit `long`: the value, clamped to `LONG_MIN..LONG_MAX`,
and the text at `endptr` (the whole argument when nothing is converted). -/
def strtol (s : List Nat) (base : Nat) : Int × List Nat :=
  match strto_scan s base with
  | none => (0, s)
  | some (neg, v, rest) =>
    if neg then (if v > 2 ^ 63 then - (2 ^ 63 : Int) else - (v : Int), rest)
    else (if v > 2 ^ 63 - 1 then (2 ^ 63 - 1 : Int) else (v : Int), rest)

/-- C `strtoul` for a 64-bit `unsigned long`: `ULONG_MAX` on overflow, the
negation modulo `2^64` after a minus sign. -/
def strtoul (s : List Nat) (base : Nat) : Nat :=
  match strto_scan s base with
  | none => 0
  | some (neg, v, _) =>
    if v > 2 ^ 64 - 1 then 2 ^ 64 - 1
    else if neg then (2 ^ 64 - v) % 2 ^ 64 else v

/-- The idiom `end = str + strlen(str) - 1; while (end > str && isspace(*end)) *end-- = 0`:
trailing white space is cut, the first byte is never cut. -/
def trim_end : List Nat → List Nat
  | [] => []
  | c :: cs => c :: (cs.reverse.dropWhile isspace).reverse

/-- The idiom `while (*s && isspace(*s)) s++`. -/
def skip_spaces (s : List Nat) : List Nat := s.dropWhile isspace

/-- The text before the first occurrence of `c` (the whole text if there is none). -/
def before_char (c : Nat) (s : List Nat) : List Nat := s.takeWhile (fun x => x != c)

/-- The text after the first occurrence of `c`, `none` if there is none (`strchr`). -/
def after_char (c : Nat) : List Nat → Option (List Nat)
  | [] => none
  | x :: xs => if x = c then some xs else after_char c xs

/-- The tokens that repeated calls of `strtok(…, ",")` return: the maximal runs
of bytes other than a comma, empty runs skipped.  `cur` is the run being read. -/
def strtok_tokens : List Nat → List Nat → List (List Nat)
  | [], cur => if cur = [] then [] else [cur]
  | c :: cs, cur =>
    if c = 44 then (if cur = [] then strtok_tokens cs [] else cur :: strtok_tokens cs [])
    else strtok_tokens cs (cur ++ [c])

/-! ## The instruction table -/

/-- The struct `OpcodeMetadata` (the operand names and the description, which
are only printed, are left out). -/
structure OpcodeMetadata where
  mnemonic : List Nat
  opcode : Nat
  format : Nat
  size : Nat
  cycles : Nat
  operands : Nat
  operand_types : List Nat
  flags : Nat
  deriving DecidableEq

/-- The rows of `instruction_set[]` before the terminator row. -/
def instruction_set : List OpcodeMetadata :=
  [ ⟨cstr "MOV", OP_MOV, FORMAT_R, 2, 1, 2, [OT_REG ||| OT_MEM, OT_REG ||| OT_IMM ||| OT_MEM], IF_NONE⟩,
    ⟨cstr "MOVW", OP_MOVW, FORMAT_R, 2, 1, 2, [OT_REG, OT_REG ||| OT_IMM], IF_NONE⟩,
    ⟨cstr "LOAD", OP_LOAD, FORMAT_M, 3, 2, 2, [OT_REG, OT_MEM ||| OT_LABEL], IF_MEMORY⟩,
    ⟨cstr "LDB", OP_LOADB, FORMAT_M, 3, 2, 2, [OT_REG, OT_MEM ||| OT_LABEL], IF_MEMORY⟩,
    ⟨cstr "LDW", OP_LOADH, FORMAT_M, 3, 2, 2, [OT_REG, OT_MEM ||| OT_LABEL], IF_MEMORY⟩,
    ⟨cstr "STORE", OP_STORE, FORMAT_M, 3, 2, 2, [OT_REG, OT_MEM ||| OT_LABEL], IF_MEMORY⟩,
    ⟨cstr "STB", OP_STOREB, FORMAT_M, 3, 2, 2, [OT_REG, OT_MEM ||| OT_LABEL], IF_MEMORY⟩,
    ⟨cstr "STW", OP_STOREH, FORMAT_M, 3, 2, 2, [OT_REG, OT_MEM ||| OT_LABEL], IF_MEMORY⟩,
    ⟨cstr "PUSH", OP_PUSH, FORMAT_R, 1, 1, 1, [OT_REG ||| OT_IMM], IF_STACK⟩,
    ⟨cstr "POP", OP_POP, FORMAT_R, 1, 1, 1, [OT_REG], IF_STACK⟩,
    ⟨cstr "XCHG", OP_XCHG, FORMAT_R, 2, 2, 2, [OT_REG, OT_REG], IF_NONE⟩,
    ⟨cstr "ADD", OP_ADD, FORMAT_R, 2, 1, 3, [OT_REG, OT_REG ||| OT_IMM, OT_REG ||| OT_IMM], IF_ARITH⟩,
    ⟨cstr "SUB", OP_SUB, FORMAT_R, 2, 1, 3, [OT_REG, OT_REG ||| OT_IMM, OT_REG ||| OT_IMM], IF_ARITH⟩,
    ⟨cstr "MUL", OP_MUL, FORMAT_R, 2, 3, 3, [OT_REG, OT_REG ||| OT_IMM, OT_REG ||| OT_IMM], IF_ARITH⟩,
    ⟨cstr "DIV", OP_DIV, FORMAT_R, 2, 4, 3, [OT_REG, OT_REG ||| OT_IMM, OT_REG ||| OT_IMM], IF_ARITH⟩,
    ⟨cstr "MOD", OP_MOD, FORMAT_R, 2, 4, 3, [OT_REG, OT_REG ||| OT_IMM, OT_REG ||| OT_IMM], IF_ARITH⟩,
    ⟨cstr "INC", OP_INC, FORMAT_R, 1, 1, 1, [OT_REG], IF_ARITH⟩,
    ⟨cstr "DEC", OP_DEC, FORMAT_R, 1, 1, 1, [OT_REG], IF_ARITH⟩,
    ⟨cstr "AND", OP_AND, FORMAT_R, 2, 1, 3, [OT_REG, OT_REG ||| OT_IMM, OT_REG ||| OT_IMM], IF_LOGIC⟩,
    ⟨cstr "OR", OP_OR, FORMAT_R, 2, 1, 3, [OT_REG, OT_REG ||| OT_IMM, OT_REG ||| OT_IMM], IF_LOGIC⟩,
    ⟨cstr "XOR", OP_XOR, FORMAT_R, 2, 1, 3, [OT_REG, OT_REG ||| OT_IMM, OT_REG ||| OT_IMM], IF_LOGIC⟩,
    ⟨cstr "NOT", OP_NOT, FORMAT_R, 1, 1, 1, [OT_REG], IF_LOGIC⟩,
    ⟨cstr "SHL", OP_SHL, FORMAT_R, 2, 1, 2, [OT_REG, OT_REG ||| OT_IMM], IF_SHIFT⟩,
    ⟨cstr "SHR", OP_SHR, FORMAT_R, 2, 1, 2, [OT_REG, OT_REG ||| OT_IMM], IF_SHIFT⟩,
    ⟨cstr "CLR", OP_CLR, FORMAT_R, 1, 1, 1, [OT_REG], IF_LOGIC⟩,
    ⟨cstr "SETB", OP_SETB, FORMAT_R, 2, 1, 2, [OT_REG, OT_REG ||| OT_IMM], IF_LOGIC⟩,
    ⟨cstr "CMP", OP_CMP, FORMAT_R, 2, 1, 2, [OT_REG ||| OT_IMM, OT_REG ||| OT_IMM], IF_COMPARE⟩,
    ⟨cstr "TEST", OP_TEST, FORMAT_R, 2, 1, 2, [OT_REG, OT_REG ||| OT_IMM], IF_COMPARE⟩,
    ⟨cstr "JMP", OP_JMP, FORMAT_B, 3, 2, 1, [OT_LABEL], IF_BRANCH⟩,
    ⟨cstr "JE", OP_JE, FORMAT_B, 3, 2, 1, [OT_LABEL], IF_BRANCH ||| IF_CONDITIONAL⟩,
    ⟨cstr "JNE", OP_JNE, FORMAT_B, 3, 2, 1, [OT_LABEL], IF_BRANCH ||| IF_CONDITIONAL⟩,
    ⟨cstr "JG", OP_JG, FORMAT_B, 3, 2, 1, [OT_LABEL], IF_BRANCH ||| IF_CONDITIONAL⟩,
    ⟨cstr "JL", OP_JL, FORMAT_B, 3, 2, 1, [OT_LABEL], IF_BRANCH ||| IF_CONDITIONAL⟩,
    ⟨cstr "JGE", OP_JGE, FORMAT_B, 3, 2, 1, [OT_LABEL], IF_BRANCH ||| IF_CONDITIONAL⟩,
    ⟨cstr "JLE", OP_JLE, FORMAT_B, 3, 2, 1, [OT_LABEL], IF_BRANCH ||| IF_CONDITIONAL⟩,
    ⟨cstr "CALL", OP_CALL, FORMAT_B, 3, 3, 1, [OT_LABEL], IF_CALL⟩,
    ⟨cstr "RET", OP_RET, FORMAT_S, 1, 2, 0, [0], IF_RETURN⟩,
    ⟨cstr "HALT", OP_HALT, FORMAT_S, 1, 1, 0, [0], IF_NONE⟩,
    ⟨cstr "NOP", OP_NOP, FORMAT_S, 1, 1, 0, [0], IF_NONE⟩,
    ⟨cstr "IN", OP_IN, FORMAT_I, 2, 2, 2, [OT_REG, OT_IMM], IF_IO⟩,
    ⟨cstr "OUT", OP_OUT, FORMAT_I, 2, 2, 2, [OT_IMM, OT_REG], IF_IO⟩ ]

/-- The loop of `opcode_find` over the rows that are left. -/
def opcode_find_from (mnemonic : List Nat) : List OpcodeMetadata → Option OpcodeMetadata
  | [] => none
  | e :: rest =>
    if strcasecmp e.mnemonic mnemonic = 0 then some e else opcode_find_from mnemonic rest

/-- The function `opcode_find`: the first row whose mnemonic equals the argument
up to letter case, `none` for NULL. -/
def opcode_find (mnemonic : List Nat) : Option OpcodeMetadata :=
  opcode_find_from mnemonic instruction_set

/-- The loop of `opcode_by_value`. -/
def opcode_by_value (opcode : Nat) : Option OpcodeMetadata :=
  instruction_set.find? (fun e => e.opcode == opcode)

/-! ## Parsed operands and instructions -/

/-- The struct `Operand`.  `value` is the 32-bit word held by the four bytes of
the union `value`; a record cleared by `memset` has `mode = AM_IMMEDIATE` (0),
`value = 0` and an empty label. -/
structure Operand where
  mode : AddressingMode := AM_IMMEDIATE
  value : Nat := 0
  label : List Nat := []
  resolved : Bool := false
  deriving DecidableEq

/-- The member `value.immediate` read into a `uint32_t`. -/
def Operand.immediate (o : Operand) : Nat := o.value % 2 ^ 32

/-- The member `value.reg_num` (the lowest byte of the union). -/
def Operand.reg_num (o : Operand) : Nat := o.value % 256

/-- The member `value.address` (the two lowest bytes of the union). -/
def Operand.address (o : Operand) : Nat := o.value % 65536

/-- The assignment `value.immediate = v` of a C `long`: all four bytes are replaced. -/
def Operand.set_immediate (o : Operand) (v : Int) : Operand :=
  { o with value := (v % 2 ^ 32).toNat }

/-- The assignment `value.reg_num = r`: only the lowest byte is replaced. -/
def Operand.set_reg_num (o : Operand) (r : Nat) : Operand :=
  { o with value := o.value / 256 * 256 + r % 256 }

/-- The assignment `value.address = a`: only the two lowest bytes are replaced. -/
def Operand.set_address (o : Operand) (a : Int) : Operand :=
  { o with value := o.value / 65536 * 65536 + (a % 65536).toNat }

/-- The struct `Instruction`.  `operands` lists the slots of the array
`Operand operands[MAX_OPERANDS]` written so far; slot `i` is read with
`operand`, which yields the cleared record for a slot that was never written. -/
structure Instruction where
  label : List Nat := []
  info : Option OpcodeMetadata := none
  operands : List Operand := []
  operand_count : Nat := 0
  deriving DecidableEq

/-- The expression `inst->operands[i]`. -/
def Instruction.operand (inst : Instruction) (i : Nat) : Operand :=
  inst.operands.getD i {}

/-! ## Assembler state -/

/-- The struct `Symbol`. -/
structure Symbol where
  name : List Nat
  value : Nat
  size : Nat := 0
  type : Nat
  scope : Nat
  section_ : Nat
  defined : Bool
  exported : Bool := false
  line : Nat
  file : List Nat
  deriving DecidableEq

/-- The struct `Section`; `data` is the 64 KiB buffer behind the pointer. -/
structure Section where
  name : List Nat
  address : Nat
  size : Nat
  attributes : Nat
  data : List Nat
  deriving DecidableEq

/-- The struct `AssemblerState`: the fields that the functions embedded here
read or write.  `symbol_cache` holds, per slot, the index in `symbols` of the
symbol the C pointer designates. -/
structure AssemblerState where
  sections : List Section
  current_section : Nat
  symbols : List Symbol
  memory : Nat → Nat
  pc : Nat
  include_depth : Nat
  current_file : List Nat
  current_line : Nat
  errors : Nat
  warnings : Nat
  message_count : Nat
  optimize : Bool
  symbol_cache : Nat → Option Nat
  cache_hits : Nat
  cache_misses : Nat

/-- The function `error_add`: once 256 messages are stored nothing is recorded. -/
def error_add (state : AssemblerState) : AssemblerState :=
  if state.message_count ≥ 256 then state
  else { state with message_count := state.message_count + 1, errors := state.errors + 1 }

/-- The function `warning_add`. -/
def warning_add (state : AssemblerState) : AssemblerState :=
  if state.message_count ≥ 256 then state
  else { state with message_count := state.message_count + 1, warnings := state.warnings + 1 }

/-- One step of `hash_string`: `hash = ((hash << 5) + hash) + c` on `uint32_t`,
where `c` is a signed `char` widened to `int`. -/
def hash_step (hash c : Nat) : Nat :=
  ((hash * 32 % 2 ^ 32 + hash) % 2 ^ 32 + (if c < 128 then c else 2 ^ 32 - 256 + c)) % 2 ^ 32

/-- The function `hash_string` (djb2). -/
def hash_string (str : List Nat) : Nat := str.foldl hash_step 5381

/-- The function `symbol_add`.  The string pool returns a string with the
same bytes as `name`, so the stored name is `name` cut to 63 bytes. -/
def symbol_add (state : AssemblerState) (name : List Nat) (value type : Nat) :
    AssemblerState :=
  if state.symbols.length ≥ MAX_SYMBOLS then error_add state
  else
    let sym : Symbol :=
      { name := name.take (MAX_LABEL_LEN - 1), value := value % 2 ^ 32, type := type,
        defined := true, scope := 0, section_ := state.current_section % 65536,
        line := state.current_line, file := state.current_file.take 255 }
    let idx := state.symbols.length
    let hash := hash_string name % CACHE_SIZE
    { state with
      symbols := state.symbols ++ [sym],
      symbol_cache := fun h => if h = hash then some idx else state.symbol_cache h }

/-- The linear search of `symbol_find`: the index of the first symbol from
position `i` on whose name is `name`. -/
def symbol_search (name : List Nat) : List Symbol → Nat → Option Nat
  | [], _ => none
  | s :: rest, i => if streq s.name name then some i else symbol_search name rest (i + 1)

/-- The function `symbol_find`: the symbol found (its index and its record)
and the state with the cache and its counters updated. -/
def symbol_find (state : AssemblerState) (name : List Nat) :
    Option (Nat × Symbol) × AssemblerState :=
  let hash := hash_string name % CACHE_SIZE
  let cached : Option (Nat × Symbol) :=
    match state.symbol_cache hash with
    | none => none
    | some i =>
      match state.symbols.get? i with
      | some s => if streq s.name name then some (i, s) else none
      | none => none
  match cached with
  | some hit => (some hit, { state with cache_hits := state.cache_hits + 1 })
  | none =>
    match symbol_search name state.symbols 0 with
    | some j =>
      ((state.symbols.get? j).map (fun t => (j, t)),
        { state with
          cache_misses := state.cache_misses + 1,
          symbol_cache := fun h => if h = hash then some j else state.symbol_cache h })
    | none => (none, state)

/-- The function `section_create`. -/
def section_create (state : AssemblerState) (name : List Nat) (address attrs : Nat) :
    AssemblerState :=
  if state.sections.length ≥ 16 then error_add state
  else
    { state with
      sections := state.sections ++
        [{ name := name.take 31, address := address % 2 ^ 32, size := 0,
           attributes := attrs % 256, data := List.replicate 65536 0 }] }

/-- The search loop of `section_switch`: the index and the record of the first
section from position `i` on whose name is `name`. -/
def section_search (name : List Nat) : List Section → Nat → Option (Nat × Section)
  | [], _ => none
  | s :: rest, i => if streq s.name name then some (i, s) else section_search name rest (i + 1)

/-- The function `section_switch`. -/
def section_switch (state : AssemblerState) (name : List Nat) : AssemblerState :=
  match section_search name state.sections 0 with
  | some (i, s) => { state with current_section := i, pc := s.address }
  | none =>
    let st := section_create state name state.pc 0x06
    { st with current_section := st.sections.length - 1 }

/-- The function `emit_byte`. -/
def emit_byte (state : AssemblerState) (byte : Nat) : AssemblerState :=
  let memory := if state.pc < MEMORY_SIZE
    then (fun a => if a = state.pc then byte % 256 else state.memory a) else state.memory
  let sections := state.sections.modify
    (fun sec =>
      if state.pc ≥ sec.address then
        let offset := state.pc - sec.address
        if (offset + 1) % 2 ^ 32 > sec.size then { sec with size := (offset + 1) % 2 ^ 32 }
        else sec
      else sec) state.current_section
  { state with memory := memory, sections := sections, pc := (state.pc + 1) % 2 ^ 32 }

/-! ## Instruction size (pass 1) and instruction encoding (pass 2) -/

/-- The case labels `OP_MOV … OP_TEST` shared by both switches. -/
def two_operand_ops : List Nat := [OP_MOV, OP_MOVW, OP_LOAD, OP_STORE, OP_CMP, OP_TEST]

/-- The case labels `OP_ADD … OP_XOR` shared by both switches. -/
def three_operand_ops : List Nat :=
  [OP_ADD, OP_SUB, OP_MUL, OP_DIV, OP_MOD, OP_AND, OP_OR, OP_XOR]

/-- The case labels `OP_INC … OP_CLR` shared by both switches. -/
def single_register_ops : List Nat := [OP_INC, OP_DEC, OP_PUSH, OP_POP, OP_NOT, OP_CLR]

/-- The case labels `OP_JMP … OP_CALL` shared by both switches. -/
def branch_ops : List Nat := [OP_JMP, OP_JE, OP_JNE, OP_JG, OP_JL, OP_JGE, OP_JLE, OP_CALL]

/-- The case labels `OP_HALT`, `OP_NOP`, `OP_RET` shared by both switches. -/
def niladic_ops : List Nat := [OP_HALT, OP_NOP, OP_RET]

/-- The test `mode == AM_IMMEDIATE || mode == AM_DIRECT || mode == AM_PC_RELATIVE`. -/
def is_wide_mode (m : AddressingMode) : Bool :=
  m == AM_IMMEDIATE || m == AM_DIRECT || m == AM_PC_RELATIVE

/-- The `default:` loop of `instruction_full_size` over the operand slots `i, i+1, …`. -/
def fallback_size (inst : Instruction) : Nat → Nat → Nat → Nat
  | 0, _, size => size
  | n + 1, i, size =>
    let m := (inst.operand i).mode
    fallback_size inst n (i + 1) (if m == AM_IMMEDIATE || m == AM_DIRECT then size + 2 else size)

/-- The function `instruction_full_size`. -/
def instruction_full_size (inst : Instruction) : Nat :=
  match inst.info with
  | none => 0
  | some info =>
    let size := 1
    if info.opcode ∈ two_operand_ops then
      let size := size + 2
      if inst.operand_count > 1 then
        if is_wide_mode (inst.operand 1).mode then
          size + (if info.opcode = OP_MOVW then 4 else 2)
        else size + 1
      else size
    else if info.opcode ∈ three_operand_ops then
      let size := size + 3
      if inst.operand_count > 2 then
        if is_wide_mode (inst.operand 2).mode then size + 2 else size + 1
      else size
    else if info.opcode ∈ [OP_OUT, OP_IN] then size + 2
    else if info.opcode ∈ single_register_ops then size + 1
    else if info.opcode ∈ branch_ops then size + 2
    else if info.opcode ∈ niladic_ops then size
    else fallback_size inst inst.operand_count 0 info.size

/-- The value `val` that `emit_instruction` encodes for the operand `o`: its
`value.immediate`, replaced by the symbol's value when the operand has a label
that `symbol_find` finds; an absent symbol is an error in pass 2. -/
def resolve_value (state : AssemblerState) (o : Operand) (pass : Nat) : Nat × AssemblerState :=
  let val := o.immediate
  if o.label ≠ [] then
    match symbol_find state o.label with
    | (some (_, sym), st) => (sym.value, st)
    | (none, st) => (val, if pass = 2 then error_add st else st)
  else (val, state)

/-- The `default:` loop of `emit_instruction` over the operand slots `i, i+1, …`. -/
def emit_fallback (inst : Instruction) : Nat → Nat → AssemblerState → AssemblerState
  | 0, _, state => state
  | n + 1, i, state =>
    let o := inst.operand i
    let state :=
      if o.mode = AM_REGISTER ∨ o.mode = AM_REGISTER_INDIRECT then emit_byte state o.reg_num
      else
        let val := o.immediate
        let state := emit_byte state (val &&& 0xFF)
        emit_byte state ((val >>> 8) &&& 0xFF)
    emit_fallback inst n (i + 1) state

/-- The function `emit_instruction`. -/
def emit_instruction (state : AssemblerState) (inst : Instruction) (pass : Nat) :
    AssemblerState :=
  match inst.info with
  | none => state
  | some info =>
    let state := emit_byte state info.opcode
    if info.opcode ∈ two_operand_ops then
      let state := emit_byte state (inst.operand 0).reg_num
      if inst.operand_count > 1 then
        if is_wide_mode (inst.operand 1).mode then
          let state := emit_byte state 1
          let (val, state) := resolve_value state (inst.operand 1) pass
          if info.opcode = OP_MOVW then
            let state := emit_byte state (val &&& 0xFF)
            let state := emit_byte state ((val >>> 8) &&& 0xFF)
            let state := emit_byte state ((val >>> 16) &&& 0xFF)
            emit_byte state ((val >>> 24) &&& 0xFF)
          else
            let state := emit_byte state (val &&& 0xFF)
            emit_byte state ((val >>> 8) &&& 0xFF)
        else
          let state := emit_byte state 0
          emit_byte state (inst.operand 1).reg_num
      else state
    else if info.opcode ∈ three_operand_ops then
      let state := emit_byte state (inst.operand 0).reg_num
      let state := emit_byte state (inst.operand 1).reg_num
      if inst.operand_count > 2 then
        if is_wide_mode (inst.operand 2).mode then
          let state := emit_byte state 1
          let (val, state) := resolve_value state (inst.operand 2) pass
          let state := emit_byte state (val &&& 0xFF)
          emit_byte state ((val >>> 8) &&& 0xFF)
        else
          let state := emit_byte state 0
          emit_byte state (inst.operand 2).reg_num
      else state
    else if info.opcode ∈ [OP_OUT, OP_OUTB] then
      let port := (inst.operand 0).immediate
      let state := emit_byte state (port &&& 0xFF)
      let state := emit_byte state ((port >>> 8) &&& 0xFF)
      emit_byte state (inst.operand 1).reg_num
    else if info.opcode ∈ [OP_IN, OP_INB] then
      let state := emit_byte state (inst.operand 0).reg_num
      let port := (inst.operand 1).immediate
      let state := emit_byte state (port &&& 0xFF)
      emit_byte state ((port >>> 8) &&& 0xFF)
    else if info.opcode ∈ single_register_ops then
      emit_byte state (inst.operand 0).reg_num
    else if info.opcode ∈ branch_ops then
      let (val, state) := resolve_value state (inst.operand 0) pass
      let state := emit_byte state (val &&& 0xFF)
      emit_byte state ((val >>> 8) &&& 0xFF)
    else if info.opcode ∈ niladic_ops then state
    else emit_fallback inst inst.operand_count 0 state

/-- The function `assembler_create`: the four default sections, `.text` current.
The result is `none` only for a failed allocation, which is not modelled. -/
def assembler_create (optimize : Bool) : AssemblerState :=
  let state : AssemblerState :=
    { sections := [], current_section := 0, symbols := [], memory := fun _ => 0, pc := 0,
      include_depth := 0, current_file := [], current_line := 0, errors := 0, warnings := 0,
      message_count := 0, optimize := optimize, symbol_cache := fun _ => none,
      cache_hits := 0, cache_misses := 0 }
  let state := section_create state (cstr ".text") 0x0000 0x05
  let state := section_create state (cstr ".data") 0x4000 0x06
  let state := section_create state (cstr ".bss") 0x6000 0x06
  let state := section_create state (cstr ".stack") 0x8000 0x06
  section_switch state (cstr ".text")

/-! ## Lexer: registers, numbers, operands, lines -/

def PARSE_ERROR : Nat := 0
def PARSE_DIRECTIVE : Nat := 1
def PARSE_INSTRUCTION : Nat := 2
def PARSE_EMPTY : Nat := 5

def SYM_CODE : Nat := 0x01

/-- The function `name_to_register`: `none` stands for the result -1. -/
def name_to_register (name : List Nat) : Option Nat :=
  if strcasecmp name (cstr "PC") = 0 then some REG_PC
  else if strcasecmp name (cstr "SP") = 0 then some REG_SP
  else if strcasecmp name (cstr "FP") = 0 then some REG_FP
  else if strcasecmp name (cstr "LR") = 0 then some REG_LR
  else
    match name with
    | r :: d :: rest =>
      if (r = 82 ∨ r = 114) ∧ isdigit d then
        let (reg_num, endptr) := strtol (d :: rest) 10
        if endptr = [] ∧ reg_num ≥ 0 ∧ reg_num < (NUM_REGISTERS : Int) then some reg_num.toNat
        else none
      else none
    | _ => none

/-- The function `parse_number`; the result is the `uint32_t` returned. -/
def parse_number (str : List Nat) : Nat :=
  match skip_spaces str with
  | [] => 0
  | 48 :: x :: rest =>
    if x = 120 ∨ x = 88 then strtoul rest 16 % 2 ^ 32
    else if x = 98 ∨ x = 66 then strtoul rest 2 % 2 ^ 32
    else strtoul (48 :: x :: rest) 10 % 2 ^ 32
  | t => strtoul t 10 % 2 ^ 32

/-- The function `parse_operand`, applied to the operand record `operand`:
`none` stands for the result `false`. -/
def parse_operand (state : AssemblerState) (str : List Nat) (operand : Operand) :
    Option Operand × AssemblerState :=
  let str := trim_end (skip_spaces str)
  match str with
  | [] => (none, state)
  | c :: tail =>
    match name_to_register str with
    | some reg => (some ({ operand with mode := AM_REGISTER }.set_reg_num reg), state)
    | none =>
      let number : Option Operand :=
        if c = 35 ∨ isdigit c ∨ c = 45 ∨ c = 43 then
          let num_str := if c = 35 then tail else str
          let (value, endptr) := strtol num_str 0
          if endptr = [] then some ({ operand with mode := AM_IMMEDIATE }.set_immediate value)
          else if c = 35 then
            some { operand with
                   mode := AM_IMMEDIATE,
                   label := (skip_spaces num_str).take (MAX_LABEL_LEN - 1) }
          else none
        else none
      match number with
      | some o => (some o, state)
      | none =>
        let bracket : Option Operand × AssemblerState :=
          if c = 91 then
            match after_char 93 str with
            | some _ =>
              let addr_str := trim_end (skip_spaces (before_char 93 tail))
              match symbol_find state addr_str with
              | (some (_, sym), st) =>
                (some ({ operand with mode := AM_DIRECT }.set_address sym.value), st)
              | (none, st) =>
                match name_to_register addr_str with
                | some addr_reg =>
                  (some ({ operand with mode := AM_REGISTER_INDIRECT }.set_reg_num addr_reg), st)
                | none =>
                  let (addr, endptr) := strtol addr_str 0
                  if endptr = [] then
                    (some ({ operand with mode := AM_DIRECT }.set_address addr), st)
                  else (none, st)
            | none => (none, state)
          else (none, state)
        match bracket with
        | (some o, st) => (some o, st)
        | (none, st) =>
          if isalpha c ∨ c = 95 ∨ c = 46 then
            (some { operand with mode := AM_PC_RELATIVE, label := str.take (MAX_LABEL_LEN - 1) }, st)
          else (none, error_add st)

/-- The assignment `inst->operands[i] = o` for an index `i` of the array
`Operand operands[MAX_OPERANDS]`. -/
def Instruction.set_operand (inst : Instruction) (i : Fin MAX_OPERANDS) (o : Operand) :
    Instruction :=
  { inst with
    operands :=
      (inst.operands ++ List.replicate (i.val + 1 - inst.operands.length) ({} : Operand)).set
        i.val o }

/-- The call `parse_operand(state, text, &inst->operands[inst->operand_count])`
followed by `inst->operand_count++`; `false` when the operand is rejected, in
which case `parse_operand` has stored nothing.  The result is `none` when
`parse_operand` stores the operand and `inst->operand_count` is not an index of
`operands[MAX_OPERANDS]`: the store is then made outside the array (in the
struct it falls on `operand_count` and the fields after it) and C gives the
program no defined result. -/
def parse_into_slot (state : AssemblerState) (inst : Instruction) (text : List Nat) :
    Option (Bool × Instruction × AssemblerState) :=
  match parse_operand state text (inst.operand inst.operand_count) with
  | (some o, st) =>
    if h : inst.operand_count < MAX_OPERANDS then
      some (true,
        { inst.set_operand ⟨inst.operand_count, h⟩ o with
          operand_count := inst.operand_count + 1 },
        st)
    else none
  | (none, st) => some (false, inst, st)

/-- The operand loop of `parse_line` and the `if (*operand_start)` after it.
The first argument is the text from `line` on, `cur` the text between
`operand_start` and `line`.  The result is `false` for `return PARSE_ERROR`,
and `none` when an operand is stored outside `operands[MAX_OPERANDS]`. -/
def parse_operand_list : List Nat → List Nat → AssemblerState → Instruction →
    Option (Bool × Instruction × AssemblerState)
  | [], cur, state, inst =>
    if cur ≠ [] then parse_into_slot state inst cur else some (true, inst, state)
  | c :: rest, cur, state, inst =>
    if inst.operand_count < MAX_OPERANDS then
      if c = 44 then
        match parse_into_slot state inst cur with
        | some (true, inst, state) => parse_operand_list rest [] state inst
        | some (false, inst, state) => some (false, inst, state)
        | none => none
      else parse_operand_list rest (cur ++ [c]) state inst
    else parse_into_slot state inst (cur ++ c :: rest)

/-- The mnemonic loop of `parse_line`: up to `n` bytes that are not white
space, upper-cased, and the text left. -/
def take_word : Nat → List Nat → List Nat × List Nat
  | 0, line => ([], line)
  | _ + 1, [] => ([], [])
  | n + 1, c :: cs =>
    if isspace c then ([], c :: cs)
    else
      let (w, rest) := take_word n cs
      (toupper c :: w, rest)

/-- The part of `parse_line` from the test `*line == '.'` on; `none` when an
operand is stored outside `operands[MAX_OPERANDS]`. -/
def parse_statement (state : AssemblerState) (line : List Nat) (inst : Instruction) :
    Option (Nat × Instruction × AssemblerState) :=
  if line.head? = some 46 then some (PARSE_DIRECTIVE, inst, state)
  else
    let (mnemonic, line) := take_word 31 line
    let inst := { inst with info := opcode_find mnemonic }
    match inst.info with
    | none => some (PARSE_ERROR, inst, error_add state)
    | some _ =>
      let line := skip_spaces line
      let inst := { inst with operand_count := 0 }
      match parse_operand_list line [] state inst with
      | some (true, inst, state) => some (PARSE_INSTRUCTION, inst, state)
      | some (false, inst, state) => some (PARSE_ERROR, inst, state)
      | none => none

/-- The function `parse_line`, applied to a cleared `Instruction`; `none` when
an operand is stored outside `operands[MAX_OPERANDS]`. -/
def parse_line (state : AssemblerState) (line : List Nat) (inst : Instruction) :
    Option (Nat × Instruction × AssemblerState) :=
  let line := before_char 59 line
  let line := skip_spaces line
  if line = [] then some (PARSE_EMPTY, inst, state)
  else
    match after_char 58 line with
    | some after =>
      let label := trim_end (skip_spaces (before_char 58 line))
      let inst := if label ≠ [] then { inst with label := label.take (MAX_LABEL_LEN - 1) } else inst
      let line := skip_spaces after
      if line = [] then some (PARSE_INSTRUCTION, inst, state)
      else parse_statement state line inst
    | none => parse_statement state line inst

/-! ## Directives and the two passes -/

/-- The text before the last occurrence of `c`, `none` if there is none (`strrchr`). -/
def before_last_char (c : Nat) (s : List Nat) : Option (List Nat) :=
  (after_char c s.reverse).map List.reverse

/-- The statement `state->pc += n` on the `uint32_t` program counter. -/
def advance_pc (state : AssemblerState) (n : Nat) : AssemblerState :=
  { state with pc := (state.pc + n) % 2 ^ 32 }

/-- The body of the `.byte` loop for each token in turn. -/
def directive_bytes (pass : Nat) : List (List Nat) → AssemblerState → AssemblerState
  | [], state => state
  | token :: rest, state =>
    let state :=
      if pass = 2 then emit_byte state (parse_number token % 256)
      else advance_pc state 1
    directive_bytes pass rest state

/-- The body of the `.word` loop for each token in turn. -/
def directive_words (pass : Nat) : List (List Nat) → AssemblerState → AssemblerState
  | [], state => state
  | token :: rest, state =>
    let state :=
      if pass = 2 then
        let val := parse_number token
        let state := emit_byte state (val &&& 0xFF)
        emit_byte state ((val >>> 8) &&& 0xFF)
      else advance_pc state 2
    directive_words pass rest state

/-- The body of the `.dword` loop for each token in turn. -/
def directive_dwords (pass : Nat) : List (List Nat) → AssemblerState → AssemblerState
  | [], state => state
  | token :: rest, state =>
    let state :=
      if pass = 2 then
        let val := parse_number token
        let state := emit_byte state (val &&& 0xFF)
        let state := emit_byte state ((val >>> 8) &&& 0xFF)
        let state := emit_byte state ((val >>> 16) &&& 0xFF)
        emit_byte state ((val >>> 24) &&& 0xFF)
      else advance_pc state 4
    directive_dwords pass rest state

/-- The character loop of `.string`. -/
def directive_chars (pass : Nat) : List Nat → AssemblerState → AssemblerState
  | [], state => state
  | c :: rest, state =>
    directive_chars pass rest (if pass = 2 then emit_byte state c else advance_pc state 1)

/-- The function `handle_directive`. -/
def handle_directive (state : AssemblerState) (line : List Nat) (pass : Nat) : AssemblerState :=
  let line := skip_spaces line
  let line := if line.head? = some 46 then line.tail else line
  let (directive, line) := take_word 63 line
  let line := skip_spaces line
  if directive = cstr "CODE" ∨ directive = cstr "TEXT" then section_switch state (cstr ".text")
  else if directive = cstr "DATA" then section_switch state (cstr ".data")
  else if directive = cstr "ORG" then { state with pc := parse_number line }
  else if directive = cstr "BYTE" then directive_bytes pass (strtok_tokens line []) state
  else if directive = cstr "WORD" then directive_words pass (strtok_tokens line []) state
  else if directive = cstr "STRING" then
    match after_char 34 line with
    | some start =>
      match before_last_char 34 start with
      | some text =>
        let state := directive_chars pass text state
        if pass = 2 then emit_byte state 0 else advance_pc state 1
      | none => state
    | none => state
  else if directive = cstr "DWORD" then directive_dwords pass (strtok_tokens line []) state
  else state

/-- The statements of `assemble_pass` and `handle_include` that follow
`parse_line`: the label is entered in pass 1, then the directive is handled or
the instruction is sized (pass 1) or emitted (pass 2).  `original_line` is the
line as read. -/
def process_parsed (state : AssemblerState) (result : Nat) (inst : Instruction)
    (original_line : List Nat) (pass : Nat) : AssemblerState :=
  if result = PARSE_ERROR then error_add state
  else
    let state :=
      if pass = 1 ∧ inst.label ≠ [] then symbol_add state inst.label state.pc SYM_CODE
      else state
    if result = PARSE_DIRECTIVE then
      let dir_start :=
        match after_char 58 original_line with
        | some after => after
        | none => original_line
      handle_directive state dir_start pass
    else if result = PARSE_INSTRUCTION then
      if pass = 1 then advance_pc state (instruction_full_size inst)
      else if pass = 2 then emit_instruction state inst pass
      else state
    else state

/-- The line loop of `handle_include` over the lines that `fgets` returns;
`none` when `parse_line` stores an operand outside `operands[MAX_OPERANDS]`. -/
def include_lines (pass : Nat) : List (List Nat) → AssemblerState → Option AssemblerState
  | [], state => some state
  | line :: rest, state =>
    let state := { state with current_line := state.current_line + 1 }
    match parse_line state line {} with
    | some (result, inst, state) =>
      include_lines pass rest (process_parsed state result inst line pass)
    | none => none

/-- The function `handle_include`.  `fs` gives, for a file name that `fopen`
can open, the lines that `fgets` returns from it.  The result is `none` when
`parse_line` stores an operand outside `operands[MAX_OPERANDS]`. -/
def handle_include (fs : List Nat → Option (List (List Nat))) (state : AssemblerState)
    (filename : List Nat) (pass : Nat) : Option AssemblerState :=
  match fs filename with
  | none => some (error_add state)
  | some lines =>
    if state.include_depth ≥ MAX_INCLUDE_DEPTH then some (error_add state)
    else
      let saved_file := state.current_file
      let saved_line := state.current_line
      let state :=
        { state with
          current_file := filename.take 255, current_line := 0,
          include_depth := state.include_depth + 1 }
      match include_lines pass lines state with
      | some state =>
        some { state with
          include_depth := state.include_depth - 1,
          current_file := saved_file, current_line := saved_line }
      | none => none

/-- The two `sscanf` patterns of `assemble_pass`: white space, the opening
byte, then 1 to 255 bytes other than the closing byte. -/
def scan_include_name (opening closing : Nat) (s : List Nat) : Option (List Nat) :=
  match skip_spaces s with
  | c :: rest =>
    if c = opening then
      let name := (rest.takeWhile (fun x => x != closing)).take 255
      if name = [] then none else some name
    else none
  | [] => none

/-- The function `assemble_pass` over the lines that `fgets` returns from the
file on top of the include stack; `none` when `parse_line` stores an operand
outside `operands[MAX_OPERANDS]`. -/
def assemble_pass (fs : List Nat → Option (List (List Nat))) (pass : Nat) :
    List (List Nat) → AssemblerState → Option AssemblerState
  | [], state => some state
  | original_line :: rest, state =>
    let state := { state with current_line := state.current_line + 1 }
    let line := before_char 10 original_line
    if line = [] ∨ line.head? = some 59 then assemble_pass fs pass rest state
    else if line.take 8 = cstr ".include" ∨ line.take 8 = cstr ".INCLUDE" then
      let included :=
        match scan_include_name 34 34 (line.drop 8) with
        | some include_file => handle_include fs state include_file pass
        | none =>
          match scan_include_name 60 62 (line.drop 8) with
          | some include_file => handle_include fs state include_file pass
          | none => some state
      match included with
      | some state => assemble_pass fs pass rest state
      | none => none
    else
      match parse_line state line {} with
      | some (result, inst, state) =>
        assemble_pass fs pass rest (process_parsed state result inst original_line pass)
      | none => none

/-- The statements of `assemble_file` on an opened file with the lines `lines`,
up to the end of pass 1. -/
def assemble_first_pass (fs : List Nat → Option (List (List Nat))) (state : AssemblerState)
    (filename : List Nat) (lines : List (List Nat)) : Option AssemblerState :=
  let state :=
    { state with
      current_file := filename.take 255, current_line := 0,
      include_depth := state.include_depth + 1 }
  assemble_pass fs 1 lines state

/-- The statements of `assemble_file` from `rewind` to the end of pass 2. -/
def assemble_second_pass (fs : List Nat → Option (List (List Nat))) (state : AssemblerState)
    (lines : List (List Nat)) : Option AssemblerState :=
  let state := { state with current_line := 0 }
  let state := section_switch state (cstr ".text")
  assemble_pass fs 2 lines state

/-! ## The optimizer, the output file and the driver -/

/-- The inner loop `for (k = j; k < sec->size - 1; k++) data[k] = data[k + 1]` of
`optimize_instructions`, where `last` is `sec->size - 1`: the bytes at
`j + 1 … last` move down by one place. -/
def shift_down (data : List Nat) (j last : Nat) : List Nat :=
  data.take j ++ (data.drop (j + 1)).take (last - j) ++ data.drop last

/-- The loop over `j` of `optimize_instructions` on one section; `none` when an
index leaves the 64 KiB buffer `data`, where C gives the access no meaning.
`fuel` bounds the number of iterations. -/
def optimize_section : Nat → Nat → Section → Option Section
  | 0, _, sec => some sec
  | fuel + 1, j, sec =>
    let last := (sec.size + 2 ^ 32 - 1) % 2 ^ 32
    if j < last then
      if j < sec.data.length then
        if sec.data.getD j 0 = OP_NOP then
          if last < sec.data.length then
            optimize_section fuel (if j > 0 then j else 1)
              { sec with data := shift_down sec.data j last, size := last }
          else none
        else optimize_section fuel (j + 1) sec
      else none
    else some sec

/-- The loop over the sections of `optimize_instructions`. -/
def optimize_sections : List Section → Option (List Section)
  | [] => some []
  | sec :: rest => do
    let sec ← if sec.size = 0 then some sec else optimize_section sec.size 0 sec
    let rest ← optimize_sections rest
    pure (sec :: rest)

/-- The function `optimize_instructions` of `assembler.c`. -/
def optimize_instructions (state : AssemblerState) : Option AssemblerState :=
  if state.optimize then
    (optimize_sections state.sections).map (fun secs => { state with sections := secs })
  else some state

/-- The function `assemble_file`: the return value and the state.  `fs` gives,
for a file name that `fopen` can open for reading, the lines that `fgets`
returns from it.  The result is `none` when a pass or the optimizer leaves an
array. -/
def assemble_file (fs : List Nat → Option (List (List Nat))) (state : AssemblerState)
    (filename : List Nat) : Option (Nat × AssemblerState) :=
  let state := { state with current_file := filename.take 255, current_line := 0 }
  match fs filename with
  | none => some (0, error_add state)
  | some lines =>
    if state.include_depth ≥ MAX_INCLUDE_DEPTH then some (0, error_add state)
    else do
      let state ← assemble_first_pass fs state filename lines
      let state ← assemble_second_pass fs state lines
      let state ← if state.optimize then optimize_instructions state else some state
      let state := { state with include_depth := state.include_depth - 1 }
      pure (if state.errors = 0 then 1 else 0, state)

/-- The loop of `write_binary` that computes `max_addr` on `uint32_t`. -/
def max_address : List Section → Nat → Nat
  | [], m => m
  | s :: rest, m =>
    max_address rest (if (s.address + s.size) % 2 ^ 32 > m then (s.address + s.size) % 2 ^ 32 else m)

/-- The function `write_binary`: the return value, the state and the bytes that
reached the file.  `out` gives, for a file name that `fopen` can open for
writing, the number of bytes that `fwrite` is able to write to it; `none` is
returned when `fwrite` is asked to read past the 16 MiB memory buffer. -/
def write_binary (out : List Nat → Option Nat) (state : AssemblerState) (filename : List Nat) :
    Option (Nat × AssemblerState × Option (List Nat)) :=
  match out filename with
  | none => some (0, error_add state, none)
  | some capacity =>
    let max_addr := max_address state.sections 0
    let max_addr := if max_addr = 0 then state.pc else max_addr
    if max_addr > MEMORY_SIZE then none
    else
      let written := min max_addr capacity
      some (if written ≠ max_addr then 0 else 1, state, some ((List.range written).map state.memory))

/-- The function `main` of `main.c`: the exit code and the bytes of the output
file, if one was opened.  `argv` lists the program name and its arguments. -/
def main (fs : List Nat → Option (List (List Nat))) (out : List Nat → Option Nat)
    (argv : List (List Nat)) : Option (Nat × Option (List Nat)) :=
  if argv.length < 2 then some (1, none)
  else
    let input_file := argv.getD 1 []
    let output_file := if argv.length ≥ 3 then argv.getD 2 [] else cstr "output.bin"
    let state := assembler_create true
    match assemble_file fs state input_file with
    | none => none
    | some (ret, state) =>
      if ret ≠ 0 then
        match write_binary out state output_file with
        | none => none
        | some (_, _, file) => some (0, file)
      else some (0, none)

/-! ## Simulator -/

/-- The struct `SimulatorState`: the fields that the functions embedded here
read or write (watchpoints only cause printing and are left out). -/
structure SimulatorState where
  registers : Nat → Nat
  flags : Nat
  memory : Nat → Nat
  pc : Nat
  sp : Nat
  fp : Nat
  instructions_executed : Nat
  clock_cycles : Nat
  memory_accesses : Nat
  breakpoints : List Nat
  single_step : Bool
  running : Bool
  halted : Bool

/-- The function `simulator_create`, given the memory image to copy (all zero
when no assembler state is passed). -/
def simulator_create (image : Nat → Nat) : SimulatorState :=
  { registers := fun i =>
      if i = REG_PC then 0x0000 else if i = REG_FP then 0x3FFF
      else if i = REG_SP then 0x3FFF else 0,
    flags := 0, memory := image, pc := 0x0000, sp := 0x3FFF, fp := 0x3FFF,
    instructions_executed := 0, clock_cycles := 0, memory_accesses := 0,
    breakpoints := [], single_step := false, running := true, halted := false }

/-- The function `memory_read_byte`. -/
def memory_read_byte (sim : SimulatorState) (address : Nat) : Nat × SimulatorState :=
  if address ≥ MEMORY_SIZE then (0, sim)
  else (sim.memory address, { sim with memory_accesses := (sim.memory_accesses + 1) % 2 ^ 64 })

/-- The function `memory_read_word`. -/
def memory_read_word (sim : SimulatorState) (address : Nat) : Nat × SimulatorState :=
  if address ≥ MEMORY_SIZE - 1 then (0, sim)
  else
    ((sim.memory address ||| (sim.memory (address + 1) <<< 8)) % 2 ^ 16,
      { sim with memory_accesses := (sim.memory_accesses + 2) % 2 ^ 64 })

/-- The function `memory_write_byte`. -/
def memory_write_byte (sim : SimulatorState) (address value : Nat) : SimulatorState :=
  if address ≥ MEMORY_SIZE then sim
  else
    { sim with
      memory := fun a => if a = address then value % 256 else sim.memory a,
      memory_accesses := (sim.memory_accesses + 1) % 2 ^ 64 }

/-- The function `memory_write_word` (`value` is a `uint16_t`). -/
def memory_write_word (sim : SimulatorState) (address value : Nat) : SimulatorState :=
  if address ≥ MEMORY_SIZE - 1 then sim
  else
    { sim with
      memory := fun a =>
        if a = address + 1 then ((value % 2 ^ 16) >>> 8) &&& 0xFF
        else if a = address then (value % 2 ^ 16) &&& 0xFF
        else sim.memory a,
      memory_accesses := (sim.memory_accesses + 2) % 2 ^ 64 }

/-- The function `update_flags`; `~FLAG` on the 32-bit flag word is `0xFFFFFFFF - FLAG`. -/
def update_flags (sim : SimulatorState) (result : Nat) : SimulatorState :=
  let flags :=
    if result = 0 then sim.flags ||| FLAG_ZERO
    else sim.flags &&& (0xFFFFFFFF - FLAG_ZERO)
  let flags :=
    if result &&& 0x80000000 ≠ 0 then flags ||| FLAG_NEGATIVE
    else flags &&& (0xFFFFFFFF - FLAG_NEGATIVE)
  { sim with flags := flags }

/-- The expression `memory_read_byte(sim, sim->pc++)`. -/
def fetch_byte (sim : SimulatorState) : Nat × SimulatorState :=
  memory_read_byte { sim with pc := (sim.pc + 1) % 2 ^ 32 } sim.pc

/-- A read of `sim->registers[reg]`; `none` when `reg` is outside the array
of `NUM_REGISTERS` entries, where C gives the access no meaning. -/
def reg_read (sim : SimulatorState) (reg : Nat) : Option Nat :=
  if reg < NUM_REGISTERS then some (sim.registers reg) else none

/-- A write of `sim->registers[reg]`; `none` when `reg` is outside the array. -/
def reg_write (sim : SimulatorState) (reg value : Nat) : Option SimulatorState :=
  if reg < NUM_REGISTERS then
    some { sim with registers := fun i => if i = reg then value % 2 ^ 32 else sim.registers i }
  else none

/-- The statement `sim->clock_cycles += n`. -/
def add_cycles (sim : SimulatorState) (n : Nat) : SimulatorState :=
  { sim with clock_cycles := (sim.clock_cycles + n) % 2 ^ 64 }

/-- The function `execute_mov`; the result is the return value and the state. -/
def execute_mov (sim : SimulatorState) : Option (Nat × SimulatorState) := do
  let (dest_reg, sim) := fetch_byte sim
  let (mode, sim) := fetch_byte sim
  if mode = 0x00 then
    let (src_reg, sim) := fetch_byte sim
    let v ← reg_read sim src_reg
    let sim ← reg_write sim dest_reg v
    pure (1, add_cycles sim 2)
  else if mode = 0x01 then
    let (imm, sim) := memory_read_word sim sim.pc
    let sim := { sim with pc := (sim.pc + 2) % 2 ^ 32 }
    let sim ← reg_write sim dest_reg imm
    pure (1, add_cycles sim 2)
  else pure (0, sim)

/-- The function `execute_add`. -/
def execute_add (sim : SimulatorState) : Option (Nat × SimulatorState) := do
  let (dest_reg, sim) := fetch_byte sim
  let (src1_reg, sim) := fetch_byte sim
  let (mode, sim) := fetch_byte sim
  let src1 ← reg_read sim src1_reg
  let operand : Option (Nat × SimulatorState) ←
    if mode = 0x00 then do
      let (src2_reg, sim) := fetch_byte sim
      let src2 ← reg_read sim src2_reg
      pure (some (src2, sim))
    else if mode = 0x01 then
      let (src2, sim) := memory_read_word sim sim.pc
      pure (some (src2, { sim with pc := (sim.pc + 2) % 2 ^ 32 }))
    else pure none
  match operand with
  | none => pure (0, sim)
  | some (src2, sim) =>
    let result := (src1 + src2) % 2 ^ 32
    let sim := update_flags sim result
    let sim := if result > 0xFFFFFFFF then { sim with flags := sim.flags ||| FLAG_CARRY } else sim
    let sim ← reg_write sim dest_reg (result &&& 0xFFFFFFFF)
    pure (1, add_cycles sim 3)

/-- The function `execute_sub`. -/
def execute_sub (sim : SimulatorState) : Option (Nat × SimulatorState) := do
  let (dest_reg, sim) := fetch_byte sim
  let (src1_reg, sim) := fetch_byte sim
  let (mode, sim) := fetch_byte sim
  let src1 ← reg_read sim src1_reg
  let operand : Option (Nat × SimulatorState) ←
    if mode = 0x00 then do
      let (src2_reg, sim) := fetch_byte sim
      let src2 ← reg_read sim src2_reg
      pure (some (src2, sim))
    else if mode = 0x01 then
      let (src2, sim) := memory_read_word sim sim.pc
      pure (some (src2, { sim with pc := (sim.pc + 2) % 2 ^ 32 }))
    else pure none
  match operand with
  | none => pure (0, sim)
  | some (src2, sim) =>
    let result := (src1 + 2 ^ 32 - src2) % 2 ^ 32
    let sim := update_flags sim result
    let sim ← reg_write sim dest_reg result
    pure (1, add_cycles sim 3)

/-- The function `execute_jmp`. -/
def execute_jmp (sim : SimulatorState) : Nat × SimulatorState :=
  let (target, sim) := memory_read_word sim sim.pc
  (1, add_cycles { sim with pc := target } 3)

/-- The function `execute_call`. -/
def execute_call (sim : SimulatorState) : Nat × SimulatorState :=
  let (target, sim) := memory_read_word sim sim.pc
  let sim := { sim with sp := (sim.sp + 2 ^ 32 - 2) % 2 ^ 32 }
  let sim := memory_write_word sim sim.sp ((sim.pc + 2) % 2 ^ 16)
  (1, add_cycles { sim with pc := target } 5)

/-- The function `execute_ret`. -/
def execute_ret (sim : SimulatorState) : Nat × SimulatorState :=
  let (return_addr, sim) := memory_read_word sim sim.sp
  let sim := { sim with sp := (sim.sp + 2) % 2 ^ 32 }
  (1, add_cycles { sim with pc := return_addr } 4)

/-- The function `execute_je`. -/
def execute_je (sim : SimulatorState) : Nat × SimulatorState :=
  let (target, sim) := memory_read_word sim sim.pc
  let sim := { sim with pc := (sim.pc + 2) % 2 ^ 32 }
  let sim :=
    if sim.flags &&& FLAG_ZERO ≠ 0 then add_cycles { sim with pc := target } 1 else sim
  (1, add_cycles sim 2)

/-- The function `execute_jne`. -/
def execute_jne (sim : SimulatorState) : Nat × SimulatorState :=
  let (target, sim) := memory_read_word sim sim.pc
  let sim := { sim with pc := (sim.pc + 2) % 2 ^ 32 }
  let sim :=
    if ¬ (sim.flags &&& FLAG_ZERO ≠ 0) then add_cycles { sim with pc := target } 1 else sim
  (1, add_cycles sim 2)

/-- The function `execute_jg`. -/
def execute_jg (sim : SimulatorState) : Nat × SimulatorState :=
  let (target, sim) := memory_read_word sim sim.pc
  let sim := { sim with pc := (sim.pc + 2) % 2 ^ 32 }
  let zero : Bool := sim.flags &&& FLAG_ZERO ≠ 0
  let neg : Bool := if sim.flags &&& FLAG_NEGATIVE ≠ 0 then true else false
  let ovf : Bool := if sim.flags &&& FLAG_OVERFLOW ≠ 0 then true else false
  let sim :=
    if !zero && (neg == ovf) then add_cycles { sim with pc := target } 1 else sim
  (1, add_cycles sim 2)

/-- The function `execute_jl`. -/
def execute_jl (sim : SimulatorState) : Nat × SimulatorState :=
  let (target, sim) := memory_read_word sim sim.pc
  let sim := { sim with pc := (sim.pc + 2) % 2 ^ 32 }
  let neg : Bool := if sim.flags &&& FLAG_NEGATIVE ≠ 0 then true else false
  let ovf : Bool := if sim.flags &&& FLAG_OVERFLOW ≠ 0 then true else false
  let sim :=
    if neg != ovf then add_cycles { sim with pc := target } 1 else sim
  (1, add_cycles sim 2)

/-- The function `simulator_execute_instruction`: `none` when a register index
read from the instruction stream is outside the register array, otherwise the
return value (1 success, 0 failure) and the new state. -/
def simulator_execute_instruction (sim : SimulatorState) : Option (Nat × SimulatorState) := do
  let (opcode, sim) := fetch_byte sim
  if opcode = OP_MOV then execute_mov sim
  else if opcode = OP_ADD then execute_add sim
  else if opcode = OP_SUB then execute_sub sim
  else if opcode = OP_JMP then pure (execute_jmp sim)
  else if opcode = OP_JE then pure (execute_je sim)
  else if opcode = OP_JNE then pure (execute_jne sim)
  else if opcode = OP_JG then pure (execute_jg sim)
  else if opcode = OP_JL then pure (execute_jl sim)
  else if opcode = OP_CALL then pure (execute_call sim)
  else if opcode = OP_RET then pure (execute_ret sim)
  else if opcode = OP_HALT then pure (1, { sim with halted := true })
  else if opcode = OP_NOP then pure (1, add_cycles sim 1)
  else if opcode = OP_OUT then
    let (_port, sim) := fetch_byte sim
    let (reg, sim) := fetch_byte sim
    let _value ← reg_read sim reg
    pure (1, add_cycles sim 2)
  else if opcode = OP_INC then
    let (reg, sim) := fetch_byte sim
    let v ← reg_read sim reg
    let sim ← reg_write sim reg ((v + 1) % 2 ^ 32)
    let sim := update_flags sim (sim.registers reg)
    pure (1, add_cycles sim 1)
  else if opcode = OP_DEC then
    let (reg, sim) := fetch_byte sim
    let v ← reg_read sim reg
    let sim ← reg_write sim reg ((v + 2 ^ 32 - 1) % 2 ^ 32)
    let sim := update_flags sim (sim.registers reg)
    pure (1, add_cycles sim 1)
  else if opcode = OP_LOAD then
    let (dst_reg, sim) := fetch_byte sim
    let (mode, sim) := fetch_byte sim
    let (addr, sim) ←
      if mode = 0 then do
        let (src_reg, sim) := fetch_byte sim
        let a ← reg_read sim src_reg
        pure (a, sim)
      else
        let (a, sim) := memory_read_word sim sim.pc
        pure (a, { sim with pc := (sim.pc + 2) % 2 ^ 32 })
    let (b, sim) := memory_read_byte sim addr
    let sim ← reg_write sim dst_reg b
    pure (1, add_cycles sim 3)
  else if opcode = OP_CMP then
    let (reg1, sim) := fetch_byte sim
    let (mode, sim) := fetch_byte sim
    let val1 ← reg_read sim reg1
    let (val2, sim) ←
      if mode = 0 then do
        let (reg2, sim) := fetch_byte sim
        let v ← reg_read sim reg2
        pure (v, sim)
      else
        let (v, sim) := memory_read_word sim sim.pc
        pure (v, { sim with pc := (sim.pc + 2) % 2 ^ 32 })
    let res := (val1 + 2 ^ 32 - val2) % 2 ^ 32
    let sim := update_flags sim res
    pure (1, add_cycles sim 2)
  else pure (0, sim)

/-- The function `simulator_step`. -/
def simulator_step (sim : SimulatorState) : Option (Nat × SimulatorState) := do
  if sim.breakpoints.any (fun b => sim.pc == b) then pure (0, sim)
  else
    let (ret, sim) ← simulator_execute_instruction sim
    if ret = 0 then pure (0, sim)
    else pure (1, { sim with instructions_executed := (sim.instructions_executed + 1) % 2 ^ 64 })

/-- The ways one pass through the body of the `while` loop of `simulator_run`
ends: a `return` or `break` (`stop`, with the value that `simulator_run` then
returns), the end of the body (`again`, with the rest of the standard input), or
a register access outside the register array (`undefined`). -/
inductive LoopStep where
  | stop (ret : Nat) (sim : SimulatorState)
  | again (stdin : List Nat) (sim : SimulatorState)
  | undefined

/-- The body of the `while` loop of `simulator_run`.  `stdin` holds the bytes
that `getchar` will return (end of file once it is empty). -/
def simulator_run_iteration (stdin : List Nat) (sim : SimulatorState) : LoopStep :=
  if sim.breakpoints.any (fun b => sim.pc == b) then LoopStep.stop 1 sim
  else
    match simulator_execute_instruction sim with
    | none => LoopStep.undefined
    | some (ret, sim) =>
      if ret = 0 then LoopStep.stop 0 sim
      else
        let sim := { sim with instructions_executed := (sim.instructions_executed + 1) % 2 ^ 64 }
        if sim.halted then LoopStep.stop 1 sim
        else if sim.single_step ∧ (stdin.head? = some 113 ∨ stdin.head? = some 81) then
          LoopStep.stop 1 sim
        else
          let stdin := if sim.single_step then stdin.tail else stdin
          if sim.instructions_executed > 1000000 then LoopStep.stop 1 sim
          else LoopStep.again stdin sim

/-- The result of `simulator_run`: the value returned with the final state, a
register access outside the register array, or a loop that is still running
when the fuel is used up. -/
inductive RunResult where
  | returned (ret : Nat) (sim : SimulatorState)
  | undefined
  | out_of_fuel

/-- The function `simulator_run`; `fuel` bounds the number of times the loop
condition `sim->running` is tested. -/
def simulator_run : Nat → List Nat → SimulatorState → RunResult
  | 0, _, _ => RunResult.out_of_fuel
  | fuel + 1, stdin, sim =>
    if sim.running then
      match simulator_run_iteration stdin sim with
      | LoopStep.stop ret sim => RunResult.returned ret sim
      | LoopStep.undefined => RunResult.undefined
      | LoopStep.again stdin sim => simulator_run fuel stdin sim
    else RunResult.returned 1 sim

/-! ## Vocabulary of the properties -/

/-- The calls `emit_byte(state, b)` for the bytes `b` of `bs`, in order. -/
def emit_bytes (state : AssemblerState) (bs : List Nat) : AssemblerState :=
  bs.foldl emit_byte state

/-- The bytes `bs` are stored in `mem` from address `a` on. -/
def bytes_at (mem : Nat → Nat) : Nat → List Nat → Prop
  | _, [] => True
  | a, b :: bs => mem a = b ∧ bytes_at mem (a + 1) bs

/-- The operand that `parse_operand` stores in a cleared slot for register `r`. -/
def register_operand (r : Nat) : Operand := ({ mode := AM_REGISTER } : Operand).set_reg_num r

/-- The operand that `parse_operand` stores in a cleared slot for the number `v`. -/
def immediate_operand (v : Int) : Operand := ({ mode := AM_IMMEDIATE } : Operand).set_immediate v

/-- The operand that `parse_operand` stores in a cleared slot for the bare label `l`. -/
def label_operand (l : List Nat) : Operand :=
  { mode := AM_PC_RELATIVE, label := l.take (MAX_LABEL_LEN - 1) }

/-- The key opcode values listed in section 6 of the specification. -/
def key_values : List (String × Nat) :=
  [("MOV", 0x01), ("LOAD", 0x04), ("STORE", 0x07), ("PUSH", 0x0A), ("POP", 0x0B),
   ("ADD", 0x10), ("SUB", 0x12), ("MUL", 0x14), ("DIV", 0x16), ("INC", 0x1A),
   ("DEC", 0x1B), ("AND", 0x30), ("OR", 0x31), ("XOR", 0x32), ("NOT", 0x33),
   ("SHL", 0x37), ("SHR", 0x38), ("CLR", 0x3D), ("CMP", 0x40), ("TEST", 0x3F),
   ("JMP", 0x50), ("JE", 0x53), ("JNE", 0x54), ("JG", 0x55), ("JGE", 0x56),
   ("JL", 0x57), ("JLE", 0x58), ("CALL", 0x5D), ("RET", 0x5E), ("HALT", 0x70),
   ("NOP", 0x71), ("OUT", 0x81), ("IN", 0x80)]

/-- The byte `b` is the byte `a` written in either letter case. -/
def letterCase (a b : Nat) : Prop :=
  b = a ∨ (65 ≤ a ∧ a ≤ 90 ∧ b = a + 32) ∨ (97 ≤ a ∧ a ≤ 122 ∧ b + 32 = a)

/-- A file system without any file to include. -/
def no_files : List Nat → Option (List (List Nat)) := fun _ => none

/-- The lines that `fgets` returns for a source text given line by line. -/
def source_lines (src : List String) : List (List Nat) := src.map (fun l => cstr (l ++ "\n"))

/-- The assembler state after pass 1 over the source `src`, from
`assembler_create`.  The sources named in this development put every operand in
a slot of `operands[MAX_OPERANDS]`; for a source that does not, pass 1 has no
result and this is the state that pass 1 started from. -/
def first_pass_of (src : List String) : AssemblerState :=
  match assemble_first_pass no_files (assembler_create false) (cstr "input.basm")
      (source_lines src) with
  | some state => state
  | none => assembler_create false

/-- The assembler state after pass 1 and pass 2 over the source `src` (the
state after pass 1 where pass 2 has no result). -/
def assemble_source (src : List String) : AssemblerState :=
  match assemble_second_pass no_files (first_pass_of src) (source_lines src) with
  | some state => state
  | none => first_pass_of src

/-- The instruction that `parse_line` builds from `text` in a fresh assembler
state (the cleared instruction where `parse_line` has no result). -/
def parsed_instruction (text : String) : Instruction :=
  match parse_line (assembler_create false) (cstr text) {} with
  | some (_, inst, _) => inst
  | none => {}

/-- The state after `n` calls of `simulator_step` that all succeed; `none` if
one of them fails or reads a register outside the register array. -/
def run_steps : Nat → SimulatorState → Option SimulatorState
  | 0, sim => some sim
  | n + 1, sim =>
    match simulator_step sim with
    | some (1, sim) => run_steps n sim
    | _ => none

/-- Everything but the program counter and the access counter agrees in `s` and `t`. -/
structure same_machine (s t : SimulatorState) : Prop where
  registers : t.registers = s.registers
  flags : t.flags = s.flags
  memory : t.memory = s.memory
  sp : t.sp = s.sp
  fp : t.fp = s.fp
  instructions_executed : t.instructions_executed = s.instructions_executed
  clock_cycles : t.clock_cycles = s.clock_cycles
  breakpoints : t.breakpoints = s.breakpoints
  single_step : t.single_step = s.single_step
  running : t.running = s.running
  halted : t.halted = s.halted

/-- The memory image, the program counter and the section table agree in `s` and `t`. -/
def same_image (s t : AssemblerState) : Prop :=
  t.memory = s.memory ∧ t.pc = s.pc ∧ t.sections = s.sections ∧
  t.current_section = s.current_section

/-- The bounded conjunction `bytes_at` is decidable. -/
instance bytes_at_decidable (mem : Nat → Nat) : ∀ a bs, Decidable (bytes_at mem a bs)
  | _, [] => isTrue trivial
  | a, _ :: bs => @instDecidableAnd _ _ _ (bytes_at_decidable mem (a + 1) bs)

/-- The simulator state of scenario 3 before the ADD: the image of
`ADD R2, R0, R1` with R0 = 7 and R1 = 3. -/
def add_sample : SimulatorState :=
  { simulator_create (assemble_source ["ADD R2, R0, R1"]).memory with
    registers := fun i => if i = 0 then 7 else if i = 1 then 3 else 0 }

/-- Everything but the program counter, the cycle counter and the access
counter agrees in `s` and `t`. -/
structure same_data (s t : SimulatorState) : Prop where
  registers : t.registers = s.registers
  flags : t.flags = s.flags
  memory : t.memory = s.memory
  sp : t.sp = s.sp
  fp : t.fp = s.fp
  instructions_executed : t.instructions_executed = s.instructions_executed
  breakpoints : t.breakpoints = s.breakpoints
  single_step : t.single_step = s.single_step
  running : t.running = s.running
  halted : t.halted = s.halted

/-- Everything but the flag word, the program counter, the cycle counter and the
access counter agrees in `s` and `t`. -/
structure same_but_flags (s t : SimulatorState) : Prop where
  registers : t.registers = s.registers
  memory : t.memory = s.memory
  sp : t.sp = s.sp
  fp : t.fp = s.fp
  instructions_executed : t.instructions_executed = s.instructions_executed
  breakpoints : t.breakpoints = s.breakpoints
  single_step : t.single_step = s.single_step
  running : t.running = s.running
  halted : t.halted = s.halted

/-- The `case OP_OUT` block of `simulator_execute_instruction`, after the opcode fetch. -/
def switch_out (sim : SimulatorState) : Option (Nat × SimulatorState) := do
  let (_port, sim) := fetch_byte sim
  let (reg, sim) := fetch_byte sim
  let _value ← reg_read sim reg
  pure (1, add_cycles sim 2)

/-- The `case OP_INC` block of `simulator_execute_instruction`, after the opcode fetch. -/
def switch_inc (sim : SimulatorState) : Option (Nat × SimulatorState) := do
  let (reg, sim) := fetch_byte sim
  let v ← reg_read sim reg
  let sim ← reg_write sim reg ((v + 1) % 2 ^ 32)
  let sim := update_flags sim (sim.registers reg)
  pure (1, add_cycles sim 1)

/-- The `case OP_DEC` block of `simulator_execute_instruction`, after the opcode fetch. -/
def switch_dec (sim : SimulatorState) : Option (Nat × SimulatorState) := do
  let (reg, sim) := fetch_byte sim
  let v ← reg_read sim reg
  let sim ← reg_write sim reg ((v + 2 ^ 32 - 1) % 2 ^ 32)
  let sim := update_flags sim (sim.registers reg)
  pure (1, add_cycles sim 1)

/-- The `case OP_LOAD` block of `simulator_execute_instruction`, after the opcode fetch. -/
def switch_load (sim : SimulatorState) : Option (Nat × SimulatorState) := do
  let (dst_reg, sim) := fetch_byte sim
  let (mode, sim) := fetch_byte sim
  let (addr, sim) ←
    if mode = 0 then do
      let (src_reg, sim) := fetch_byte sim
      let a ← reg_read sim src_reg
      pure (a, sim)
    else
      let (a, sim) := memory_read_word sim sim.pc
      pure (a, { sim with pc := (sim.pc + 2) % 2 ^ 32 })
  let (b, sim) := memory_read_byte sim addr
  let sim ← reg_write sim dst_reg b
  pure (1, add_cycles sim 3)

/-- The `case OP_CMP` block of `simulator_execute_instruction`, after the opcode fetch. -/
def switch_cmp (sim : SimulatorState) : Option (Nat × SimulatorState) := do
  let (reg1, sim) := fetch_byte sim
  let (mode, sim) := fetch_byte sim
  let val1 ← reg_read sim reg1
  let (val2, sim) ←
    if mode = 0 then do
      let (reg2, sim) := fetch_byte sim
      let v ← reg_read sim reg2
      pure (v, sim)
    else
      let (v, sim) := memory_read_word sim sim.pc
      pure (v, { sim with pc := (sim.pc + 2) % 2 ^ 32 })
  let res := (val1 + 2 ^ 32 - val2) % 2 ^ 32
  let sim := update_flags sim res
  pure (1, add_cycles sim 2)

/-- The `switch (opcode)` of `simulator_execute_instruction`, with the blocks
written in place there given by name. -/
def execute_opcode (opcode : Nat) (sim : SimulatorState) : Option (Nat × SimulatorState) :=
  if opcode = OP_MOV then execute_mov sim
  else if opcode = OP_ADD then execute_add sim
  else if opcode = OP_SUB then execute_sub sim
  else if opcode = OP_JMP then some (execute_jmp sim)
  else if opcode = OP_JE then some (execute_je sim)
  else if opcode = OP_JNE then some (execute_jne sim)
  else if opcode = OP_JG then some (execute_jg sim)
  else if opcode = OP_JL then some (execute_jl sim)
  else if opcode = OP_CALL then some (execute_call sim)
  else if opcode = OP_RET then some (execute_ret sim)
  else if opcode = OP_HALT then some (1, { sim with halted := true })
  else if opcode = OP_NOP then some (1, add_cycles sim 1)
  else if opcode = OP_OUT then switch_out sim
  else if opcode = OP_INC then switch_inc sim
  else if opcode = OP_DEC then switch_dec sim
  else if opcode = OP_LOAD then switch_load sim
  else if opcode = OP_CMP then switch_cmp sim
  else some (0, sim)

/-- The simulator state that `simulator_create` builds from the image assembled
from the source `src`. -/
def loaded (src : List String) : SimulatorState :=
  simulator_create (assemble_source src).memory

/-- The state `sim` with the registers `R0, R1, …` holding the values `regs`
(and 0 in the registers after them). -/
def set_registers (sim : SimulatorState) (regs : List Nat) : SimulatorState :=
  { sim with registers := fun i => regs.getD i 0 }

/-- The state `sim` with the flag word `flags`. -/
def set_flags (sim : SimulatorState) (flags : Nat) : SimulatorState :=
  { sim with flags := flags }

/-- The digits of `n` in base 10 as bytes, most significant first; `fuel` bounds
the number of digits. -/
def decimal_digits : Nat → Nat → List Nat
  | 0, _ => []
  | fuel + 1, n =>
    if n < 10 then [48 + n] else decimal_digits fuel (n / 10) ++ [48 + n % 10]

/-- The decimal numeral of `n`, without leading zeros, as bytes. -/
def decimal (n : Nat) : List Nat := decimal_digits (n + 1) n

/-- A call of `error_add` or of `warning_add`. -/
inductive Diagnostic where
  | error
  | warning
  deriving DecidableEq

/-- The state after the calls `calls` of `error_add` and `warning_add`, in order. -/
def record (state : AssemblerState) (calls : List Diagnostic) : AssemblerState :=
  calls.foldl (fun st c =>
    match c with
    | Diagnostic.error => error_add st
    | Diagnostic.warning => warning_add st) state

/-- A file system in which `name` holds the source `src` and no other file exists. -/
def one_file (name : String) (src : List String) : List Nat → Option (List (List Nat)) :=
  fun f => if f = cstr name then some (source_lines src) else none

/-! ## Debugger: the disassembler -/

/-- The digit that `%X` of `printf` prints for the value `d < 16`. -/
def hex_char (d : Nat) : Nat := if d < 10 then 48 + d else 55 + d

/-- The digits of `n` in base 16 as bytes, upper case, most significant first;
`fuel` bounds the number of digits. -/
def hex_digits : Nat → Nat → List Nat
  | 0, _ => []
  | fuel + 1, n =>
    if n < 16 then [hex_char n] else hex_digits fuel (n / 16) ++ [hex_char (n % 16)]

/-- The conversion `%0wX` of `printf`: the hexadecimal digits of `n`, padded
with zeros on the left to `width` bytes. -/
def format_hex (width n : Nat) : List Nat :=
  List.replicate (width - (hex_digits (n + 1) n).length) 48 ++ hex_digits (n + 1) n

/-- The statement `if (mode == 0) printf("R%d", memory_read_byte(sim, pc++));
else { printf("0x%04X", memory_read_word(sim, pc)); pc += 2; }` of
`debugger_disassemble`; LOAD prints the operand between `opening` and `closing`
brackets.  The result is the text, the new `pc` and the state. -/
def disassemble_operand (sim : SimulatorState) (pc mode : Nat) (opening closing : List Nat) :
    List Nat × Nat × SimulatorState :=
  if mode = 0 then
    let (r, sim) := memory_read_byte sim pc
    (opening ++ cstr "R" ++ decimal r ++ closing, (pc + 1) % 2 ^ 32, sim)
  else
    let (w, sim) := memory_read_word sim pc
    (opening ++ cstr "0x" ++ format_hex 4 w ++ closing, (pc + 2) % 2 ^ 32, sim)

/-- The arrays `mnem[]` and `ops[]` of the branch case of `debugger_disassemble`. -/
def branch_listing : List (List Nat × Nat) :=
  [(cstr "JMP", OP_JMP), (cstr "JE", OP_JE), (cstr "JNE", OP_JNE), (cstr "JG", OP_JG),
   (cstr "JL", OP_JL)]

/-- The loop `for (k = 0; k < 5; k++) if (ops[k] == opcode) m = mnem[k]`, from `m`. -/
def branch_mnemonic (opcode : Nat) : List (List Nat × Nat) → List Nat → List Nat
  | [], m => m
  | (name, op) :: rest, m => branch_mnemonic opcode rest (if op = opcode then name else m)

/-- The `switch (opcode)` of `debugger_disassemble`, entered with `pc` after the
opcode byte: the text printed after the address column, the address of the next
instruction, and the state (the reads are counted). -/
def disassemble_case (opcode : Nat) (sim : SimulatorState) (pc : Nat) :
    List Nat × Nat × SimulatorState :=
  if opcode = OP_MOV then
    let (dst, sim) := memory_read_byte sim pc
    let pc := (pc + 1) % 2 ^ 32
    let (mode, sim) := memory_read_byte sim pc
    let pc := (pc + 1) % 2 ^ 32
    let (text, pc, sim) := disassemble_operand sim pc mode [] []
    (cstr "MOV R" ++ decimal dst ++ cstr ", " ++ text, pc, sim)
  else if opcode = OP_ADD ∨ opcode = OP_SUB then
    let (dst, sim) := memory_read_byte sim pc
    let pc := (pc + 1) % 2 ^ 32
    let (src1, sim) := memory_read_byte sim pc
    let pc := (pc + 1) % 2 ^ 32
    let (mode, sim) := memory_read_byte sim pc
    let pc := (pc + 1) % 2 ^ 32
    let (text, pc, sim) := disassemble_operand sim pc mode [] []
    ((if opcode = OP_ADD then cstr "ADD" else cstr "SUB") ++ cstr " R" ++ decimal dst ++
      cstr ", R" ++ decimal src1 ++ cstr ", " ++ text, pc, sim)
  else if opcode = OP_LOAD then
    let (dst, sim) := memory_read_byte sim pc
    let pc := (pc + 1) % 2 ^ 32
    let (mode, sim) := memory_read_byte sim pc
    let pc := (pc + 1) % 2 ^ 32
    let (text, pc, sim) := disassemble_operand sim pc mode (cstr "[") (cstr "]")
    (cstr "LOAD R" ++ decimal dst ++ cstr ", " ++ text, pc, sim)
  else if opcode = OP_CMP then
    let (src1, sim) := memory_read_byte sim pc
    let pc := (pc + 1) % 2 ^ 32
    let (mode, sim) := memory_read_byte sim pc
    let pc := (pc + 1) % 2 ^ 32
    let (text, pc, sim) := disassemble_operand sim pc mode [] []
    (cstr "CMP R" ++ decimal src1 ++ cstr ", " ++ text, pc, sim)
  else if opcode = OP_OUT then
    let (port, sim) := memory_read_byte sim pc
    let pc := (pc + 1) % 2 ^ 32
    let (reg, sim) := memory_read_byte sim pc
    let pc := (pc + 1) % 2 ^ 32
    (cstr "OUT #0x" ++ format_hex 2 port ++ cstr ", R" ++ decimal reg, pc, sim)
  else if opcode = OP_INC ∨ opcode = OP_DEC then
    let (reg, sim) := memory_read_byte sim pc
    let pc := (pc + 1) % 2 ^ 32
    ((if opcode = OP_INC then cstr "INC" else cstr "DEC") ++ cstr " R" ++ decimal reg, pc, sim)
  else if opcode = OP_JMP ∨ opcode = OP_JE ∨ opcode = OP_JNE ∨ opcode = OP_JG ∨
      opcode = OP_JL then
    let m := branch_mnemonic opcode branch_listing (cstr "J??")
    let (target, sim) := memory_read_word sim pc
    (m ++ cstr " 0x" ++ format_hex 4 target, (pc + 2) % 2 ^ 32, sim)
  else if opcode = OP_HALT then (cstr "HALT", pc, sim)
  else if opcode = OP_NOP then (cstr "NOP", pc, sim)
  else (cstr "DB 0x" ++ format_hex 2 opcode, pc, sim)

/-- One pass through the body of the loop of `debugger_disassemble`, from the read
of the opcode on. -/
def disassemble_instruction (sim : SimulatorState) (pc : Nat) :
    List Nat × Nat × SimulatorState :=
  let (opcode, sim) := memory_read_byte sim pc
  disassemble_case opcode sim ((pc + 1) % 2 ^ 32)

/-- The loop of `debugger_disassemble`: the lines printed, each without its
newline (the mark `>` or a blank, the address column, the text), and the state. -/
def debugger_disassemble_loop : Nat → SimulatorState → Nat → List (List Nat) × SimulatorState
  | 0, sim, _ => ([], sim)
  | count + 1, sim, pc =>
    let column := [if pc = sim.pc then 62 else 32] ++ cstr " 0x" ++ format_hex 4 pc ++ cstr ": "
    let (text, next, sim) := disassemble_instruction sim pc
    let (lines, sim) := debugger_disassemble_loop count sim next
    ((column ++ text) :: lines, sim)

/-- The function `debugger_disassemble`: the lines printed after the heading
`Disassembly:`. -/
def debugger_disassemble (sim : SimulatorState) (address count : Nat) :
    List (List Nat) × SimulatorState :=
  debugger_disassemble_loop count sim address

/-! ## Vocabulary of the later properties -/

/-- A plain linear search of a symbol table in insertion order: the first entry
from position `i` on whose name is `name`, with its position. -/
def linear_search (name : List Nat) : List Symbol → Nat → Option (Nat × Symbol)
  | [], _ => none
  | s :: rest, i => if s.name = name then some (i, s) else linear_search name rest (i + 1)

/-- The value of the 32-bit word `x` read as a signed integer (two's complement). -/
def signed32 (x : Nat) : Int := if x < 2 ^ 31 then (x : Int) else (x : Int) - 2 ^ 32

/-- The section buffers are as `section_create` leaves them: 65536 zero bytes. -/
def untouched_buffers (state : AssemblerState) : Prop :=
  ∀ sec ∈ state.sections, sec.data = List.replicate 65536 0

/-- The names and the origins (`address`) of the sections of a state, in the
order of the array `state->sections`. -/
def section_origins (state : AssemblerState) : List (List Nat × Nat) :=
  state.sections.map (fun s => (s.name, s.address))

/-- The operand that `parse_operand` stores in a cleared slot for `[Rr]`. -/
def indirect_operand (r : Nat) : Operand :=
  ({ mode := AM_REGISTER_INDIRECT } : Operand).set_reg_num r

/-- The operand that `parse_operand` stores in a cleared slot for `[a]`, `a` a number. -/
def direct_operand (a : Int) : Operand := ({ mode := AM_DIRECT } : Operand).set_address a

/-- The last operand of MOV, ADD, SUB, CMP: a register or a number. -/
inductive Source where
  | reg (s : Nat)
  | imm (n : Nat)

/-- The operand record of a `Source`. -/
def Source.operand : Source → Operand
  | Source.reg s => register_operand s
  | Source.imm n => immediate_operand n

/-- The register is one of the 32 and the number fits 16 bits. -/
def Source.ok : Source → Prop
  | Source.reg s => s < 32
  | Source.imm n => n < 65536

/-- The bytes that follow the first register byte in the encoding: the mode byte
and the register byte or the little-endian word. -/
def Source.bytes : Source → List Nat
  | Source.reg s => [0, s]
  | Source.imm n => [1, n % 256, n / 256]

/-- The text that the disassembler prints for the operand. -/
def Source.text : Source → List Nat
  | Source.reg s => cstr "R" ++ decimal s
  | Source.imm n => cstr "0x" ++ format_hex 4 n

/-- The instructions that `debugger_disassemble` has a case for and prints with
the operands it was given: MOV, ADD, SUB, CMP with registers and a register or
16-bit number last, LOAD through a register or from a 16-bit address, INC, DEC,
the branches JMP, JE, JNE, JG, JL (by position in `branch_listing`) to a 16-bit
address, HALT and NOP. -/
inductive Listed where
  | mov (d : Nat) (src : Source)
  | add (d s1 : Nat) (src : Source)
  | sub (d s1 : Nat) (src : Source)
  | cmp (a : Nat) (src : Source)
  | load_indirect (d s : Nat)
  | load_direct (d a : Nat)
  | inc (d : Nat)
  | dec (d : Nat)
  | branch (k t : Nat)
  | halt
  | nop

/-- The operands are well formed: registers below 32, numbers below 2^16,
branch position below 5. -/
def Listed.ok : Listed → Prop
  | Listed.mov d src => d < 32 ∧ src.ok
  | Listed.add d s1 src => d < 32 ∧ s1 < 32 ∧ src.ok
  | Listed.sub d s1 src => d < 32 ∧ s1 < 32 ∧ src.ok
  | Listed.cmp a src => a < 32 ∧ src.ok
  | Listed.load_indirect d s => d < 32 ∧ s < 32
  | Listed.load_direct d a => d < 32 ∧ a < 65536
  | Listed.inc d => d < 32
  | Listed.dec d => d < 32
  | Listed.branch k t => k < 5 ∧ t < 65536
  | Listed.halt => True
  | Listed.nop => True

/-- The mnemonic of the instruction. -/
def Listed.mnemonic : Listed → List Nat
  | Listed.mov _ _ => cstr "MOV"
  | Listed.add _ _ _ => cstr "ADD"
  | Listed.sub _ _ _ => cstr "SUB"
  | Listed.cmp _ _ => cstr "CMP"
  | Listed.load_indirect _ _ => cstr "LOAD"
  | Listed.load_direct _ _ => cstr "LOAD"
  | Listed.inc _ => cstr "INC"
  | Listed.dec _ => cstr "DEC"
  | Listed.branch k _ => (branch_listing.getD k ([], 0)).1
  | Listed.halt => cstr "HALT"
  | Listed.nop => cstr "NOP"

/-- The operand records of the instruction. -/
def Listed.operands : Listed → List Operand
  | Listed.mov d src => [register_operand d, src.operand]
  | Listed.add d s1 src => [register_operand d, register_operand s1, src.operand]
  | Listed.sub d s1 src => [register_operand d, register_operand s1, src.operand]
  | Listed.cmp a src => [register_operand a, src.operand]
  | Listed.load_indirect d s => [register_operand d, indirect_operand s]
  | Listed.load_direct d a => [register_operand d, direct_operand a]
  | Listed.inc d => [register_operand d]
  | Listed.dec d => [register_operand d]
  | Listed.branch _ t => [immediate_operand t]
  | Listed.halt => []
  | Listed.nop => []

/-- The instruction record: the table row of the mnemonic and the operands. -/
def Listed.instruction (l : Listed) : Instruction :=
  { info := opcode_find l.mnemonic, operands := l.operands, operand_count := l.operands.length }

/-- The bytes of the instruction in the encoding of section 4.2. -/
def Listed.bytes : Listed → List Nat
  | Listed.mov d src => [OP_MOV, d] ++ src.bytes
  | Listed.add d s1 src => [OP_ADD, d, s1] ++ src.bytes
  | Listed.sub d s1 src => [OP_SUB, d, s1] ++ src.bytes
  | Listed.cmp a src => [OP_CMP, a] ++ src.bytes
  | Listed.load_indirect d s => [OP_LOAD, d, 0, s]
  | Listed.load_direct d a => [OP_LOAD, d, 1, a % 256, a / 256]
  | Listed.inc d => [OP_INC, d]
  | Listed.dec d => [OP_DEC, d]
  | Listed.branch k t => [(branch_listing.getD k ([], 0)).2, t % 256, t / 256]
  | Listed.halt => [OP_HALT]
  | Listed.nop => [OP_NOP]

/-- The text of the instruction in the form the disassembler prints. -/
def Listed.text : Listed → List Nat
  | Listed.mov d src => cstr "MOV R" ++ decimal d ++ cstr ", " ++ src.text
  | Listed.add d s1 src =>
    cstr "ADD R" ++ decimal d ++ cstr ", R" ++ decimal s1 ++ cstr ", " ++ src.text
  | Listed.sub d s1 src =>
    cstr "SUB R" ++ decimal d ++ cstr ", R" ++ decimal s1 ++ cstr ", " ++ src.text
  | Listed.cmp a src => cstr "CMP R" ++ decimal a ++ cstr ", " ++ src.text
  | Listed.load_indirect d s => cstr "LOAD R" ++ decimal d ++ cstr ", [R" ++ decimal s ++ cstr "]"
  | Listed.load_direct d a =>
    cstr "LOAD R" ++ decimal d ++ cstr ", [0x" ++ format_hex 4 a ++ cstr "]"
  | Listed.inc d => cstr "INC R" ++ decimal d
  | Listed.dec d => cstr "DEC R" ++ decimal d
  | Listed.branch k t => (branch_listing.getD k ([], 0)).1 ++ cstr " 0x" ++ format_hex 4 t
  | Listed.halt => cstr "HALT"
  | Listed.nop => cstr "NOP"

/-! ## Properties of the instruction table -/

theorem tolower_letterCase {a b : Nat} (h : letterCase a b) : tolower b = tolower a := by
  unfold letterCase at h
  unfold tolower
  rcases h with h | h | h <;> split <;> split <;> omega

theorem strcasecmp_letterCase {t s : List Nat} (h : List.Forall₂ letterCase t s) :
    ∀ m, strcasecmp m s = strcasecmp m t := by
  induction h with
  | nil => intro m; rfl
  | cons hab _ ih =>
    intro m
    cases m with
    | nil => simp [strcasecmp, tolower_letterCase hab]
    | cons c cs => simp [strcasecmp, tolower_letterCase hab, ih cs]

theorem opcode_find_from_letterCase {t s : List Nat} (h : List.Forall₂ letterCase t s)
    (tbl : List OpcodeMetadata) : opcode_find_from s tbl = opcode_find_from t tbl := by
  induction tbl with
  | nil => rfl
  | cons e rest ih => simp [opcode_find_from, strcasecmp_letterCase h, ih]

theorem key_values_found : ∀ p ∈ key_values,
    (opcode_find (cstr p.1)).map (fun e => (e.mnemonic, e.opcode)) = some (cstr p.1, p.2) := by
  decide

/-- C6: for every mnemonic of the key list of section 6, written in any letter
case, `opcode_find` returns the row of `instruction_set` with that mnemonic and
the listed opcode; no two rows share a mnemonic and no two share an opcode. -/
theorem opcode_find_key_values :
    (∀ p ∈ key_values, ∀ s, List.Forall₂ letterCase (cstr p.1) s →
      ∃ e, opcode_find s = some e ∧ e ∈ instruction_set ∧
        e.mnemonic = cstr p.1 ∧ e.opcode = p.2) ∧
    (instruction_set.map (fun e => e.mnemonic)).Nodup ∧
    (instruction_set.map (fun e => e.opcode)).Nodup := by
  refine ⟨?_, by decide, by decide⟩
  intro p hp s hs
  have hfound := key_values_found p hp
  have hsame : opcode_find s = opcode_find (cstr p.1) :=
    opcode_find_from_letterCase hs instruction_set
  rw [hsame]
  cases hfind : opcode_find (cstr p.1) with
  | none => rw [hfind] at hfound; simp at hfound
  | some e =>
    rw [hfind] at hfound
    simp only [Option.map_some', Option.some.injEq, Prod.mk.injEq] at hfound
    refine ⟨e, rfl, ?_, hfound.1, hfound.2⟩
    have hmem : ∀ (tbl : List OpcodeMetadata) (m : List Nat) (r : OpcodeMetadata),
        opcode_find_from m tbl = some r → r ∈ tbl := by
      intro tbl
      induction tbl with
      | nil => intro m r h; simp [opcode_find_from] at h
      | cons x rest ih =>
        intro m r h
        simp only [opcode_find_from] at h
        split at h
        · simp only [Option.some.injEq] at h; simp [h]
        · exact List.mem_cons_of_mem _ (ih m r h)
    exact hmem instruction_set (cstr p.1) e hfind

/-- Witness of `opcode_find_key_values`: `mOv` is found as the row of MOV, opcode 0x01. -/
theorem opcode_find_key_values_witness :
    ∃ e, opcode_find (cstr "mOv") = some e ∧ e ∈ instruction_set ∧
      e.mnemonic = cstr "MOV" ∧ e.opcode = 0x01 :=
  opcode_find_key_values.1 ("MOV", 0x01) (by decide) (cstr "mOv")
    (List.Forall₂.cons (Or.inr (Or.inl (by decide)))
      (List.Forall₂.cons (Or.inl rfl)
        (List.Forall₂.cons (Or.inr (Or.inl (by decide))) List.Forall₂.nil)))

/-! ## Instruction size against instruction encoding -/

/-- C1: the line `OUT #1, R5` is parsed as an instruction without error;
`instruction_full_size` gives it the size 3 in pass 1, and `emit_instruction`
advances the program counter by 4 in pass 2. -/
theorem out_size_differs_from_emitted :
    (parse_line (assembler_create false) (cstr "OUT #1, R5") {}).map (fun r => r.1)
      = some PARSE_INSTRUCTION ∧
    (parse_line (assembler_create false) (cstr "OUT #1, R5") {}).map (fun r => r.2.2.errors)
      = some 0 ∧
    instruction_full_size (parsed_instruction "OUT #1, R5") = 3 ∧
    (emit_instruction (assembler_create false) (parsed_instruction "OUT #1, R5") 2).pc =
      (assembler_create false).pc + 4 := by
  decide

/-- The sizer and the encoder also differ outside OUT and IN: `SHL R1, R2` of the
`default:` branches (size 2, 3 bytes), `LDB R0, [16]` (size 5, 4 bytes) and the
one-operand line `MOV R0` (size 3, 2 bytes). -/
theorem size_differs_from_emitted_elsewhere :
    instruction_full_size (parsed_instruction "SHL R1, R2") = 2 ∧
    (emit_instruction (assembler_create false) (parsed_instruction "SHL R1, R2") 2).pc = 3 ∧
    instruction_full_size (parsed_instruction "LDB R0, [16]") = 5 ∧
    (emit_instruction (assembler_create false) (parsed_instruction "LDB R0, [16]") 2).pc = 4 ∧
    instruction_full_size (parsed_instruction "MOV R0") = 3 ∧
    (emit_instruction (assembler_create false) (parsed_instruction "MOV R0") 2).pc = 2 := by
  decide

/-- C2: the source `OUT #1, R5` / `end: HALT` assembles without error; pass 1
enters `end` in the symbol table with the value 3, while pass 2 is at address 4
when it reaches the line of `end` and writes the byte of HALT there. -/
theorem label_value_differs_from_emit_address :
    (assemble_source ["OUT #1, R5", "end: HALT"]).errors = 0 ∧
    (first_pass_of ["OUT #1, R5", "end: HALT"]).symbols.map (fun s => (s.name, s.value)) =
      [(cstr "end", 3)] ∧
    (assemble_source ["OUT #1, R5", "end: HALT"]).symbols.map (fun s => (s.name, s.value)) =
      [(cstr "end", 3)] ∧
    (assemble_second_pass no_files (first_pass_of ["OUT #1, R5", "end: HALT"])
      (source_lines ["OUT #1, R5"])).map (fun s => s.pc) = some 4 ∧
    (assemble_source ["OUT #1, R5", "end: HALT"]).memory 3 = 5 ∧
    (assemble_source ["OUT #1, R5", "end: HALT"]).memory 4 = OP_HALT := by
  decide

/-- C5: for `OUT #513, R7` pass 2 writes the four bytes `81 01 02 07`, but
pass 1 computes the size 3; for `IN R7, #513` pass 2 writes `80 07 01 02`, and
pass 1 computes the size 3 as well. -/
theorem io_size_is_three :
    instruction_full_size (parsed_instruction "OUT #513, R7") = 3 ∧
    (List.range 4).map (assemble_source ["OUT #513, R7"]).memory = [0x81, 1, 2, 7] ∧
    (assemble_source ["OUT #513, R7"]).pc = 4 ∧
    instruction_full_size (parsed_instruction "IN R7, #513") = 3 ∧
    (List.range 4).map (assemble_source ["IN R7, #513"]).memory = [0x80, 7, 1, 2] ∧
    (assemble_source ["IN R7, #513"]).pc = 4 := by
  decide

/-! ## Byte layout of the encoder -/

theorem and_0xFF (x : Nat) : x &&& 0xFF = x % 256 := by
  have := Nat.and_pow_two_sub_one_eq_mod x 8
  simpa using this

theorem register_operand_reg_num {r : Nat} (h : r < 32) : (register_operand r).reg_num = r := by
  simp [register_operand, Operand.set_reg_num, Operand.reg_num]
  omega

theorem immediate_operand_mode (v : Int) : (immediate_operand v).mode = AM_IMMEDIATE := rfl

theorem immediate_operand_label (v : Int) : (immediate_operand v).label = [] := rfl

theorem immediate_operand_byte0 (v : Int) :
    (immediate_operand v).immediate &&& 0xFF = (v % 256).toNat := by
  simp only [immediate_operand, Operand.set_immediate, Operand.immediate, and_0xFF]
  omega

theorem immediate_operand_byte1 (v : Int) :
    ((immediate_operand v).immediate >>> 8) &&& 0xFF = (v / 256 % 256).toNat := by
  simp only [immediate_operand, Operand.set_immediate, Operand.immediate, and_0xFF,
    Nat.shiftRight_eq_div_pow]
  omega

theorem immediate_operand_byte2 (v : Int) :
    ((immediate_operand v).immediate >>> 16) &&& 0xFF = (v / 65536 % 256).toNat := by
  simp only [immediate_operand, Operand.set_immediate, Operand.immediate, and_0xFF,
    Nat.shiftRight_eq_div_pow]
  omega

theorem immediate_operand_byte3 (v : Int) :
    ((immediate_operand v).immediate >>> 24) &&& 0xFF = (v / 16777216 % 256).toNat := by
  simp only [immediate_operand, Operand.set_immediate, Operand.immediate, and_0xFF,
    Nat.shiftRight_eq_div_pow]
  omega

theorem resolve_value_no_label (state : AssemblerState) (o : Operand) (pass : Nat)
    (h : o.label = []) : resolve_value state o pass = (o.immediate, state) := by
  simp [resolve_value, h]

theorem single_register_ops_case : ∀ op ∈ single_register_ops,
    op ∉ two_operand_ops ∧ op ∉ three_operand_ops ∧ op ∉ [OP_OUT, OP_OUTB] ∧
    op ∉ [OP_IN, OP_INB] := by
  decide

theorem two_operand_narrow_case : ∀ op ∈ [OP_MOV, OP_LOAD, OP_STORE, OP_CMP, OP_TEST],
    op ∈ two_operand_ops ∧ op ≠ OP_MOVW := by
  decide

theorem three_operand_ops_case : ∀ op ∈ three_operand_ops, op ∉ two_operand_ops := by
  decide

theorem branch_ops_case : ∀ op ∈ branch_ops,
    op ∉ two_operand_ops ∧ op ∉ three_operand_ops ∧ op ∉ [OP_OUT, OP_OUTB] ∧
    op ∉ [OP_IN, OP_INB] ∧ op ∉ [OP_OUT, OP_IN] ∧ op ∉ single_register_ops := by
  decide

theorem single_register_layout (state : AssemblerState) (inst : Instruction)
    (info : OpcodeMetadata) (pass d : Nat) (hi : inst.info = some info)
    (hop : info.opcode ∈ single_register_ops) (hd : d < 32)
    (h0 : inst.operand 0 = register_operand d) :
    emit_instruction state inst pass = emit_bytes state [info.opcode, d] := by
  obtain ⟨c1, c2, c3, c4⟩ := single_register_ops_case _ hop
  simp only [emit_instruction, hi, c1, c2, c3, c4, hop, if_true, if_false, h0,
    register_operand_reg_num hd, emit_bytes, List.foldl]

theorem two_operand_register_layout (state : AssemblerState) (inst : Instruction)
    (info : OpcodeMetadata) (pass d s : Nat) (hi : inst.info = some info)
    (hop : info.opcode ∈ [OP_MOV, OP_LOAD, OP_STORE, OP_CMP, OP_TEST])
    (hd : d < 32) (hs : s < 32) (hc : inst.operand_count = 2)
    (h0 : inst.operand 0 = register_operand d) (h1 : inst.operand 1 = register_operand s) :
    emit_instruction state inst pass = emit_bytes state [info.opcode, d, 0, s] := by
  obtain ⟨hm, _⟩ := two_operand_narrow_case _ hop
  have hmode : is_wide_mode (register_operand s).mode = false := rfl
  simp only [emit_instruction, hi, hm, hc, if_true, h0, h1, register_operand_reg_num hd,
    register_operand_reg_num hs, emit_bytes, List.foldl, hmode]
  simp

theorem two_operand_immediate_layout (state : AssemblerState) (inst : Instruction)
    (info : OpcodeMetadata) (pass d : Nat) (v : Int) (hi : inst.info = some info)
    (hop : info.opcode ∈ [OP_MOV, OP_LOAD, OP_STORE, OP_CMP, OP_TEST])
    (hd : d < 32) (hc : inst.operand_count = 2) (h0 : inst.operand 0 = register_operand d)
    (h1 : inst.operand 1 = immediate_operand v) :
    emit_instruction state inst pass =
      emit_bytes state [info.opcode, d, 1, (v % 256).toNat, (v / 256 % 256).toNat] := by
  obtain ⟨hm, hw⟩ := two_operand_narrow_case _ hop
  simp only [emit_instruction, hi, hm, hw, hc, if_true, if_false, h0, h1,
    register_operand_reg_num hd, emit_bytes, List.foldl, is_wide_mode, immediate_operand_mode,
    resolve_value_no_label _ _ _ (immediate_operand_label v), immediate_operand_byte0,
    immediate_operand_byte1]
  simp

theorem movw_immediate_layout (state : AssemblerState) (inst : Instruction)
    (info : OpcodeMetadata) (pass d : Nat) (v : Int) (hi : inst.info = some info)
    (hop : info.opcode = OP_MOVW)
    (hd : d < 32) (hc : inst.operand_count = 2) (h0 : inst.operand 0 = register_operand d)
    (h1 : inst.operand 1 = immediate_operand v) :
    emit_instruction state inst pass =
      emit_bytes state [0x02, d, 1, (v % 256).toNat, (v / 256 % 256).toNat,
        (v / 65536 % 256).toNat, (v / 16777216 % 256).toNat] := by
  have hm : OP_MOVW ∈ two_operand_ops := by decide
  simp only [emit_instruction, hi, hop, hm, hc, if_true, h0, h1,
    register_operand_reg_num hd, emit_bytes, List.foldl, is_wide_mode, immediate_operand_mode,
    resolve_value_no_label _ _ _ (immediate_operand_label v), immediate_operand_byte0,
    immediate_operand_byte1, immediate_operand_byte2, immediate_operand_byte3]
  simp [OP_MOVW]

theorem three_operand_register_layout (state : AssemblerState) (inst : Instruction)
    (info : OpcodeMetadata) (pass d s1 s2 : Nat) (hi : inst.info = some info)
    (hop : info.opcode ∈ three_operand_ops)
    (hd : d < 32) (hs1 : s1 < 32) (hs2 : s2 < 32) (hc : inst.operand_count = 3)
    (h0 : inst.operand 0 = register_operand d) (h1 : inst.operand 1 = register_operand s1)
    (h2 : inst.operand 2 = register_operand s2) :
    emit_instruction state inst pass = emit_bytes state [info.opcode, d, s1, 0, s2] := by
  have hm := three_operand_ops_case _ hop
  have hmode : is_wide_mode (register_operand s2).mode = false := rfl
  simp only [emit_instruction, hi, hm, hop, hc, if_true, if_false, h0, h1, h2,
    register_operand_reg_num hd, register_operand_reg_num hs1, register_operand_reg_num hs2,
    emit_bytes, List.foldl, hmode]
  simp

theorem three_operand_immediate_layout (state : AssemblerState) (inst : Instruction)
    (info : OpcodeMetadata) (pass d s1 : Nat) (v : Int) (hi : inst.info = some info)
    (hop : info.opcode ∈ three_operand_ops)
    (hd : d < 32) (hs1 : s1 < 32) (hc : inst.operand_count = 3)
    (h0 : inst.operand 0 = register_operand d) (h1 : inst.operand 1 = register_operand s1)
    (h2 : inst.operand 2 = immediate_operand v) :
    emit_instruction state inst pass =
      emit_bytes state [info.opcode, d, s1, 1, (v % 256).toNat, (v / 256 % 256).toNat] := by
  have hm := three_operand_ops_case _ hop
  simp only [emit_instruction, hi, hm, hop, hc, if_true, if_false, h0, h1, h2,
    register_operand_reg_num hd, register_operand_reg_num hs1,
    emit_bytes, List.foldl, is_wide_mode, immediate_operand_mode,
    resolve_value_no_label _ _ _ (immediate_operand_label v), immediate_operand_byte0,
    immediate_operand_byte1]
  simp

/-- C3: with a register destination `d` and well-formed further operands (a
register, or a number `v` as `parse_operand` stores it), `emit_instruction`
performs exactly the calls of `emit_byte` of the layout: `[opcode, reg]` for the
single-register family; `[opcode, dst, 0, src]` or `[opcode, dst, 1, v mod 256,
(v div 256) mod 256]` for MOV, LOAD, STORE, CMP, TEST; `[0x02, dst, 1,` the four
little-endian bytes of `v]` for MOVW; `[opcode, dst, src1, 0, src2]` or
`[opcode, dst, src1, 1, v mod 256, (v div 256) mod 256]` for the three-operand
family. -/
theorem encoder_layout (state : AssemblerState) (inst : Instruction) (info : OpcodeMetadata)
    (pass d : Nat) (hi : inst.info = some info) (hd : d < 32)
    (h0 : inst.operand 0 = register_operand d) :
    (info.opcode ∈ single_register_ops →
      emit_instruction state inst pass = emit_bytes state [info.opcode, d]) ∧
    (∀ s, info.opcode ∈ [OP_MOV, OP_LOAD, OP_STORE, OP_CMP, OP_TEST] → s < 32 →
      inst.operand_count = 2 → inst.operand 1 = register_operand s →
      emit_instruction state inst pass = emit_bytes state [info.opcode, d, 0, s]) ∧
    (∀ v : Int, info.opcode ∈ [OP_MOV, OP_LOAD, OP_STORE, OP_CMP, OP_TEST] →
      inst.operand_count = 2 → inst.operand 1 = immediate_operand v →
      emit_instruction state inst pass =
        emit_bytes state [info.opcode, d, 1, (v % 256).toNat, (v / 256 % 256).toNat]) ∧
    (∀ v : Int, info.opcode = OP_MOVW →
      inst.operand_count = 2 → inst.operand 1 = immediate_operand v →
      emit_instruction state inst pass =
        emit_bytes state [0x02, d, 1, (v % 256).toNat, (v / 256 % 256).toNat,
          (v / 65536 % 256).toNat, (v / 16777216 % 256).toNat]) ∧
    (∀ s1 s2, info.opcode ∈ three_operand_ops → s1 < 32 → s2 < 32 →
      inst.operand_count = 3 → inst.operand 1 = register_operand s1 →
      inst.operand 2 = register_operand s2 →
      emit_instruction state inst pass = emit_bytes state [info.opcode, d, s1, 0, s2]) ∧
    (∀ s1 (v : Int), info.opcode ∈ three_operand_ops → s1 < 32 →
      inst.operand_count = 3 → inst.operand 1 = register_operand s1 →
      inst.operand 2 = immediate_operand v →
      emit_instruction state inst pass =
        emit_bytes state [info.opcode, d, s1, 1, (v % 256).toNat, (v / 256 % 256).toNat]) :=
  ⟨fun hop => single_register_layout state inst info pass d hi hop hd h0,
   fun s hop hs hc h1 => two_operand_register_layout state inst info pass d s hi hop hd hs hc h0 h1,
   fun v hop hc h1 => two_operand_immediate_layout state inst info pass d v hi hop hd hc h0 h1,
   fun v hop hc h1 => movw_immediate_layout state inst info pass d v hi hop hd hc h0 h1,
   fun s1 s2 hop hs1 hs2 hc h1 h2 =>
     three_operand_register_layout state inst info pass d s1 s2 hi hop hd hs1 hs2 hc h0 h1 h2,
   fun s1 v hop hs1 hc h1 h2 =>
     three_operand_immediate_layout state inst info pass d s1 v hi hop hd hs1 hc h0 h1 h2⟩

/-- Witness of `encoder_layout`: the line `MOV R0, #5` is emitted as `01 00 01 05 00`. -/
theorem encoder_layout_witness :
    emit_instruction (assembler_create false) (parsed_instruction "MOV R0, #5") 2 =
      emit_bytes (assembler_create false) [0x01, 0, 1, 5, 0] :=
  (encoder_layout (assembler_create false) (parsed_instruction "MOV R0, #5")
    ⟨cstr "MOV", OP_MOV, FORMAT_R, 2, 1, 2, [OT_REG ||| OT_MEM, OT_REG ||| OT_IMM ||| OT_MEM], IF_NONE⟩
    2 0 (by decide) (by decide) (by decide)).2.2.1 5 (by decide) (by decide) (by decide)

theorem symbol_find_result_congr (s t : AssemblerState) (l : List Nat)
    (h1 : t.symbols = s.symbols) (h2 : t.symbol_cache = s.symbol_cache) :
    (symbol_find t l).1 = (symbol_find s l).1 := by
  simp only [symbol_find, h1, h2]
  split
  · rfl
  · split <;> rfl

theorem symbol_find_frame (s : AssemblerState) (l : List Nat) :
    same_image s (symbol_find s l).2 ∧ (symbol_find s l).2.errors = s.errors ∧
    (symbol_find s l).2.symbols = s.symbols := by
  simp only [symbol_find, same_image]
  split
  · simp
  · split <;> simp

theorem emit_byte_same_image {s t : AssemblerState} (h : same_image s t) (b : Nat) :
    same_image (emit_byte s b) (emit_byte t b) := by
  obtain ⟨h1, h2, h3, h4⟩ := h
  simp only [same_image, emit_byte, h1, h2, h3, h4]
  simp

theorem branch_size (inst : Instruction) (info : OpcodeMetadata) (hi : inst.info = some info)
    (hop : info.opcode ∈ branch_ops) : instruction_full_size inst = 3 := by
  obtain ⟨c1, c2, _, _, c5, c6⟩ := branch_ops_case _ hop
  simp only [instruction_full_size, hi, c1, c2, c5, c6, hop, if_true, if_false]

/-- C4: a branch instruction (JMP, JE, JNE, JG, JL, JGE, JLE, CALL) whose
operand is the bare label `l` has the size 3 in pass 1, whatever the symbol
table holds; and when `symbol_find` finds `l` with the value `a`, pass 2 acts on
the image as the three calls of `emit_byte` with `opcode`, `a & 0xFF`,
`(a >> 8) & 0xFF`, and records no error. -/
theorem branch_label_encoding (state : AssemblerState) (inst : Instruction)
    (info : OpcodeMetadata) (l : List Nat) (hi : inst.info = some info)
    (hop : info.opcode ∈ branch_ops) (hl : l ≠ [])
    (h0 : inst.operand 0 = label_operand l) :
    instruction_full_size inst = 3 ∧
    ∀ i sym, (symbol_find state (l.take 63)).1 = some (i, sym) →
      same_image
        (emit_bytes state [info.opcode, sym.value &&& 0xFF, (sym.value >>> 8) &&& 0xFF])
        (emit_instruction state inst 2) ∧
      (emit_instruction state inst 2).errors = state.errors := by
  refine ⟨branch_size inst info hi hop, ?_⟩
  intro i sym hs
  obtain ⟨c1, c2, c3, c4, _, c6⟩ := branch_ops_case _ hop
  have hne : (label_operand l).label ≠ [] := by
    cases l with
    | nil => exact absurd rfl hl
    | cons c cs => simp [label_operand, MAX_LABEL_LEN]
  have hlab : (label_operand l).label = l.take 63 := rfl
  have hfind : (symbol_find (emit_byte state info.opcode) (l.take 63)).1 = some (i, sym) := by
    rw [symbol_find_result_congr state (emit_byte state info.opcode) _ rfl rfl]
    exact hs
  obtain ⟨f1, f2, _⟩ := symbol_find_frame (emit_byte state info.opcode) (l.take 63)
  have hres : resolve_value (emit_byte state info.opcode) (label_operand l) 2 =
      (sym.value, (symbol_find (emit_byte state info.opcode) (l.take 63)).2) := by
    have hne2 : List.take 63 l ≠ [] := hne
    simp only [resolve_value, hlab, if_pos hne2]
    generalize symbol_find (emit_byte state info.opcode) (List.take 63 l) = r at hfind
    obtain ⟨r1, r2⟩ := r
    simp only at hfind
    subst hfind
    rfl
  have hemit : emit_instruction state inst 2 =
      emit_byte (emit_byte (symbol_find (emit_byte state info.opcode) (l.take 63)).2
        (sym.value &&& 0xFF)) ((sym.value >>> 8) &&& 0xFF) := by
    simp only [emit_instruction, hi, c1, c2, c3, c4, c6, hop, if_true, if_false, h0, hres]
  rw [hemit]
  constructor
  · exact emit_byte_same_image (emit_byte_same_image f1 _) _
  · show (symbol_find (emit_byte state info.opcode) (l.take 63)).2.errors = state.errors
    rw [f2]
    rfl

/-- Witness of `branch_label_encoding`: after pass 1 over `JMP end` / `end: HALT`
the instruction `JMP end` has size 3 and is emitted as `50 03 00`. -/
theorem branch_label_encoding_witness :
    instruction_full_size (parsed_instruction "JMP end") = 3 ∧
    same_image (emit_bytes (first_pass_of ["JMP end", "end: HALT"]) [0x50, 3, 0])
      (emit_instruction (first_pass_of ["JMP end", "end: HALT"])
        (parsed_instruction "JMP end") 2) ∧
    (emit_instruction (first_pass_of ["JMP end", "end: HALT"])
      (parsed_instruction "JMP end") 2).errors = (first_pass_of ["JMP end", "end: HALT"]).errors :=
  ⟨(branch_label_encoding (first_pass_of ["JMP end", "end: HALT"])
      (parsed_instruction "JMP end")
      ⟨cstr "JMP", OP_JMP, FORMAT_B, 3, 2, 1, [OT_LABEL], IF_BRANCH⟩ (cstr "end")
      (by decide) (by decide) (by decide) (by decide)).1,
   (branch_label_encoding (first_pass_of ["JMP end", "end: HALT"])
      (parsed_instruction "JMP end")
      ⟨cstr "JMP", OP_JMP, FORMAT_B, 3, 2, 1, [OT_LABEL], IF_BRANCH⟩ (cstr "end")
      (by decide) (by decide) (by decide) (by decide)).2 0
      { name := cstr "end", value := 3, type := SYM_CODE, scope := 0, section_ := 0,
        defined := true, line := 2, file := cstr "input.basm" } (by decide)⟩

/-! ## Simulator: MOV and ADD -/

theorem fetch_byte_spec (s : SimulatorState) (h : s.pc < MEMORY_SIZE) :
    ∃ t, fetch_byte s = (s.memory s.pc, t) ∧ t.pc = s.pc + 1 ∧ same_machine s t := by
  have h1 : ¬ (s.pc ≥ MEMORY_SIZE) := by omega
  have h2 : (s.pc + 1) % 2 ^ 32 = s.pc + 1 := by
    unfold MEMORY_SIZE at h; omega
  refine ⟨{ s with pc := s.pc + 1, memory_accesses := (s.memory_accesses + 1) % 2 ^ 64 },
    ?_, rfl, ?_⟩
  · simp only [fetch_byte, memory_read_byte, h1, if_false, h2]
  · constructor <;> rfl

theorem or_shift_bytes (n : Nat) (hn : n < 65536) :
    (n % 256 ||| (n / 256) <<< 8) % 2 ^ 16 = n := by
  have := Nat.mul_add_lt_is_or (i := 8) (Nat.mod_lt n (by decide : 256 > 0)) (n / 256)
  rw [Nat.or_comm, Nat.shiftLeft_eq, Nat.mul_comm, ← this]
  omega

theorem memory_read_word_spec (s : SimulatorState) (a n : Nat) (h : a + 1 < MEMORY_SIZE)
    (hn : n < 65536) (h0 : s.memory a = n % 256) (h1 : s.memory (a + 1) = n / 256) :
    ∃ t, memory_read_word s a = (n, t) ∧ t.pc = s.pc ∧ same_machine s t := by
  have hb : ¬ (a ≥ MEMORY_SIZE - 1) := by unfold MEMORY_SIZE at *; omega
  refine ⟨{ s with memory_accesses := (s.memory_accesses + 2) % 2 ^ 64 }, ?_, rfl, ?_⟩
  · simp only [memory_read_word, hb, if_false, h0, h1, or_shift_bytes n hn]
  · constructor <;> rfl

theorem execute_mov_immediate (s : SimulatorState) (d n : Nat) (hd : d < 32) (hn : n < 65536)
    (hpc : s.pc + 3 < MEMORY_SIZE) (hb : bytes_at s.memory s.pc [d, 1, n % 256, n / 256]) :
    ∃ t, execute_mov s = some (1, t) ∧ t.registers d = n ∧
      (∀ r, r ≠ d → t.registers r = s.registers r) ∧ t.flags = s.flags ∧
      t.sp = s.sp ∧ t.memory = s.memory ∧ t.pc = s.pc + 4 := by
  obtain ⟨b1, b2, b3, b4, -⟩ := hb
  obtain ⟨t1, e1, p1, m1⟩ := fetch_byte_spec s (by omega)
  obtain ⟨t2, e2, p2, m2⟩ := fetch_byte_spec t1 (by omega)
  have hm2 : t2.memory = s.memory := by rw [m2.memory, m1.memory]
  obtain ⟨t3, e3, p3, m3⟩ := memory_read_word_spec t2 t2.pc n (by omega) hn
    (by rw [hm2, p2, p1]; exact b3) (by rw [hm2, p2, p1]; exact b4)
  have hmode : t1.memory t1.pc = 1 := by rw [m1.memory, p1]; exact b2
  have hw : (t3.pc + 2) % 2 ^ 32 = s.pc + 4 := by
    unfold MEMORY_SIZE at hpc; omega
  simp only [execute_mov, e1, e2, e3, b1, hmode, reg_write, NUM_REGISTERS, hd, hw]
  simp only [OfNat.ofNat_ne_zero, Nat.one_ne_zero, if_false, if_true, Option.bind_eq_bind,
    Option.pure_def, Option.some_bind, one_ne_zero, reduceCtorEq]
  refine ⟨_, rfl, ?_, ?_, ?_, ?_, ?_, ?_⟩
  · simp only [add_cycles, if_true]; omega
  · intro r hr
    simp only [add_cycles, if_neg hr, m3.registers, m2.registers, m1.registers]
  · simp only [add_cycles, m3.flags, m2.flags, m1.flags]
  · simp only [add_cycles, m3.sp, m2.sp, m1.sp]
  · simp only [add_cycles, m3.memory, m2.memory, m1.memory]
  · rfl

theorem execute_mov_register (s : SimulatorState) (d r : Nat) (hd : d < 32) (hr : r < 32)
    (hv : s.registers r < 2 ^ 32)
    (hpc : s.pc + 2 < MEMORY_SIZE) (hb : bytes_at s.memory s.pc [d, 0, r]) :
    ∃ t, execute_mov s = some (1, t) ∧ t.registers d = s.registers r ∧
      (∀ x, x ≠ d → t.registers x = s.registers x) ∧ t.flags = s.flags ∧
      t.sp = s.sp ∧ t.memory = s.memory ∧ t.pc = s.pc + 3 := by
  obtain ⟨b1, b2, b3, -⟩ := hb
  obtain ⟨t1, e1, p1, m1⟩ := fetch_byte_spec s (by omega)
  obtain ⟨t2, e2, p2, m2⟩ := fetch_byte_spec t1 (by omega)
  obtain ⟨t3, e3, p3, m3⟩ := fetch_byte_spec t2 (by omega)
  have hmode : t1.memory t1.pc = 0 := by rw [m1.memory, p1]; exact b2
  have hsrc : t2.memory t2.pc = r := by rw [m2.memory, m1.memory, p2, p1]; exact b3
  have hregs : t3.registers = s.registers := by rw [m3.registers, m2.registers, m1.registers]
  simp only [execute_mov, e1, e2, e3, b1, hmode, hsrc, reg_write, reg_read, NUM_REGISTERS, hd,
    hr, hregs]
  simp only [if_true, Option.bind_eq_bind, Option.pure_def, Option.some_bind]
  refine ⟨_, rfl, ?_, ?_, ?_, ?_, ?_, ?_⟩
  · simp only [add_cycles, if_true]; omega
  · intro x hx
    simp only [add_cycles, if_neg hx, hregs]
  · simp only [add_cycles, m3.flags, m2.flags, m1.flags]
  · simp only [add_cycles, m3.sp, m2.sp, m1.sp]
  · simp only [add_cycles, m3.memory, m2.memory, m1.memory]
  · simp only [add_cycles, p3, p2, p1]

theorem execute_mov_bad_mode (s : SimulatorState) (d m : Nat) (h0 : m ≠ 0) (h1 : m ≠ 1)
    (hpc : s.pc + 1 < MEMORY_SIZE) (hb : bytes_at s.memory s.pc [d, m]) :
    ∃ t, execute_mov s = some (0, t) := by
  obtain ⟨b1, b2, -⟩ := hb
  obtain ⟨t1, e1, p1, m1⟩ := fetch_byte_spec s (by omega)
  obtain ⟨t2, e2, p2, m2⟩ := fetch_byte_spec t1 (by omega)
  have hmode : t1.memory t1.pc = m := by rw [m1.memory, p1]; exact b2
  simp only [execute_mov, e1, e2, b1, hmode, h0, h1, if_false]
  exact ⟨_, rfl⟩

theorem dispatch_mov (s t : SimulatorState) (e : fetch_byte s = (OP_MOV, t)) :
    simulator_execute_instruction s = execute_mov t := by
  simp only [simulator_execute_instruction, e, if_true]

theorem and_two_pow_ne_zero (x k : Nat) : x &&& 2 ^ k ≠ 0 ↔ x.testBit k = true := by
  constructor
  · intro h
    obtain ⟨i, hi⟩ := Nat.ne_zero_implies_bit_true h
    rw [Nat.testBit_and, Nat.testBit_two_pow, Bool.and_eq_true, decide_eq_true_eq] at hi
    rw [hi.2]; exact hi.1
  · intro h h0
    have : (x &&& 2 ^ k).testBit k = true := by
      rw [Nat.testBit_and, Nat.testBit_two_pow_self, h]; rfl
    rw [h0] at this
    simp at this

theorem testBit_flag_masks : ∀ i < 32,
    Nat.testBit FLAG_ZERO i = decide (i = 0) ∧
    Nat.testBit FLAG_NEGATIVE i = decide (i = 3) ∧
    Nat.testBit (0xFFFFFFFF - FLAG_ZERO) i = decide (i ≠ 0) ∧
    Nat.testBit (0xFFFFFFFF - FLAG_NEGATIVE) i = decide (i ≠ 3) := by
  decide

theorem update_flags_testBit (s : SimulatorState) (r i : Nat) (hi : i < 32) :
    (update_flags s r).flags.testBit i =
      if i = 0 then decide (r = 0)
      else if i = 3 then r.testBit 31
      else s.flags.testBit i := by
  obtain ⟨k1, k2, k3, k4⟩ := testBit_flag_masks i hi
  have hneg : (r &&& 0x80000000 ≠ 0) ↔ r.testBit 31 = true := and_two_pow_ne_zero r 31
  have hn31 : decide (r &&& 0x80000000 ≠ 0) = r.testBit 31 := by
    cases h : r.testBit 31
    · exact decide_eq_false (fun hc => by rw [hneg.mp hc] at h; exact Bool.noConfusion h)
    · exact decide_eq_true (hneg.mpr h)
  rw [← hn31]
  simp only [update_flags]
  by_cases h0 : i = 0 <;> by_cases h3 : i = 3 <;> by_cases hz : r = 0 <;>
    by_cases hn : r &&& 0x80000000 ≠ 0 <;>
    simp only [Nat.testBit_and, Nat.testBit_or, k1, k2, k3, k4, hz, hn, h0, h3, ne_eq,
      not_true_eq_false, not_false_eq_true, decide_True, decide_False, Bool.or_true,
      Bool.or_false, Bool.and_true, Bool.and_false, Bool.true_or, Bool.false_or,
      if_true, if_false] <;>
    simp_all

theorem update_flags_flags_congr (s t : SimulatorState) (r : Nat) (h : t.flags = s.flags) :
    (update_flags t r).flags = (update_flags s r).flags := by
  simp only [update_flags, h]

theorem execute_add_register (s : SimulatorState) (d s1 s2 : Nat) (hd : d < 32)
    (hs1 : s1 < 32) (hs2 : s2 < 32) (hpc : s.pc + 3 < MEMORY_SIZE)
    (hb : bytes_at s.memory s.pc [d, s1, 0, s2]) :
    ∃ t, execute_add s = some (1, t) ∧
      t.registers d = (s.registers s1 + s.registers s2) % 2 ^ 32 ∧
      (∀ x, x ≠ d → t.registers x = s.registers x) ∧
      t.flags = (update_flags s ((s.registers s1 + s.registers s2) % 2 ^ 32)).flags ∧
      t.sp = s.sp ∧ t.memory = s.memory ∧ t.pc = s.pc + 4 := by
  obtain ⟨b1, b2, b3, b4, -⟩ := hb
  obtain ⟨t1, e1, p1, m1⟩ := fetch_byte_spec s (by omega)
  obtain ⟨t2, e2, p2, m2⟩ := fetch_byte_spec t1 (by omega)
  obtain ⟨t3, e3, p3, m3⟩ := fetch_byte_spec t2 (by omega)
  obtain ⟨t4, e4, p4, m4⟩ := fetch_byte_spec t3 (by omega)
  have h1 : t1.memory t1.pc = s1 := by rw [m1.memory, p1]; exact b2
  have h2 : t2.memory t2.pc = 0 := by rw [m2.memory, m1.memory, p2, p1]; exact b3
  have h3 : t3.memory t3.pc = s2 := by rw [m3.memory, m2.memory, m1.memory, p3, p2, p1]; exact b4
  have hr3 : t3.registers = s.registers := by rw [m3.registers, m2.registers, m1.registers]
  have hr4 : t4.registers = s.registers := by rw [m4.registers, hr3]
  have hf4 : t4.flags = s.flags := by rw [m4.flags, m3.flags, m2.flags, m1.flags]
  have hdead : ¬ ((s.registers s1 + s.registers s2) % 2 ^ 32 > 0xFFFFFFFF) := by omega
  have hmask : (s.registers s1 + s.registers s2) % 2 ^ 32 &&& 0xFFFFFFFF =
      (s.registers s1 + s.registers s2) % 2 ^ 32 := by
    have := Nat.and_pow_two_sub_one_eq_mod ((s.registers s1 + s.registers s2) % 2 ^ 32) 32
    rw [Nat.mod_mod] at this
    exact this
  simp only [execute_add, e1, e2, e3, e4, b1, h1, h2, h3, reg_write, reg_read, NUM_REGISTERS,
    hd, hs1, hs2, hr3, hr4, if_true, Option.bind_eq_bind, Option.pure_def, Option.some_bind,
    hdead, if_false, hmask]
  refine ⟨_, rfl, ?_, ?_, ?_, ?_, ?_, ?_⟩
  · simp only [add_cycles, if_true, Nat.mod_mod]
  · intro x hx
    simp only [add_cycles, if_neg hx, update_flags, hr4]
  · simp only [add_cycles]
    exact update_flags_flags_congr s t4 _ hf4
  · simp only [add_cycles, update_flags, m4.sp, m3.sp, m2.sp, m1.sp]
  · simp only [add_cycles, update_flags, m4.memory, m3.memory, m2.memory, m1.memory]
  · simp only [add_cycles, update_flags, p4, p3, p2, p1]

theorem dispatch_add (s t : SimulatorState) (e : fetch_byte s = (OP_ADD, t)) :
    simulator_execute_instruction s = execute_add t := by
  have h : OP_ADD ≠ OP_MOV := by decide
  simp only [simulator_execute_instruction, e, h, if_true, if_false]

/-- C9: executing `ADD Rd, Rs1, Rs2` in register mode (the bytes `10 d s1 00 s2`,
so in particular `ADD R3, R1, R2`) succeeds, sets `Rd` to `(Rs1 + Rs2) mod 2^32`,
leaves ZERO set exactly when the new `Rd` is 0 and NEGATIVE set exactly when
bit 31 of the new `Rd` is 1, and changes no bit of the flag word other than
ZERO, NEGATIVE and CARRY. -/
theorem add_register_mode (sim : SimulatorState) (d s1 s2 : Nat) (hd : d < 32)
    (hs1 : s1 < 32) (hs2 : s2 < 32) (hpc : sim.pc + 4 < MEMORY_SIZE)
    (hb : bytes_at sim.memory sim.pc [OP_ADD, d, s1, 0, s2]) :
    ∃ t, simulator_execute_instruction sim = some (1, t) ∧
      t.registers d = (sim.registers s1 + sim.registers s2) % 2 ^ 32 ∧
      (t.flags &&& FLAG_ZERO ≠ 0 ↔ t.registers d = 0) ∧
      (t.flags &&& FLAG_NEGATIVE ≠ 0 ↔ (t.registers d).testBit 31 = true) ∧
      ∀ i, i < 32 → i ≠ 0 → i ≠ 3 → i ≠ 1 → t.flags.testBit i = sim.flags.testBit i := by
  obtain ⟨b0, hb'⟩ := hb
  obtain ⟨u, e, p, m⟩ := fetch_byte_spec sim (by omega)
  rw [b0] at e
  obtain ⟨t, et, r1, _, f1, _, _, _⟩ := execute_add_register u d s1 s2 hd hs1 hs2 (by omega)
    (by rw [m.memory, p]; exact hb')
  rw [m.registers] at r1
  rw [update_flags_flags_congr sim u _ m.flags, m.registers] at f1
  refine ⟨t, ?_, r1, ?_, ?_, ?_⟩
  · rw [dispatch_add sim u e]; exact et
  · have h := and_two_pow_ne_zero t.flags 0
    have hz := update_flags_testBit sim ((sim.registers s1 + sim.registers s2) % 2 ^ 32) 0
      (by decide)
    rw [← f1] at hz
    simp only [if_true] at hz
    rw [show FLAG_ZERO = 2 ^ 0 from rfl, h, hz, r1, decide_eq_true_eq]
  · have h := and_two_pow_ne_zero t.flags 3
    have hn := update_flags_testBit sim ((sim.registers s1 + sim.registers s2) % 2 ^ 32) 3
      (by decide)
    rw [← f1] at hn
    simp only [if_true, OfNat.ofNat_ne_zero, if_false] at hn
    rw [show FLAG_NEGATIVE = 2 ^ 3 from rfl, h, hn, r1]
  · intro i hi h0 h3 _
    have hn := update_flags_testBit sim ((sim.registers s1 + sim.registers s2) % 2 ^ 32) i hi
    rw [← f1] at hn
    simp only [h0, h3, if_false] at hn
    exact hn

/-- Witness of `add_register_mode`: scenario 3, `ADD R2, R0, R1` with R0 = 7 and R1 = 3. -/
theorem add_register_mode_witness :
    ∃ t, simulator_execute_instruction add_sample = some (1, t) ∧
      t.registers 2 = (add_sample.registers 0 + add_sample.registers 1) % 2 ^ 32 ∧
      (t.flags &&& FLAG_ZERO ≠ 0 ↔ t.registers 2 = 0) ∧
      (t.flags &&& FLAG_NEGATIVE ≠ 0 ↔ (t.registers 2).testBit 31 = true) ∧
      ∀ i, i < 32 → i ≠ 0 → i ≠ 3 → i ≠ 1 → t.flags.testBit i = add_sample.flags.testBit i :=
  add_register_mode add_sample 2 0 1 (by decide) (by decide) (by decide) (by decide) (by decide)

/-- C8: executing the bytes of `MOV Rd, #n` (`01 d 01 lo hi`) sets `Rd` to the
16-bit number `n`, zero-extended; executing `01 d 00 s` sets `Rd` to the value
of `Rs`; in both cases the step succeeds and every other register, the flag
word, SP and the memory are unchanged; with any other mode byte the step
returns 0. -/
theorem mov_semantics (sim : SimulatorState) (d : Nat) (hd : d < 32) :
    (∀ n, n < 65536 → sim.pc + 4 < MEMORY_SIZE →
      bytes_at sim.memory sim.pc [OP_MOV, d, 1, n % 256, n / 256] →
      ∃ t, simulator_execute_instruction sim = some (1, t) ∧ t.registers d = n ∧
        (∀ r, r ≠ d → t.registers r = sim.registers r) ∧ t.flags = sim.flags ∧
        t.sp = sim.sp ∧ t.memory = sim.memory) ∧
    (∀ s, s < 32 → sim.registers s < 2 ^ 32 → sim.pc + 3 < MEMORY_SIZE →
      bytes_at sim.memory sim.pc [OP_MOV, d, 0, s] →
      ∃ t, simulator_execute_instruction sim = some (1, t) ∧
        t.registers d = sim.registers s ∧
        (∀ r, r ≠ d → t.registers r = sim.registers r) ∧ t.flags = sim.flags ∧
        t.sp = sim.sp ∧ t.memory = sim.memory) ∧
    (∀ m, m ≠ 0 → m ≠ 1 → sim.pc + 2 < MEMORY_SIZE →
      bytes_at sim.memory sim.pc [OP_MOV, d, m] →
      ∃ t, simulator_execute_instruction sim = some (0, t)) := by
  refine ⟨?_, ?_, ?_⟩
  · intro n hn hpc hb
    obtain ⟨b0, hb'⟩ := hb
    obtain ⟨u, e, p, m⟩ := fetch_byte_spec sim (by omega)
    rw [b0] at e
    obtain ⟨t, et, r1, r2, f, hsp, hmem, _⟩ := execute_mov_immediate u d n hd hn (by omega)
      (by rw [m.memory, p]; exact hb')
    refine ⟨t, ?_, r1, ?_, ?_, ?_, ?_⟩
    · rw [dispatch_mov sim u e]; exact et
    · intro r hr; rw [r2 r hr, m.registers]
    · rw [f, m.flags]
    · rw [hsp, m.sp]
    · rw [hmem, m.memory]
  · intro s hs hv hpc hb
    obtain ⟨b0, hb'⟩ := hb
    obtain ⟨u, e, p, m⟩ := fetch_byte_spec sim (by omega)
    rw [b0] at e
    obtain ⟨t, et, r1, r2, f, hsp, hmem, _⟩ := execute_mov_register u d s hd hs
      (by rw [m.registers]; exact hv) (by omega) (by rw [m.memory, p]; exact hb')
    refine ⟨t, ?_, ?_, ?_, ?_, ?_, ?_⟩
    · rw [dispatch_mov sim u e]; exact et
    · rw [r1, m.registers]
    · intro r hr; rw [r2 r hr, m.registers]
    · rw [f, m.flags]
    · rw [hsp, m.sp]
    · rw [hmem, m.memory]
  · intro md h0 h1 hpc hb
    obtain ⟨b0, hb'⟩ := hb
    obtain ⟨u, e, p, m⟩ := fetch_byte_spec sim (by omega)
    rw [b0] at e
    obtain ⟨t, et⟩ := execute_mov_bad_mode u d md h0 h1 (by omega)
      (by rw [m.memory, p]; exact hb')
    exact ⟨t, by rw [dispatch_mov sim u e]; exact et⟩

/-- Witness of `mov_semantics`: scenario 2, the image of `MOV R0, #5` sets R0 to 5. -/
theorem mov_semantics_witness :
    ∃ t, simulator_execute_instruction
        (simulator_create (assemble_source ["MOV R0, #5"]).memory) = some (1, t) ∧
      t.registers 0 = 5 ∧
      (∀ r, r ≠ 0 → t.registers r =
        (simulator_create (assemble_source ["MOV R0, #5"]).memory).registers r) ∧
      t.flags = (simulator_create (assemble_source ["MOV R0, #5"]).memory).flags ∧
      t.sp = (simulator_create (assemble_source ["MOV R0, #5"]).memory).sp ∧
      t.memory = (simulator_create (assemble_source ["MOV R0, #5"]).memory).memory :=
  (mov_semantics (simulator_create (assemble_source ["MOV R0, #5"]).memory) 0 (by decide)).1
    5 (by decide) (by decide) (by decide)

/-! ## Encoder against simulator -/

/-- C7: the source `OUT #1, R5` / `HALT` is emitted as `81 01 00 05 70`;
executing the OUT leaves the program counter at 3, one byte before the HALT,
and the next step reads the register byte `05` as an opcode and fails. -/
theorem out_step_stops_inside_instruction :
    (assemble_source ["OUT #1, R5", "HALT"]).errors = 0 ∧
    (List.range 5).map (assemble_source ["OUT #1, R5", "HALT"]).memory =
      [0x81, 1, 0, 5, 0x70] ∧
    (simulator_execute_instruction
      (simulator_create (assemble_source ["OUT #1, R5", "HALT"]).memory)).map
        (fun r => (r.1, r.2.pc)) = some (1, 3) ∧
    ((run_steps 1 (simulator_create (assemble_source ["OUT #1, R5", "HALT"]).memory)).bind
      simulator_execute_instruction).map (fun r => (r.1, r.2.halted)) = some (0, false) := by
  decide

/-! ## Carry flag -/

/-- C10: after `MOV R1, #0`, `DEC R1`, `MOV R2, #1` the registers hold
R1 = 0xFFFFFFFF and R2 = 1, whose sum is 2^32; after `ADD R3, R1, R2` the
register R3 is 0 and the CARRY flag is clear. -/
theorem add_overflow_leaves_carry_clear :
    (assemble_source ["MOV R1, #0", "DEC R1", "MOV R2, #1", "ADD R3, R1, R2"]).errors = 0 ∧
    (run_steps 3 (simulator_create
      (assemble_source ["MOV R1, #0", "DEC R1", "MOV R2, #1", "ADD R3, R1, R2"]).memory)).map
        (fun s => (s.registers 1, s.registers 2)) = some (0xFFFFFFFF, 1) ∧
    (run_steps 4 (simulator_create
      (assemble_source ["MOV R1, #0", "DEC R1", "MOV R2, #1", "ADD R3, R1, R2"]).memory)).map
        (fun s => (s.registers 3, s.flags &&& FLAG_CARRY)) = some (0, 0) := by
  decide

/-! ## Simulator: the instruction counter -/

theorem simulator_execute_instruction_switch (s : SimulatorState) :
    simulator_execute_instruction s = execute_opcode (fetch_byte s).1 (fetch_byte s).2 := by
  rfl

theorem fetch_byte_counter (s : SimulatorState) :
    (fetch_byte s).2.instructions_executed = s.instructions_executed := by
  unfold fetch_byte memory_read_byte; split <;> rfl

theorem memory_read_byte_counter (s : SimulatorState) (a : Nat) :
    (memory_read_byte s a).2.instructions_executed = s.instructions_executed := by
  unfold memory_read_byte; split <;> rfl

theorem memory_read_word_counter (s : SimulatorState) (a : Nat) :
    (memory_read_word s a).2.instructions_executed = s.instructions_executed := by
  unfold memory_read_word; split <;> rfl

theorem memory_write_word_counter (s : SimulatorState) (a v : Nat) :
    (memory_write_word s a v).instructions_executed = s.instructions_executed := by
  unfold memory_write_word; split <;> rfl

theorem update_flags_counter (s : SimulatorState) (r : Nat) :
    (update_flags s r).instructions_executed = s.instructions_executed := rfl

theorem add_cycles_counter (s : SimulatorState) (n : Nat) :
    (add_cycles s n).instructions_executed = s.instructions_executed := rfl

theorem reg_write_counter (s t : SimulatorState) (r v : Nat) (h : reg_write s r v = some t) :
    t.instructions_executed = s.instructions_executed := by
  unfold reg_write at h
  split at h
  · simp only [Option.some.injEq] at h; rw [← h]
  · exact Option.noConfusion h

theorem fetch_byte_cases (s : SimulatorState) :
    ∃ a t, fetch_byte s = (a, t) ∧ t.instructions_executed = s.instructions_executed :=
  ⟨(fetch_byte s).1, (fetch_byte s).2, rfl, fetch_byte_counter s⟩

theorem memory_read_word_cases (s : SimulatorState) (x : Nat) :
    ∃ a t, memory_read_word s x = (a, t) ∧ t.instructions_executed = s.instructions_executed :=
  ⟨(memory_read_word s x).1, (memory_read_word s x).2, rfl, memory_read_word_counter s x⟩

theorem ite_counter (c : Prop) [Decidable c] (a b : SimulatorState) (n : Nat)
    (ha : a.instructions_executed = n) (hb : b.instructions_executed = n) :
    (if c then a else b).instructions_executed = n := by
  split <;> assumption

theorem write_back_counter (x t : SimulatorState) (d v n r c : Nat)
    (h : (reg_write x d v).bind (fun sim => some (1, add_cycles sim n)) = some (r, t))
    (hx : x.instructions_executed = c) : t.instructions_executed = c := by
  obtain ⟨w, h3, h⟩ := Option.bind_eq_some.mp h
  simp only [Option.some.injEq, Prod.mk.injEq] at h
  rw [← h.2, add_cycles_counter, reg_write_counter _ _ _ _ h3, hx]

theorem returned_counter (x t : SimulatorState) (a r c : Nat)
    (h : some (a, x) = some (r, t)) (hx : x.instructions_executed = c) :
    t.instructions_executed = c := by
  simp only [Option.some.injEq, Prod.mk.injEq] at h
  rw [← h.2, hx]

theorem execute_add_counter (s t : SimulatorState) (r : Nat)
    (h : execute_add s = some (r, t)) : t.instructions_executed = s.instructions_executed := by
  obtain ⟨a1, t1, e1, k1⟩ := fetch_byte_cases s
  obtain ⟨a2, t2, e2, k2⟩ := fetch_byte_cases t1
  obtain ⟨a3, t3, e3, k3⟩ := fetch_byte_cases t2
  obtain ⟨a4, t4, e4, k4⟩ := fetch_byte_cases t3
  obtain ⟨a5, t5, e5, k5⟩ := memory_read_word_cases t3 t3.pc
  simp only [execute_add, e1, e2, e3, e4, e5, Option.bind_eq_bind, Option.pure_def,
    Option.some_bind] at h
  obtain ⟨src1, -, h⟩ := Option.bind_eq_some.mp h
  split_ifs at h
  all_goals first
    | exact returned_counter _ _ _ _ _ h (k3.trans (k2.trans k1))
    | exact write_back_counter _ _ _ _ _ _ _ h (k5.trans (k3.trans (k2.trans k1)))
    | (obtain ⟨src2, -, h⟩ := Option.bind_eq_some.mp h
       exact write_back_counter _ _ _ _ _ _ _ h
         (ite_counter _ _ _ _ (k4.trans (k3.trans (k2.trans k1)))
           (k4.trans (k3.trans (k2.trans k1)))))

theorem execute_sub_counter (s t : SimulatorState) (r : Nat)
    (h : execute_sub s = some (r, t)) : t.instructions_executed = s.instructions_executed := by
  obtain ⟨a1, t1, e1, k1⟩ := fetch_byte_cases s
  obtain ⟨a2, t2, e2, k2⟩ := fetch_byte_cases t1
  obtain ⟨a3, t3, e3, k3⟩ := fetch_byte_cases t2
  obtain ⟨a4, t4, e4, k4⟩ := fetch_byte_cases t3
  obtain ⟨a5, t5, e5, k5⟩ := memory_read_word_cases t3 t3.pc
  simp only [execute_sub, e1, e2, e3, e4, e5, Option.bind_eq_bind, Option.pure_def,
    Option.some_bind] at h
  obtain ⟨src1, -, h⟩ := Option.bind_eq_some.mp h
  split_ifs at h
  all_goals first
    | exact returned_counter _ _ _ _ _ h (k3.trans (k2.trans k1))
    | exact write_back_counter _ _ _ _ _ _ _ h (k5.trans (k3.trans (k2.trans k1)))
    | (obtain ⟨src2, -, h⟩ := Option.bind_eq_some.mp h
       exact write_back_counter _ _ _ _ _ _ _ h (k4.trans (k3.trans (k2.trans k1))))

theorem jump_counter (w : SimulatorState) (c : Prop) [Decidable c] (t q : Nat) :
    (add_cycles (if c then add_cycles { w with pc := t } 1 else { w with pc := q }) 2).instructions_executed
      = w.instructions_executed := by
  split <;> rfl

theorem call_counter (w : SimulatorState) (x a v t n : Nat) :
    (add_cycles { memory_write_word { w with sp := x } a v with pc := t } n).instructions_executed
      = w.instructions_executed := by
  unfold memory_write_word; split <;> rfl

theorem execute_jumps_counter (s : SimulatorState) :
    (execute_jmp s).2.instructions_executed = s.instructions_executed ∧
    (execute_je s).2.instructions_executed = s.instructions_executed ∧
    (execute_jne s).2.instructions_executed = s.instructions_executed ∧
    (execute_jg s).2.instructions_executed = s.instructions_executed ∧
    (execute_jl s).2.instructions_executed = s.instructions_executed ∧
    (execute_call s).2.instructions_executed = s.instructions_executed ∧
    (execute_ret s).2.instructions_executed = s.instructions_executed := by
  obtain ⟨a, t, e, k⟩ := memory_read_word_cases s s.pc
  obtain ⟨a2, t2, e2, k2⟩ := memory_read_word_cases s s.sp
  refine ⟨?_, ?_, ?_, ?_, ?_, ?_, ?_⟩
  · simp only [execute_jmp, e]; exact k
  · simp only [execute_je, e]; exact (jump_counter t _ _ _).trans k
  · simp only [execute_jne, e]; exact (jump_counter t _ _ _).trans k
  · simp only [execute_jg, e]; exact (jump_counter t _ _ _).trans k
  · simp only [execute_jl, e]; exact (jump_counter t _ _ _).trans k
  · simp only [execute_call, e]; exact (call_counter t _ _ _ _ _).trans k
  · simp only [execute_ret, e2]; exact k2

theorem pair_counter (p : Nat × SimulatorState) (t : SimulatorState) (r c : Nat)
    (h : some p = some (r, t)) (hp : p.2.instructions_executed = c) :
    t.instructions_executed = c := by
  simp only [Option.some.injEq] at h
  rw [h] at hp
  exact hp

theorem memory_read_byte_cases (s : SimulatorState) (x : Nat) :
    ∃ a t, memory_read_byte s x = (a, t) ∧ t.instructions_executed = s.instructions_executed :=
  ⟨(memory_read_byte s x).1, (memory_read_byte s x).2, rfl, memory_read_byte_counter s x⟩


theorem execute_mov_counter (s t : SimulatorState) (r : Nat)
    (h : execute_mov s = some (r, t)) : t.instructions_executed = s.instructions_executed := by
  obtain ⟨a1, t1, e1, k1⟩ := fetch_byte_cases s
  obtain ⟨a2, t2, e2, k2⟩ := fetch_byte_cases t1
  obtain ⟨a3, t3, e3, k3⟩ := fetch_byte_cases t2
  obtain ⟨a4, t4, e4, k4⟩ := memory_read_word_cases t2 t2.pc
  simp only [execute_mov, e1, e2, e3, e4, Option.bind_eq_bind, Option.pure_def,
    Option.some_bind] at h
  split_ifs at h
  · obtain ⟨v, -, h⟩ := Option.bind_eq_some.mp h
    exact write_back_counter _ _ _ _ _ _ _ h (k3.trans (k2.trans k1))
  · exact write_back_counter _ _ _ _ _ _ _ h (k4.trans (k2.trans k1))
  · exact returned_counter _ _ _ _ _ h (k2.trans k1)

theorem switch_out_counter (s t : SimulatorState) (r : Nat)
    (h : switch_out s = some (r, t)) : t.instructions_executed = s.instructions_executed := by
  obtain ⟨a1, t1, e1, k1⟩ := fetch_byte_cases s
  obtain ⟨a2, t2, e2, k2⟩ := fetch_byte_cases t1
  simp only [switch_out, e1, e2, Option.bind_eq_bind, Option.pure_def] at h
  obtain ⟨v, -, h⟩ := Option.bind_eq_some.mp h
  exact returned_counter _ _ _ _ _ h (k2.trans k1)

theorem switch_inc_counter (s t : SimulatorState) (r : Nat)
    (h : switch_inc s = some (r, t)) : t.instructions_executed = s.instructions_executed := by
  obtain ⟨a1, t1, e1, k1⟩ := fetch_byte_cases s
  simp only [switch_inc, e1, Option.bind_eq_bind, Option.pure_def] at h
  obtain ⟨v, -, h⟩ := Option.bind_eq_some.mp h
  obtain ⟨w, h3, h⟩ := Option.bind_eq_some.mp h
  exact returned_counter _ _ _ _ _ h ((reg_write_counter _ _ _ _ h3).trans k1)

theorem switch_dec_counter (s t : SimulatorState) (r : Nat)
    (h : switch_dec s = some (r, t)) : t.instructions_executed = s.instructions_executed := by
  obtain ⟨a1, t1, e1, k1⟩ := fetch_byte_cases s
  simp only [switch_dec, e1, Option.bind_eq_bind, Option.pure_def] at h
  obtain ⟨v, -, h⟩ := Option.bind_eq_some.mp h
  obtain ⟨w, h3, h⟩ := Option.bind_eq_some.mp h
  exact returned_counter _ _ _ _ _ h ((reg_write_counter _ _ _ _ h3).trans k1)

theorem switch_load_counter (s t : SimulatorState) (r : Nat)
    (h : switch_load s = some (r, t)) : t.instructions_executed = s.instructions_executed := by
  obtain ⟨a1, t1, e1, k1⟩ := fetch_byte_cases s
  obtain ⟨a2, t2, e2, k2⟩ := fetch_byte_cases t1
  obtain ⟨a3, t3, e3, k3⟩ := fetch_byte_cases t2
  obtain ⟨a4, t4, e4, k4⟩ := memory_read_word_cases t2 t2.pc
  simp only [switch_load, e1, e2, e3, e4, Option.bind_eq_bind, Option.pure_def,
    Option.some_bind] at h
  split_ifs at h
  · obtain ⟨v, -, h⟩ := Option.bind_eq_some.mp h
    obtain ⟨b, u, eb, kb⟩ := memory_read_byte_cases t3 v
    simp only [eb] at h
    exact write_back_counter _ _ _ _ _ _ _ h (kb.trans (k3.trans (k2.trans k1)))
  · obtain ⟨b, u, eb, kb⟩ := memory_read_byte_cases { t4 with pc := (t4.pc + 2) % 2 ^ 32 } a4
    simp only [eb] at h
    exact write_back_counter _ _ _ _ _ _ _ h (kb.trans (k4.trans (k2.trans k1)))

theorem switch_cmp_counter (s t : SimulatorState) (r : Nat)
    (h : switch_cmp s = some (r, t)) : t.instructions_executed = s.instructions_executed := by
  obtain ⟨a1, t1, e1, k1⟩ := fetch_byte_cases s
  obtain ⟨a2, t2, e2, k2⟩ := fetch_byte_cases t1
  obtain ⟨a3, t3, e3, k3⟩ := fetch_byte_cases t2
  obtain ⟨a4, t4, e4, k4⟩ := memory_read_word_cases t2 t2.pc
  simp only [switch_cmp, e1, e2, e3, e4, Option.bind_eq_bind, Option.pure_def,
    Option.some_bind] at h
  obtain ⟨v1, -, h⟩ := Option.bind_eq_some.mp h
  split_ifs at h
  · obtain ⟨v, -, h⟩ := Option.bind_eq_some.mp h
    exact returned_counter _ _ _ _ _ h (k3.trans (k2.trans k1))
  · exact returned_counter _ _ _ _ _ h (k4.trans (k2.trans k1))

theorem execute_opcode_counter (op : Nat) (w t : SimulatorState) (r : Nat)
    (h : execute_opcode op w = some (r, t)) :
    t.instructions_executed = w.instructions_executed := by
  obtain ⟨j1, j2, j3, j4, j5, j6, j7⟩ := execute_jumps_counter w
  unfold execute_opcode at h
  by_cases c0 : op = OP_MOV
  · rw [if_pos c0] at h; exact execute_mov_counter _ _ _ h
  rw [if_neg c0] at h
  by_cases c1 : op = OP_ADD
  · rw [if_pos c1] at h; exact execute_add_counter _ _ _ h
  rw [if_neg c1] at h
  by_cases c2 : op = OP_SUB
  · rw [if_pos c2] at h; exact execute_sub_counter _ _ _ h
  rw [if_neg c2] at h
  by_cases c3 : op = OP_JMP
  · rw [if_pos c3] at h; exact pair_counter _ _ _ _ h j1
  rw [if_neg c3] at h
  by_cases c4 : op = OP_JE
  · rw [if_pos c4] at h; exact pair_counter _ _ _ _ h j2
  rw [if_neg c4] at h
  by_cases c5 : op = OP_JNE
  · rw [if_pos c5] at h; exact pair_counter _ _ _ _ h j3
  rw [if_neg c5] at h
  by_cases c6 : op = OP_JG
  · rw [if_pos c6] at h; exact pair_counter _ _ _ _ h j4
  rw [if_neg c6] at h
  by_cases c7 : op = OP_JL
  · rw [if_pos c7] at h; exact pair_counter _ _ _ _ h j5
  rw [if_neg c7] at h
  by_cases c8 : op = OP_CALL
  · rw [if_pos c8] at h; exact pair_counter _ _ _ _ h j6
  rw [if_neg c8] at h
  by_cases c9 : op = OP_RET
  · rw [if_pos c9] at h; exact pair_counter _ _ _ _ h j7
  rw [if_neg c9] at h
  by_cases c10 : op = OP_HALT
  · rw [if_pos c10] at h; exact returned_counter _ _ _ _ _ h rfl
  rw [if_neg c10] at h
  by_cases c11 : op = OP_NOP
  · rw [if_pos c11] at h; exact returned_counter _ _ _ _ _ h rfl
  rw [if_neg c11] at h
  by_cases c12 : op = OP_OUT
  · rw [if_pos c12] at h; exact switch_out_counter _ _ _ h
  rw [if_neg c12] at h
  by_cases c13 : op = OP_INC
  · rw [if_pos c13] at h; exact switch_inc_counter _ _ _ h
  rw [if_neg c13] at h
  by_cases c14 : op = OP_DEC
  · rw [if_pos c14] at h; exact switch_dec_counter _ _ _ h
  rw [if_neg c14] at h
  by_cases c15 : op = OP_LOAD
  · rw [if_pos c15] at h; exact switch_load_counter _ _ _ h
  rw [if_neg c15] at h
  by_cases c16 : op = OP_CMP
  · rw [if_pos c16] at h; exact switch_cmp_counter _ _ _ h
  rw [if_neg c16] at h
  exact returned_counter _ _ _ _ _ h rfl

theorem simulator_execute_instruction_counter (s t : SimulatorState) (r : Nat)
    (h : simulator_execute_instruction s = some (r, t)) :
    t.instructions_executed = s.instructions_executed := by
  rw [simulator_execute_instruction_switch] at h
  exact (execute_opcode_counter _ _ _ _ h).trans (fetch_byte_counter s)

/-! ## Simulator: conditional branches and word access -/

theorem same_machine_to_data {s t : SimulatorState} (m : same_machine s t) : same_data s t :=
  ⟨m.registers, m.flags, m.memory, m.sp, m.fp, m.instructions_executed, m.breakpoints,
    m.single_step, m.running, m.halted⟩

theorem same_data_trans {s t u : SimulatorState} (a : same_data s t) (b : same_data t u) :
    same_data s u :=
  ⟨b.registers.trans a.registers, b.flags.trans a.flags, b.memory.trans a.memory,
    b.sp.trans a.sp, b.fp.trans a.fp, b.instructions_executed.trans a.instructions_executed,
    b.breakpoints.trans a.breakpoints, b.single_step.trans a.single_step,
    b.running.trans a.running, b.halted.trans a.halted⟩

theorem same_data_add_cycles (s : SimulatorState) (n : Nat) : same_data s (add_cycles s n) :=
  ⟨rfl, rfl, rfl, rfl, rfl, rfl, rfl, rfl, rfl, rfl⟩

theorem same_data_set_pc (s : SimulatorState) (p : Nat) : same_data s { s with pc := p } :=
  ⟨rfl, rfl, rfl, rfl, rfl, rfl, rfl, rfl, rfl, rfl⟩

theorem same_data_jump (s w : SimulatorState) (m : same_machine s w) (c : Prop)
    [Decidable c] (t q : Nat) :
    same_data s (add_cycles (if c then add_cycles { w with pc := t } 1 else { w with pc := q }) 2) := by
  split <;>
    exact ⟨m.registers, m.flags, m.memory, m.sp, m.fp, m.instructions_executed, m.breakpoints,
      m.single_step, m.running, m.halted⟩

theorem execute_je_spec (s : SimulatorState) (t : Nat) (ht : t < 65536)
    (hpc : s.pc + 1 < MEMORY_SIZE) (hb : bytes_at s.memory s.pc [t % 256, t / 256]) :
    ∃ u, execute_je s = (1, u) ∧
      u.pc = (if s.flags &&& FLAG_ZERO ≠ 0 then t else s.pc + 2) ∧ same_data s u := by
  obtain ⟨b1, b2, -⟩ := hb
  obtain ⟨w, e, p, m⟩ := memory_read_word_spec s s.pc t hpc ht b1 b2
  have hw : (w.pc + 2) % 2 ^ 32 = s.pc + 2 := by
    unfold MEMORY_SIZE at hpc; omega
  simp only [execute_je, e, hw]
  refine ⟨_, rfl, ?_, same_data_jump s w m _ _ _⟩
  rw [← m.flags]
  split <;> rfl

theorem execute_jne_spec (s : SimulatorState) (t : Nat) (ht : t < 65536)
    (hpc : s.pc + 1 < MEMORY_SIZE) (hb : bytes_at s.memory s.pc [t % 256, t / 256]) :
    ∃ u, execute_jne s = (1, u) ∧
      u.pc = (if ¬ (s.flags &&& FLAG_ZERO ≠ 0) then t else s.pc + 2) ∧ same_data s u := by
  obtain ⟨b1, b2, -⟩ := hb
  obtain ⟨w, e, p, m⟩ := memory_read_word_spec s s.pc t hpc ht b1 b2
  have hw : (w.pc + 2) % 2 ^ 32 = s.pc + 2 := by
    unfold MEMORY_SIZE at hpc; omega
  simp only [execute_jne, e, hw]
  refine ⟨_, rfl, ?_, same_data_jump s w m _ _ _⟩
  rw [← m.flags]
  split <;> rfl

theorem bool_flag (x : Nat) : (if x ≠ 0 then true else false) = decide (x ≠ 0) := by
  by_cases h : x ≠ 0 <;> simp [h]

theorem execute_jg_spec (s : SimulatorState) (t : Nat) (ht : t < 65536)
    (hpc : s.pc + 1 < MEMORY_SIZE) (hb : bytes_at s.memory s.pc [t % 256, t / 256]) :
    ∃ u, execute_jg s = (1, u) ∧
      u.pc = (if ¬ (s.flags &&& FLAG_ZERO ≠ 0) ∧
          (s.flags &&& FLAG_NEGATIVE ≠ 0 ↔ s.flags &&& FLAG_OVERFLOW ≠ 0) then t
        else s.pc + 2) ∧ same_data s u := by
  obtain ⟨b1, b2, -⟩ := hb
  obtain ⟨w, e, p, m⟩ := memory_read_word_spec s s.pc t hpc ht b1 b2
  have hw : (w.pc + 2) % 2 ^ 32 = s.pc + 2 := by
    unfold MEMORY_SIZE at hpc; omega
  simp only [execute_jg, e, hw]
  refine ⟨_, rfl, ?_, same_data_jump s w m _ _ _⟩
  rw [← m.flags]
  show (add_cycles (if _ then _ else _) 2).pc = _
  by_cases hz : w.flags &&& FLAG_ZERO ≠ 0 <;> by_cases hn : w.flags &&& FLAG_NEGATIVE ≠ 0 <;>
    by_cases hv : w.flags &&& FLAG_OVERFLOW ≠ 0 <;> simp [hz, hn, hv, add_cycles]

theorem execute_jl_spec (s : SimulatorState) (t : Nat) (ht : t < 65536)
    (hpc : s.pc + 1 < MEMORY_SIZE) (hb : bytes_at s.memory s.pc [t % 256, t / 256]) :
    ∃ u, execute_jl s = (1, u) ∧
      u.pc = (if ¬ (s.flags &&& FLAG_NEGATIVE ≠ 0 ↔ s.flags &&& FLAG_OVERFLOW ≠ 0) then t
        else s.pc + 2) ∧ same_data s u := by
  obtain ⟨b1, b2, -⟩ := hb
  obtain ⟨w, e, p, m⟩ := memory_read_word_spec s s.pc t hpc ht b1 b2
  have hw : (w.pc + 2) % 2 ^ 32 = s.pc + 2 := by
    unfold MEMORY_SIZE at hpc; omega
  simp only [execute_jl, e, hw]
  refine ⟨_, rfl, ?_, same_data_jump s w m _ _ _⟩
  rw [← m.flags]
  show (add_cycles (if _ then _ else _) 2).pc = _
  by_cases hn : w.flags &&& FLAG_NEGATIVE ≠ 0 <;>
    by_cases hv : w.flags &&& FLAG_OVERFLOW ≠ 0 <;> simp [hn, hv, add_cycles]


theorem dispatch (s u : SimulatorState) (op : Nat) (e : fetch_byte s = (op, u)) :
    simulator_execute_instruction s = execute_opcode op u := by
  rw [simulator_execute_instruction_switch, e]

theorem je_step (sim : SimulatorState) (t : Nat) (ht : t < 65536)
    (hpc : sim.pc + 2 < MEMORY_SIZE)
    (hb : bytes_at sim.memory sim.pc [OP_JE, t % 256, t / 256]) :
    ∃ u, simulator_execute_instruction sim = some (1, u) ∧
      u.pc = (if sim.flags &&& FLAG_ZERO ≠ 0 then t
        else sim.pc + 3) ∧ same_data sim u := by
  obtain ⟨w, e, p, m⟩ := fetch_byte_spec sim (by omega)
  obtain ⟨b0, hb1⟩ := hb
  rw [b0] at e
  obtain ⟨u, eu, pu, d⟩ := execute_je_spec w t ht (by omega) (by rw [m.memory, p]; exact hb1)
  refine ⟨u, ?_, ?_, same_data_trans (same_machine_to_data m) d⟩
  · rw [dispatch sim w _ e, ← eu]; rfl
  · rw [pu, m.flags, p]

theorem jne_step (sim : SimulatorState) (t : Nat) (ht : t < 65536)
    (hpc : sim.pc + 2 < MEMORY_SIZE)
    (hb : bytes_at sim.memory sim.pc [OP_JNE, t % 256, t / 256]) :
    ∃ u, simulator_execute_instruction sim = some (1, u) ∧
      u.pc = (if ¬ (sim.flags &&& FLAG_ZERO ≠ 0) then t
        else sim.pc + 3) ∧ same_data sim u := by
  obtain ⟨w, e, p, m⟩ := fetch_byte_spec sim (by omega)
  obtain ⟨b0, hb1⟩ := hb
  rw [b0] at e
  obtain ⟨u, eu, pu, d⟩ := execute_jne_spec w t ht (by omega) (by rw [m.memory, p]; exact hb1)
  refine ⟨u, ?_, ?_, same_data_trans (same_machine_to_data m) d⟩
  · rw [dispatch sim w _ e, ← eu]; rfl
  · rw [pu, m.flags, p]

theorem jg_step (sim : SimulatorState) (t : Nat) (ht : t < 65536)
    (hpc : sim.pc + 2 < MEMORY_SIZE)
    (hb : bytes_at sim.memory sim.pc [OP_JG, t % 256, t / 256]) :
    ∃ u, simulator_execute_instruction sim = some (1, u) ∧
      u.pc = (if ¬ (sim.flags &&& FLAG_ZERO ≠ 0) ∧
          (sim.flags &&& FLAG_NEGATIVE ≠ 0 ↔ sim.flags &&& FLAG_OVERFLOW ≠ 0) then t
        else sim.pc + 3) ∧ same_data sim u := by
  obtain ⟨w, e, p, m⟩ := fetch_byte_spec sim (by omega)
  obtain ⟨b0, hb1⟩ := hb
  rw [b0] at e
  obtain ⟨u, eu, pu, d⟩ := execute_jg_spec w t ht (by omega) (by rw [m.memory, p]; exact hb1)
  refine ⟨u, ?_, ?_, same_data_trans (same_machine_to_data m) d⟩
  · rw [dispatch sim w _ e, ← eu]; rfl
  · rw [pu, m.flags, p]

theorem jl_step (sim : SimulatorState) (t : Nat) (ht : t < 65536)
    (hpc : sim.pc + 2 < MEMORY_SIZE)
    (hb : bytes_at sim.memory sim.pc [OP_JL, t % 256, t / 256]) :
    ∃ u, simulator_execute_instruction sim = some (1, u) ∧
      u.pc = (if ¬ (sim.flags &&& FLAG_NEGATIVE ≠ 0 ↔ sim.flags &&& FLAG_OVERFLOW ≠ 0) then t
        else sim.pc + 3) ∧ same_data sim u := by
  obtain ⟨w, e, p, m⟩ := fetch_byte_spec sim (by omega)
  obtain ⟨b0, hb1⟩ := hb
  rw [b0] at e
  obtain ⟨u, eu, pu, d⟩ := execute_jl_spec w t ht (by omega) (by rw [m.memory, p]; exact hb1)
  refine ⟨u, ?_, ?_, same_data_trans (same_machine_to_data m) d⟩
  · rw [dispatch sim w _ e, ← eu]; rfl
  · rw [pu, m.flags, p]

/-- C12: a JE, JNE, JG or JL whose opcode byte is at address `p`, followed by the
little-endian bytes of the 16-bit target `t`, executes with success and sets PC
to `t` when its flag predicate holds (JE: Z set; JNE: Z clear; JG: Z clear and
N = V; JL: N ≠ V) and to `p + 3` otherwise; the registers, the flag word, SP and
the memory are unchanged. -/
theorem conditional_branches (sim : SimulatorState) (t : Nat) (ht : t < 65536)
    (hpc : sim.pc + 2 < MEMORY_SIZE) :
    (bytes_at sim.memory sim.pc [OP_JE, t % 256, t / 256] →
      ∃ u, simulator_execute_instruction sim = some (1, u) ∧
        u.pc = (if sim.flags &&& FLAG_ZERO ≠ 0 then t else sim.pc + 3) ∧
        u.registers = sim.registers ∧ u.flags = sim.flags ∧ u.sp = sim.sp ∧
        u.memory = sim.memory) ∧
    (bytes_at sim.memory sim.pc [OP_JNE, t % 256, t / 256] →
      ∃ u, simulator_execute_instruction sim = some (1, u) ∧
        u.pc = (if ¬ (sim.flags &&& FLAG_ZERO ≠ 0) then t else sim.pc + 3) ∧
        u.registers = sim.registers ∧ u.flags = sim.flags ∧ u.sp = sim.sp ∧
        u.memory = sim.memory) ∧
    (bytes_at sim.memory sim.pc [OP_JG, t % 256, t / 256] →
      ∃ u, simulator_execute_instruction sim = some (1, u) ∧
        u.pc = (if ¬ (sim.flags &&& FLAG_ZERO ≠ 0) ∧
            (sim.flags &&& FLAG_NEGATIVE ≠ 0 ↔ sim.flags &&& FLAG_OVERFLOW ≠ 0) then t
          else sim.pc + 3) ∧
        u.registers = sim.registers ∧ u.flags = sim.flags ∧ u.sp = sim.sp ∧
        u.memory = sim.memory) ∧
    (bytes_at sim.memory sim.pc [OP_JL, t % 256, t / 256] →
      ∃ u, simulator_execute_instruction sim = some (1, u) ∧
        u.pc = (if ¬ (sim.flags &&& FLAG_NEGATIVE ≠ 0 ↔ sim.flags &&& FLAG_OVERFLOW ≠ 0) then t
          else sim.pc + 3) ∧
        u.registers = sim.registers ∧ u.flags = sim.flags ∧ u.sp = sim.sp ∧
        u.memory = sim.memory) := by
  refine ⟨?_, ?_, ?_, ?_⟩
  · intro hb
    obtain ⟨u, e, p, d⟩ := je_step sim t ht hpc hb
    exact ⟨u, e, p, d.registers, d.flags, d.sp, d.memory⟩
  · intro hb
    obtain ⟨u, e, p, d⟩ := jne_step sim t ht hpc hb
    exact ⟨u, e, p, d.registers, d.flags, d.sp, d.memory⟩
  · intro hb
    obtain ⟨u, e, p, d⟩ := jg_step sim t ht hpc hb
    exact ⟨u, e, p, d.registers, d.flags, d.sp, d.memory⟩
  · intro hb
    obtain ⟨u, e, p, d⟩ := jl_step sim t ht hpc hb
    exact ⟨u, e, p, d.registers, d.flags, d.sp, d.memory⟩

/-- Witness of `conditional_branches`: the JE of `JE end` / `HALT` / `end: HALT`
with the ZERO flag set goes to address 4. -/
theorem conditional_branches_witness :
    ∃ u, simulator_execute_instruction
        (set_flags (loaded ["JE end", "HALT", "end: HALT"]) FLAG_ZERO) = some (1, u) ∧
      u.pc = (if (set_flags (loaded ["JE end", "HALT", "end: HALT"]) FLAG_ZERO).flags
          &&& FLAG_ZERO ≠ 0 then 4
        else (set_flags (loaded ["JE end", "HALT", "end: HALT"]) FLAG_ZERO).pc + 3) ∧
      u.registers = (set_flags (loaded ["JE end", "HALT", "end: HALT"]) FLAG_ZERO).registers ∧
      u.flags = (set_flags (loaded ["JE end", "HALT", "end: HALT"]) FLAG_ZERO).flags ∧
      u.sp = (set_flags (loaded ["JE end", "HALT", "end: HALT"]) FLAG_ZERO).sp ∧
      u.memory = (set_flags (loaded ["JE end", "HALT", "end: HALT"]) FLAG_ZERO).memory :=
  (conditional_branches (set_flags (loaded ["JE end", "HALT", "end: HALT"]) FLAG_ZERO) 4
    (by decide) (by decide)).1 (by decide)

theorem memory_write_word_spec (sim : SimulatorState) (a v : Nat) (ha : a < MEMORY_SIZE - 1)
    (hv : v < 65536) :
    (memory_write_word sim a v).memory a = v &&& 0xFF ∧
    (memory_write_word sim a v).memory (a + 1) = v >>> 8 ∧
    (memory_read_word (memory_write_word sim a v) a).1 = v ∧
    ∀ x, x ≠ a → x ≠ a + 1 → (memory_write_word sim a v).memory x = sim.memory x := by
  have hb : ¬ (a ≥ MEMORY_SIZE - 1) := by omega
  have hmod : v % 2 ^ 16 = v := Nat.mod_eq_of_lt hv
  have hne : a ≠ a + 1 := by omega
  have hlo : v &&& 0xFF = v % 256 := and_0xFF v
  have hhi : v / 256 &&& 0xFF = v / 256 := by
    rw [and_0xFF]; omega
  have hsh : v >>> 8 = v / 256 := by rw [Nat.shiftRight_eq_div_pow]
  simp only [memory_write_word, memory_read_word, hb, if_false, hmod, if_true, if_neg hne,
    hlo, hhi, hsh]
  refine ⟨trivial, trivial, or_shift_bytes v hv, ?_⟩
  intro x h1 h2
  simp only [if_neg h1, if_neg h2]

/-- C20: for every address `a < 16 MiB - 1` and every 16-bit value `v`, after
`memory_write_word(a, v)` the byte at `a` is `v & 0xFF`, the byte at `a + 1` is
`v >> 8`, `memory_read_word(a)` returns `v`, and every other byte of the memory
is unchanged. -/
theorem memory_word_roundtrip (sim : SimulatorState) (a v : Nat) (ha : a < MEMORY_SIZE - 1)
    (hv : v < 65536) :
    (memory_write_word sim a v).memory a = v &&& 0xFF ∧
    (memory_write_word sim a v).memory (a + 1) = v >>> 8 ∧
    (memory_read_word (memory_write_word sim a v) a).1 = v ∧
    ∀ x, x ≠ a → x ≠ a + 1 → (memory_write_word sim a v).memory x = sim.memory x :=
  memory_write_word_spec sim a v ha hv

/-- Witness of `memory_word_roundtrip`: the word 0x1234 written at address 0x3FFD
of a fresh simulator. -/
theorem memory_word_roundtrip_witness :
    (memory_write_word (simulator_create (fun _ => 0)) 0x3FFD 0x1234).memory 0x3FFD
      = 0x1234 &&& 0xFF ∧
    (memory_write_word (simulator_create (fun _ => 0)) 0x3FFD 0x1234).memory (0x3FFD + 1)
      = 0x1234 >>> 8 ∧
    (memory_read_word (memory_write_word (simulator_create (fun _ => 0)) 0x3FFD 0x1234)
      0x3FFD).1 = 0x1234 ∧
    ∀ x, x ≠ 0x3FFD → x ≠ 0x3FFD + 1 →
      (memory_write_word (simulator_create (fun _ => 0)) 0x3FFD 0x1234).memory x
        = (simulator_create (fun _ => 0)).memory x :=
  memory_word_roundtrip (simulator_create (fun _ => 0)) 0x3FFD 0x1234 (by decide) (by decide)

/-! ## Simulator: CMP -/

theorem same_but_flags_update (w t : SimulatorState) (m : same_machine w t) (r p n : Nat) :
    same_but_flags w (add_cycles (update_flags { t with pc := p } r) n) :=
  ⟨m.registers, m.memory, m.sp, m.fp, m.instructions_executed, m.breakpoints, m.single_step,
    m.running, m.halted⟩

theorem same_machine_trans {s t u : SimulatorState} (a : same_machine s t)
    (b : same_machine t u) : same_machine s u :=
  ⟨b.registers.trans a.registers, b.flags.trans a.flags, b.memory.trans a.memory,
    b.sp.trans a.sp, b.fp.trans a.fp, b.instructions_executed.trans a.instructions_executed,
    b.clock_cycles.trans a.clock_cycles,
    b.breakpoints.trans a.breakpoints, b.single_step.trans a.single_step,
    b.running.trans a.running, b.halted.trans a.halted⟩

theorem switch_cmp_register (w : SimulatorState) (r1 r2 : Nat) (h1 : r1 < 32) (h2 : r2 < 32)
    (hpc : w.pc + 2 < MEMORY_SIZE) (hb : bytes_at w.memory w.pc [r1, 0, r2]) :
    ∃ t, switch_cmp w = some (1, t) ∧ t.pc = w.pc + 3 ∧
      t.flags = (update_flags w ((w.registers r1 + 2 ^ 32 - w.registers r2) % 2 ^ 32)).flags ∧
      same_but_flags w t := by
  obtain ⟨b1, b2, b3, -⟩ := hb
  obtain ⟨t1, e1, p1, m1⟩ := fetch_byte_spec w (by omega)
  obtain ⟨t2, e2, p2, m2⟩ := fetch_byte_spec t1 (by omega)
  obtain ⟨t3, e3, p3, m3⟩ := fetch_byte_spec t2 (by omega)
  have c2 : t1.memory t1.pc = 0 := by rw [m1.memory, p1]; exact b2
  have c3 : t2.memory t2.pc = r2 := by rw [m2.memory, m1.memory, p2, p1]; exact b3
  have hr2 : t2.registers = w.registers := by rw [m2.registers, m1.registers]
  have hr3 : t3.registers = w.registers := by rw [m3.registers, hr2]
  have hf3 : t3.flags = w.flags := by rw [m3.flags, m2.flags, m1.flags]
  simp only [switch_cmp, e1, b1, e2, c2, e3, c3, reg_read, NUM_REGISTERS, h1, h2, hr2, hr3,
    if_true, Option.bind_eq_bind, Option.pure_def, Option.some_bind]
  refine ⟨_, rfl, ?_, ?_, ?_⟩
  · simp only [add_cycles, update_flags, p3, p2, p1]
  · simp only [add_cycles]
    exact update_flags_flags_congr w t3 _ hf3
  · exact ⟨hr3, by simp only [add_cycles, update_flags, m3.memory, m2.memory, m1.memory],
      by simp only [add_cycles, update_flags, m3.sp, m2.sp, m1.sp],
      by simp only [add_cycles, update_flags, m3.fp, m2.fp, m1.fp],
      by simp only [add_cycles, update_flags, m3.instructions_executed,
        m2.instructions_executed, m1.instructions_executed],
      by simp only [add_cycles, update_flags, m3.breakpoints, m2.breakpoints, m1.breakpoints],
      by simp only [add_cycles, update_flags, m3.single_step, m2.single_step, m1.single_step],
      by simp only [add_cycles, update_flags, m3.running, m2.running, m1.running],
      by simp only [add_cycles, update_flags, m3.halted, m2.halted, m1.halted]⟩

theorem switch_cmp_immediate (w : SimulatorState) (r1 n : Nat) (h1 : r1 < 32) (hn : n < 65536)
    (hpc : w.pc + 3 < MEMORY_SIZE) (hb : bytes_at w.memory w.pc [r1, 1, n % 256, n / 256]) :
    ∃ t, switch_cmp w = some (1, t) ∧ t.pc = w.pc + 4 ∧
      t.flags = (update_flags w ((w.registers r1 + 2 ^ 32 - n) % 2 ^ 32)).flags ∧
      same_but_flags w t := by
  obtain ⟨b1, b2, b3, b4, -⟩ := hb
  obtain ⟨t1, e1, p1, m1⟩ := fetch_byte_spec w (by omega)
  obtain ⟨t2, e2, p2, m2⟩ := fetch_byte_spec t1 (by omega)
  have hm2 : t2.memory = w.memory := by rw [m2.memory, m1.memory]
  obtain ⟨t3, e3, p3, m3⟩ := memory_read_word_spec t2 t2.pc n (by omega) hn
    (by rw [hm2, p2, p1]; exact b3) (by rw [hm2, p2, p1]; exact b4)
  have c2 : t1.memory t1.pc = 1 := by rw [m1.memory, p1]; exact b2
  have hr2 : t2.registers = w.registers := by rw [m2.registers, m1.registers]
  have hf3 : t3.flags = w.flags := by rw [m3.flags, m2.flags, m1.flags]
  have hw : (t3.pc + 2) % 2 ^ 32 = w.pc + 4 := by
    unfold MEMORY_SIZE at hpc; omega
  simp only [switch_cmp, e1, b1, e2, c2, e3, reg_read, NUM_REGISTERS, h1, hr2, hw,
    if_true, Option.bind_eq_bind, Option.pure_def, Option.some_bind, one_ne_zero, if_false]
  refine ⟨_, rfl, rfl, ?_, ?_⟩
  · simp only [add_cycles]
    exact update_flags_flags_congr w _ _ hf3
  · exact same_but_flags_update w t3 (same_machine_trans (same_machine_trans m1 m2) m3) _ _ _

theorem sub_flags (s : SimulatorState) (a x : Nat) (ha : a < 2 ^ 32) (hx : x < 2 ^ 32) :
    ((update_flags s ((a + 2 ^ 32 - x) % 2 ^ 32)).flags &&& FLAG_ZERO ≠ 0 ↔ a = x) ∧
    ((update_flags s ((a + 2 ^ 32 - x) % 2 ^ 32)).flags &&& FLAG_NEGATIVE ≠ 0 ↔
      ((a + 2 ^ 32 - x) % 2 ^ 32).testBit 31 = true) := by
  constructor
  · have hz := update_flags_testBit s ((a + 2 ^ 32 - x) % 2 ^ 32) 0 (by decide)
    simp only [if_true] at hz
    rw [show FLAG_ZERO = 2 ^ 0 from rfl, and_two_pow_ne_zero, hz, decide_eq_true_eq]
    omega
  · have hn := update_flags_testBit s ((a + 2 ^ 32 - x) % 2 ^ 32) 3 (by decide)
    simp only [if_true, OfNat.ofNat_ne_zero, if_false] at hn
    rw [show FLAG_NEGATIVE = 2 ^ 3 from rfl, and_two_pow_ne_zero, hn]

/-- C11: for the register value `a` of `Ra` and the comparand `x` (the value of
a second register, bytes `40 a 00 b`, or a 16-bit immediate zero-extended, bytes
`40 a 01 lo hi`), executing `CMP Ra, x` succeeds, leaves every register and the
memory unchanged, leaves ZERO set exactly when `a = x` and NEGATIVE set exactly
when bit 31 of `(a - x) mod 2^32` is 1, and a JE placed right after it is taken
exactly when `a = x`. -/
theorem cmp_semantics (sim : SimulatorState) (r1 x len : Nat) (h1 : r1 < 32)
    (ha : sim.registers r1 < 2 ^ 32) (hpc : sim.pc + len ≤ MEMORY_SIZE)
    (hb : (∃ r2, r2 < 32 ∧ x = sim.registers r2 ∧ x < 2 ^ 32 ∧ len = 4 ∧
            bytes_at sim.memory sim.pc [OP_CMP, r1, 0, r2]) ∨
          (x < 65536 ∧ len = 5 ∧ bytes_at sim.memory sim.pc [OP_CMP, r1, 1, x % 256, x / 256])) :
    ∃ t, simulator_execute_instruction sim = some (1, t) ∧ t.pc = sim.pc + len ∧
      t.registers = sim.registers ∧ t.memory = sim.memory ∧
      (t.flags &&& FLAG_ZERO ≠ 0 ↔ sim.registers r1 = x) ∧
      (t.flags &&& FLAG_NEGATIVE ≠ 0 ↔
        ((sim.registers r1 + 2 ^ 32 - x) % 2 ^ 32).testBit 31 = true) ∧
      ∀ tgt, tgt < 65536 → t.pc + 2 < MEMORY_SIZE →
        bytes_at t.memory t.pc [OP_JE, tgt % 256, tgt / 256] →
        ∃ u, simulator_execute_instruction t = some (1, u) ∧
          u.pc = (if sim.registers r1 = x then tgt else t.pc + 3) := by
  obtain ⟨w, e, p, m⟩ := fetch_byte_spec sim (by rcases hb with ⟨_, _, _, _, h, _⟩ | ⟨_, h, _⟩ <;> omega)
  have key : ∃ t, switch_cmp w = some (1, t) ∧ t.pc = sim.pc + len ∧
      t.flags = (update_flags sim ((sim.registers r1 + 2 ^ 32 - x) % 2 ^ 32)).flags ∧
      same_but_flags w t ∧ x < 2 ^ 32 ∧ sim.memory sim.pc = OP_CMP := by
    rcases hb with ⟨r2, h2, hx, hx32, hl, b0, hb1⟩ | ⟨hx, hl, b0, hb1⟩
    · obtain ⟨t, et, pt, ft, d⟩ := switch_cmp_register w r1 r2 h1 h2 (by omega)
        (by rw [m.memory, p]; exact hb1)
      refine ⟨t, et, by omega, ?_, d, hx32, b0⟩
      rw [ft, m.registers, hx]
      exact update_flags_flags_congr sim w _ m.flags
    · obtain ⟨t, et, pt, ft, d⟩ := switch_cmp_immediate w r1 x h1 hx (by omega)
        (by rw [m.memory, p]; exact hb1)
      refine ⟨t, et, by omega, ?_, d, by omega, b0⟩
      rw [ft, m.registers]
      exact update_flags_flags_congr sim w _ m.flags
  obtain ⟨t, et, pt, ft, d, hx32, b0⟩ := key
  rw [b0] at e
  obtain ⟨fz, fn⟩ := sub_flags sim (sim.registers r1) x ha hx32
  rw [← ft] at fz fn
  refine ⟨t, ?_, pt, d.registers.trans m.registers, d.memory.trans m.memory, fz, fn, ?_⟩
  · rw [dispatch sim w _ e, ← et]; rfl
  · intro tgt htgt hpc2 hje
    obtain ⟨u, eu, pu, -⟩ := je_step t tgt htgt hpc2 hje
    refine ⟨u, eu, ?_⟩
    rw [pu]
    by_cases c : sim.registers r1 = x
    · rw [if_pos c, if_pos (fz.mpr c)]
    · rw [if_neg c, if_neg (fun h => c (fz.mp h))]

/-- Witness of `cmp_semantics`: the `CMP R0, #0` of scenario 4 with R0 = 0. -/
theorem cmp_semantics_witness :
    ∃ t, simulator_execute_instruction
        (loaded ["CMP R0, #0", "JE end", "MOV R0, #1", "end: HALT"]) = some (1, t) ∧
      t.pc = (loaded ["CMP R0, #0", "JE end", "MOV R0, #1", "end: HALT"]).pc + 5 ∧
      t.registers = (loaded ["CMP R0, #0", "JE end", "MOV R0, #1", "end: HALT"]).registers ∧
      t.memory = (loaded ["CMP R0, #0", "JE end", "MOV R0, #1", "end: HALT"]).memory ∧
      (t.flags &&& FLAG_ZERO ≠ 0 ↔
        (loaded ["CMP R0, #0", "JE end", "MOV R0, #1", "end: HALT"]).registers 0 = 0) ∧
      (t.flags &&& FLAG_NEGATIVE ≠ 0 ↔
        (((loaded ["CMP R0, #0", "JE end", "MOV R0, #1", "end: HALT"]).registers 0
          + 2 ^ 32 - 0) % 2 ^ 32).testBit 31 = true) ∧
      ∀ tgt, tgt < 65536 → t.pc + 2 < MEMORY_SIZE →
        bytes_at t.memory t.pc [OP_JE, tgt % 256, tgt / 256] →
        ∃ u, simulator_execute_instruction t = some (1, u) ∧
          u.pc = (if (loaded ["CMP R0, #0", "JE end", "MOV R0, #1", "end: HALT"]).registers 0
              = 0 then tgt else t.pc + 3) :=
  cmp_semantics (loaded ["CMP R0, #0", "JE end", "MOV R0, #1", "end: HALT"]) 0 0 5
    (by decide) (by decide) (by decide) (Or.inr (by decide))

/-! ## Simulator: CALL and RET -/

theorem memory_write_word_fields (s : SimulatorState) (a v : Nat) :
    (memory_write_word s a v).registers = s.registers ∧
    (memory_write_word s a v).flags = s.flags ∧
    (memory_write_word s a v).sp = s.sp ∧
    (memory_write_word s a v).pc = s.pc := by
  unfold memory_write_word
  split <;> exact ⟨rfl, rfl, rfl, rfl⟩

theorem execute_call_spec (w : SimulatorState) (t : Nat) (ht : t < 65536)
    (hpc : w.pc + 1 < MEMORY_SIZE) (h2 : 2 ≤ w.sp) (hs : w.sp ≤ MEMORY_SIZE)
    (hb : bytes_at w.memory w.pc [t % 256, t / 256]) :
    ∃ u, execute_call w = (1, u) ∧ u.pc = t ∧ u.sp = w.sp - 2 ∧
      u.memory (w.sp - 2) = (w.pc + 2) % 65536 % 256 ∧
      u.memory (w.sp - 1) = (w.pc + 2) % 65536 / 256 ∧
      (∀ x, x ≠ w.sp - 2 → x ≠ w.sp - 1 → u.memory x = w.memory x) ∧
      u.registers = w.registers ∧ u.flags = w.flags := by
  obtain ⟨b1, b2, -⟩ := hb
  obtain ⟨w1, e, p, m⟩ := memory_read_word_spec w w.pc t hpc ht b1 b2
  have hsp : (w1.sp + 2 ^ 32 - 2) % 2 ^ 32 = w.sp - 2 := by
    rw [m.sp]; unfold MEMORY_SIZE at hs; omega
  have hlt : w.sp - 2 < MEMORY_SIZE - 1 := by unfold MEMORY_SIZE at *; omega
  have h1 : w.sp - 2 + 1 = w.sp - 1 := by omega
  obtain ⟨k0, k1, -, k3⟩ := memory_write_word_spec { w1 with sp := w.sp - 2 } (w.sp - 2)
    ((w1.pc + 2) % 2 ^ 16) hlt (Nat.mod_lt _ (by decide))
  obtain ⟨f1, f2, f3, -⟩ := memory_write_word_fields { w1 with sp := w.sp - 2 } (w.sp - 2)
    ((w1.pc + 2) % 2 ^ 16)
  rw [h1] at k1
  simp only [execute_call, e, hsp]
  refine ⟨_, rfl, rfl, f3, k0.trans (by rw [p, and_0xFF]; rfl),
    k1.trans (by rw [p, Nat.shiftRight_eq_div_pow]; rfl), ?_, f1.trans m.registers,
    f2.trans m.flags⟩
  intro x hx0 hx1
  rw [← h1] at hx1
  exact (k3 x hx0 hx1).trans (congrFun m.memory x)

theorem execute_ret_spec (v : SimulatorState) (n : Nat) (hn : n < 65536)
    (hsp : v.sp + 1 < MEMORY_SIZE) (hb : bytes_at v.memory v.sp [n % 256, n / 256]) :
    ∃ u, execute_ret v = (1, u) ∧ u.pc = n ∧ u.sp = v.sp + 2 ∧
      u.registers = v.registers ∧ u.flags = v.flags ∧ u.memory = v.memory := by
  obtain ⟨b1, b2, -⟩ := hb
  obtain ⟨w1, e, p, m⟩ := memory_read_word_spec v v.sp n hsp hn b1 b2
  have h : (w1.sp + 2) % 2 ^ 32 = v.sp + 2 := by
    rw [m.sp]; unfold MEMORY_SIZE at hsp; omega
  simp only [execute_ret, e, h]
  exact ⟨_, rfl, rfl, rfl, m.registers, m.flags, m.memory⟩

theorem call_step (sim : SimulatorState) (t : Nat) (ht : t < 65536)
    (hpc : sim.pc + 2 < MEMORY_SIZE) (h2 : 2 ≤ sim.sp) (hs : sim.sp ≤ MEMORY_SIZE)
    (hb : bytes_at sim.memory sim.pc [OP_CALL, t % 256, t / 256]) :
    ∃ u, simulator_execute_instruction sim = some (1, u) ∧ u.sp = sim.sp - 2 ∧
      u.memory (sim.sp - 2) = (sim.pc + 3) % 65536 % 256 ∧
      u.memory (sim.sp - 1) = (sim.pc + 3) % 65536 / 256 ∧
      u.pc = t ∧
      (∀ x, x ≠ sim.sp - 2 → x ≠ sim.sp - 1 → u.memory x = sim.memory x) ∧
      u.registers = sim.registers ∧ u.flags = sim.flags := by
  obtain ⟨b0, hb1⟩ := hb
  obtain ⟨w, e, p, m⟩ := fetch_byte_spec sim (by omega)
  rw [b0] at e
  obtain ⟨u, eu, pu, su, k0, k1, k3, ru, fu⟩ := execute_call_spec w t ht (by omega)
    (by rw [m.sp]; exact h2) (by rw [m.sp]; exact hs) (by rw [m.memory, p]; exact hb1)
  rw [m.sp] at su k0 k1 k3
  rw [p, Nat.add_assoc] at k0 k1
  refine ⟨u, ?_, su, k0, k1, pu, ?_, ru.trans m.registers, fu.trans m.flags⟩
  · rw [dispatch sim w _ e, ← eu]; rfl
  · intro x h0 h1
    rw [k3 x h0 h1, m.memory]

theorem ret_step (v : SimulatorState) (n : Nat) (hn : n < 65536) (hpc : v.pc < MEMORY_SIZE)
    (hop : v.memory v.pc = OP_RET)
    (hsp : v.sp + 1 < MEMORY_SIZE) (hb : bytes_at v.memory v.sp [n % 256, n / 256]) :
    ∃ u, simulator_execute_instruction v = some (1, u) ∧ u.pc = n ∧ u.sp = v.sp + 2 ∧
      u.registers = v.registers ∧ u.flags = v.flags ∧ u.memory = v.memory := by
  obtain ⟨w, e, p, m⟩ := fetch_byte_spec v hpc
  rw [hop] at e
  obtain ⟨u, eu, pu, su, ru, fu, mu⟩ := execute_ret_spec w n hn (by rw [m.sp]; exact hsp)
    (by rw [m.memory, m.sp]; exact hb)
  refine ⟨u, ?_, pu, su.trans (by rw [m.sp]), ru.trans m.registers, fu.trans m.flags,
    mu.trans m.memory⟩
  rw [dispatch v w _ e, ← eu]; rfl

/-! ## Simulator: the run loop -/

theorem execute_opcode_halt (w : SimulatorState) :
    execute_opcode OP_HALT w = some (1, { w with halted := true }) := rfl

theorem halt_step (sim : SimulatorState) (hpc : sim.pc < MEMORY_SIZE)
    (hop : sim.memory sim.pc = OP_HALT) :
    ∃ t, simulator_execute_instruction sim = some (1, t) ∧ t.halted = true ∧
      t.registers = sim.registers ∧ t.flags = sim.flags ∧ t.sp = sim.sp ∧
      t.memory = sim.memory ∧ t.instructions_executed = sim.instructions_executed := by
  obtain ⟨w, e, p, m⟩ := fetch_byte_spec sim hpc
  rw [hop] at e
  refine ⟨{ w with halted := true }, ?_, rfl, m.registers, m.flags, m.sp, m.memory,
    m.instructions_executed⟩
  rw [dispatch sim w _ e, execute_opcode_halt]

theorem jmp_step (sim : SimulatorState) (t : Nat) (ht : t < 65536)
    (hpc : sim.pc + 2 < MEMORY_SIZE)
    (hb : bytes_at sim.memory sim.pc [OP_JMP, t % 256, t / 256]) :
    ∃ u, simulator_execute_instruction sim = some (1, u) ∧ u.pc = t ∧ same_data sim u := by
  obtain ⟨b0, b1, b2, -⟩ := hb
  obtain ⟨w, e, p, m⟩ := fetch_byte_spec sim (by omega)
  rw [b0] at e
  obtain ⟨w1, e1, p1, m1⟩ := memory_read_word_spec w w.pc t (by omega) ht
    (by rw [m.memory, p]; exact b1) (by rw [m.memory, p]; exact b2)
  refine ⟨add_cycles { w1 with pc := t } 3, ?_, rfl, ?_⟩
  · rw [dispatch sim w _ e]
    show some (execute_jmp w) = _
    simp only [execute_jmp, e1]
  · exact same_data_trans (same_machine_to_data (same_machine_trans m m1))
      (same_data_trans (same_data_set_pc w1 t) (same_data_add_cycles _ 3))

theorem iteration_halted (stdin : List Nat) (sim t : SimulatorState)
    (hbp : sim.breakpoints.any (fun b => sim.pc == b) = false)
    (e : simulator_execute_instruction sim = some (1, t)) (hh : t.halted = true) :
    simulator_run_iteration stdin sim = LoopStep.stop 1
      { t with instructions_executed := (t.instructions_executed + 1) % 2 ^ 64 } := by
  simp only [simulator_run_iteration, hbp, e, hh, if_true, Bool.false_eq_true, if_false,
    one_ne_zero]

theorem iteration_continues (stdin : List Nat) (sim t : SimulatorState)
    (hbp : sim.breakpoints.any (fun b => sim.pc == b) = false)
    (e : simulator_execute_instruction sim = some (1, t)) (hh : t.halted = false)
    (hs : t.single_step = false) :
    simulator_run_iteration stdin sim =
      if (t.instructions_executed + 1) % 2 ^ 64 > 1000000 then
        LoopStep.stop 1 { t with instructions_executed := (t.instructions_executed + 1) % 2 ^ 64 }
      else
        LoopStep.again stdin
          { t with instructions_executed := (t.instructions_executed + 1) % 2 ^ 64 } := by
  simp only [simulator_run_iteration, hbp, e, hh, hs, if_true, Bool.false_eq_true, if_false,
    one_ne_zero, false_and]

theorem iteration_again (stdin stdin2 : List Nat) (sim sim2 : SimulatorState)
    (h : simulator_run_iteration stdin sim = LoopStep.again stdin2 sim2) :
    sim2.instructions_executed = (sim.instructions_executed + 1) % 2 ^ 64 ∧
    sim2.instructions_executed ≤ 1000000 := by
  unfold simulator_run_iteration at h
  split at h
  · exact LoopStep.noConfusion h
  · split at h
    · exact LoopStep.noConfusion h
    · rename_i ret t e
      have k := simulator_execute_instruction_counter sim t ret e
      split at h
      · exact LoopStep.noConfusion h
      · simp only at h
        split at h
        · exact LoopStep.noConfusion h
        · split at h
          · exact LoopStep.noConfusion h
          · split at h
            · exact LoopStep.noConfusion h
            · rename_i hle
              simp only [LoopStep.again.injEq] at h
              obtain ⟨-, rfl⟩ := h
              simp only [gt_iff_lt, not_lt] at hle
              exact ⟨by rw [k], hle⟩

/-- C15, as stated, fails: in the image of `JMP far` / `sub: RET` / `.org 0xFFFD` /
`far: CALL sub` the CALL is at address `0xFFFD`; the RET that follows it (with
the stack untouched in between) restores SP to `0x3FFF` but sets PC to 0, not to
`0xFFFD + 3`. -/
theorem call_ret_high_address :
    (assemble_source ["JMP far", "sub: RET", ".org 0xFFFD", "far: CALL sub"]).errors = 0 ∧
    (run_steps 1 (loaded ["JMP far", "sub: RET", ".org 0xFFFD", "far: CALL sub"])).map
      (fun s => (s.pc, s.memory s.pc, s.sp)) = some (0xFFFD, OP_CALL, 0x3FFF) ∧
    (run_steps 2 (loaded ["JMP far", "sub: RET", ".org 0xFFFD", "far: CALL sub"])).map
      (fun s => (s.pc, s.memory s.pc, s.sp)) = some (3, OP_RET, 0x3FFD) ∧
    (run_steps 3 (loaded ["JMP far", "sub: RET", ".org 0xFFFD", "far: CALL sub"])).map
      (fun s => (s.pc, s.sp, decide (s.pc = 0xFFFD + 3))) = some (0, 0x3FFF, false) := by
  decide

/-- C15, amended: for a CALL at an address `p` with `p + 3 < 2^16` (the return
address is pushed as a 16-bit word) and a stack pointer `s` with `2 ≤ s ≤ 16 MiB`:
in every later state whose SP and two pushed stack bytes are those left by the
CALL, a RET succeeds, sets PC to `p + 3` and restores SP to `s`. -/
theorem call_then_ret (sim : SimulatorState) (t : Nat) (ht : t < 65536)
    (hp : sim.pc + 3 < 65536) (h2 : 2 ≤ sim.sp) (hs : sim.sp ≤ MEMORY_SIZE)
    (hb : bytes_at sim.memory sim.pc [OP_CALL, t % 256, t / 256]) :
    ∃ u, simulator_execute_instruction sim = some (1, u) ∧ u.pc = t ∧
      ∀ v : SimulatorState, v.sp = u.sp → v.memory u.sp = u.memory u.sp →
        v.memory (u.sp + 1) = u.memory (u.sp + 1) →
        v.pc < MEMORY_SIZE → v.memory v.pc = OP_RET →
        ∃ w, simulator_execute_instruction v = some (1, w) ∧ w.pc = sim.pc + 3 ∧
          w.sp = sim.sp := by
  obtain ⟨u, eu, su, k0, k1, pu, -, -, -⟩ := call_step sim t ht
    (by unfold MEMORY_SIZE; omega) h2 hs hb
  refine ⟨u, eu, pu, ?_⟩
  intro v hv0 hv1 hv2 hvpc hop
  have h1 : sim.sp - 2 + 1 = sim.sp - 1 := by omega
  rw [su] at hv0 hv1 hv2
  rw [h1] at hv2
  have hmod : (sim.pc + 3) % 65536 = sim.pc + 3 := Nat.mod_eq_of_lt hp
  rw [hmod] at k0 k1
  obtain ⟨w, ew, pw, sw, -⟩ := ret_step v (sim.pc + 3) hp hvpc hop
    (by rw [hv0]; unfold MEMORY_SIZE at *; omega)
    (by rw [hv0]; exact ⟨hv1.trans k0, by rw [h1]; exact hv2.trans k1, trivial⟩)
  refine ⟨w, ew, pw, ?_⟩
  rw [sw, hv0]; omega

/-- Witness of `call_then_ret`: the CALL of scenario 6. -/
theorem call_then_ret_witness :
    ∃ u, simulator_execute_instruction
        (loaded ["CALL sub", "HALT", "sub: MOV R0, #42", "RET"]) = some (1, u) ∧ u.pc = 4 ∧
      ∀ v : SimulatorState, v.sp = u.sp → v.memory u.sp = u.memory u.sp →
        v.memory (u.sp + 1) = u.memory (u.sp + 1) →
        v.pc < MEMORY_SIZE → v.memory v.pc = OP_RET →
        ∃ w, simulator_execute_instruction v = some (1, w) ∧
          w.pc = (loaded ["CALL sub", "HALT", "sub: MOV R0, #42", "RET"]).pc + 3 ∧
          w.sp = (loaded ["CALL sub", "HALT", "sub: MOV R0, #42", "RET"]).sp :=
  call_then_ret (loaded ["CALL sub", "HALT", "sub: MOV R0, #42", "RET"]) 4
    (by decide) (by decide) (by decide) (by decide) (by decide)

/-- C13: the sources `JGE end` / `HALT` / `end: HALT` and `JLE end` / `HALT` /
`end: HALT` assemble without error to `56 04 00 70 70` and `58 04 00 70 70`; in
the fresh simulator (all flags clear, so N = V) executing the JGE, and with ZERO
set executing the JLE, returns 0 instead of going to address 4, while the
sibling JG of `JG end` / `HALT` / `end: HALT` succeeds. -/
theorem jge_jle_rejected :
    (assemble_source ["JGE end", "HALT", "end: HALT"]).errors = 0 ∧
    (List.range 5).map (assemble_source ["JGE end", "HALT", "end: HALT"]).memory
      = [0x56, 4, 0, 0x70, 0x70] ∧
    (simulator_execute_instruction (loaded ["JGE end", "HALT", "end: HALT"])).map
      (fun r => r.1) = some 0 ∧
    (assemble_source ["JLE end", "HALT", "end: HALT"]).errors = 0 ∧
    (List.range 5).map (assemble_source ["JLE end", "HALT", "end: HALT"]).memory
      = [0x58, 4, 0, 0x70, 0x70] ∧
    (simulator_execute_instruction
      (set_flags (loaded ["JLE end", "HALT", "end: HALT"]) FLAG_ZERO)).map
      (fun r => r.1) = some 0 ∧
    (simulator_execute_instruction (loaded ["JG end", "HALT", "end: HALT"])).map
      (fun r => (r.1, r.2.pc)) = some (1, 4) := by
  decide

/-- C16: the source `MOV R0, #1234` / `PUSH R0` / `POP R1` assembles without
error to `01 00 01 D2 04 0A 00 0B 01`; after the MOV, executing the PUSH returns
0 (and so would the POP, whose opcode has no case either). -/
theorem push_pop_rejected :
    (assemble_source ["MOV R0, #1234", "PUSH R0", "POP R1"]).errors = 0 ∧
    (List.range 9).map (assemble_source ["MOV R0, #1234", "PUSH R0", "POP R1"]).memory
      = [0x01, 0, 1, 0xD2, 0x04, 0x0A, 0, 0x0B, 1] ∧
    (run_steps 1 (loaded ["MOV R0, #1234", "PUSH R0", "POP R1"])).map
      (fun s => (s.pc, s.registers 0, s.sp)) = some (5, 1234, 0x3FFF) ∧
    ((run_steps 1 (loaded ["MOV R0, #1234", "PUSH R0", "POP R1"])).bind
      simulator_execute_instruction).map (fun r => r.1) = some 0 ∧
    (simulator_execute_instruction (loaded ["POP R1"])).map (fun r => r.1) = some 0 := by
  decide

theorem niladic_ops_case : ∀ op ∈ niladic_ops,
    op ∉ two_operand_ops ∧ op ∉ three_operand_ops ∧ op ∉ [OP_OUT, OP_OUTB] ∧
    op ∉ [OP_IN, OP_INB] ∧ op ∉ [OP_OUT, OP_IN] ∧ op ∉ single_register_ops ∧
    op ∉ branch_ops := by
  decide

/-- C19: an instruction whose opcode is one of HALT, NOP, RET is emitted as the
one byte of its opcode and has the size 1 (the table gives HALT the opcode 0x70);
executing HALT succeeds, sets `halted`, and leaves every register, the flag word,
SP and the memory unchanged; and `simulator_run`, started at a HALT with no
breakpoint on it, returns 1 in the state after that HALT, with one instruction
counted and no further instruction executed. -/
theorem niladic_and_halt :
    (∀ (state : AssemblerState) (inst : Instruction) (info : OpcodeMetadata) (pass : Nat),
      inst.info = some info → info.opcode ∈ niladic_ops →
      emit_instruction state inst pass = emit_byte state info.opcode ∧
      instruction_full_size inst = 1) ∧
    ((opcode_find (cstr "HALT")).map (fun i => i.opcode) = some 0x70 ∧
     (opcode_find (cstr "NOP")).map (fun i => i.opcode) = some OP_NOP ∧
     (opcode_find (cstr "RET")).map (fun i => i.opcode) = some OP_RET ∧
     niladic_ops = [0x70, OP_NOP, OP_RET]) ∧
    (∀ sim : SimulatorState, sim.pc < MEMORY_SIZE → sim.memory sim.pc = 0x70 →
      ∃ t, simulator_execute_instruction sim = some (1, t) ∧ t.halted = true ∧
        t.registers = sim.registers ∧ t.flags = sim.flags ∧ t.sp = sim.sp ∧
        t.memory = sim.memory ∧
        (sim.running = true → sim.breakpoints.any (fun b => sim.pc == b) = false →
          ∀ fuel stdin, simulator_run (fuel + 1) stdin sim = RunResult.returned 1
            { t with instructions_executed := (sim.instructions_executed + 1) % 2 ^ 64 })) := by
  refine ⟨?_, by decide, ?_⟩
  · intro state inst info pass hi hop
    obtain ⟨c1, c2, c3, c4, c5, c6, c7⟩ := niladic_ops_case _ hop
    constructor
    · simp only [emit_instruction, hi, c1, c2, c3, c4, c6, c7, hop, if_true, if_false]
    · simp only [instruction_full_size, hi, c1, c2, c5, c6, c7, hop, if_true, if_false]
  · intro sim hpc hop
    obtain ⟨t, e, hh, hr, hf, hs, hm, hc⟩ := halt_step sim hpc hop
    refine ⟨t, e, hh, hr, hf, hs, hm, ?_⟩
    intro hrun hbp fuel stdin
    rw [← hc]
    simp only [simulator_run, hrun, if_true, iteration_halted stdin sim t hbp e hh]

/-- Witness of `niladic_and_halt`: scenario 1, the image of `HALT`. -/
theorem niladic_and_halt_witness :
    ∃ t, simulator_execute_instruction (loaded ["HALT"]) = some (1, t) ∧ t.halted = true ∧
      t.registers = (loaded ["HALT"]).registers ∧ t.flags = (loaded ["HALT"]).flags ∧
      t.sp = (loaded ["HALT"]).sp ∧ t.memory = (loaded ["HALT"]).memory ∧
      ((loaded ["HALT"]).running = true →
        (loaded ["HALT"]).breakpoints.any (fun b => (loaded ["HALT"]).pc == b) = false →
        ∀ fuel stdin, simulator_run (fuel + 1) stdin (loaded ["HALT"]) = RunResult.returned 1
          { t with instructions_executed :=
              ((loaded ["HALT"]).instructions_executed + 1) % 2 ^ 64 }) :=
  niladic_and_halt.2.2 (loaded ["HALT"]) (by decide) (by decide)

theorem spin_run (d : Nat) : ∀ (fuel : Nat) (s : SimulatorState),
    s.memory = (loaded ["loop: JMP loop"]).memory → s.pc = 0 → s.running = true →
    s.halted = false → s.single_step = false → s.breakpoints = [] →
    s.instructions_executed + d = 1000000 → d + 1 ≤ fuel →
    ∃ t, simulator_run fuel [] s = RunResult.returned 1 t ∧
      t.instructions_executed = 1000001 := by
  induction d with
  | zero =>
    intro fuel s hm hpc hr hh hs hb hc hf
    obtain ⟨f, rfl⟩ : ∃ f, fuel = f + 1 := ⟨fuel - 1, by omega⟩
    obtain ⟨u, e, pu, du⟩ := jmp_step s 0 (by decide) (by rw [hpc]; decide)
      (by rw [hm, hpc]; decide)
    have hbp : s.breakpoints.any (fun b => s.pc == b) = false := by rw [hb]; rfl
    have hcu : (u.instructions_executed + 1) % 2 ^ 64 = 1000001 := by
      rw [du.instructions_executed]; omega
    have it := iteration_continues [] s u hbp e (du.halted.trans hh) (du.single_step.trans hs)
    rw [hcu] at it
    simp only [gt_iff_lt, Nat.lt_add_one, if_true] at it
    exact ⟨_, by simp only [simulator_run, hr, if_true, it]; rfl, rfl⟩
  | succ d ih =>
    intro fuel s hm hpc hr hh hs hb hc hf
    obtain ⟨f, rfl⟩ : ∃ f, fuel = f + 1 := ⟨fuel - 1, by omega⟩
    obtain ⟨u, e, pu, du⟩ := jmp_step s 0 (by decide) (by rw [hpc]; decide)
      (by rw [hm, hpc]; decide)
    have hbp : s.breakpoints.any (fun b => s.pc == b) = false := by rw [hb]; rfl
    have hcu : (u.instructions_executed + 1) % 2 ^ 64 = s.instructions_executed + 1 := by
      rw [du.instructions_executed]; omega
    have it := iteration_continues [] s u hbp e (du.halted.trans hh) (du.single_step.trans hs)
    rw [hcu] at it
    have hle : ¬ (s.instructions_executed + 1 > 1000000) := by omega
    rw [if_neg hle] at it
    obtain ⟨t, et, ct⟩ := ih f { u with instructions_executed := s.instructions_executed + 1 }
      (du.memory.trans hm) pu (du.running.trans hr) (du.halted.trans hh)
      (du.single_step.trans hs) (du.breakpoints.trans hb)
      (by show s.instructions_executed + 1 + d = 1000000; omega) (by omega)
    exact ⟨t, by simp only [simulator_run, hr, if_true, it]; exact et, ct⟩

/-- C17: the source `loop: JMP loop` assembles without error to `50 00 00`, and
one call of `simulator_run` on its image in a fresh simulator returns with
1,000,001 instructions executed. -/
theorem run_executes_one_past_the_limit :
    (assemble_source ["loop: JMP loop"]).errors = 0 ∧
    (List.range 3).map (assemble_source ["loop: JMP loop"]).memory = [0x50, 0, 0] ∧
    ∃ t, simulator_run 1000001 [] (loaded ["loop: JMP loop"]) = RunResult.returned 1 t ∧
      t.instructions_executed = 1000001 :=
  ⟨by decide, by decide,
    spin_run 1000000 1000001 (loaded ["loop: JMP loop"]) rfl rfl rfl rfl rfl rfl rfl
      (Nat.le_refl _)⟩

theorem run_within (fuel : Nat) : ∀ (stdin : List Nat) (s : SimulatorState),
    s.instructions_executed ≤ 1000000 → 1000001 - s.instructions_executed ≤ fuel →
    simulator_run fuel stdin s ≠ RunResult.out_of_fuel := by
  induction fuel with
  | zero => intro stdin s h1 h2; omega
  | succ f ih =>
    intro stdin s h1 h2
    unfold simulator_run
    split
    · split
      · exact fun h => RunResult.noConfusion h
      · exact fun h => RunResult.noConfusion h
      · rename_i stdin2 s2 hit
        obtain ⟨c, cle⟩ := iteration_again stdin stdin2 s s2 hit
        exact ih stdin2 s2 cle (by omega)
    · exact fun h => RunResult.noConfusion h

theorem run_returns (fuel : Nat) (stdin : List Nat) (s : SimulatorState)
    (hf : 1000002 ≤ fuel) : simulator_run fuel stdin s ≠ RunResult.out_of_fuel := by
  obtain ⟨f, rfl⟩ : ∃ f, fuel = f + 1 := ⟨fuel - 1, by omega⟩
  unfold simulator_run
  split
  · split
    · exact fun h => RunResult.noConfusion h
    · exact fun h => RunResult.noConfusion h
    · rename_i stdin2 s2 hit
      obtain ⟨-, cle⟩ := iteration_again stdin stdin2 s s2 hit
      exact run_within f stdin2 s2 cle (by omega)
  · exact fun h => RunResult.noConfusion h

theorem iteration_undefined (stdin : List Nat) (sim : SimulatorState)
    (hbp : sim.breakpoints.any (fun b => sim.pc == b) = false)
    (e : simulator_execute_instruction sim = none) :
    simulator_run_iteration stdin sim = LoopStep.undefined := by
  unfold simulator_run_iteration
  rw [hbp, e]
  rfl

theorem run_undefined (fuel : Nat) (stdin : List Nat) (sim : SimulatorState)
    (hr : sim.running = true)
    (hbp : sim.breakpoints.any (fun b => sim.pc == b) = false)
    (e : simulator_execute_instruction sim = none) :
    simulator_run (fuel + 1) stdin sim = RunResult.undefined := by
  simp only [simulator_run, hr, if_true, iteration_undefined stdin sim hbp e]

theorem run_returns_or_undefined (fuel : Nat) (stdin : List Nat) (s : SimulatorState)
    (hf : 1000002 ≤ fuel) :
    simulator_run fuel stdin s = RunResult.undefined ∨
      ∃ ret t, simulator_run fuel stdin s = RunResult.returned ret t := by
  have h := run_returns fuel stdin s hf
  cases e : simulator_run fuel stdin s with
  | returned ret t => exact Or.inr ⟨ret, t, rfl⟩
  | undefined => exact Or.inl rfl
  | out_of_fuel => exact absurd e h

/-- C18: in the image `01 28 01 00 00 50 00 00`, assembled from
`.byte 1, 40, 1, 0, 0` / `JMP 0`, the first instruction is a MOV of the number 0
to the register byte 40: the store goes to `registers[40]`, outside
`uint32_t registers[32]` (in the struct the counters lie behind the array), so
the step, and with it every run of `simulator_run` on the new simulator with
single-step off, has no defined result, and the counter
`instructions_executed` gives no bound for it.  For every state and input, an
iteration that stays in the loop leaves the counter one higher and at most
1,000,000, and after 1,000,002 tests of the loop condition `simulator_run` has
returned unless a register byte led outside the register array. -/
theorem run_undefined_by_register_byte :
    (assemble_source [".byte 1, 40, 1, 0, 0", "JMP 0"]).errors = 0 ∧
    (List.range 8).map (loaded [".byte 1, 40, 1, 0, 0", "JMP 0"]).memory
      = [OP_MOV, 40, 1, 0, 0, OP_JMP, 0, 0] ∧
    (loaded [".byte 1, 40, 1, 0, 0", "JMP 0"]).single_step = false ∧
    NUM_REGISTERS = 32 ∧
    simulator_execute_instruction (loaded [".byte 1, 40, 1, 0, 0", "JMP 0"]) = none ∧
    (∀ fuel stdin, simulator_run (fuel + 1) stdin (loaded [".byte 1, 40, 1, 0, 0", "JMP 0"])
      = RunResult.undefined) ∧
    (∀ (sim : SimulatorState) (stdin stdin2 : List Nat) (sim2 : SimulatorState),
      simulator_run_iteration stdin sim = LoopStep.again stdin2 sim2 →
      sim2.instructions_executed = (sim.instructions_executed + 1) % 2 ^ 64 ∧
      sim2.instructions_executed ≤ 1000000 ∧
      (sim.instructions_executed < 2 ^ 64 - 1 →
        sim.instructions_executed < sim2.instructions_executed)) ∧
    (∀ (sim : SimulatorState) (stdin : List Nat) (fuel : Nat), 1000002 ≤ fuel →
      simulator_run fuel stdin sim = RunResult.undefined ∨
        ∃ ret t, simulator_run fuel stdin sim = RunResult.returned ret t) := by
  refine ⟨by decide, by decide, by decide, by decide,
    Option.isNone_iff_eq_none.mp (by decide), ?_, ?_,
    fun sim stdin fuel hf => run_returns_or_undefined fuel stdin sim hf⟩
  · intro fuel stdin
    exact run_undefined fuel stdin _ (by decide) (by decide)
      (Option.isNone_iff_eq_none.mp (by decide))
  · intro sim stdin stdin2 sim2 h
    obtain ⟨c, cle⟩ := iteration_again stdin stdin2 sim sim2 h
    refine ⟨c, cle, ?_⟩
    intro hlt
    rw [c]
    omega

/-! ## Simulator: memory bounds and unknown opcodes -/

/-- C21, as stated, fails: in a fresh simulator (access counter 0) a read and a
write at address 16 MiB leave the access counter at 0, while a read and a write
at address 0 leave it at 1. -/
theorem out_of_bounds_access_not_counted :
    (simulator_create (fun _ => 0)).memory_accesses = 0 ∧
    (memory_read_byte (simulator_create (fun _ => 0)) MEMORY_SIZE).2.memory_accesses = 0 ∧
    (memory_write_byte (simulator_create (fun _ => 0)) MEMORY_SIZE 1).memory_accesses = 0 ∧
    (memory_read_byte (simulator_create (fun _ => 0)) 0).2.memory_accesses = 1 ∧
    (memory_write_byte (simulator_create (fun _ => 0)) 0 1).memory_accesses = 1 := by
  decide

/-- C21, amended: for every address `a ≥ 16 MiB`, `memory_read_byte` returns 0
and `memory_write_byte` leaves the memory unchanged, and each such call leaves
the whole state, so also the access counter, as it was; a call with an address
inside the memory adds one to the access counter. -/
theorem out_of_bounds_byte_access (sim : SimulatorState) (a v : Nat) (ha : MEMORY_SIZE ≤ a) :
    (memory_read_byte sim a).1 = 0 ∧ (memory_read_byte sim a).2 = sim ∧
    memory_write_byte sim a v = sim ∧
    (memory_write_byte sim a v).memory = sim.memory ∧
    (memory_read_byte sim a).2.memory_accesses = sim.memory_accesses ∧
    (memory_write_byte sim a v).memory_accesses = sim.memory_accesses ∧
    ∀ b, b < MEMORY_SIZE →
      (memory_read_byte sim b).2.memory_accesses = (sim.memory_accesses + 1) % 2 ^ 64 ∧
      (memory_write_byte sim b v).memory_accesses = (sim.memory_accesses + 1) % 2 ^ 64 := by
  have h : a ≥ MEMORY_SIZE := ha
  simp only [memory_read_byte, memory_write_byte, h, if_true, true_and]
  intro b hb
  have hb2 : ¬ (b ≥ MEMORY_SIZE) := by omega
  simp only [hb2, if_false, and_self]

/-- Witness of `out_of_bounds_byte_access`: address 16 MiB in a fresh simulator. -/
theorem out_of_bounds_byte_access_witness :
    (memory_read_byte (simulator_create (fun _ => 0)) MEMORY_SIZE).1 = 0 ∧
    (memory_read_byte (simulator_create (fun _ => 0)) MEMORY_SIZE).2
      = simulator_create (fun _ => 0) ∧
    memory_write_byte (simulator_create (fun _ => 0)) MEMORY_SIZE 1
      = simulator_create (fun _ => 0) ∧
    (memory_write_byte (simulator_create (fun _ => 0)) MEMORY_SIZE 1).memory
      = (simulator_create (fun _ => 0)).memory ∧
    (memory_read_byte (simulator_create (fun _ => 0)) MEMORY_SIZE).2.memory_accesses
      = (simulator_create (fun _ => 0)).memory_accesses ∧
    (memory_write_byte (simulator_create (fun _ => 0)) MEMORY_SIZE 1).memory_accesses
      = (simulator_create (fun _ => 0)).memory_accesses ∧
    ∀ b, b < MEMORY_SIZE →
      (memory_read_byte (simulator_create (fun _ => 0)) b).2.memory_accesses
        = ((simulator_create (fun _ => 0)).memory_accesses + 1) % 2 ^ 64 ∧
      (memory_write_byte (simulator_create (fun _ => 0)) b 1).memory_accesses
        = ((simulator_create (fun _ => 0)).memory_accesses + 1) % 2 ^ 64 :=
  out_of_bounds_byte_access (simulator_create (fun _ => 0)) MEMORY_SIZE 1 (Nat.le_refl _)

/-- C23: the source `LDB R1, nowhere`, whose second operand carries the label
`nowhere` that no line defines, passes both passes with no error recorded (the
bytes emitted are `05 01 00 00`), and so does `INC nowhere`; the sibling
`LOAD R1, nowhere` records the error. -/
theorem undefined_label_not_reported :
    ((parsed_instruction "LDB R1, nowhere").operand 1).label = cstr "nowhere" ∧
    (assemble_source ["LDB R1, nowhere"]).symbols = [] ∧
    (assemble_source ["LDB R1, nowhere"]).errors = 0 ∧
    (List.range 4).map (assemble_source ["LDB R1, nowhere"]).memory = [0x05, 1, 0, 0] ∧
    ((parsed_instruction "INC nowhere").operand 0).label = cstr "nowhere" ∧
    (assemble_source ["INC nowhere"]).errors = 0 ∧
    (assemble_source ["LOAD R1, nowhere"]).errors = 1 := by
  decide

/-- C24: in the source `LOAD R1, [msg]` / `HALT` / `msg: .byte 1` the operand
`[msg]` refers to a label defined later; pass 1 rejects the operand and records
two errors ("Invalid operand" and "Syntax error"), does not count the size of the
LOAD, so that `msg` is bound to 1, and only pass 2 reads the operand as DIRECT. -/
theorem bracketed_forward_reference_rejected :
    (parse_operand (assembler_create false) (cstr "[msg]") {}).1 = none ∧
    (parse_operand (assembler_create false) (cstr "[msg]") {}).2.errors = 1 ∧
    (first_pass_of ["LOAD R1, [msg]", "HALT", "msg: .byte 1"]).errors = 2 ∧
    (first_pass_of ["LOAD R1, [msg]", "HALT", "msg: .byte 1"]).symbols.map
      (fun s => (s.name, s.value)) = [(cstr "msg", 1)] ∧
    (assemble_source ["LOAD R1, [msg]", "HALT", "msg: .byte 1"]).errors = 2 ∧
    ((parse_operand (first_pass_of ["LOAD R1, [msg]", "HALT", "msg: .byte 1"])
      (cstr "[msg]") {}).1.map (fun o => (o.mode, o.address))) = some (AM_DIRECT, 1) ∧
    (List.range 7).map (assemble_source ["LOAD R1, [msg]", "HALT", "msg: .byte 1"]).memory
      = [0x04, 1, 1, 1, 0, 0x70, 1] ∧
    (first_pass_of ["LOAD R1, msg", "HALT", "msg: .byte 1"]).errors = 0 := by
  decide

/-- C25: `parse_operand` reads `#0b101` as an IMMEDIATE operand with the value 0
and the label `0b101`, rejects `0b101` with an error, and reads `010` and `#010`
as 8; `parse_number`, which the directives use, reads `0b101` as 5 and `010` as
10. -/
theorem binary_literal_operand_not_parsed :
    (parse_operand (assembler_create false) (cstr "#0b101") {}).1.map
      (fun o => (o.mode, o.immediate, o.label)) = some (AM_IMMEDIATE, 0, cstr "0b101") ∧
    (parse_operand (assembler_create false) (cstr "0b101") {}).1 = none ∧
    (parse_operand (assembler_create false) (cstr "0b101") {}).2.errors = 1 ∧
    (parse_operand (assembler_create false) (cstr "010") {}).1.map
      (fun o => (o.mode, o.immediate, o.label)) = some (AM_IMMEDIATE, 8, []) ∧
    (parse_operand (assembler_create false) (cstr "#010") {}).1.map
      (fun o => (o.mode, o.immediate, o.label)) = some (AM_IMMEDIATE, 8, []) ∧
    parse_number (cstr "0b101") = 5 ∧ parse_number (cstr "010") = 10 ∧
    (assemble_source ["MOV R0, #0b101"]).errors = 1 ∧
    (parse_operand (assembler_create false) (cstr "#0x1F") {}).1.map
      (fun o => (o.mode, o.immediate, o.label)) = some (AM_IMMEDIATE, 31, []) ∧
    (parse_operand (assembler_create false) (cstr "-5") {}).1.map
      (fun o => (o.mode, o.immediate, o.label)) = some (AM_IMMEDIATE, 2 ^ 32 - 5, []) := by
  decide

/-! ## Assembler: sections, diagnostics and the driver -/

/-- C26, as stated, fails: after `assembler_create` the attribute bytes of the
four sections are 5, 6, 6, 6 and not 5, 3, 3, 3. -/
theorem default_section_attributes_differ :
    (assembler_create true).sections.map (fun s => s.attributes) = [5, 6, 6, 6] ∧
    (assembler_create true).sections.map (fun s => s.attributes) ≠ [5, 3, 3, 3] := by
  decide

/-- C26, amended: after `assembler_create` (with either value of `optimize`) the
section table holds exactly the four sections `.text`, `.data`, `.bss`, `.stack`
with the origins 0x0000, 0x4000, 0x6000, 0x8000, the size 0 and the attribute
bytes 0x05, 0x06, 0x06, 0x06; the current section is `.text` and PC is 0. -/
theorem assembler_create_sections (optimize : Bool) :
    (assembler_create optimize).sections.map
      (fun s => (s.name, s.address, s.size, s.attributes)) =
      [(cstr ".text", 0x0000, 0, 0x05), (cstr ".data", 0x4000, 0, 0x06),
       (cstr ".bss", 0x6000, 0, 0x06), (cstr ".stack", 0x8000, 0, 0x06)] ∧
    (assembler_create optimize).current_section = 0 ∧
    (assembler_create optimize).pc = 0 := by
  cases optimize <;> decide

set_option maxRecDepth 5000

/-- C28: on the state that `assembler_create` returns, 256 calls of
`warning_add` followed by one call of `error_add` leave the error count at 0
(with 256 warnings and 256 messages stored), while a single call of `error_add`
leaves it at 1. -/
theorem error_after_full_buffer_not_counted :
    (record (assembler_create true)
      (List.replicate 256 Diagnostic.warning ++ [Diagnostic.error])).errors = 0 ∧
    (record (assembler_create true)
      (List.replicate 256 Diagnostic.warning ++ [Diagnostic.error])).warnings = 256 ∧
    (record (assembler_create true)
      (List.replicate 256 Diagnostic.warning ++ [Diagnostic.error])).message_count = 256 ∧
    (record (assembler_create true) [Diagnostic.error]).errors = 1 := by
  decide

/-- C29: the driver returns the exit code 0 when the input file cannot be
opened, when the assembly records errors (the source `FOO`), when the output
file cannot be opened and when only one byte of the output can be written, just
as when the source `HALT` is assembled and written in full; only a missing
argument gives the exit code 1. -/
theorem driver_exit_code_on_failure :
    main no_files (fun _ => some MEMORY_SIZE) [cstr "beboasm", cstr "missing.basm"]
      = some (0, none) ∧
    (assemble_file (one_file "bad.basm" ["FOO"]) (assembler_create true)
      (cstr "bad.basm")).map (fun r => (r.1, r.2.errors)) = some (0, 4) ∧
    main (one_file "bad.basm" ["FOO"]) (fun _ => some MEMORY_SIZE)
      [cstr "beboasm", cstr "bad.basm"] = some (0, none) ∧
    main (one_file "ok.basm" ["HALT"]) (fun _ => none) [cstr "beboasm", cstr "ok.basm"]
      = some (0, none) ∧
    (write_binary (fun _ => some 1) (assemble_source ["HALT"]) (cstr "output.bin")).map
      (fun r => (r.1, r.2.2)) = some (0, some [0x70]) ∧
    main (one_file "ok.basm" ["HALT"]) (fun _ => some 1) [cstr "beboasm", cstr "ok.basm"]
      = some (0, some [0x70]) ∧
    (main (one_file "ok.basm" ["HALT"]) (fun _ => some MEMORY_SIZE)
      [cstr "beboasm", cstr "ok.basm"]).map (fun r => r.1) = some 0 ∧
    main no_files (fun _ => some MEMORY_SIZE) [cstr "beboasm"] = some (1, none) := by
  decide

/-- C30: the line `.string "a:b"`, whose string holds a colon and no double
quote, is read by `parse_line` as the label `.string "a` followed by the
instruction `B"`: both passes record errors, pass 1 leaves PC at 0 and pass 2
emits nothing; the line `.string "ab"` records no error, advances PC by 3 in
pass 1 and emits `61 62 00` in pass 2. -/
theorem string_with_colon_rejected :
    (parse_line (assembler_create false) (cstr ".string \"a:b\"") {}).map (fun r => r.1)
      = some PARSE_ERROR ∧
    (parse_line (assembler_create false) (cstr ".string \"a:b\"") {}).map (fun r => r.2.1.label)
      = some (cstr ".string \"a") ∧
    (first_pass_of [".string \"a:b\""]).errors = 2 ∧
    (first_pass_of [".string \"a:b\""]).pc = 0 ∧
    (assemble_source [".string \"a:b\""]).errors = 4 ∧
    (assemble_source [".string \"a:b\""]).pc = 0 ∧
    (List.range 4).map (assemble_source [".string \"a:b\""]).memory = [0, 0, 0, 0] ∧
    (first_pass_of [".string \"ab\""]).errors = 0 ∧
    (first_pass_of [".string \"ab\""]).pc = 3 ∧
    (assemble_source [".string \"ab\""]).errors = 0 ∧
    (List.range 3).map (assemble_source [".string \"ab\""]).memory = [0x61, 0x62, 0] := by
  decide

/-! ## Assembler: the directives `.text`, `.data` and `.org` -/

theorem digit_value_digit (d : Nat) (h : d < 10) : digit_value (48 + d) = some d := by
  have h1 : 48 ≤ 48 + d ∧ 48 + d ≤ 57 := by omega
  simp only [digit_value, h1, and_self, if_true, Nat.add_sub_cancel_left]

theorem scan_digits_digit (d acc : Nat) (tail : List Nat) (h : d < 10) :
    scan_digits 10 ((48 + d) :: tail) acc = scan_digits 10 tail (acc * 10 + d) := by
  simp only [scan_digits, digit_value_digit d h, h, if_true]

theorem scan_digits_decimal (fuel : Nat) : ∀ (n : Nat) (tail : List Nat), n < fuel →
    scan_digits 10 (decimal_digits fuel n ++ tail) 0 = scan_digits 10 tail n := by
  induction fuel with
  | zero => intro n tail h; omega
  | succ f ih =>
    intro n tail h
    by_cases hn : n < 10
    · simp only [decimal_digits, hn, if_true, List.singleton_append]
      rw [scan_digits_digit n 0 tail hn, Nat.zero_mul, Nat.zero_add]
    · simp only [decimal_digits, hn, if_false, List.append_assoc, List.singleton_append]
      rw [ih (n / 10) _ (by omega), scan_digits_digit _ _ _ (Nat.mod_lt n (by decide))]
      congr 1
      omega

theorem decimal_digits_head (fuel : Nat) : ∀ (n : Nat), n < fuel →
    ∃ d rest, decimal_digits fuel n = (48 + d) :: rest ∧ d < 10 ∧ (d = 0 → rest = []) := by
  induction fuel with
  | zero => intro n h; omega
  | succ f ih =>
    intro n h
    by_cases hn : n < 10
    · exact ⟨n, [], by simp only [decimal_digits, hn, if_true], hn, fun _ => rfl⟩
    · obtain ⟨d, rest, e, hd, h0⟩ := ih (n / 10) (by omega)
      refine ⟨d, rest ++ [48 + n % 10], ?_, hd, ?_⟩
      · simp only [decimal_digits, hn, if_false, e, List.cons_append]
      · intro hd0
        exfalso
        have e2 := scan_digits_decimal f (n / 10) [] (by omega)
        rw [e, h0 hd0, hd0] at e2
        simp only [List.append_nil, scan_digits, digit_value, Nat.add_zero] at e2
        simp at e2
        omega

theorem strto_scan_digit (d : Nat) (hd : d < 10) (t : List Nat) :
    strto_scan ((48 + d) :: t) 10 =
      some (false, (scan_digits 10 ((48 + d) :: t) 0).1, (scan_digits 10 ((48 + d) :: t) 0).2) := by
  interval_cases d <;> rfl

theorem strto_scan_decimal (n : Nat) :
    strto_scan (decimal n ++ [10]) 10 = some (false, n, [10]) := by
  obtain ⟨d, rest, e, hd, -⟩ := decimal_digits_head (n + 1) n (Nat.lt_succ_self n)
  have hs := scan_digits_decimal (n + 1) n [10] (Nat.lt_succ_self n)
  have hsc : scan_digits 10 [10] n = (n, [10]) := by
    simp [scan_digits, digit_value]
  unfold decimal
  rw [hsc, e, List.cons_append] at hs
  rw [e, List.cons_append, strto_scan_digit d hd, hs]

theorem strtoul_decimal (n : Nat) (h : n < 2 ^ 64) : strtoul (decimal n ++ [10]) 10 = n := by
  have h1 : ¬ (n > 2 ^ 64 - 1) := by omega
  simp only [strtoul, strto_scan_decimal n, h1, if_false, Bool.false_eq_true]

theorem parse_number_nonzero_digit (d : Nat) (h0 : 0 < d) (hd : d < 10) (t : List Nat) :
    parse_number (32 :: (48 + d) :: t) = strtoul ((48 + d) :: t) 10 % 2 ^ 32 := by
  interval_cases d <;> rfl

theorem parse_number_zero_line :
    parse_number (32 :: 48 :: [10]) = strtoul (48 :: [10]) 10 % 2 ^ 32 := by
  rfl

theorem parse_number_decimal (n : Nat) (h : n < 2 ^ 32) :
    parse_number (32 :: (decimal n ++ [10])) = n := by
  obtain ⟨d, rest, e, hd, h0⟩ := decimal_digits_head (n + 1) n (Nat.lt_succ_self n)
  have hst := strtoul_decimal n (by omega)
  have hmod : n % 2 ^ 32 = n := Nat.mod_eq_of_lt h
  unfold decimal at hst ⊢
  rw [e] at hst ⊢
  by_cases hd0 : d = 0
  · subst hd0
    rw [h0 rfl] at hst ⊢
    rw [show (32 :: ([48 + 0] ++ [10]) : List Nat) = 32 :: 48 :: [10] from rfl,
      parse_number_zero_line]
    rw [show ([48 + 0] ++ [10] : List Nat) = 48 :: [10] from rfl] at hst
    rw [hst, hmod]
  · rw [List.cons_append] at hst ⊢
    rw [parse_number_nonzero_digit d (by omega) hd, hst, hmod]

theorem handle_directive_org (state : AssemblerState) (text : List Nat) (pass : Nat) :
    handle_directive state (cstr ".org" ++ 32 :: text) pass =
      { state with pc := parse_number (skip_spaces (32 :: text)) } := rfl

theorem handle_directive_spaced_org (state : AssemblerState) (text : List Nat) (pass : Nat) :
    handle_directive state (32 :: (cstr ".org" ++ 32 :: text)) pass =
      { state with pc := parse_number (skip_spaces (32 :: text)) } := rfl

theorem skip_spaces_idem (t : List Nat) : skip_spaces (skip_spaces t) = skip_spaces t := by
  unfold skip_spaces
  induction t with
  | nil => rfl
  | cons c cs ih =>
    by_cases h : isspace c = true
    · simp only [List.dropWhile_cons, h, if_true, ih]
    · simp only [List.dropWhile_cons, h, if_false, Bool.false_eq_true]

theorem parse_number_skip (t : List Nat) : parse_number (skip_spaces t) = parse_number t := by
  unfold parse_number
  rw [skip_spaces_idem]

theorem after_char_append (c : Nat) (l rest : List Nat) (h : c ∉ l) :
    after_char c (l ++ c :: rest) = some rest := by
  induction l with
  | nil => simp only [List.nil_append, after_char, if_true]
  | cons x xs ih =>
    have hx : x ≠ c := fun e => h (by rw [e]; exact List.mem_cons_self _ _)
    have hxs : c ∉ xs := fun m => h (List.mem_cons_of_mem _ m)
    rw [List.cons_append]
    simp only [after_char, hx, if_false]
    exact ih hxs

theorem section_search_spec (name : List Nat) : ∀ (l : List Section) (k i : Nat) (s : Section),
    section_search name l k = some (i, s) → k ≤ i ∧ l.get? (i - k) = some s ∧ s.name = name := by
  intro l
  induction l with
  | nil => intro k i s h; exact Option.noConfusion h
  | cons x xs ih =>
    intro k i s h
    unfold section_search at h
    split at h
    · rename_i hx
      simp only [Option.some.injEq, Prod.mk.injEq] at h
      obtain ⟨rfl, rfl⟩ := h
      refine ⟨Nat.le_refl _, by simp, ?_⟩
      simpa [streq] using hx
    · obtain ⟨h1, h2, h3⟩ := ih (k + 1) i s h
      refine ⟨by omega, ?_, h3⟩
      have : i - k = (i - (k + 1)) + 1 := by omega
      rw [this]
      simpa using h2

theorem org_line (n : Nat) :
    cstr ".org " ++ decimal n ++ [10] = cstr ".org" ++ 32 :: (decimal n ++ [10]) := by
  rw [List.append_assoc]; rfl

theorem labelled_org_line (l : List Nat) (n : Nat) :
    l ++ cstr ": .org " ++ decimal n ++ [10] =
      l ++ 58 :: (32 :: (cstr ".org" ++ 32 :: (decimal n ++ [10]))) := by
  rw [List.append_assoc, List.append_assoc]; rfl

/-! ## Data directives and comments -/

/-- C31: in the line `.byte 1, 2 ; a, b` the comma of the comment makes a third
value: pass 1 advances PC by 3 and pass 2 emits `01 02 00`; in the line
`.byte 1, 2 ; note: 7` the colon of the comment hides the directive: neither pass
moves PC or emits a byte; `.word` and `.dword` count the third value too.  The
line `.byte 1, 2 ; ab` behaves as claimed. -/
theorem comment_changes_data_directive :
    (first_pass_of [".byte 1, 2 ; a, b"]).pc = 3 ∧
    (assemble_source [".byte 1, 2 ; a, b"]).errors = 0 ∧
    (assemble_source [".byte 1, 2 ; a, b"]).pc = 3 ∧
    (List.range 3).map (assemble_source [".byte 1, 2 ; a, b"]).memory = [1, 2, 0] ∧
    (first_pass_of [".byte 1, 2 ; note: 7"]).pc = 0 ∧
    (assemble_source [".byte 1, 2 ; note: 7"]).pc = 0 ∧
    (assemble_source [".byte 1, 2 ; note: 7"]).errors = 0 ∧
    (List.range 2).map (assemble_source [".byte 1, 2 ; note: 7"]).memory = [0, 0] ∧
    (first_pass_of [".word 1, 2 ; a, b"]).pc = 6 ∧
    (first_pass_of [".dword 1, 2 ; a, b"]).pc = 12 ∧
    (first_pass_of [".byte 1, 2 ; ab"]).pc = 2 ∧
    (assemble_source [".byte 1, 2 ; ab"]).pc = 2 ∧
    (List.range 2).map (assemble_source [".byte 1, 2 ; ab"]).memory = [1, 2] := by
  decide

/-! ## Symbol table: the cache against a linear search -/

/-- C33: after `symbol_add` of the name `x` with the value 1 and again with the
value 2, `symbol_find` returns the second entry while the linear search returns
the first; and in the source `ab: NOP` / `ab: NOP` / `bA: NOP` / `JMP ab`, where
`bA` takes the cache slot of `ab`, the same lookup returns the first entry, so
the JMP is encoded with the target 0, while without the line `bA: NOP` it is
encoded with the target 1. -/
theorem cache_changes_lookup_result :
    (symbol_find (symbol_add (symbol_add (assembler_create false) (cstr "x") 1 SYM_CODE)
      (cstr "x") 2 SYM_CODE) (cstr "x")).1.map (fun r => (r.1, r.2.value)) = some (1, 2) ∧
    (linear_search (cstr "x") (symbol_add (symbol_add (assembler_create false) (cstr "x") 1
      SYM_CODE) (cstr "x") 2 SYM_CODE).symbols 0).map (fun r => (r.1, r.2.value))
        = some (0, 1) ∧
    (symbol_find (symbol_add (symbol_add (assembler_create false) (cstr "x") 1 SYM_CODE)
      (cstr "x") 2 SYM_CODE) (cstr "x")).1 ≠
      linear_search (cstr "x") (symbol_add (symbol_add (assembler_create false) (cstr "x") 1
        SYM_CODE) (cstr "x") 2 SYM_CODE).symbols 0 ∧
    hash_string (cstr "ab") % CACHE_SIZE = hash_string (cstr "bA") % CACHE_SIZE ∧
    (assemble_source ["ab: NOP", "ab: NOP", "JMP ab"]).errors = 0 ∧
    (List.range 5).map (assemble_source ["ab: NOP", "ab: NOP", "JMP ab"]).memory
      = [0x71, 0x71, 0x50, 1, 0] ∧
    (assemble_source ["ab: NOP", "ab: NOP", "bA: NOP", "JMP ab"]).errors = 0 ∧
    (List.range 6).map (assemble_source ["ab: NOP", "ab: NOP", "bA: NOP", "JMP ab"]).memory
      = [0x71, 0x71, 0x71, 0x50, 0, 0] := by
  decide

/-! ## Simulator: register aliases, signed branches, register bytes -/

/-- C34: in the image of `NOP` / `CALL sub` / `sub: HALT`, after the NOP the
machine's PC is 1 while register 28 still holds 0, and after the CALL the PC is 4
and SP is `0x3FFD` while registers 28 and 29 still hold 0 and `0x3FFF`. -/
theorem alias_registers_not_updated :
    ((loaded ["NOP", "CALL sub", "sub: HALT"]).pc,
      (loaded ["NOP", "CALL sub", "sub: HALT"]).registers REG_PC,
      (loaded ["NOP", "CALL sub", "sub: HALT"]).sp,
      (loaded ["NOP", "CALL sub", "sub: HALT"]).registers REG_SP) = (0, 0, 0x3FFF, 0x3FFF) ∧
    (run_steps 1 (loaded ["NOP", "CALL sub", "sub: HALT"])).map
      (fun s => (s.pc, s.registers REG_PC)) = some (1, 0) ∧
    (run_steps 2 (loaded ["NOP", "CALL sub", "sub: HALT"])).map
      (fun s => (s.pc, s.registers REG_PC, s.sp, s.registers REG_SP, s.fp, s.registers REG_FP))
        = some (4, 0, 0x3FFD, 0x3FFF, 0x3FFF, 0x3FFF) := by
  decide

/-- C38: with OVERFLOW clear, R0 = `0x80000000` (the least signed value) and
R1 = 1, the JL after `CMP R0, R1` is not taken although R0 < R1 as signed
integers; with R0 = 1 and R1 = `0x80000000` the JG after `CMP R0, R1` is not
taken, and a JL is taken, although R0 > R1 as signed integers.  The first pair
of values is reached by the program `MOV R0, #32768`, sixteen `ADD R0, R0, R0`,
`MOV R1, #1`. -/
theorem signed_branch_ignores_overflow :
    signed32 0x80000000 < signed32 1 ∧
    (set_registers (loaded ["CMP R0, R1", "JL less", "HALT", "less: HALT"])
      [0x80000000, 1]).flags &&& FLAG_OVERFLOW = 0 ∧
    (run_steps 2 (set_registers (loaded ["CMP R0, R1", "JL less", "HALT", "less: HALT"])
      [0x80000000, 1])).map (fun s => (s.pc, s.memory s.pc)) = some (7, OP_HALT) ∧
    (assemble_source ["CMP R0, R1", "JL less", "HALT", "less: HALT"]).symbols.map
      (fun y => y.value) = [8] ∧
    signed32 1 > signed32 0x80000000 ∧
    (run_steps 2 (set_registers (loaded ["CMP R0, R1", "JG more", "HALT", "more: HALT"])
      [1, 0x80000000])).map (fun s => s.pc) = some 7 ∧
    (run_steps 2 (set_registers (loaded ["CMP R0, R1", "JL less", "HALT", "less: HALT"])
      [1, 0x80000000])).map (fun s => s.pc) = some 8 ∧
    (run_steps 18 (loaded (["MOV R0, #32768"] ++ List.replicate 16 "ADD R0, R0, R0" ++
      ["MOV R1, #1", "CMP R0, R1", "JL less", "HALT", "less: HALT"]))).map
        (fun s => (s.registers 0, s.registers 1, s.flags &&& FLAG_OVERFLOW, s.pc))
        = some (0x80000000, 1, 0, 90) ∧
    (run_steps 20 (loaded (["MOV R0, #32768"] ++ List.replicate 16 "ADD R0, R0, R0" ++
      ["MOV R1, #1", "CMP R0, R1", "JL less", "HALT", "less: HALT"]))).map
        (fun s => (s.pc, s.memory s.pc)) = some (97, OP_HALT) ∧
    (assemble_source (["MOV R0, #32768"] ++ List.replicate 16 "ADD R0, R0, R0" ++
      ["MOV R1, #1", "CMP R0, R1", "JL less", "HALT", "less: HALT"])).symbols.map
        (fun y => y.value) = [98] := by
  decide

/-- C39: in the image `1A 20` (the opcode of INC followed by the register byte
32, as assembled from `.byte 26, 32`) the step of the simulator reads
`registers[32]`, outside the array of 32 entries; so does MOV with the register
byte 255; with the register byte 31 the step succeeds. -/
theorem register_byte_not_checked :
    NUM_REGISTERS = 32 ∧
    (assemble_source [".byte 26, 32"]).errors = 0 ∧
    (List.range 2).map (loaded [".byte 26, 32"]).memory = [OP_INC, 32] ∧
    (simulator_execute_instruction (loaded [".byte 26, 32"])).isNone = true ∧
    reg_read (simulator_create (fun a => if a = 0 then OP_INC else if a = 1 then 32 else 0)) 32
      = none ∧
    (simulator_execute_instruction
      (simulator_create (fun a => if a = 0 then OP_INC else if a = 1 then 32 else 0))).isNone
        = true ∧
    (simulator_execute_instruction
      (simulator_create (fun a => if a = 0 then OP_MOV else if a = 1 then 255 else 0))).isNone
        = true ∧
    (simulator_execute_instruction
      (simulator_create (fun a => if a = 0 then OP_INC else if a = 1 then 31 else 0))).map
        (fun r => r.1) = some 1 := by
  decide

/-! ## Lexer: the operand slots -/

/-- An operand that `parse_operand` accepts when no slot of `operands` is left
is stored outside the array. -/
theorem parse_into_slot_full (st : AssemblerState) (inst : Instruction) (text : List Nat)
    (hc : ¬ inst.operand_count < MAX_OPERANDS)
    (ho : (parse_operand st text (inst.operand inst.operand_count)).1 ≠ none) :
    parse_into_slot st inst text = none := by
  unfold parse_into_slot
  split
  · rw [dif_neg hc]
  · next heq => rw [heq] at ho; exact absurd rfl ho

/-- The statement `if (*operand_start)` after the operand loop does not test
`operand_count`: text that is left once the four slots are full is parsed into
`operands[4]`. -/
theorem parse_operand_list_full (st : AssemblerState) (inst : Instruction) (c : Nat)
    (rest : List Nat) (hc : ¬ inst.operand_count < MAX_OPERANDS)
    (ho : (parse_operand st (c :: rest) (inst.operand inst.operand_count)).1 ≠ none) :
    parse_operand_list (c :: rest) [] st inst = none := by
  rw [parse_operand_list, if_neg hc]
  exact parse_into_slot_full st inst (c :: rest) hc ho

theorem set_operand_length (inst : Instruction) (i : Fin MAX_OPERANDS) (o : Operand)
    (h : inst.operands.length ≤ MAX_OPERANDS) :
    (inst.set_operand i o).operands.length ≤ MAX_OPERANDS := by
  have hi := i.isLt
  unfold Instruction.set_operand
  simp only [List.length_set, List.length_append, List.length_replicate]
  omega

theorem parse_into_slot_count (st : AssemblerState) (inst : Instruction) (text : List Nat)
    (r : Bool × Instruction × AssemblerState) (h : parse_into_slot st inst text = some r)
    (hc : inst.operand_count ≤ MAX_OPERANDS) (hl : inst.operands.length ≤ MAX_OPERANDS) :
    r.2.1.operand_count ≤ MAX_OPERANDS ∧ r.2.1.operands.length ≤ MAX_OPERANDS := by
  unfold parse_into_slot at h
  split at h
  · split at h
    · next hlt =>
      rw [Option.some.injEq] at h
      rw [← h]
      exact ⟨hlt, set_operand_length inst _ _ hl⟩
    · exact absurd h (by simp)
  · rw [Option.some.injEq] at h
    rw [← h]
    exact ⟨hc, hl⟩

theorem parse_operand_list_count : ∀ (l cur : List Nat) (st : AssemblerState)
    (inst : Instruction) (r : Bool × Instruction × AssemblerState),
    parse_operand_list l cur st inst = some r →
    inst.operand_count ≤ MAX_OPERANDS → inst.operands.length ≤ MAX_OPERANDS →
    r.2.1.operand_count ≤ MAX_OPERANDS ∧ r.2.1.operands.length ≤ MAX_OPERANDS := by
  intro l
  induction l with
  | nil =>
    intro cur st inst r h hc hl
    unfold parse_operand_list at h
    split at h
    · exact parse_into_slot_count st inst cur r h hc hl
    · rw [Option.some.injEq] at h
      rw [← h]
      exact ⟨hc, hl⟩
  | cons c rest ih =>
    intro cur st inst r h hc hl
    unfold parse_operand_list at h
    split at h
    · split at h
      · split at h
        · next heq =>
          have k := parse_into_slot_count st inst cur _ heq hc hl
          exact ih _ _ _ r h k.1 k.2
        · next heq =>
          have k := parse_into_slot_count st inst cur _ heq hc hl
          rw [Option.some.injEq] at h
          rw [← h]
          exact k
        · exact absurd h (by simp)
      · exact ih _ _ _ r h hc hl
    · exact parse_into_slot_count st inst _ r h hc hl

theorem parse_statement_count (st : AssemblerState) (line : List Nat) (inst : Instruction)
    (r : Nat × Instruction × AssemblerState) (h : parse_statement st line inst = some r)
    (hc : inst.operand_count ≤ MAX_OPERANDS) (hl : inst.operands.length ≤ MAX_OPERANDS) :
    r.2.1.operand_count ≤ MAX_OPERANDS ∧ r.2.1.operands.length ≤ MAX_OPERANDS := by
  unfold parse_statement at h
  split at h
  · rw [Option.some.injEq] at h
    rw [← h]
    exact ⟨hc, hl⟩
  · dsimp only at h
    split at h
    · rw [Option.some.injEq] at h
      rw [← h]
      exact ⟨hc, hl⟩
    · split at h
      · next heq =>
        have k := parse_operand_list_count _ _ _ _ _ heq (Nat.zero_le _) hl
        rw [Option.some.injEq] at h
        rw [← h]
        exact k
      · next heq =>
        have k := parse_operand_list_count _ _ _ _ _ heq (Nat.zero_le _) hl
        rw [Option.some.injEq] at h
        rw [← h]
        exact k
      · exact absurd h (by simp)

/-- Where `parse_line` has a result, the operands are in the slots 0 to 3 and
`operand_count` is at most 4. -/
theorem parse_line_count (st : AssemblerState) (line : List Nat) (inst : Instruction)
    (r : Nat × Instruction × AssemblerState) (h : parse_line st line inst = some r)
    (hc : inst.operand_count ≤ MAX_OPERANDS) (hl : inst.operands.length ≤ MAX_OPERANDS) :
    r.2.1.operand_count ≤ MAX_OPERANDS ∧ r.2.1.operands.length ≤ MAX_OPERANDS := by
  unfold parse_line at h
  dsimp only at h
  split at h
  · rw [Option.some.injEq] at h
    rw [← h]
    exact ⟨hc, hl⟩
  · split at h
    · split at h
      · rw [Option.some.injEq] at h
        rw [← h]
        constructor
        · show (if _ then _ else _ : Instruction).operand_count ≤ MAX_OPERANDS
          split <;> exact hc
        · show (if _ then _ else _ : Instruction).operands.length ≤ MAX_OPERANDS
          split <;> exact hl
      · refine parse_statement_count _ _ _ r h ?_ ?_
        · show (if _ then _ else _ : Instruction).operand_count ≤ MAX_OPERANDS
          split <;> exact hc
        · show (if _ then _ else _ : Instruction).operands.length ≤ MAX_OPERANDS
          split <;> exact hl
    · exact parse_statement_count _ _ _ r h hc hl

/-- C35: the operand loop of `parse_line` runs while `operand_count` is below
`MAX_OPERANDS = 4`, but the statement after it parses the text that is left
without that test.  For `ADD R1, R2, R3, R4,` four operands are stored and
nothing is left; for `ADD R1, R2, R3, R4, R5` the text ` R5` is left,
`parse_operand` accepts it, and the operand is stored at `operands[4]`, outside
the array: `parse_line` and pass 1 have no defined result (likewise with `#7`
as fifth operand).  Whenever the four slots are full and `parse_operand`
accepts the text left, the store is outside the array.  Where `parse_line` has a
result, `operand_count` is at most 4 and the operands are in slots 0 to 3. -/
theorem fifth_operand_stored_outside_array :
    MAX_OPERANDS = 4 ∧
    (parse_line (assembler_create false) (cstr "ADD R1, R2, R3, R4") {}).map
        (fun r => (r.1, r.2.1.operand_count,
          r.2.1.operands.map (fun o => (o.mode, o.reg_num)), r.2.2.errors)) =
      some (PARSE_INSTRUCTION, 4,
        [(AM_REGISTER, 1), (AM_REGISTER, 2), (AM_REGISTER, 3), (AM_REGISTER, 4)], 0) ∧
    (parse_line (assembler_create false) (cstr "ADD R1, R2, R3, R4,") {}).map
        (fun r => (r.1, r.2.1.operand_count, r.2.1.operands.length, r.2.2.errors)) =
      some (PARSE_INSTRUCTION, 4, 4, 0) ∧
    (parse_operand (assembler_create false) (cstr " R5") {}).1.map
        (fun o => (o.mode, o.reg_num)) = some (AM_REGISTER, 5) ∧
    parse_line (assembler_create false) (cstr "ADD R1, R2, R3, R4, R5") {} = none ∧
    parse_line (assembler_create false) (cstr "ADD R1, R2, R3, R4, #7") {} = none ∧
    assemble_first_pass no_files (assembler_create false) (cstr "input.basm")
      (source_lines ["ADD R1, R2, R3, R4, R5"]) = none ∧
    (∀ (st : AssemblerState) (inst : Instruction) (c : Nat) (rest : List Nat),
      ¬ inst.operand_count < MAX_OPERANDS →
      (parse_operand st (c :: rest) (inst.operand inst.operand_count)).1 ≠ none →
      parse_operand_list (c :: rest) [] st inst = none) ∧
    (∀ (st : AssemblerState) (line : List Nat) (r : Nat × Instruction × AssemblerState),
      parse_line st line {} = some r →
      r.2.1.operand_count ≤ MAX_OPERANDS ∧ r.2.1.operands.length ≤ MAX_OPERANDS) :=
  ⟨rfl, by decide, by decide, by decide, Option.isNone_iff_eq_none.mp (by decide),
    Option.isNone_iff_eq_none.mp (by decide), Option.isNone_iff_eq_none.mp (by decide),
    parse_operand_list_full,
    fun st line r h => parse_line_count st line {} r h (Nat.zero_le _) (Nat.zero_le _)⟩

/-! ## Encoder: `emit_byte` -/

theorem emit_byte_fields (state : AssemblerState) (byte : Nat) :
    (emit_byte state byte).pc = (state.pc + 1) % 2 ^ 32 ∧
    (emit_byte state byte).current_section = state.current_section ∧
    (emit_byte state byte).sections = state.sections.modify
      (fun sec =>
        if state.pc ≥ sec.address then
          if (state.pc - sec.address + 1) % 2 ^ 32 > sec.size then
            { sec with size := (state.pc - sec.address + 1) % 2 ^ 32 }
          else sec
        else sec) state.current_section ∧
    (emit_byte state byte).memory =
      (if state.pc < MEMORY_SIZE
        then (fun a => if a = state.pc then byte % 256 else state.memory a) else state.memory) :=
  ⟨rfl, rfl, rfl, rfl⟩

theorem emit_byte_section (state : AssemblerState) (byte : Nat) (hpc : state.pc + 1 < 2 ^ 32)
    (j : Nat) (sec : Section) (hj : state.sections[j]? = some sec) :
    ∃ sec2, (emit_byte state byte).sections[j]? = some sec2 ∧
      sec2.address = sec.address ∧ sec2.name = sec.name ∧ sec.size ≤ sec2.size ∧
      (j ≠ state.current_section → sec2 = sec) ∧
      (j = state.current_section →
        sec2.size = if sec.address ≤ state.pc then max sec.size (state.pc - sec.address + 1)
          else sec.size) := by
  obtain ⟨-, -, hs, -⟩ := emit_byte_fields state byte
  rw [hs, List.getElem?_modify, hj]
  have hmod : (state.pc - sec.address + 1) % 2 ^ 32 = state.pc - sec.address + 1 := by
    apply Nat.mod_eq_of_lt; omega
  by_cases hc : state.current_section = j
  · simp only [hc, if_true, Option.map_eq_map, Option.map_some', hmod, ge_iff_le]
    by_cases h1 : sec.address ≤ state.pc
    · by_cases h2 : state.pc - sec.address + 1 > sec.size
      · simp only [h1, h2, if_true]
        refine ⟨_, rfl, rfl, rfl, by show sec.size ≤ state.pc - sec.address + 1; omega,
          fun h => absurd rfl h, fun _ => ?_⟩
        show state.pc - sec.address + 1 = max sec.size (state.pc - sec.address + 1)
        omega
      · simp only [h1, h2, if_true, if_false]
        refine ⟨_, rfl, rfl, rfl, Nat.le_refl _, fun _ => rfl, fun _ => ?_⟩
        omega
    · simp only [h1, if_false]
      exact ⟨_, rfl, rfl, rfl, Nat.le_refl _, fun _ => rfl, fun _ => rfl⟩
  · simp only [hc, if_false, Option.map_eq_map, Option.map_some']
    exact ⟨_, rfl, rfl, rfl, Nat.le_refl _, fun _ => rfl, fun h => absurd h.symm hc⟩

theorem emit_bytes_section (bs : List Nat) : ∀ (state : AssemblerState) (sec : Section),
    state.pc + bs.length < 2 ^ 32 →
    state.sections[state.current_section]? = some sec →
    ∃ sec2, (emit_bytes state bs).sections[state.current_section]? = some sec2 ∧
      sec2.address = sec.address ∧
      sec2.size = max sec.size
        (if bs ≠ [] ∧ sec.address < state.pc + bs.length then state.pc + bs.length - sec.address
          else 0) ∧
      (emit_bytes state bs).pc = state.pc + bs.length ∧
      (emit_bytes state bs).current_section = state.current_section := by
  induction bs with
  | nil =>
    intro state sec _ hs
    exact ⟨sec, hs, rfl, by simp, rfl, rfl⟩
  | cons b bs ih =>
    intro state sec hpc hs
    simp only [List.length_cons] at hpc
    obtain ⟨hp1, hc1, -, -⟩ := emit_byte_fields state b
    have hp : (emit_byte state b).pc = state.pc + 1 := by
      rw [hp1]; apply Nat.mod_eq_of_lt; omega
    obtain ⟨s1, g1, a1, -, -, -, z1⟩ := emit_byte_section state b (by omega) _ sec hs
    obtain ⟨s2, g2, a2, z2, p2, c2⟩ := ih (emit_byte state b) s1 (by rw [hp]; omega)
      (by rw [hc1]; exact g1)
    rw [hc1] at g2
    refine ⟨s2, g2, a2.trans a1, ?_, ?_, c2.trans hc1⟩
    · rw [z2, z1 rfl, hp, a1]
      simp only [List.length_cons, ne_eq, reduceCtorEq, not_false_eq_true, true_and]
      by_cases hb : bs = []
      · subst hb
        simp only [not_true_eq_false, false_and, if_false, List.length_nil]
        split <;> split <;> omega
      · have hl : 0 < bs.length := List.length_pos.mpr hb
        simp only [hb, not_false_eq_true, true_and]
        split <;> split <;> split <;> omega
    · show (emit_bytes (emit_byte state b) bs).pc = _
      rw [p2, hp, List.length_cons]; omega

theorem emit_byte_section_grows (state : AssemblerState) (byte : Nat)
    (j : Nat) (sec : Section) (hj : state.sections[j]? = some sec) :
    ∃ sec2, (emit_byte state byte).sections[j]? = some sec2 ∧
      sec2.address = sec.address ∧ sec.size ≤ sec2.size ∧
      (j ≠ state.current_section → sec2 = sec) := by
  obtain ⟨-, -, hs, -⟩ := emit_byte_fields state byte
  rw [hs, List.getElem?_modify, hj]
  by_cases hc : state.current_section = j
  · simp only [hc, if_true, Option.map_eq_map, Option.map_some', ge_iff_le]
    by_cases h1 : sec.address ≤ state.pc
    · by_cases h2 : (state.pc - sec.address + 1) % 2 ^ 32 > sec.size
      · simp only [h1, h2, if_true]
        exact ⟨_, rfl, rfl, Nat.le_of_lt h2, fun h => absurd rfl h⟩
      · simp only [h1, h2, if_true, if_false]
        exact ⟨_, rfl, rfl, Nat.le_refl _, fun _ => rfl⟩
    · simp only [h1, if_false]
      exact ⟨_, rfl, rfl, Nat.le_refl _, fun _ => rfl⟩
  · simp only [hc, if_false, Option.map_eq_map, Option.map_some']
    exact ⟨_, rfl, rfl, Nat.le_refl _, fun _ => rfl⟩

/-- C36 (counterexample): after `.org 4294967295` the program counter is
2^32 - 1, at or above the origin 0 of `.text`; `emit_byte` there wraps the
program counter to 0 and leaves the size of `.text` at 0, although the extent
`pc - origin + 1` of that byte is 2^32. -/
theorem emit_byte_wraps_at_top :
    (first_pass_of [".org 4294967295"]).pc = 2 ^ 32 - 1 ∧
    (first_pass_of [".org 4294967295"]).current_section = 0 ∧
    (first_pass_of [".org 4294967295"]).sections.map (fun s => (s.address, s.size))
      = [(0, 0), (0x4000, 0), (0x6000, 0), (0x8000, 0)] ∧
    (emit_byte (first_pass_of [".org 4294967295"]) 1).pc = 0 ∧
    (emit_byte (first_pass_of [".org 4294967295"]) 1).sections.map (fun s => (s.address, s.size))
      = [(0, 0), (0x4000, 0), (0x6000, 0), (0x8000, 0)] ∧
    (assemble_source [".org 4294967295", ".byte 1"]).errors = 0 ∧
    (assemble_source [".org 4294967295", ".byte 1"]).pc = 0 ∧
    (assemble_source [".org 4294967295", ".byte 1"]).sections.map (fun s => (s.address, s.size))
      = [(0, 0), (0x4000, 0), (0x6000, 0), (0x8000, 0)] := by
  decide

/-- C36 (amended): one call of `emit_byte` never decreases the size of a
section and changes no section other than the current one; and after the calls
of `emit_byte` for the bytes `bs`, with the program counter staying below 2^32,
the program counter has advanced by 1 per call and the size of the current
section is the larger of its previous size and the extent `pc - origin` reached
by the calls made at or above its origin. -/
theorem emit_byte_section_extent (state : AssemblerState) (bs : List Nat) (sec : Section)
    (hpc : state.pc + bs.length < 2 ^ 32)
    (hs : state.sections[state.current_section]? = some sec) :
    (∀ byte j old, state.sections[j]? = some old →
      ∃ new, (emit_byte state byte).sections[j]? = some new ∧ new.address = old.address ∧
        old.size ≤ new.size ∧ (j ≠ state.current_section → new = old)) ∧
    (∀ byte, state.pc + 1 < 2 ^ 32 → (emit_byte state byte).pc = state.pc + 1) ∧
    ∃ sec2, (emit_bytes state bs).sections[state.current_section]? = some sec2 ∧
      sec2.address = sec.address ∧
      sec2.size = max sec.size
        (if bs ≠ [] ∧ sec.address < state.pc + bs.length then state.pc + bs.length - sec.address
          else 0) ∧
      (emit_bytes state bs).pc = state.pc + bs.length ∧
      (emit_bytes state bs).current_section = state.current_section := by
  refine ⟨fun byte j old h => emit_byte_section_grows state byte j old h, ?_,
    emit_bytes_section bs state sec hpc hs⟩
  intro byte hb
  rw [(emit_byte_fields state byte).1]
  exact Nat.mod_eq_of_lt hb

/-- Witness of `emit_byte_section_extent`: the five bytes of `MOV R0, #5`
emitted at the origin of `.text`. -/
theorem emit_byte_section_extent_witness :
    (∀ byte j old, (assembler_create false).sections[j]? = some old →
      ∃ new, (emit_byte (assembler_create false) byte).sections[j]? = some new ∧
        new.address = old.address ∧ old.size ≤ new.size ∧
        (j ≠ (assembler_create false).current_section → new = old)) ∧
    (∀ byte, (assembler_create false).pc + 1 < 2 ^ 32 →
      (emit_byte (assembler_create false) byte).pc = (assembler_create false).pc + 1) ∧
    ∃ sec2, (emit_bytes (assembler_create false) [0x01, 0, 1, 5, 0]).sections[
        (assembler_create false).current_section]? = some sec2 ∧
      sec2.address = 0 ∧
      sec2.size = max 0
        (if [0x01, 0, 1, 5, 0] ≠ [] ∧ 0 < (assembler_create false).pc + 5
          then (assembler_create false).pc + 5 - 0 else 0) ∧
      (emit_bytes (assembler_create false) [0x01, 0, 1, 5, 0]).pc
        = (assembler_create false).pc + 5 ∧
      (emit_bytes (assembler_create false) [0x01, 0, 1, 5, 0]).current_section
        = (assembler_create false).current_section :=
  emit_byte_section_extent (assembler_create false) [0x01, 0, 1, 5, 0]
    { name := cstr ".text", address := 0, size := 0, attributes := 0x05,
      data := List.replicate 65536 0 } (by decide) rfl

/-- C37: `emit_byte` with PC below 16 MiB stores the byte at `memory[PC]` and
leaves every other byte of the image as it was; with PC at or above 16 MiB it
leaves the whole image as it was. -/
theorem emit_byte_memory_bounds (state : AssemblerState) (byte : Nat) :
    (state.pc < MEMORY_SIZE →
      (emit_byte state byte).memory state.pc = byte % 256 ∧
      ∀ a, a ≠ state.pc → (emit_byte state byte).memory a = state.memory a) ∧
    (MEMORY_SIZE ≤ state.pc → (emit_byte state byte).memory = state.memory) := by
  obtain ⟨-, -, -, hm⟩ := emit_byte_fields state byte
  constructor
  · intro h
    rw [hm, if_pos h]
    exact ⟨by simp only [if_true], fun a ha => by simp only [if_neg ha]⟩
  · intro h
    rw [hm, if_neg (by omega)]

/-- Witness of `emit_byte_memory_bounds`: a byte emitted at PC = 0 is stored
at address 0 only, and a byte emitted at PC = 16 MiB (after `.org 16777216`)
leaves the image as it was. -/
theorem emit_byte_memory_bounds_witness :
    ((emit_byte (assembler_create false) 0x70).memory (assembler_create false).pc = 0x70 % 256 ∧
      ∀ a, a ≠ (assembler_create false).pc →
        (emit_byte (assembler_create false) 0x70).memory a = (assembler_create false).memory a) ∧
    (first_pass_of [".org 16777216"]).pc = MEMORY_SIZE ∧
    (emit_byte (first_pass_of [".org 16777216"]) 0x70).memory
      = (first_pass_of [".org 16777216"]).memory :=
  ⟨(emit_byte_memory_bounds (assembler_create false) 0x70).1 (by decide), by decide,
    (emit_byte_memory_bounds (first_pass_of [".org 16777216"]) 0x70).2 (by decide)⟩

/-! ## The section buffers are never written -/

theorem untouched_of_sections {s t : AssemblerState} (h : t.sections = s.sections)
    (hs : untouched_buffers s) : untouched_buffers t := by
  unfold untouched_buffers; rw [h]; exact hs

theorem error_add_sections (s : AssemblerState) : (error_add s).sections = s.sections := by
  unfold error_add; split <;> rfl

theorem symbol_add_sections (s : AssemblerState) (n : List Nat) (v t : Nat) :
    (symbol_add s n v t).sections = s.sections := by
  unfold symbol_add
  split
  · exact error_add_sections s
  · rfl

theorem symbol_find_sections (s : AssemblerState) (l : List Nat) :
    (symbol_find s l).2.sections = s.sections := (symbol_find_frame s l).1.2.2.1

theorem section_create_buffers (s : AssemblerState) (n : List Nat) (a t : Nat)
    (hs : untouched_buffers s) : untouched_buffers (section_create s n a t) := by
  unfold section_create
  split
  · exact untouched_of_sections (error_add_sections s) hs
  · intro sec hsec
    simp only [List.mem_append, List.mem_singleton] at hsec
    rcases hsec with h | h
    · exact hs sec h
    · rw [h]

theorem section_switch_buffers (s : AssemblerState) (n : List Nat)
    (hs : untouched_buffers s) : untouched_buffers (section_switch s n) := by
  unfold section_switch
  split
  · exact hs
  · exact section_create_buffers s n s.pc 0x06 hs

theorem emit_byte_buffers (s : AssemblerState) (b : Nat) (hs : untouched_buffers s) :
    untouched_buffers (emit_byte s b) := by
  intro sec hsec
  obtain ⟨i, hi⟩ := List.getElem?_of_mem hsec
  rw [(emit_byte_fields s b).2.2.1, List.getElem?_modify] at hi
  cases hj : s.sections[i]? with
  | none => rw [hj] at hi; simp at hi
  | some old =>
    have hold := hs old (List.getElem?_mem hj)
    rw [hj] at hi
    simp only [Option.map_eq_map, Option.map_some', Option.some.injEq] at hi
    rw [← hi]
    split
    · split
      · split
        · exact hold
        · exact hold
      · exact hold
    · exact hold

theorem resolve_value_sections (s : AssemblerState) (o : Operand) (p : Nat) :
    (resolve_value s o p).2.sections = s.sections := by
  unfold resolve_value
  have h := symbol_find_sections s o.label
  split
  · split
    · next heq => rw [heq] at h; exact h
    · next heq =>
      rw [heq] at h
      dsimp only
      split
      · rw [error_add_sections]; exact h
      · exact h
  · rfl

theorem resolve_value_buffers (s : AssemblerState) (o : Operand) (p : Nat)
    (hs : untouched_buffers s) : untouched_buffers (resolve_value s o p).2 :=
  untouched_of_sections (resolve_value_sections s o p) hs

theorem emit_fallback_buffers (inst : Instruction) : ∀ (n i : Nat) (s : AssemblerState),
    untouched_buffers s → untouched_buffers (emit_fallback inst n i s) := by
  intro n
  induction n with
  | zero => intro i s hs; exact hs
  | succ n ih =>
    intro i s hs
    unfold emit_fallback
    apply ih
    dsimp only
    split
    · exact emit_byte_buffers _ _ hs
    · exact emit_byte_buffers _ _ (emit_byte_buffers _ _ hs)

theorem emit_instruction_buffers (s : AssemblerState) (inst : Instruction) (p : Nat)
    (hs : untouched_buffers s) : untouched_buffers (emit_instruction s inst p) := by
  have e := emit_byte_buffers
  have r := resolve_value_buffers
  unfold emit_instruction
  split
  · exact hs
  · dsimp only
    split_ifs <;>
      repeat (first
        | exact hs
        | apply emit_byte_buffers
        | apply resolve_value_buffers
        | apply emit_fallback_buffers)

theorem symbol_find_eq_sections {s st : AssemblerState} {l : List Nat}
    {r : Option (Nat × Symbol)} (h : symbol_find s l = (r, st)) : st.sections = s.sections := by
  have k := symbol_find_sections s l
  rw [h] at k
  exact k

theorem parse_operand_sections (s : AssemblerState) (str : List Nat) (o : Operand) :
    (parse_operand s str o).2.sections = s.sections := by
  unfold parse_operand
  dsimp only
  split
  · rfl
  · split
    · rfl
    · split
      · rfl
      · have hf := symbol_find_sections s
        split
        · next hb =>
          split at hb
          · split at hb
            · split at hb
              · next heq =>
                have h := symbol_find_eq_sections heq
                rw [Prod.mk.injEq] at hb; rw [← hb.2]; exact h
              · next heq =>
                have h := symbol_find_eq_sections heq
                split at hb
                · rw [Prod.mk.injEq] at hb; rw [← hb.2]; exact h
                · split at hb <;> (rw [Prod.mk.injEq] at hb; rw [← hb.2]; exact h)
            · rw [Prod.mk.injEq] at hb; rw [← hb.2]
          · rw [Prod.mk.injEq] at hb; rw [← hb.2]
        · next hb =>
          have key : ‹AssemblerState›.sections = s.sections := by
            split at hb
            · split at hb
              · split at hb
                · next heq =>
                  have h := symbol_find_eq_sections heq
                  rw [Prod.mk.injEq] at hb; rw [← hb.2]; exact h
                · next heq =>
                  have h := symbol_find_eq_sections heq
                  split at hb
                  · rw [Prod.mk.injEq] at hb; rw [← hb.2]; exact h
                  · split at hb <;> (rw [Prod.mk.injEq] at hb; rw [← hb.2]; exact h)
              · rw [Prod.mk.injEq] at hb; rw [← hb.2]
            · rw [Prod.mk.injEq] at hb; rw [← hb.2]
          split
          · exact key
          · rw [error_add_sections]; exact key

theorem parse_into_slot_sections (s : AssemblerState) (inst : Instruction) (t : List Nat)
    (r : Bool × Instruction × AssemblerState) (hr : parse_into_slot s inst t = some r) :
    r.2.2.sections = s.sections := by
  unfold parse_into_slot at hr
  have h := parse_operand_sections s t (inst.operand inst.operand_count)
  split at hr
  · next heq =>
    rw [heq] at h
    split at hr
    · rw [Option.some.injEq] at hr
      rw [← hr]
      exact h
    · exact absurd hr (by simp)
  · next heq =>
    rw [heq] at h
    rw [Option.some.injEq] at hr
    rw [← hr]
    exact h

theorem parse_operand_list_sections : ∀ (l cur : List Nat) (s : AssemblerState)
    (inst : Instruction) (r : Bool × Instruction × AssemblerState),
    parse_operand_list l cur s inst = some r → r.2.2.sections = s.sections := by
  intro l
  induction l with
  | nil =>
    intro cur s inst r hr
    unfold parse_operand_list at hr
    split at hr
    · exact parse_into_slot_sections s inst cur r hr
    · rw [Option.some.injEq] at hr
      rw [← hr]
  | cons c rest ih =>
    intro cur s inst r hr
    unfold parse_operand_list at hr
    split at hr
    · split at hr
      · split at hr
        · next heq =>
          have h := parse_into_slot_sections s inst cur _ heq
          rw [ih _ _ _ r hr]
          exact h
        · next heq =>
          have h := parse_into_slot_sections s inst cur _ heq
          rw [Option.some.injEq] at hr
          rw [← hr]
          exact h
        · exact absurd hr (by simp)
      · exact ih _ _ _ r hr
    · exact parse_into_slot_sections _ _ _ r hr

theorem parse_statement_sections (s : AssemblerState) (line : List Nat) (inst : Instruction)
    (r : Nat × Instruction × AssemblerState) (hr : parse_statement s line inst = some r) :
    r.2.2.sections = s.sections := by
  unfold parse_statement at hr
  split at hr
  · rw [Option.some.injEq] at hr
    rw [← hr]
  · dsimp only at hr
    split at hr
    · rw [Option.some.injEq] at hr
      rw [← hr]
      exact error_add_sections s
    · split at hr
      · next heq =>
        have h := parse_operand_list_sections _ _ _ _ _ heq
        rw [Option.some.injEq] at hr
        rw [← hr]
        exact h
      · next heq =>
        have h := parse_operand_list_sections _ _ _ _ _ heq
        rw [Option.some.injEq] at hr
        rw [← hr]
        exact h
      · exact absurd hr (by simp)

theorem parse_line_sections (s : AssemblerState) (line : List Nat) (inst : Instruction)
    (r : Nat × Instruction × AssemblerState) (hr : parse_line s line inst = some r) :
    r.2.2.sections = s.sections := by
  unfold parse_line at hr
  dsimp only at hr
  split at hr
  · rw [Option.some.injEq] at hr
    rw [← hr]
  · split at hr
    · split at hr
      · rw [Option.some.injEq] at hr
        rw [← hr]
      · exact parse_statement_sections _ _ _ r hr
    · exact parse_statement_sections _ _ _ r hr

theorem advance_pc_buffers (s : AssemblerState) (n : Nat) (hs : untouched_buffers s) :
    untouched_buffers (advance_pc s n) := hs

theorem directive_bytes_buffers (p : Nat) : ∀ (ts : List (List Nat)) (s : AssemblerState),
    untouched_buffers s → untouched_buffers (directive_bytes p ts s) := by
  intro ts
  induction ts with
  | nil => intro s hs; exact hs
  | cons t rest ih =>
    intro s hs
    unfold directive_bytes
    apply ih
    dsimp only
    split
    · exact emit_byte_buffers _ _ hs
    · exact hs

theorem directive_words_buffers (p : Nat) : ∀ (ts : List (List Nat)) (s : AssemblerState),
    untouched_buffers s → untouched_buffers (directive_words p ts s) := by
  intro ts
  induction ts with
  | nil => intro s hs; exact hs
  | cons t rest ih =>
    intro s hs
    unfold directive_words
    apply ih
    dsimp only
    split
    · exact emit_byte_buffers _ _ (emit_byte_buffers _ _ hs)
    · exact hs

theorem directive_dwords_buffers (p : Nat) : ∀ (ts : List (List Nat)) (s : AssemblerState),
    untouched_buffers s → untouched_buffers (directive_dwords p ts s) := by
  intro ts
  induction ts with
  | nil => intro s hs; exact hs
  | cons t rest ih =>
    intro s hs
    unfold directive_dwords
    apply ih
    dsimp only
    split
    · exact emit_byte_buffers _ _ (emit_byte_buffers _ _
        (emit_byte_buffers _ _ (emit_byte_buffers _ _ hs)))
    · exact hs

theorem directive_chars_buffers (p : Nat) : ∀ (cs : List Nat) (s : AssemblerState),
    untouched_buffers s → untouched_buffers (directive_chars p cs s) := by
  intro cs
  induction cs with
  | nil => intro s hs; exact hs
  | cons c rest ih =>
    intro s hs
    unfold directive_chars
    apply ih
    split
    · exact emit_byte_buffers _ _ hs
    · exact hs

theorem handle_directive_buffers (s : AssemblerState) (line : List Nat) (p : Nat)
    (hs : untouched_buffers s) : untouched_buffers (handle_directive s line p) := by
  unfold handle_directive
  dsimp only
  split_ifs <;>
    first
    | exact hs
    | exact section_switch_buffers _ _ hs
    | exact directive_bytes_buffers _ _ _ hs
    | exact directive_words_buffers _ _ _ hs
    | exact directive_dwords_buffers _ _ _ hs
    | (split
       · split
         · first
           | exact emit_byte_buffers _ _ (directive_chars_buffers _ _ _ hs)
           | exact directive_chars_buffers _ _ _ hs
         · exact hs
       · exact hs)

theorem process_parsed_buffers (s : AssemblerState) (result : Nat) (inst : Instruction)
    (original_line : List Nat) (p : Nat) (hs : untouched_buffers s) :
    untouched_buffers (process_parsed s result inst original_line p) := by
  unfold process_parsed
  have h1 : untouched_buffers
      (if p = 1 ∧ inst.label ≠ [] then symbol_add s inst.label s.pc SYM_CODE else s) := by
    split
    · exact untouched_of_sections (symbol_add_sections _ _ _ _) hs
    · exact hs
  split
  · exact untouched_of_sections (error_add_sections s) hs
  · dsimp only
    split
    · exact handle_directive_buffers _ _ _ h1
    · split
      · split
        · exact h1
        · split
          · exact emit_instruction_buffers _ _ _ h1
          · exact h1
      · exact h1

theorem parse_line_buffers (s : AssemblerState) (line : List Nat) (inst : Instruction)
    (r : Nat × Instruction × AssemblerState) (hr : parse_line s line inst = some r)
    (hs : untouched_buffers s) : untouched_buffers r.2.2 :=
  untouched_of_sections (parse_line_sections s line inst r hr) hs

theorem include_lines_buffers (p : Nat) : ∀ (ls : List (List Nat)) (s t : AssemblerState),
    include_lines p ls s = some t → untouched_buffers s → untouched_buffers t := by
  intro ls
  induction ls with
  | nil =>
    intro s t h hs
    rw [include_lines, Option.some.injEq] at h
    rw [← h]
    exact hs
  | cons l rest ih =>
    intro s t h hs
    unfold include_lines at h
    dsimp only at h
    split at h
    · next heq =>
      exact ih _ t h (process_parsed_buffers _ _ _ _ _ (parse_line_buffers _ _ _ _ heq hs))
    · exact absurd h (by simp)

theorem handle_include_buffers (fs : List Nat → Option (List (List Nat))) (s t : AssemblerState)
    (f : List Nat) (p : Nat) (h : handle_include fs s f p = some t)
    (hs : untouched_buffers s) : untouched_buffers t := by
  unfold handle_include at h
  split at h
  · rw [Option.some.injEq] at h
    rw [← h]
    exact untouched_of_sections (error_add_sections s) hs
  · split at h
    · rw [Option.some.injEq] at h
      rw [← h]
      exact untouched_of_sections (error_add_sections s) hs
    · dsimp only at h
      split at h
      · next heq =>
        rw [Option.some.injEq] at h
        rw [← h]
        have k := include_lines_buffers _ _ _ _ heq hs
        exact k
      · exact absurd h (by simp)

theorem assemble_pass_buffers (fs : List Nat → Option (List (List Nat))) (p : Nat) :
    ∀ (ls : List (List Nat)) (s t : AssemblerState),
    assemble_pass fs p ls s = some t → untouched_buffers s → untouched_buffers t := by
  intro ls
  induction ls with
  | nil =>
    intro s t h hs
    rw [assemble_pass, Option.some.injEq] at h
    rw [← h]
    exact hs
  | cons l rest ih =>
    intro s t h hs
    unfold assemble_pass at h
    dsimp only at h
    split at h
    · exact ih _ t h hs
    · split at h
      · split at h
        · next heq =>
          refine ih _ t h ?_
          split at heq
          · exact handle_include_buffers _ _ _ _ _ heq hs
          · split at heq
            · exact handle_include_buffers _ _ _ _ _ heq hs
            · rw [Option.some.injEq] at heq
              rw [← heq]
              exact hs
        · exact absurd h (by simp)
      · split at h
        · next heq =>
          exact ih _ t h (process_parsed_buffers _ _ _ _ _ (parse_line_buffers _ _ _ _ heq hs))
        · exact absurd h (by simp)

theorem assembler_create_buffers (o : Bool) : untouched_buffers (assembler_create o) := by
  unfold assembler_create
  apply section_switch_buffers
  apply section_create_buffers
  apply section_create_buffers
  apply section_create_buffers
  apply section_create_buffers
  intro sec hsec
  cases hsec

theorem assemble_first_pass_buffers (fs : List Nat → Option (List (List Nat)))
    (s t : AssemblerState) (f : List Nat) (ls : List (List Nat))
    (h : assemble_first_pass fs s f ls = some t) (hs : untouched_buffers s) :
    untouched_buffers t :=
  assemble_pass_buffers fs 1 ls _ t h hs

theorem assemble_second_pass_buffers (fs : List Nat → Option (List (List Nat)))
    (s t : AssemblerState) (ls : List (List Nat)) (h : assemble_second_pass fs s ls = some t)
    (hs : untouched_buffers s) : untouched_buffers t :=
  assemble_pass_buffers fs 2 ls _ t h (section_switch_buffers _ _ hs)

theorem first_pass_of_buffers (src : List String) : untouched_buffers (first_pass_of src) := by
  unfold first_pass_of
  split
  · next heq => exact assemble_first_pass_buffers _ _ _ _ _ heq (assembler_create_buffers false)
  · exact assembler_create_buffers false

theorem assemble_source_buffers (src : List String) :
    untouched_buffers (assemble_source src) := by
  unfold assemble_source
  split
  · next heq => exact assemble_second_pass_buffers _ _ _ _ heq (first_pass_of_buffers src)
  · exact first_pass_of_buffers src

/-! ## The sections of a state: names and origins -/

theorem origins_of_sections {base : List (List Nat × Nat)} {s t : AssemblerState}
    (h : t.sections = s.sections) (hs : base <+: section_origins s) :
    base <+: section_origins t := by
  unfold section_origins at hs ⊢
  rw [h]
  exact hs

theorem section_create_origins {base : List (List Nat × Nat)} (s : AssemblerState)
    (n : List Nat) (a t : Nat) (hs : base <+: section_origins s) :
    base <+: section_origins (section_create s n a t) := by
  unfold section_create
  split
  · exact origins_of_sections (error_add_sections s) hs
  · unfold section_origins at hs ⊢
    rw [List.map_append]
    exact hs.trans (List.prefix_append _ _)

theorem section_switch_origins {base : List (List Nat × Nat)} (s : AssemblerState)
    (n : List Nat) (hs : base <+: section_origins s) :
    base <+: section_origins (section_switch s n) := by
  unfold section_switch
  split
  · exact hs
  · exact section_create_origins s n s.pc 0x06 hs

theorem emit_byte_section_origins (s : AssemblerState) (b : Nat) :
    section_origins (emit_byte s b) = section_origins s := by
  unfold section_origins
  rw [(emit_byte_fields s b).2.2.1]
  apply List.ext_getElem?
  intro i
  rw [List.getElem?_map, List.getElem?_map, List.getElem?_modify]
  cases s.sections[i]? with
  | none => rfl
  | some old =>
    simp only [Option.map_eq_map, Option.map_some']
    split
    · split
      · split <;> rfl
      · rfl
    · rfl

theorem emit_byte_origins {base : List (List Nat × Nat)} (s : AssemblerState) (b : Nat)
    (hs : base <+: section_origins s) : base <+: section_origins (emit_byte s b) := by
  rw [emit_byte_section_origins]
  exact hs

theorem resolve_value_origins {base : List (List Nat × Nat)}
    (s : AssemblerState) (o : Operand) (p : Nat)
    (hs : base <+: section_origins s) : base <+: section_origins (resolve_value s o p).2 :=
  origins_of_sections (resolve_value_sections s o p) hs

theorem emit_fallback_origins {base : List (List Nat × Nat)}
    (inst : Instruction) : ∀ (n i : Nat) (s : AssemblerState),
    base <+: section_origins s → base <+: section_origins (emit_fallback inst n i s) := by
  intro n
  induction n with
  | zero => intro i s hs; exact hs
  | succ n ih =>
    intro i s hs
    unfold emit_fallback
    apply ih
    dsimp only
    split
    · exact emit_byte_origins _ _ hs
    · exact emit_byte_origins _ _ (emit_byte_origins _ _ hs)

theorem emit_instruction_origins {base : List (List Nat × Nat)}
    (s : AssemblerState) (inst : Instruction) (p : Nat)
    (hs : base <+: section_origins s) : base <+: section_origins (emit_instruction s inst p) := by
  unfold emit_instruction
  split
  · exact hs
  · dsimp only
    split_ifs <;>
      repeat (first
        | exact hs
        | apply emit_byte_origins
        | apply resolve_value_origins
        | apply emit_fallback_origins)

theorem advance_pc_origins {base : List (List Nat × Nat)}
    (s : AssemblerState) (n : Nat) (hs : base <+: section_origins s) :
    base <+: section_origins (advance_pc s n) := hs

theorem directive_bytes_origins {base : List (List Nat × Nat)}
    (p : Nat) : ∀ (ts : List (List Nat)) (s : AssemblerState),
    base <+: section_origins s → base <+: section_origins (directive_bytes p ts s) := by
  intro ts
  induction ts with
  | nil => intro s hs; exact hs
  | cons t rest ih =>
    intro s hs
    unfold directive_bytes
    apply ih
    dsimp only
    split
    · exact emit_byte_origins _ _ hs
    · exact hs

theorem directive_words_origins {base : List (List Nat × Nat)}
    (p : Nat) : ∀ (ts : List (List Nat)) (s : AssemblerState),
    base <+: section_origins s → base <+: section_origins (directive_words p ts s) := by
  intro ts
  induction ts with
  | nil => intro s hs; exact hs
  | cons t rest ih =>
    intro s hs
    unfold directive_words
    apply ih
    dsimp only
    split
    · exact emit_byte_origins _ _ (emit_byte_origins _ _ hs)
    · exact hs

theorem directive_dwords_origins {base : List (List Nat × Nat)}
    (p : Nat) : ∀ (ts : List (List Nat)) (s : AssemblerState),
    base <+: section_origins s → base <+: section_origins (directive_dwords p ts s) := by
  intro ts
  induction ts with
  | nil => intro s hs; exact hs
  | cons t rest ih =>
    intro s hs
    unfold directive_dwords
    apply ih
    dsimp only
    split
    · exact emit_byte_origins _ _ (emit_byte_origins _ _
        (emit_byte_origins _ _ (emit_byte_origins _ _ hs)))
    · exact hs

theorem directive_chars_origins {base : List (List Nat × Nat)}
    (p : Nat) : ∀ (cs : List Nat) (s : AssemblerState),
    base <+: section_origins s → base <+: section_origins (directive_chars p cs s) := by
  intro cs
  induction cs with
  | nil => intro s hs; exact hs
  | cons c rest ih =>
    intro s hs
    unfold directive_chars
    apply ih
    split
    · exact emit_byte_origins _ _ hs
    · exact hs

theorem handle_directive_origins {base : List (List Nat × Nat)}
    (s : AssemblerState) (line : List Nat) (p : Nat)
    (hs : base <+: section_origins s) : base <+: section_origins (handle_directive s line p) := by
  unfold handle_directive
  dsimp only
  split_ifs <;>
    first
    | exact hs
    | exact section_switch_origins _ _ hs
    | exact directive_bytes_origins _ _ _ hs
    | exact directive_words_origins _ _ _ hs
    | exact directive_dwords_origins _ _ _ hs
    | (split
       · split
         · first
           | exact emit_byte_origins _ _ (directive_chars_origins _ _ _ hs)
           | exact directive_chars_origins _ _ _ hs
         · exact hs
       · exact hs)

theorem process_parsed_origins {base : List (List Nat × Nat)}
    (s : AssemblerState) (result : Nat) (inst : Instruction)
    (original_line : List Nat) (p : Nat) (hs : base <+: section_origins s) :
    base <+: section_origins (process_parsed s result inst original_line p) := by
  unfold process_parsed
  have h1 : base <+: section_origins
      (if p = 1 ∧ inst.label ≠ [] then symbol_add s inst.label s.pc SYM_CODE else s) := by
    split
    · exact origins_of_sections (symbol_add_sections _ _ _ _) hs
    · exact hs
  split
  · exact origins_of_sections (error_add_sections s) hs
  · dsimp only
    split
    · exact handle_directive_origins _ _ _ h1
    · split
      · split
        · exact h1
        · split
          · exact emit_instruction_origins _ _ _ h1
          · exact h1
      · exact h1

theorem parse_line_origins {base : List (List Nat × Nat)}
    (s : AssemblerState) (line : List Nat) (inst : Instruction)
    (r : Nat × Instruction × AssemblerState) (hr : parse_line s line inst = some r)
    (hs : base <+: section_origins s) : base <+: section_origins r.2.2 :=
  origins_of_sections (parse_line_sections s line inst r hr) hs

theorem include_lines_origins {base : List (List Nat × Nat)}
    (p : Nat) : ∀ (ls : List (List Nat)) (s t : AssemblerState),
    include_lines p ls s = some t → base <+: section_origins s →
    base <+: section_origins t := by
  intro ls
  induction ls with
  | nil =>
    intro s t h hs
    rw [include_lines, Option.some.injEq] at h
    rw [← h]
    exact hs
  | cons l rest ih =>
    intro s t h hs
    unfold include_lines at h
    dsimp only at h
    split at h
    · next heq =>
      exact ih _ t h (process_parsed_origins _ _ _ _ _ (parse_line_origins _ _ _ _ heq hs))
    · exact absurd h (by simp)

theorem handle_include_origins {base : List (List Nat × Nat)}
    (fs : List Nat → Option (List (List Nat))) (s t : AssemblerState)
    (f : List Nat) (p : Nat) (h : handle_include fs s f p = some t)
    (hs : base <+: section_origins s) : base <+: section_origins t := by
  unfold handle_include at h
  split at h
  · rw [Option.some.injEq] at h
    rw [← h]
    exact origins_of_sections (error_add_sections s) hs
  · split at h
    · rw [Option.some.injEq] at h
      rw [← h]
      exact origins_of_sections (error_add_sections s) hs
    · dsimp only at h
      split at h
      · next heq =>
        rw [Option.some.injEq] at h
        rw [← h]
        have k := include_lines_origins _ _ _ _ heq hs
        exact k
      · exact absurd h (by simp)

theorem assemble_pass_origins {base : List (List Nat × Nat)}
    (fs : List Nat → Option (List (List Nat))) (p : Nat) :
    ∀ (ls : List (List Nat)) (s t : AssemblerState),
    assemble_pass fs p ls s = some t → base <+: section_origins s →
    base <+: section_origins t := by
  intro ls
  induction ls with
  | nil =>
    intro s t h hs
    rw [assemble_pass, Option.some.injEq] at h
    rw [← h]
    exact hs
  | cons l rest ih =>
    intro s t h hs
    unfold assemble_pass at h
    dsimp only at h
    split at h
    · exact ih _ t h hs
    · split at h
      · split at h
        · next heq =>
          refine ih _ t h ?_
          split at heq
          · exact handle_include_origins _ _ _ _ _ heq hs
          · split at heq
            · exact handle_include_origins _ _ _ _ _ heq hs
            · rw [Option.some.injEq] at heq
              rw [← heq]
              exact hs
        · exact absurd h (by simp)
      · split at h
        · next heq =>
          exact ih _ t h (process_parsed_origins _ _ _ _ _ (parse_line_origins _ _ _ _ heq hs))
        · exact absurd h (by simp)

theorem assemble_first_pass_origins {base : List (List Nat × Nat)}
    (fs : List Nat → Option (List (List Nat)))
    (s t : AssemblerState) (f : List Nat) (ls : List (List Nat))
    (h : assemble_first_pass fs s f ls = some t) (hs : base <+: section_origins s) :
    base <+: section_origins t :=
  assemble_pass_origins fs 1 ls _ t h hs

theorem assemble_second_pass_origins {base : List (List Nat × Nat)}
    (fs : List Nat → Option (List (List Nat)))
    (s t : AssemblerState) (ls : List (List Nat)) (h : assemble_second_pass fs s ls = some t)
    (hs : base <+: section_origins s) : base <+: section_origins t :=
  assemble_pass_origins fs 2 ls _ t h (section_switch_origins _ _ hs)

theorem assembler_create_origins (o : Bool) :
    section_origins (assembler_create o)
      = [(cstr ".text", 0), (cstr ".data", 0x4000), (cstr ".bss", 0x6000),
          (cstr ".stack", 0x8000)] := by
  cases o <;> decide

/-- The search loop of `section_switch` finds the first section with the name
looked for. -/
theorem section_search_first (name : List Nat) : ∀ (l : List Section) (k i a : Nat),
    (l.map (fun s => (s.name, s.address)))[i]? = some (name, a) →
    name ∉ ((l.map (fun s => (s.name, s.address))).take i).map Prod.fst →
    ∃ s, section_search name l k = some (k + i, s) ∧ s.address = a := by
  intro l
  induction l with
  | nil => intro k i a h; simp at h
  | cons x xs ih =>
    intro k i a h hn
    cases i with
    | zero =>
      simp only [List.map_cons, List.getElem?_cons_zero, Option.some.injEq,
        Prod.mk.injEq] at h
      refine ⟨x, ?_, h.2⟩
      unfold section_search
      rw [if_pos (by simp [streq, h.1])]
      rfl
    | succ j =>
      simp only [List.map_cons, List.getElem?_cons_succ] at h
      simp only [List.map_cons, List.take_succ_cons, List.mem_cons, not_or] at hn
      obtain ⟨s, hs, ha⟩ := ih (k + 1) j a h hn.2
      refine ⟨s, ?_, ha⟩
      unfold section_search
      rw [if_neg (by simp only [streq, beq_iff_eq]; exact fun e => hn.1 e.symm), hs]
      congr 2
      omega

theorem section_switch_found (state : AssemblerState) (name : List Nat) (i a : Nat)
    (h : (section_origins state)[i]? = some (name, a))
    (hn : name ∉ ((section_origins state).take i).map Prod.fst) :
    section_switch state name = { state with current_section := i, pc := a } := by
  obtain ⟨s, hs, ha⟩ := section_search_first name state.sections 0 i a h hn
  rw [Nat.zero_add] at hs
  unfold section_switch
  rw [hs, ← ha]

theorem section_switch_standard (state : AssemblerState)
    (h : [(cstr ".text", 0), (cstr ".data", 0x4000)] <+: section_origins state) :
    section_switch state (cstr ".text") = { state with current_section := 0, pc := 0 } ∧
    section_switch state (cstr ".data")
      = { state with current_section := 1, pc := 0x4000 } := by
  obtain ⟨rest, e⟩ := h
  constructor
  · exact section_switch_found state _ 0 0 (by rw [← e]; rfl) (by simp)
  · refine section_switch_found state _ 1 0x4000 (by rw [← e]; simp) ?_
    rw [← e]
    simp only [List.cons_append, List.take_succ_cons, List.take_zero, List.map_cons,
      List.map_nil, List.mem_singleton]
    decide

theorem assembler_create_standard (o : Bool) :
    [(cstr ".text", 0), (cstr ".data", 0x4000)] <+: section_origins (assembler_create o) := by
  rw [assembler_create_origins]
  exact ⟨_, rfl⟩

theorem directive_text_line (state : AssemblerState) (pass : Nat) :
    handle_directive state (cstr ".text\n") pass = section_switch state (cstr ".text") ∧
    handle_directive state (cstr ".code\n") pass = section_switch state (cstr ".text") ∧
    handle_directive state (cstr ".data\n") pass = section_switch state (cstr ".data") :=
  ⟨rfl, rfl, rfl⟩

theorem directives_standard (state : AssemblerState) (pass : Nat)
    (h : [(cstr ".text", 0), (cstr ".data", 0x4000)] <+: section_origins state) :
    handle_directive state (cstr ".text\n") pass
      = { state with current_section := 0, pc := 0 } ∧
    handle_directive state (cstr ".code\n") pass
      = { state with current_section := 0, pc := 0 } ∧
    handle_directive state (cstr ".data\n") pass
      = { state with current_section := 1, pc := 0x4000 } := by
  obtain ⟨e1, e2, e3⟩ := directive_text_line state pass
  obtain ⟨s1, s2⟩ := section_switch_standard state h
  rw [e1, e2, e3]
  exact ⟨s1, s1, s2⟩

theorem first_pass_standard (fs : List Nat → Option (List (List Nat))) (o : Bool)
    (filename : List Nat) (lines : List (List Nat)) (first : AssemblerState)
    (h : assemble_first_pass fs (assembler_create o) filename lines = some first) :
    [(cstr ".text", 0), (cstr ".data", 0x4000)] <+: section_origins first :=
  assemble_first_pass_origins fs _ first filename lines h (assembler_create_standard o)

/-- C27: in either pass, the lines `.text` and `.code` make the first section
named `.text` current and set PC to its origin, and the line `.data` does so
for the first section named `.data`, in every state that has such a section.
The state of `assembler_create` has the sections `.text` at 0, `.data` at
0x4000, `.bss` and `.stack`; the passes, `process_parsed` and
`handle_directive` only append to the names and origins of the sections; so in
the states that the two passes reach from `assembler_create`, `.text` and
`.code` give section 0 and PC 0, and `.data` gives section 1 and PC 0x4000.
The line `.org N`, with `N < 2^32` written in decimal, sets PC to `N` and leaves
the rest of the state (the current section, the symbol table, the memory image)
as it was; and for a line `l: .org N` whose label was parsed into `inst`, pass 1
enters the label with the PC before the directive and then sets PC to `N`. -/
theorem section_and_org_directives (state : AssemblerState) (pass : Nat) :
    (∀ i a, (section_origins state)[i]? = some (cstr ".text", a) →
      cstr ".text" ∉ ((section_origins state).take i).map Prod.fst →
      handle_directive state (cstr ".text\n") pass
        = { state with current_section := i, pc := a } ∧
      handle_directive state (cstr ".code\n") pass
        = { state with current_section := i, pc := a }) ∧
    (∀ i a, (section_origins state)[i]? = some (cstr ".data", a) →
      cstr ".data" ∉ ((section_origins state).take i).map Prod.fst →
      handle_directive state (cstr ".data\n") pass
        = { state with current_section := i, pc := a }) ∧
    (∀ o, section_origins (assembler_create o)
      = [(cstr ".text", 0), (cstr ".data", 0x4000), (cstr ".bss", 0x6000),
          (cstr ".stack", 0x8000)]) ∧
    (∀ line, section_origins state <+: section_origins (handle_directive state line pass)) ∧
    (∀ result inst line,
      section_origins state <+: section_origins (process_parsed state result inst line pass)) ∧
    (∀ fs lines t, assemble_pass fs pass lines state = some t →
      section_origins state <+: section_origins t) ∧
    ([(cstr ".text", 0), (cstr ".data", 0x4000)] <+: section_origins state →
      handle_directive state (cstr ".text\n") pass
        = { state with current_section := 0, pc := 0 } ∧
      handle_directive state (cstr ".code\n") pass
        = { state with current_section := 0, pc := 0 } ∧
      handle_directive state (cstr ".data\n") pass
        = { state with current_section := 1, pc := 0x4000 }) ∧
    (∀ fs o filename lines first,
      assemble_first_pass fs (assembler_create o) filename lines = some first →
      (handle_directive first (cstr ".text\n") pass
          = { first with current_section := 0, pc := 0 } ∧
        handle_directive first (cstr ".code\n") pass
          = { first with current_section := 0, pc := 0 } ∧
        handle_directive first (cstr ".data\n") pass
          = { first with current_section := 1, pc := 0x4000 }) ∧
      ∀ second, assemble_second_pass fs first lines = some second →
        handle_directive second (cstr ".text\n") pass
          = { second with current_section := 0, pc := 0 } ∧
        handle_directive second (cstr ".code\n") pass
          = { second with current_section := 0, pc := 0 } ∧
        handle_directive second (cstr ".data\n") pass
          = { second with current_section := 1, pc := 0x4000 }) ∧
    (∀ n, n < 2 ^ 32 →
      handle_directive state (cstr ".org " ++ decimal n ++ [10]) pass
        = { state with pc := n }) ∧
    (∀ n (inst : Instruction) (l : List Nat), n < 2 ^ 32 → inst.label ≠ [] → 58 ∉ l →
      process_parsed state PARSE_DIRECTIVE inst (l ++ cstr ": .org " ++ decimal n ++ [10]) 1
        = { symbol_add state inst.label state.pc SYM_CODE with pc := n }) := by
  obtain ⟨e1, e2, e3⟩ := directive_text_line state pass
  refine ⟨?_, ?_, assembler_create_origins, ?_, ?_, ?_, directives_standard state pass, ?_, ?_,
    ?_⟩
  · intro i a h hn
    rw [e1, e2]
    exact ⟨section_switch_found state _ i a h hn, section_switch_found state _ i a h hn⟩
  · intro i a h hn
    rw [e3]
    exact section_switch_found state _ i a h hn
  · intro line
    exact handle_directive_origins state line pass (List.prefix_refl _)
  · intro result inst line
    exact process_parsed_origins state result inst line pass (List.prefix_refl _)
  · intro fs lines t h
    exact assemble_pass_origins fs pass lines state t h (List.prefix_refl _)
  · intro fs o filename lines first h1
    have p1 := first_pass_standard fs o filename lines first h1
    refine ⟨directives_standard first pass p1, ?_⟩
    intro second h2
    exact directives_standard second pass
      (assemble_second_pass_origins fs first second lines h2 p1)
  · intro n hn
    rw [org_line, handle_directive_org, parse_number_skip, parse_number_decimal n hn]
  · intro n inst l hn hl hc
    have h1 : ¬ (PARSE_DIRECTIVE = PARSE_ERROR) := by decide
    rw [labelled_org_line]
    simp only [process_parsed, h1, if_false, hl, ne_eq, not_false_eq_true, and_self, if_true,
      after_char_append 58 l _ hc]
    rw [handle_directive_spaced_org, parse_number_skip, parse_number_decimal n hn]

/-- Witness of `section_and_org_directives`: the lines `.text`, `.data`,
`.org 4096` and `here: .org 4096` in the state after `MOV R0, #1`, where the
section `.text` is current and PC is 5. -/
theorem section_and_org_directives_witness :
    (first_pass_of ["MOV R0, #1"]).pc = 5 ∧
    (first_pass_of ["MOV R0, #1"]).current_section = 0 ∧
    section_origins (first_pass_of ["MOV R0, #1"])
      = [(cstr ".text", 0), (cstr ".data", 0x4000), (cstr ".bss", 0x6000),
          (cstr ".stack", 0x8000)] ∧
    (handle_directive (first_pass_of ["MOV R0, #1"]) (cstr ".text\n") 1
        = { first_pass_of ["MOV R0, #1"] with current_section := 0, pc := 0 } ∧
      handle_directive (first_pass_of ["MOV R0, #1"]) (cstr ".code\n") 1
        = { first_pass_of ["MOV R0, #1"] with current_section := 0, pc := 0 }) ∧
    handle_directive (first_pass_of ["MOV R0, #1"]) (cstr ".data\n") 1
      = { first_pass_of ["MOV R0, #1"] with current_section := 1, pc := 0x4000 } ∧
    decimal 4096 = cstr "4096" ∧
    handle_directive (first_pass_of ["MOV R0, #1"]) (cstr ".org " ++ decimal 4096 ++ [10]) 1
      = { first_pass_of ["MOV R0, #1"] with pc := 4096 } ∧
    process_parsed (first_pass_of ["MOV R0, #1"]) PARSE_DIRECTIVE { label := cstr "here" }
        (cstr "here" ++ cstr ": .org " ++ decimal 4096 ++ [10]) 1
      = { symbol_add (first_pass_of ["MOV R0, #1"]) (cstr "here")
            (first_pass_of ["MOV R0, #1"]).pc SYM_CODE with pc := 4096 } ∧
    (first_pass_of ["MOV R0, #1", "here: .org 4096", "HALT"]).symbols.map
      (fun y => (y.name, y.value)) = [(cstr "here", 5)] ∧
    (first_pass_of ["MOV R0, #1", "here: .org 4096", "HALT"]).pc = 4097 :=
  ⟨by decide, by decide, by decide,
    (section_and_org_directives (first_pass_of ["MOV R0, #1"]) 1).1 0 0 (by decide)
      (by decide),
    (section_and_org_directives (first_pass_of ["MOV R0, #1"]) 1).2.1 1 0x4000 (by decide)
      (by decide),
    by decide,
    (section_and_org_directives (first_pass_of ["MOV R0, #1"]) 1).2.2.2.2.2.2.2.2.1 4096
      (by decide),
    (section_and_org_directives (first_pass_of ["MOV R0, #1"]) 1).2.2.2.2.2.2.2.2.2 4096
      { label := cstr "here" } (cstr "here") (by decide) (by decide) (by decide),
    by decide, by decide⟩

/-! ## The optimizer -/

theorem getD_replicate_zero (n j : Nat) : (List.replicate n 0).getD j 0 = 0 := by
  rw [List.getD_eq_getElem?_getD, List.getElem?_replicate]
  split <;> rfl

theorem optimize_section_succ (fuel j : Nat) (sec : Section) :
    optimize_section (fuel + 1) j sec =
    (if j < (sec.size + 2 ^ 32 - 1) % 2 ^ 32 then
      if j < sec.data.length then
        if sec.data.getD j 0 = OP_NOP then
          if (sec.size + 2 ^ 32 - 1) % 2 ^ 32 < sec.data.length then
            optimize_section fuel (if j > 0 then j else 1)
              { sec with
                data := shift_down sec.data j ((sec.size + 2 ^ 32 - 1) % 2 ^ 32),
                size := (sec.size + 2 ^ 32 - 1) % 2 ^ 32 }
          else none
        else optimize_section fuel (j + 1) sec
      else none
    else some sec) := rfl

theorem optimize_sections_cons (sec : Section) (rest : List Section) :
    optimize_sections (sec :: rest) =
      (if sec.size = 0 then some sec else optimize_section sec.size 0 sec).bind
        (fun sec => (optimize_sections rest).bind (fun rest => some (sec :: rest))) := by
  rw [optimize_sections]
  split <;> rfl

theorem optimize_section_skip : ∀ (fuel j : Nat) (sec : Section),
    sec.data = List.replicate 65536 0 → 1 ≤ sec.size → sec.size ≤ 65537 →
    optimize_section fuel j sec = some sec := by
  intro fuel
  induction fuel with
  | zero => intro j sec _ _ _; rfl
  | succ fuel ih =>
    intro j sec hd h1 h2
    rw [optimize_section_succ]
    have hl : (sec.size + 2 ^ 32 - 1) % 2 ^ 32 = sec.size - 1 := by omega
    have hn : sec.data.getD j 0 ≠ OP_NOP := by
      rw [hd, getD_replicate_zero]; decide
    have hlen : sec.data.length = 65536 := by rw [hd, List.length_replicate]
    simp only [hl, hn, hlen, if_false]
    split
    · rw [if_pos (by omega)]
      exact ih (j + 1) sec hd h1 h2
    · rfl

theorem optimize_section_overrun : ∀ (fuel j : Nat) (sec : Section),
    sec.data = List.replicate 65536 0 → 65537 < sec.size → sec.size < 2 ^ 32 →
    j ≤ 65536 → 65536 < fuel + j → optimize_section fuel j sec = none := by
  intro fuel
  induction fuel with
  | zero => intro j sec _ _ _ h1 h2; omega
  | succ fuel ih =>
    intro j sec hd h1 h2 hj hf
    rw [optimize_section_succ]
    have hl : (sec.size + 2 ^ 32 - 1) % 2 ^ 32 = sec.size - 1 := by omega
    have hn : sec.data.getD j 0 ≠ OP_NOP := by
      rw [hd, getD_replicate_zero]; decide
    have hlen : sec.data.length = 65536 := by rw [hd, List.length_replicate]
    simp only [hl, hn, hlen, if_false]
    rw [if_pos (by omega)]
    by_cases hj2 : j < 65536
    · rw [if_pos hj2]
      exact ih (j + 1) sec hd h1 h2 (by omega) (by omega)
    · rw [if_neg hj2]

theorem optimize_sections_skip : ∀ secs : List Section,
    (∀ sec ∈ secs, sec.data = List.replicate 65536 0) → (∀ sec ∈ secs, sec.size ≤ 65537) →
    optimize_sections secs = some secs := by
  intro secs
  induction secs with
  | nil => intro _ _; rfl
  | cons sec rest ih =>
    intro hd hz
    have h1 : (if sec.size = 0 then some sec else optimize_section sec.size 0 sec) = some sec := by
      split
      · rfl
      · exact optimize_section_skip _ _ _ (hd sec (List.mem_cons_self _ _)) (by omega)
          (hz sec (List.mem_cons_self _ _))
    have h2 := ih (fun s hs => hd s (List.mem_cons_of_mem _ hs))
      (fun s hs => hz s (List.mem_cons_of_mem _ hs))
    rw [optimize_sections_cons, h1, h2]
    rfl

theorem optimize_sections_overrun (sec : Section) (rest : List Section)
    (hd : sec.data = List.replicate 65536 0) (h1 : 65537 < sec.size) (h2 : sec.size < 2 ^ 32) :
    optimize_sections (sec :: rest) = none := by
  rw [optimize_sections_cons, if_neg (by omega),
    optimize_section_overrun _ _ _ hd h1 h2 (by omega) (by omega)]
  rfl

theorem optimize_instructions_skip (state : AssemblerState) (hb : untouched_buffers state)
    (hz : ∀ sec ∈ state.sections, sec.size ≤ 65537) :
    optimize_instructions state = some state := by
  unfold optimize_instructions
  split
  · rw [optimize_sections_skip _ hb hz]; rfl
  · rfl

theorem optimize_instructions_overrun (state : AssemblerState) (n : Nat)
    (ho : state.optimize = true) (hb : untouched_buffers state)
    (hz : state.sections.head?.map (fun s => s.size) = some n) (h1 : 65537 < n)
    (h2 : n < 2 ^ 32) : optimize_instructions state = none := by
  unfold optimize_instructions
  rw [if_pos ho]
  cases hs : state.sections with
  | nil => rw [hs] at hz; simp at hz
  | cons sec rest =>
    rw [hs] at hz
    simp only [List.head?_cons, Option.map_some', Option.some.injEq] at hz
    rw [optimize_sections_overrun sec rest (hb sec (by rw [hs]; exact List.mem_cons_self _ _))
      (by omega) (by omega)]
    rfl

/-- The section buffers are untouched in the state that `assemble_file` passes to
`optimize_instructions` for the file `filename` with the lines `lines`. -/
theorem passes_buffers (fs : List Nat → Option (List (List Nat))) (o : Bool)
    (filename : List Nat) (lines : List (List Nat)) (first second : AssemblerState)
    (h1 : assemble_first_pass fs (assembler_create o) filename lines = some first)
    (h2 : assemble_second_pass fs first lines = some second) :
    untouched_buffers second :=
  assemble_second_pass_buffers _ _ _ _ h2
    (assemble_first_pass_buffers _ _ _ _ _ h1 (assembler_create_buffers o))

theorem assemble_file_passes (fs : List Nat → Option (List (List Nat))) (st : AssemblerState)
    (filename : List Nat) (lines : List (List Nat)) (hf : fs filename = some lines)
    (hd : st.include_depth < MAX_INCLUDE_DEPTH) :
    assemble_file fs st filename =
      (assemble_first_pass fs st filename lines).bind (fun first =>
        (assemble_second_pass fs first lines).bind (fun second =>
          (if second.optimize then optimize_instructions second else some second).bind
            (fun s => some (if s.errors = 0 then 1 else 0,
              { s with include_depth := s.include_depth - 1 })))) := by
  unfold assemble_file
  simp only [hf]
  rw [if_neg (by simpa using hd)]
  have e : assemble_first_pass fs
      { st with current_file := filename.take 255, current_line := 0 } filename lines
      = assemble_first_pass fs st filename lines := rfl
  rw [e]
  cases assemble_first_pass fs st filename lines with
  | none => rfl
  | some first =>
    show (assemble_second_pass fs first lines >>= fun state => _)
      = (assemble_second_pass fs first lines).bind _
    cases assemble_second_pass fs first lines with
    | none => rfl
    | some second =>
      show (if second.optimize = true then _ else _ : Option (Nat × AssemblerState))
        = (if second.optimize = true then _ else _ : Option AssemblerState).bind _
      split <;> rfl

theorem assemble_file_overrun (fs : List Nat → Option (List (List Nat))) (filename : List Nat)
    (lines : List (List Nat)) (n : Nat) (hf : fs filename = some lines)
    (hz : ((assemble_first_pass fs (assembler_create true) filename lines).bind
        (fun first => assemble_second_pass fs first lines)).map
          (fun s => (s.optimize, s.sections.head?.map (fun sec => sec.size)))
        = some (true, some n))
    (h1 : 65537 < n) (h2 : n < 2 ^ 32) :
    assemble_file fs (assembler_create true) filename = none := by
  rw [assemble_file_passes fs _ filename lines hf (by decide)]
  cases e1 : assemble_first_pass fs (assembler_create true) filename lines with
  | none => rfl
  | some first =>
    rw [Option.some_bind]
    cases e2 : assemble_second_pass fs first lines with
    | none => rfl
    | some second =>
      rw [e1, Option.some_bind, e2, Option.map_some', Option.some.injEq, Prod.mk.injEq] at hz
      rw [Option.some_bind, if_pos hz.1,
        optimize_instructions_overrun _ n hz.1 (passes_buffers fs true filename lines _ _ e1 e2)
          hz.2 h1 h2]
      rfl

theorem main_overrun (fs : List Nat → Option (List (List Nat))) (out : List Nat → Option Nat)
    (program filename : List Nat)
    (h : assemble_file fs (assembler_create true) filename = none) :
    main fs out [program, filename] = none := by
  unfold main
  rw [if_neg (by simp)]
  show (match assemble_file fs (assembler_create true) filename with
    | none => none
    | some (ret, state) => _) = none
  rw [h]

/-- C40: for every source on which the two passes have a result, the state
after them is left as it is by
`optimize_instructions` when no section is larger than 65537 bytes (the section
buffers hold only zero bytes, so no NOP is found in them); the source
`.org 65537` / `.byte 1` assembles without error to a `.text` section of size
65538, for which the scan of `optimize_instructions` reads `data[65536]`,
outside the 65536-byte buffer of the section: `assemble_file` and `main` have
no defined result. -/
theorem optimizer_reads_past_section_buffer :
    (∀ (fs : List Nat → Option (List (List Nat))) (o : Bool) (filename : List Nat)
        (lines : List (List Nat)) (first second : AssemblerState),
      assemble_first_pass fs (assembler_create o) filename lines = some first →
      assemble_second_pass fs first lines = some second →
      (∀ sec ∈ second.sections, sec.size ≤ 65537) →
      optimize_instructions second = some second) ∧
    (assemble_source [".org 65537", ".byte 1"]).errors = 0 ∧
    (assemble_source [".org 65537", ".byte 1"]).sections.map (fun s => (s.address, s.size))
      = [(0, 65538), (0x4000, 0), (0x6000, 0), (0x8000, 0)] ∧
    untouched_buffers (assemble_source [".org 65537", ".byte 1"]) ∧
    optimize_instructions { assemble_source [".org 65537", ".byte 1"] with optimize := true }
      = none ∧
    assemble_file (one_file "big.basm" [".org 65537", ".byte 1"]) (assembler_create true)
      (cstr "big.basm") = none ∧
    main (one_file "big.basm" [".org 65537", ".byte 1"]) (fun _ => some MEMORY_SIZE)
      [cstr "beboasm", cstr "big.basm"] = none :=
  ⟨fun fs o filename lines first second h1 h2 hz =>
      optimize_instructions_skip _ (passes_buffers fs o filename lines first second h1 h2) hz,
    by decide, by decide,
    assemble_source_buffers [".org 65537", ".byte 1"],
    optimize_instructions_overrun _ 65538 rfl
      (untouched_of_sections rfl (assemble_source_buffers [".org 65537", ".byte 1"]))
      (by decide) (by decide) (by decide),
    assemble_file_overrun _ _ (source_lines [".org 65537", ".byte 1"]) 65538 (by decide)
      (by decide) (by decide) (by decide),
    main_overrun _ _ _ _
      (assemble_file_overrun _ _ (source_lines [".org 65537", ".byte 1"]) 65538 (by decide)
        (by decide) (by decide) (by decide))⟩

/-! ## Disassembler: the text it prints and the parser -/

theorem hex_char_facts (k : Nat) (hk : k < 16) :
    digit_value (hex_char k) = some k ∧ isspace (hex_char k) = false ∧
    hex_char k ≠ 93 ∧ hex_char k ≠ 44 ∧ hex_char k ≠ 59 ∧ hex_char k ≠ 58 := by
  interval_cases k <;> decide

theorem hex_digits_one (fuel n : Nat) (hn : n < 16) :
    hex_digits (fuel + 1) n = [hex_char n] := by
  rw [hex_digits, if_pos hn]

theorem hex_digits_two (fuel n : Nat) (h1 : 16 ≤ n) (h2 : n < 256) :
    hex_digits (fuel + 2) n = [hex_char (n / 16), hex_char (n % 16)] := by
  rw [hex_digits, if_neg (by omega), hex_digits_one _ _ (by omega)]
  rfl

theorem hex_digits_three (fuel n : Nat) (h1 : 256 ≤ n) (h2 : n < 4096) :
    hex_digits (fuel + 3) n = [hex_char (n / 256), hex_char (n / 16 % 16), hex_char (n % 16)] := by
  rw [hex_digits, if_neg (by omega), hex_digits_two _ _ (by omega) (by omega),
    Nat.div_div_eq_div_mul]
  rfl

theorem hex_digits_four (fuel n : Nat) (h1 : 4096 ≤ n) (h2 : n < 65536) :
    hex_digits (fuel + 4) n =
      [hex_char (n / 4096), hex_char (n / 256 % 16), hex_char (n / 16 % 16), hex_char (n % 16)] := by
  rw [hex_digits, if_neg (by omega), hex_digits_three _ _ (by omega) (by omega),
    Nat.div_div_eq_div_mul, Nat.div_div_eq_div_mul]
  rfl

theorem format_hex_four (n : Nat) (hn : n < 65536) :
    format_hex 4 n =
      [hex_char (n / 4096), hex_char (n / 256 % 16), hex_char (n / 16 % 16), hex_char (n % 16)] := by
  unfold format_hex
  by_cases c1 : n < 16
  · rw [hex_digits_one _ _ c1]
    have e1 : n / 4096 = 0 := by omega
    have e2 : n / 256 % 16 = 0 := by omega
    have e3 : n / 16 % 16 = 0 := by omega
    have e4 : n % 16 = n := by omega
    rw [e1, e2, e3, e4]
    rfl
  · by_cases c2 : n < 256
    · obtain ⟨m, rfl⟩ : ∃ m, n = m + 1 := ⟨n - 1, by omega⟩
      rw [hex_digits_two m _ (by omega) c2]
      have e1 : (m + 1) / 4096 = 0 := by omega
      have e2 : (m + 1) / 256 % 16 = 0 := by omega
      have e3 : (m + 1) / 16 % 16 = (m + 1) / 16 := by omega
      rw [e1, e2, e3]
      rfl
    · by_cases c3 : n < 4096
      · obtain ⟨m, rfl⟩ : ∃ m, n = m + 2 := ⟨n - 2, by omega⟩
        rw [hex_digits_three m _ (by omega) c3]
        have e1 : (m + 2) / 4096 = 0 := by omega
        have e2 : (m + 2) / 256 % 16 = (m + 2) / 256 := by omega
        rw [e1, e2]
        rfl
      · obtain ⟨m, rfl⟩ : ∃ m, n = m + 3 := ⟨n - 3, by omega⟩
        rw [hex_digits_four m _ (by omega) hn]
        rfl

theorem scan_digits_hex (k : Nat) (hk : k < 16) (tail : List Nat) (acc : Nat) :
    scan_digits 16 (hex_char k :: tail) acc = scan_digits 16 tail (acc * 16 + k) := by
  rw [scan_digits, (hex_char_facts k hk).1]
  simp only [hk, if_true]

theorem scan_digits_hex_four (n : Nat) (hn : n < 65536) :
    scan_digits 16 (format_hex 4 n) 0 = (n, []) := by
  rw [format_hex_four n hn, scan_digits_hex _ (by omega), scan_digits_hex _ (by omega),
    scan_digits_hex _ (by omega), scan_digits_hex _ (by omega), scan_digits]
  congr 1
  omega

theorem strto_scan_hex (h : Nat) (tl : List Nat) (hd : is_digit_of 16 h = true) :
    strto_scan (48 :: 120 :: h :: tl) 0 =
      some (false, (scan_digits 16 (h :: tl) 0).1, (scan_digits 16 (h :: tl) 0).2) := by
  have e1 : (48 :: 120 :: h :: tl).dropWhile isspace = 48 :: 120 :: h :: tl := rfl
  have e2 : has_hex_prefix (48 :: 120 :: h :: tl) = true := by
    simp only [ has_hex_prefix, hd]; rfl
  unfold strto_scan
  simp only [e1, e2]
  simp [hd]

theorem strtol_hex_four (n : Nat) (hn : n < 65536) :
    strtol (48 :: 120 :: format_hex 4 n) 0 = ((n : Int), []) := by
  have hs := scan_digits_hex_four n hn
  have hd : is_digit_of 16 (hex_char (n / 4096)) = true := by
    unfold is_digit_of
    rw [(hex_char_facts _ (by omega)).1]
    simp only [decide_eq_true_eq]
    omega
  rw [format_hex_four n hn] at hs ⊢
  unfold strtol
  rw [strto_scan_hex _ _ hd, hs]
  simp only [Bool.false_eq_true, if_false]
  rw [if_neg (by omega)]

theorem trim_end_keep (c x : Nat) (cs : List Nat) (hx : isspace x = false) :
    trim_end (c :: (cs ++ [x])) = c :: (cs ++ [x]) := by
  simp [trim_end, List.dropWhile, hx]

theorem name_to_register_zero (x : Nat) (tl : List Nat) :
    name_to_register (48 :: x :: tl) = none := rfl

theorem name_to_register_bracket (tl : List Nat) : name_to_register (91 :: tl) = none := by
  cases tl with
  | nil => rfl
  | cons x tl => rfl

theorem parse_operand_number (st : AssemblerState) (o : Operand) (n : Nat) (hn : n < 65536) :
    parse_operand st (48 :: 120 :: format_hex 4 n) o
      = (some ({ o with mode := AM_IMMEDIATE }.set_immediate n), st) ∧
    parse_operand st (32 :: 48 :: 120 :: format_hex 4 n) o
      = (some ({ o with mode := AM_IMMEDIATE }.set_immediate n), st) := by
  have hst := strtol_hex_four n hn
  have hsp := (hex_char_facts (n % 16) (by omega)).2.1
  rw [format_hex_four n hn] at hst ⊢
  generalize hex_char (n / 4096) = h3 at hst ⊢
  generalize hex_char (n / 256 % 16) = h2 at hst ⊢
  generalize hex_char (n / 16 % 16) = h1 at hst ⊢
  generalize hex_char (n % 16) = h0 at hst hsp ⊢
  have ht : trim_end (48 :: 120 :: [h3, h2, h1, h0]) = 48 :: 120 :: [h3, h2, h1, h0] :=
    trim_end_keep 48 h0 [120, h3, h2, h1] hsp
  have hs1 : skip_spaces (48 :: 120 :: [h3, h2, h1, h0]) = 48 :: 120 :: [h3, h2, h1, h0] := rfl
  have hs2 : skip_spaces (32 :: 48 :: 120 :: [h3, h2, h1, h0]) = 48 :: 120 :: [h3, h2, h1, h0] :=
    rfl
  have key : ∀ str, trim_end (skip_spaces str) = 48 :: 120 :: [h3, h2, h1, h0] →
      parse_operand st str o = (some ({ o with mode := AM_IMMEDIATE }.set_immediate n), st) := by
    intro str hstr
    unfold parse_operand
    simp only [hstr, name_to_register_zero]
    simp [isdigit, hst]
  exact ⟨key _ (by rw [hs1, ht]), key _ (by rw [hs2, ht])⟩

theorem before_char_append (c : Nat) (l rest : List Nat) (h : c ∉ l) :
    before_char c (l ++ c :: rest) = l := by
  induction l with
  | nil => simp [before_char, List.takeWhile]
  | cons x xs ih =>
    have hx : x ≠ c := fun e => h (by rw [e]; exact List.mem_cons_self _ _)
    have hxs : c ∉ xs := fun m => h (List.mem_cons_of_mem _ m)
    have k := ih hxs
    unfold before_char at k ⊢
    rw [List.cons_append, List.takeWhile_cons]
    simp only [bne_iff_ne, ne_eq, hx, not_false_eq_true, if_true, decide_True]
    rw [k]

theorem before_char_absent (c : Nat) (l : List Nat) (h : c ∉ l) : before_char c l = l := by
  induction l with
  | nil => rfl
  | cons x xs ih =>
    have hx : x ≠ c := fun e => h (by rw [e]; exact List.mem_cons_self _ _)
    have hxs : c ∉ xs := fun m => h (List.mem_cons_of_mem _ m)
    have k := ih hxs
    unfold before_char at k ⊢
    rw [List.takeWhile_cons]
    simp only [bne_iff_ne, ne_eq, hx, not_false_eq_true, if_true, decide_True]
    rw [k]

theorem after_char_absent (c : Nat) (l : List Nat) (h : c ∉ l) : after_char c l = none := by
  induction l with
  | nil => rfl
  | cons x xs ih =>
    have hx : x ≠ c := fun e => h (by rw [e]; exact List.mem_cons_self _ _)
    have hxs : c ∉ xs := fun m => h (List.mem_cons_of_mem _ m)
    simp only [after_char, hx, if_false]
    exact ih hxs

theorem symbol_find_fresh (name : List Nat) :
    symbol_find (assembler_create false) name = (none, assembler_create false) := rfl

theorem parse_operand_direct (o : Operand) (n : Nat) (hn : n < 65536) :
    parse_operand (assembler_create false)
        (32 :: 91 :: 48 :: 120 :: (format_hex 4 n ++ [93])) o
      = (some ({ o with mode := AM_DIRECT }.set_address n), assembler_create false) := by
  have hst := strtol_hex_four n hn
  obtain ⟨-, s0, a0, -, -, -⟩ := hex_char_facts (n % 16) (by omega)
  obtain ⟨-, -, a1, -, -, -⟩ := hex_char_facts (n / 16 % 16) (by omega)
  obtain ⟨-, -, a2, -, -, -⟩ := hex_char_facts (n / 256 % 16) (by omega)
  obtain ⟨-, -, a3, -, -, -⟩ := hex_char_facts (n / 4096) (by omega)
  rw [format_hex_four n hn] at hst ⊢
  generalize hex_char (n / 4096) = h3 at hst a3 ⊢
  generalize hex_char (n / 256 % 16) = h2 at hst a2 ⊢
  generalize hex_char (n / 16 % 16) = h1 at hst a1 ⊢
  generalize hex_char (n % 16) = h0 at hst a0 s0 ⊢
  have ht : trim_end (48 :: 120 :: [h3, h2, h1, h0]) = 48 :: 120 :: [h3, h2, h1, h0] :=
    trim_end_keep 48 h0 [120, h3, h2, h1] s0
  have hs1 : skip_spaces (48 :: 120 :: [h3, h2, h1, h0]) = 48 :: 120 :: [h3, h2, h1, h0] := rfl
  have hstr : trim_end (skip_spaces (32 :: 91 :: 48 :: 120 :: ([h3, h2, h1, h0] ++ [93])))
      = 91 :: 48 :: 120 :: [h3, h2, h1, h0, 93] :=
    trim_end_keep 91 93 [48, 120, h3, h2, h1, h0] rfl
  have ha : after_char 93 (91 :: 48 :: 120 :: [h3, h2, h1, h0, 93]) = some [] := by
    simp [after_char, a0, a1, a2, a3]
  have hb : before_char 93 (48 :: 120 :: [h3, h2, h1, h0, 93]) = 48 :: 120 :: [h3, h2, h1, h0] :=
    before_char_append 93 [48, 120, h3, h2, h1, h0] [] (by simp [a0.symm, a1.symm, a2.symm, a3.symm])
  unfold parse_operand
  simp only [hstr, name_to_register_bracket, ha, hb, hs1, ht, symbol_find_fresh,
    name_to_register_zero]
  simp [isdigit, hst]

theorem parse_operand_register (st : AssemblerState) (o : Operand) (d : Nat) (hd : d < 32) :
    parse_operand st (82 :: decimal d) o
      = (some ({ o with mode := AM_REGISTER }.set_reg_num d), st) ∧
    parse_operand st (32 :: 82 :: decimal d) o
      = (some ({ o with mode := AM_REGISTER }.set_reg_num d), st) := by
  interval_cases d <;> exact ⟨rfl, rfl⟩

theorem parse_operand_indirect (o : Operand) (s : Nat) (hs : s < 32) :
    parse_operand (assembler_create false) (32 :: 91 :: 82 :: (decimal s ++ [93])) o
      = (some ({ o with mode := AM_REGISTER_INDIRECT }.set_reg_num s), assembler_create false) := by
  interval_cases s <;> rfl

theorem decimal_chars (d : Nat) (hd : d < 32) :
    ∀ x ∈ decimal d, x ≠ 44 ∧ x ≠ 59 ∧ x ≠ 58 ∧ x ≠ 93 := by
  interval_cases d <;> decide

theorem format_hex_chars (n : Nat) (hn : n < 65536) :
    ∀ x ∈ format_hex 4 n, x ≠ 44 ∧ x ≠ 59 ∧ x ≠ 58 ∧ x ≠ 93 := by
  intro x hx
  rw [format_hex_four n hn] at hx
  simp only [List.mem_cons, List.mem_singleton, List.not_mem_nil, or_false] at hx
  rcases hx with h | h | h | h <;> rw [h]
  · obtain ⟨-, -, a, b, c, d⟩ := hex_char_facts (n / 4096) (by omega); exact ⟨b, c, d, a⟩
  · obtain ⟨-, -, a, b, c, d⟩ := hex_char_facts (n / 256 % 16) (by omega); exact ⟨b, c, d, a⟩
  · obtain ⟨-, -, a, b, c, d⟩ := hex_char_facts (n / 16 % 16) (by omega); exact ⟨b, c, d, a⟩
  · obtain ⟨-, -, a, b, c, d⟩ := hex_char_facts (n % 16) (by omega); exact ⟨b, c, d, a⟩

/-- The instruction `inst` after `parse_operand` has stored `o` in its next slot. -/
theorem parse_into_slot_some (st st2 : AssemblerState) (inst : Instruction) (text : List Nat)
    (o : Operand) (hc : inst.operand_count < MAX_OPERANDS)
    (h : parse_operand st text (inst.operand inst.operand_count) = (some o, st2)) :
    parse_into_slot st inst text =
      some (true, { inst.set_operand ⟨inst.operand_count, hc⟩ o with
               operand_count := inst.operand_count + 1 }, st2) := by
  unfold parse_into_slot
  rw [h]
  exact dif_pos hc

theorem parse_operand_list_comma : ∀ (a rest cur : List Nat) (st : AssemblerState)
    (inst : Instruction), 44 ∉ a → inst.operand_count < MAX_OPERANDS →
    parse_operand_list (a ++ 44 :: rest) cur st inst =
      (match parse_into_slot st inst (cur ++ a) with
       | some (true, inst, state) => parse_operand_list rest [] state inst
       | some (false, inst, state) => some (false, inst, state)
       | none => none) := by
  intro a
  induction a with
  | nil =>
    intro rest cur st inst _ hc
    rw [List.nil_append, List.append_nil, parse_operand_list, if_pos hc, if_pos rfl]
  | cons x xs ih =>
    intro rest cur st inst ha hc
    have hx : x ≠ 44 := fun e => ha (by rw [e]; exact List.mem_cons_self _ _)
    have hxs : 44 ∉ xs := fun m => ha (List.mem_cons_of_mem _ m)
    rw [List.cons_append, parse_operand_list, if_pos hc, if_neg hx, ih rest _ st inst hxs hc,
      List.append_assoc]
    rfl

theorem parse_operand_list_last : ∀ (a cur : List Nat) (st : AssemblerState)
    (inst : Instruction), 44 ∉ a → inst.operand_count < MAX_OPERANDS → cur ++ a ≠ [] →
    parse_operand_list a cur st inst = parse_into_slot st inst (cur ++ a) := by
  intro a
  induction a with
  | nil =>
    intro cur st inst _ _ hne
    rw [List.append_nil] at hne ⊢
    rw [parse_operand_list, if_pos hne]
  | cons x xs ih =>
    intro cur st inst ha hc _
    have hx : x ≠ 44 := fun e => ha (by rw [e]; exact List.mem_cons_self _ _)
    have hxs : 44 ∉ xs := fun m => ha (List.mem_cons_of_mem _ m)
    rw [parse_operand_list, if_pos hc, if_neg hx, ih _ st inst hxs hc (by simp),
      List.append_assoc]
    rfl

theorem take_word_mnemonic : ∀ (m rest : List Nat) (n : Nat), m.length ≤ n →
    (∀ x ∈ m, isspace x = false ∧ toupper x = x) →
    take_word (n + 1) (m ++ 32 :: rest) = (m, 32 :: rest) ∧ take_word (n + 1) m = (m, []) := by
  intro m
  induction m with
  | nil =>
    intro rest n _ _
    exact ⟨rfl, rfl⟩
  | cons c cs ih =>
    intro rest n hl hm
    obtain ⟨hs, hu⟩ := hm c (List.mem_cons_self _ _)
    obtain ⟨k, rfl⟩ : ∃ k, n = k + 1 := ⟨n - 1, by simp only [List.length_cons] at hl; omega⟩
    obtain ⟨i1, i2⟩ := ih rest k (by simp only [List.length_cons] at hl; omega)
      (fun x hx => hm x (List.mem_cons_of_mem _ hx))
    constructor
    · rw [List.cons_append, take_word]
      simp only [hs, Bool.false_eq_true, if_false, i1, hu]
    · rw [take_word]
      simp only [hs, Bool.false_eq_true, if_false, i2, hu]

theorem parse_line_plain (st : AssemblerState) (inst : Instruction) (text : List Nat)
    (h59 : 59 ∉ text) (h58 : 58 ∉ text) (hs : skip_spaces text = text) (hne : text ≠ []) :
    parse_line st text inst = parse_statement st text inst := by
  unfold parse_line
  simp only [before_char_absent 59 text h59, hs, after_char_absent 58 text h58, hne, if_false]

theorem parse_statement_operands (st : AssemblerState) (inst : Instruction)
    (m rest : List Nat) (hl : m.length ≤ 30)
    (hm : ∀ x ∈ m, isspace x = false ∧ toupper x = x) (hh : (m ++ 32 :: rest).head? ≠ some 46)
    (hi : (opcode_find m).isSome = true) :
    parse_statement st (m ++ 32 :: rest) inst =
      (match parse_operand_list (skip_spaces rest) [] st
          { inst with info := opcode_find m, operand_count := 0 } with
       | some (true, inst, state) => some (PARSE_INSTRUCTION, inst, state)
       | some (false, inst, state) => some (PARSE_ERROR, inst, state)
       | none => none) := by
  obtain ⟨info, hinfo⟩ := Option.isSome_iff_exists.mp hi
  unfold parse_statement
  rw [if_neg hh]
  simp only [(take_word_mnemonic m rest 30 hl hm).1, hinfo]
  rfl

theorem parse_statement_niladic (st : AssemblerState) (inst : Instruction)
    (m : List Nat) (hl : m.length ≤ 30)
    (hm : ∀ x ∈ m, isspace x = false ∧ toupper x = x) (hh : m.head? ≠ some 46)
    (hi : (opcode_find m).isSome = true) :
    parse_statement st m inst =
      some (PARSE_INSTRUCTION, { inst with info := opcode_find m, operand_count := 0 }, st) := by
  obtain ⟨info, hinfo⟩ := Option.isSome_iff_exists.mp hi
  unfold parse_statement
  rw [if_neg hh]
  simp only [(take_word_mnemonic m [] 30 hl hm).2, hinfo]
  rfl

theorem skip_spaces_head (c : Nat) (cs : List Nat) (h : isspace c = false) :
    skip_spaces (c :: cs) = c :: cs := by
  simp [skip_spaces, List.dropWhile, h]

/-- A line that starts with a mnemonic, holds no `;` and no `:`, and has operands. -/
theorem parse_line_mnemonic (st : AssemblerState) (inst : Instruction) (m rest : List Nat)
    (hl : m.length ≤ 30) (h0 : m ≠ [])
    (hm : ∀ x ∈ m, isspace x = false ∧ toupper x = x ∧ x ≠ 59 ∧ x ≠ 58 ∧ x ≠ 46)
    (hi : (opcode_find m).isSome = true) (hr : ∀ x ∈ rest, x ≠ 59 ∧ x ≠ 58) :
    parse_line st (m ++ 32 :: rest) inst =
      (match parse_operand_list (skip_spaces rest) [] st
          { inst with info := opcode_find m, operand_count := 0 } with
       | some (true, inst, state) => some (PARSE_INSTRUCTION, inst, state)
       | some (false, inst, state) => some (PARSE_ERROR, inst, state)
       | none => none) := by
  obtain ⟨c, cs, rfl⟩ := List.exists_cons_of_ne_nil h0
  have hc := hm c (List.mem_cons_self _ _)
  have hall : ∀ x ∈ (c :: cs) ++ 32 :: rest, x ≠ 59 ∧ x ≠ 58 := by
    intro x hx
    rcases List.mem_append.mp hx with e | e
    · exact ⟨(hm x e).2.2.1, (hm x e).2.2.2.1⟩
    · rcases List.mem_cons.mp e with e | e
      · rw [e]; decide
      · exact hr x e
  rw [parse_line_plain st inst _ (fun h => (hall 59 h).1 rfl) (fun h => (hall 58 h).2 rfl)
      (by rw [List.cons_append]; exact skip_spaces_head _ _ hc.1) (by simp),
    parse_statement_operands st inst _ rest hl (fun x hx => ⟨(hm x hx).1, (hm x hx).2.1⟩)
      (by rw [List.cons_append]; simp only [List.head?_cons, ne_eq, Option.some.injEq];
          exact hc.2.2.2.2) hi]

theorem parse_line_niladic (st : AssemblerState) (inst : Instruction) (m : List Nat)
    (hl : m.length ≤ 30) (h0 : m ≠ [])
    (hm : ∀ x ∈ m, isspace x = false ∧ toupper x = x ∧ x ≠ 59 ∧ x ≠ 58 ∧ x ≠ 46)
    (hi : (opcode_find m).isSome = true) :
    parse_line st m inst =
      some (PARSE_INSTRUCTION, { inst with info := opcode_find m, operand_count := 0 }, st) := by
  obtain ⟨c, cs, rfl⟩ := List.exists_cons_of_ne_nil h0
  have hc := hm c (List.mem_cons_self _ _)
  rw [parse_line_plain st inst _ (fun h => (hm 59 h).2.2.1 rfl) (fun h => (hm 58 h).2.2.2.1 rfl)
      (skip_spaces_head _ _ hc.1) (by simp),
    parse_statement_niladic st inst _ hl (fun x hx => ⟨(hm x hx).1, (hm x hx).2.1⟩)
      (by simp only [List.head?_cons, ne_eq, Option.some.injEq]; exact hc.2.2.2.2) hi]

theorem register_text_no_comma (d : Nat) (hd : d < 32) :
    44 ∉ 82 :: decimal d ∧ 44 ∉ 32 :: 82 :: decimal d := by
  have h := decimal_chars d hd
  constructor
  · intro hm
    rcases List.mem_cons.mp hm with e | e
    · exact absurd e (by decide)
    · exact (h 44 e).1 rfl
  · intro hm
    rcases List.mem_cons.mp hm with e | e
    · exact absurd e (by decide)
    · rcases List.mem_cons.mp e with e | e
      · exact absurd e (by decide)
      · exact (h 44 e).1 rfl

theorem operands_register_comma (st : AssemblerState) (inst : Instruction) (d : Nat)
    (rest : List Nat) (hd : d < 32) (hc : inst.operand_count < MAX_OPERANDS)
    (ho : inst.operand inst.operand_count = {}) :
    parse_operand_list ((82 :: decimal d) ++ 44 :: rest) [] st inst =
      parse_operand_list rest [] st
        { inst.set_operand ⟨inst.operand_count, hc⟩ (register_operand d) with
          operand_count := inst.operand_count + 1 } ∧
    parse_operand_list ((32 :: 82 :: decimal d) ++ 44 :: rest) [] st inst =
      parse_operand_list rest [] st
        { inst.set_operand ⟨inst.operand_count, hc⟩ (register_operand d) with
          operand_count := inst.operand_count + 1 } := by
  obtain ⟨n1, n2⟩ := register_text_no_comma d hd
  obtain ⟨p1, p2⟩ := parse_operand_register st (inst.operand inst.operand_count) d hd
  rw [ho] at p1 p2
  constructor
  · rw [parse_operand_list_comma _ _ _ _ _ n1 hc, List.nil_append,
      parse_into_slot_some _ _ _ _ _ hc (by rw [ho]; exact p1)]
    rfl
  · rw [parse_operand_list_comma _ _ _ _ _ n2 hc, List.nil_append,
      parse_into_slot_some _ _ _ _ _ hc (by rw [ho]; exact p2)]
    rfl

theorem operands_register_last (st : AssemblerState) (inst : Instruction) (d : Nat)
    (hd : d < 32) (hc : inst.operand_count < MAX_OPERANDS)
    (ho : inst.operand inst.operand_count = {}) :
    parse_operand_list (82 :: decimal d) [] st inst =
      some (true, { inst.set_operand ⟨inst.operand_count, hc⟩ (register_operand d) with
               operand_count := inst.operand_count + 1 }, st) ∧
    parse_operand_list (32 :: 82 :: decimal d) [] st inst =
      some (true, { inst.set_operand ⟨inst.operand_count, hc⟩ (register_operand d) with
               operand_count := inst.operand_count + 1 }, st) := by
  obtain ⟨n1, n2⟩ := register_text_no_comma d hd
  obtain ⟨p1, p2⟩ := parse_operand_register st (inst.operand inst.operand_count) d hd
  rw [ho] at p1 p2
  constructor
  · rw [parse_operand_list_last _ _ _ _ n1 hc (by simp), List.nil_append,
      parse_into_slot_some _ _ _ _ _ hc (by rw [ho]; exact p1)]
    rfl
  · rw [parse_operand_list_last _ _ _ _ n2 hc (by simp), List.nil_append,
      parse_into_slot_some _ _ _ _ _ hc (by rw [ho]; exact p2)]
    rfl

theorem number_text_no_comma (n : Nat) (hn : n < 65536) (pre post : List Nat)
    (h1 : 44 ∉ pre) (h2 : 44 ∉ post) : 44 ∉ pre ++ (format_hex 4 n ++ post) := by
  intro hm
  rcases List.mem_append.mp hm with e | e
  · exact h1 e
  · rcases List.mem_append.mp e with e | e
    · exact (format_hex_chars n hn 44 e).1 rfl
    · exact h2 e

theorem operands_number_last (st : AssemblerState) (inst : Instruction) (n : Nat)
    (hn : n < 65536) (hc : inst.operand_count < MAX_OPERANDS)
    (ho : inst.operand inst.operand_count = {}) :
    parse_operand_list (48 :: 120 :: format_hex 4 n) [] st inst =
      some (true, { inst.set_operand ⟨inst.operand_count, hc⟩ (immediate_operand n) with
               operand_count := inst.operand_count + 1 }, st) ∧
    parse_operand_list (32 :: 48 :: 120 :: format_hex 4 n) [] st inst =
      some (true, { inst.set_operand ⟨inst.operand_count, hc⟩ (immediate_operand n) with
               operand_count := inst.operand_count + 1 }, st) := by
  have n1 : 44 ∉ 48 :: 120 :: format_hex 4 n := by
    have := number_text_no_comma n hn [48, 120] [] (by decide) (by decide)
    simpa using this
  have n2 : 44 ∉ 32 :: 48 :: 120 :: format_hex 4 n := by
    have := number_text_no_comma n hn [32, 48, 120] [] (by decide) (by decide)
    simpa using this
  obtain ⟨p1, p2⟩ := parse_operand_number st (inst.operand inst.operand_count) n hn
  rw [ho] at p1 p2
  constructor
  · rw [parse_operand_list_last _ _ _ _ n1 hc (by simp), List.nil_append,
      parse_into_slot_some _ _ _ _ _ hc (by rw [ho]; exact p1)]
    rfl
  · rw [parse_operand_list_last _ _ _ _ n2 hc (by simp), List.nil_append,
      parse_into_slot_some _ _ _ _ _ hc (by rw [ho]; exact p2)]
    rfl

theorem operands_source_last (st : AssemblerState) (inst : Instruction) (src : Source)
    (hs : src.ok) (hc : inst.operand_count < MAX_OPERANDS)
    (ho : inst.operand inst.operand_count = {}) :
    parse_operand_list (32 :: src.text) [] st inst =
      some (true, { inst.set_operand ⟨inst.operand_count, hc⟩ src.operand with
               operand_count := inst.operand_count + 1 }, st) := by
  cases src with
  | reg s => exact (operands_register_last st inst s hs hc ho).2
  | imm n => exact (operands_number_last st inst n hs hc ho).2

theorem operands_indirect_last (inst : Instruction) (s : Nat)
    (hs : s < 32) (hc : inst.operand_count < MAX_OPERANDS)
    (ho : inst.operand inst.operand_count = {}) :
    parse_operand_list (32 :: 91 :: 82 :: (decimal s ++ [93])) [] (assembler_create false) inst =
      some (true, { inst.set_operand ⟨inst.operand_count, hc⟩ (indirect_operand s) with
               operand_count := inst.operand_count + 1 }, assembler_create false) := by
  have n1 : 44 ∉ 32 :: 91 :: 82 :: (decimal s ++ [93]) := by
    have h := decimal_chars s hs
    intro hm
    simp only [List.mem_cons, List.mem_append, List.mem_singleton, List.not_mem_nil,
      or_false] at hm
    rcases hm with e | e | e | e | e
    · exact absurd e (by decide)
    · exact absurd e (by decide)
    · exact absurd e (by decide)
    · exact (h 44 e).1 rfl
    · exact absurd e (by decide)
  have p := parse_operand_indirect (inst.operand inst.operand_count) s hs
  rw [ho] at p
  rw [parse_operand_list_last _ _ _ _ n1 hc (by simp), List.nil_append,
    parse_into_slot_some _ _ _ _ _ hc (by rw [ho]; exact p)]
  rfl

theorem operands_direct_last (inst : Instruction) (a : Nat)
    (ha : a < 65536) (hc : inst.operand_count < MAX_OPERANDS)
    (ho : inst.operand inst.operand_count = {}) :
    parse_operand_list (32 :: 91 :: 48 :: 120 :: (format_hex 4 a ++ [93])) []
        (assembler_create false) inst =
      some (true, { inst.set_operand ⟨inst.operand_count, hc⟩ (direct_operand a) with
               operand_count := inst.operand_count + 1 }, assembler_create false) := by
  have n1 : 44 ∉ 32 :: 91 :: 48 :: 120 :: (format_hex 4 a ++ [93]) := by
    have := number_text_no_comma a ha [32, 91, 48, 120] [93] (by decide) (by decide)
    simpa using this
  have p := parse_operand_direct (inst.operand inst.operand_count) a ha
  rw [ho] at p
  rw [parse_operand_list_last _ _ _ _ n1 hc (by simp), List.nil_append,
    parse_into_slot_some _ _ _ _ _ hc (by rw [ho]; exact p)]
  rfl

theorem mnemonic_list_facts :
    ∀ m ∈ [cstr "MOV", cstr "ADD", cstr "SUB", cstr "CMP", cstr "LOAD", cstr "INC", cstr "DEC",
        cstr "JMP", cstr "JE", cstr "JNE", cstr "JG", cstr "JL", cstr "HALT", cstr "NOP"],
      m.length ≤ 30 ∧ m ≠ [] ∧
      (∀ x ∈ m, isspace x = false ∧ toupper x = x ∧ x ≠ 59 ∧ x ≠ 58 ∧ x ≠ 46) ∧
      (opcode_find m).isSome = true := by
  decide

theorem mnemonic_facts (l : Listed) (h : l.ok) :
    l.mnemonic.length ≤ 30 ∧ l.mnemonic ≠ [] ∧
    (∀ x ∈ l.mnemonic, isspace x = false ∧ toupper x = x ∧ x ≠ 59 ∧ x ≠ 58 ∧ x ≠ 46) ∧
    (opcode_find l.mnemonic).isSome = true := by
  cases l with
  | mov d src => exact mnemonic_list_facts (cstr "MOV") (by decide)
  | add d s1 src => exact mnemonic_list_facts (cstr "ADD") (by decide)
  | sub d s1 src => exact mnemonic_list_facts (cstr "SUB") (by decide)
  | cmp a src => exact mnemonic_list_facts (cstr "CMP") (by decide)
  | load_indirect d s => exact mnemonic_list_facts (cstr "LOAD") (by decide)
  | load_direct d a => exact mnemonic_list_facts (cstr "LOAD") (by decide)
  | inc d => exact mnemonic_list_facts (cstr "INC") (by decide)
  | dec d => exact mnemonic_list_facts (cstr "DEC") (by decide)
  | branch k t =>
    obtain ⟨hk, -⟩ := h
    interval_cases k
    · exact mnemonic_list_facts (cstr "JMP") (by decide)
    · exact mnemonic_list_facts (cstr "JE") (by decide)
    · exact mnemonic_list_facts (cstr "JNE") (by decide)
    · exact mnemonic_list_facts (cstr "JG") (by decide)
    · exact mnemonic_list_facts (cstr "JL") (by decide)
  | halt => exact mnemonic_list_facts (cstr "HALT") (by decide)
  | nop => exact mnemonic_list_facts (cstr "NOP") (by decide)

theorem source_text_chars (src : Source) (hs : src.ok) :
    ∀ x ∈ src.text, x ≠ 59 ∧ x ≠ 58 := by
  intro x hx
  cases src with
  | reg s =>
    rcases List.mem_cons.mp hx with e | e
    · rw [e]; decide
    · exact ⟨(decimal_chars s hs x e).2.1, (decimal_chars s hs x e).2.2.1⟩
  | imm n =>
    rcases List.mem_cons.mp hx with e | e
    · rw [e]; decide
    · rcases List.mem_cons.mp e with e | e
      · rw [e]; decide
      · exact ⟨(format_hex_chars n hs x e).2.1, (format_hex_chars n hs x e).2.2.1⟩

theorem register_text_chars (d : Nat) (hd : d < 32) (rest : List Nat)
    (hr : ∀ x ∈ rest, x ≠ 59 ∧ x ≠ 58) :
    ∀ x ∈ (82 :: decimal d) ++ rest, x ≠ 59 ∧ x ≠ 58 := by
  intro x hx
  rcases List.mem_append.mp hx with e | e
  · rcases List.mem_cons.mp e with e | e
    · rw [e]; decide
    · exact ⟨(decimal_chars d hd x e).2.1, (decimal_chars d hd x e).2.2.1⟩
  · exact hr x e

theorem number_text_chars (n : Nat) (hn : n < 65536) (rest : List Nat)
    (hr : ∀ x ∈ rest, x ≠ 59 ∧ x ≠ 58) :
    ∀ x ∈ 48 :: 120 :: (format_hex 4 n ++ rest), x ≠ 59 ∧ x ≠ 58 := by
  intro x hx
  rcases List.mem_cons.mp hx with e | e
  · rw [e]; decide
  · rcases List.mem_cons.mp e with e | e
    · rw [e]; decide
    · rcases List.mem_append.mp e with e | e
      · exact ⟨(format_hex_chars n hn x e).2.1, (format_hex_chars n hn x e).2.2.1⟩
      · exact hr x e

theorem chars_cons (c : Nat) (rest : List Nat) (hc : c ≠ 59 ∧ c ≠ 58)
    (hr : ∀ x ∈ rest, x ≠ 59 ∧ x ≠ 58) : ∀ x ∈ c :: rest, x ≠ 59 ∧ x ≠ 58 := by
  intro x hx
  rcases List.mem_cons.mp hx with e | e
  · rw [e]; exact hc
  · exact hr x e

theorem chars_nil : ∀ x ∈ ([] : List Nat), x ≠ 59 ∧ x ≠ 58 := by
  intro x hx
  cases hx

/-- The text of a listed instruction: the mnemonic, a blank, the operands. -/
theorem listed_text (l : Listed) :
    l.text = l.mnemonic ++
      (match l with
       | Listed.mov d src => 32 :: ((82 :: decimal d) ++ 44 :: 32 :: src.text)
       | Listed.add d s1 src =>
         32 :: ((82 :: decimal d) ++ 44 :: 32 :: ((82 :: decimal s1) ++ 44 :: 32 :: src.text))
       | Listed.sub d s1 src =>
         32 :: ((82 :: decimal d) ++ 44 :: 32 :: ((82 :: decimal s1) ++ 44 :: 32 :: src.text))
       | Listed.cmp a src => 32 :: ((82 :: decimal a) ++ 44 :: 32 :: src.text)
       | Listed.load_indirect d s =>
         32 :: ((82 :: decimal d) ++ 44 :: 32 :: 91 :: 82 :: (decimal s ++ [93]))
       | Listed.load_direct d a =>
         32 :: ((82 :: decimal d) ++ 44 :: 32 :: 91 :: 48 :: 120 :: (format_hex 4 a ++ [93]))
       | Listed.inc d => 32 :: 82 :: decimal d
       | Listed.dec d => 32 :: 82 :: decimal d
       | Listed.branch _ t => 32 :: 48 :: 120 :: format_hex 4 t
       | Listed.halt => []
       | Listed.nop => []) := by
  have e1 : cstr ", " = [44, 32] := rfl
  have e2 : cstr ", R" = [44, 32, 82] := rfl
  have e3 : cstr ", [R" = [44, 32, 91, 82] := rfl
  have e4 : cstr ", [0x" = [44, 32, 91, 48, 120] := rfl
  have e5 : cstr "]" = [93] := rfl
  have e6 : cstr " 0x" = [32, 48, 120] := rfl
  cases l with
  | mov d src =>
    show cstr "MOV R" ++ decimal d ++ cstr ", " ++ src.text = cstr "MOV" ++ _
    rw [show cstr "MOV R" = cstr "MOV" ++ [32, 82] from rfl, e1]
    simp only [List.append_assoc, List.cons_append, List.nil_append]
  | add d s1 src =>
    show cstr "ADD R" ++ decimal d ++ cstr ", R" ++ decimal s1 ++ cstr ", " ++ src.text
      = cstr "ADD" ++ _
    rw [show cstr "ADD R" = cstr "ADD" ++ [32, 82] from rfl, e1, e2]
    simp only [List.append_assoc, List.cons_append, List.nil_append]
  | sub d s1 src =>
    show cstr "SUB R" ++ decimal d ++ cstr ", R" ++ decimal s1 ++ cstr ", " ++ src.text
      = cstr "SUB" ++ _
    rw [show cstr "SUB R" = cstr "SUB" ++ [32, 82] from rfl, e1, e2]
    simp only [List.append_assoc, List.cons_append, List.nil_append]
  | cmp a src =>
    show cstr "CMP R" ++ decimal a ++ cstr ", " ++ src.text = cstr "CMP" ++ _
    rw [show cstr "CMP R" = cstr "CMP" ++ [32, 82] from rfl, e1]
    simp only [List.append_assoc, List.cons_append, List.nil_append]
  | load_indirect d s =>
    show cstr "LOAD R" ++ decimal d ++ cstr ", [R" ++ decimal s ++ cstr "]" = cstr "LOAD" ++ _
    rw [show cstr "LOAD R" = cstr "LOAD" ++ [32, 82] from rfl, e3, e5]
    simp only [List.append_assoc, List.cons_append, List.nil_append]
  | load_direct d a =>
    show cstr "LOAD R" ++ decimal d ++ cstr ", [0x" ++ format_hex 4 a ++ cstr "]"
      = cstr "LOAD" ++ _
    rw [show cstr "LOAD R" = cstr "LOAD" ++ [32, 82] from rfl, e4, e5]
    simp only [List.append_assoc, List.cons_append, List.nil_append]
  | inc d =>
    show cstr "INC R" ++ decimal d = cstr "INC" ++ _
    rw [show cstr "INC R" = cstr "INC" ++ [32, 82] from rfl]
    simp only [List.append_assoc, List.cons_append, List.nil_append]
  | dec d =>
    show cstr "DEC R" ++ decimal d = cstr "DEC" ++ _
    rw [show cstr "DEC R" = cstr "DEC" ++ [32, 82] from rfl]
    simp only [List.append_assoc, List.cons_append, List.nil_append]
  | branch k t =>
    show (branch_listing.getD k ([], 0)).1 ++ cstr " 0x" ++ format_hex 4 t = _
    rw [e6]
    simp only [List.append_assoc, List.cons_append, List.nil_append]
    rfl
  | halt => exact (List.append_nil _).symm
  | nop => exact (List.append_nil _).symm

theorem step_register_comma (st : AssemblerState) (inst : Instruction) (d : Nat)
    (rest : List Nat) (hd : d < 32) (hc : inst.operand_count < MAX_OPERANDS)
    (ho : inst.operand inst.operand_count = {}) :
    parse_operand_list ((82 :: decimal d) ++ 44 :: rest) [] st inst =
      parse_operand_list rest [] st
        { inst.set_operand ⟨inst.operand_count, hc⟩ (register_operand d) with
          operand_count := inst.operand_count + 1 } :=
  (operands_register_comma st inst d rest hd hc ho).1

theorem step_blank_register_comma (st : AssemblerState) (inst : Instruction) (d : Nat)
    (rest : List Nat) (hd : d < 32) (hc : inst.operand_count < MAX_OPERANDS)
    (ho : inst.operand inst.operand_count = {}) :
    parse_operand_list (32 :: ((82 :: decimal d) ++ 44 :: rest)) [] st inst =
      parse_operand_list rest [] st
        { inst.set_operand ⟨inst.operand_count, hc⟩ (register_operand d) with
          operand_count := inst.operand_count + 1 } :=
  (operands_register_comma st inst d rest hd hc ho).2

theorem step_register_last (st : AssemblerState) (inst : Instruction) (d : Nat)
    (hd : d < 32) (hc : inst.operand_count < MAX_OPERANDS)
    (ho : inst.operand inst.operand_count = {}) :
    parse_operand_list (82 :: decimal d) [] st inst =
      some (true, { inst.set_operand ⟨inst.operand_count, hc⟩ (register_operand d) with
               operand_count := inst.operand_count + 1 }, st) :=
  (operands_register_last st inst d hd hc ho).1

theorem step_number_last (st : AssemblerState) (inst : Instruction) (n : Nat)
    (hn : n < 65536) (hc : inst.operand_count < MAX_OPERANDS)
    (ho : inst.operand inst.operand_count = {}) :
    parse_operand_list (48 :: 120 :: format_hex 4 n) [] st inst =
      some (true, { inst.set_operand ⟨inst.operand_count, hc⟩ (immediate_operand n) with
               operand_count := inst.operand_count + 1 }, st) :=
  (operands_number_last st inst n hn hc ho).1

theorem parse_statement_listed (l : Listed) (h : l.ok) (lb : List Nat) :
    parse_statement (assembler_create false) l.text { label := lb }
      = some (PARSE_INSTRUCTION, { l.instruction with label := lb }, assembler_create false) := by
  obtain ⟨hl, h0, hm, hi⟩ := mnemonic_facts l h
  have hw : ∀ x ∈ l.mnemonic, isspace x = false ∧ toupper x = x :=
    fun x hx => ⟨(hm x hx).1, (hm x hx).2.1⟩
  have hh : ∀ rest, (l.mnemonic ++ rest).head? ≠ some 46 := by
    intro rest
    obtain ⟨c, cs, e⟩ := List.exists_cons_of_ne_nil h0
    rw [e, List.cons_append, List.head?_cons]
    intro hc
    exact (hm c (by rw [e]; exact List.mem_cons_self _ _)).2.2.2.2 (Option.some.inj hc)
  have z0 : (0 : Nat) < 4 := by decide
  have z1 : (1 : Nat) < 4 := by decide
  have z2 : (2 : Nat) < 4 := by decide
  rw [listed_text l]
  cases l with
  | mov d src =>
    dsimp only
    rw [parse_statement_operands _ _ _ _ hl hw (hh _) hi, List.cons_append,
      skip_spaces_head 82 _ rfl, ← List.cons_append, step_register_comma _ _ d _ h.1,
      operands_source_last _ _ src h.2]
    all_goals first | rfl | exact z0 | exact z1
  | add d s1 src =>
    dsimp only
    rw [parse_statement_operands _ _ _ _ hl hw (hh _) hi, List.cons_append,
      skip_spaces_head 82 _ rfl, ← List.cons_append, step_register_comma _ _ d _ h.1,
      step_blank_register_comma _ _ s1 _ h.2.1, operands_source_last _ _ src h.2.2]
    all_goals first | rfl | exact z0 | exact z1 | exact z2
  | sub d s1 src =>
    dsimp only
    rw [parse_statement_operands _ _ _ _ hl hw (hh _) hi, List.cons_append,
      skip_spaces_head 82 _ rfl, ← List.cons_append, step_register_comma _ _ d _ h.1,
      step_blank_register_comma _ _ s1 _ h.2.1, operands_source_last _ _ src h.2.2]
    all_goals first | rfl | exact z0 | exact z1 | exact z2
  | cmp d src =>
    dsimp only
    rw [parse_statement_operands _ _ _ _ hl hw (hh _) hi, List.cons_append,
      skip_spaces_head 82 _ rfl, ← List.cons_append, step_register_comma _ _ d _ h.1,
      operands_source_last _ _ src h.2]
    all_goals first | rfl | exact z0 | exact z1
  | load_indirect d s =>
    dsimp only
    rw [parse_statement_operands _ _ _ _ hl hw (hh _) hi, List.cons_append,
      skip_spaces_head 82 _ rfl, ← List.cons_append, step_register_comma _ _ d _ h.1,
      operands_indirect_last _ s h.2]
    all_goals first | rfl | exact z0 | exact z1
  | load_direct d a =>
    dsimp only
    rw [parse_statement_operands _ _ _ _ hl hw (hh _) hi, List.cons_append,
      skip_spaces_head 82 _ rfl, ← List.cons_append, step_register_comma _ _ d _ h.1,
      operands_direct_last _ a h.2]
    all_goals first | rfl | exact z0 | exact z1
  | inc d =>
    dsimp only
    rw [parse_statement_operands _ _ _ _ hl hw (hh _) hi, skip_spaces_head 82 _ rfl,
      step_register_last _ _ d h]
    all_goals first | rfl | exact z0
  | dec d =>
    dsimp only
    rw [parse_statement_operands _ _ _ _ hl hw (hh _) hi, skip_spaces_head 82 _ rfl,
      step_register_last _ _ d h]
    all_goals first | rfl | exact z0
  | branch k t =>
    dsimp only
    rw [parse_statement_operands _ _ _ _ hl hw (hh _) hi, skip_spaces_head 48 _ rfl,
      step_number_last _ _ t h.2]
    all_goals first | rfl | exact z0
  | halt =>
    dsimp only
    rw [List.append_nil,
      parse_statement_niladic _ _ _ hl hw (by have := hh []; rwa [List.append_nil] at this) hi]
    rfl
  | nop =>
    dsimp only
    rw [List.append_nil,
      parse_statement_niladic _ _ _ hl hw (by have := hh []; rwa [List.append_nil] at this) hi]
    rfl

theorem listed_text_chars (l : Listed) (h : l.ok) : ∀ x ∈ l.text, x ≠ 59 ∧ x ≠ 58 := by
  obtain ⟨-, -, hm, -⟩ := mnemonic_facts l h
  have c32 : (32 : Nat) ≠ 59 ∧ (32 : Nat) ≠ 58 := by decide
  have c44 : (44 : Nat) ≠ 59 ∧ (44 : Nat) ≠ 58 := by decide
  have c91 : (91 : Nat) ≠ 59 ∧ (91 : Nat) ≠ 58 := by decide
  have c93 : (93 : Nat) ≠ 59 ∧ (93 : Nat) ≠ 58 := by decide
  have key : ∀ rest : List Nat, (∀ x ∈ rest, x ≠ 59 ∧ x ≠ 58) →
      ∀ x ∈ l.mnemonic ++ rest, x ≠ 59 ∧ x ≠ 58 := by
    intro rest hr x hx
    rcases List.mem_append.mp hx with e | e
    · exact ⟨(hm x e).2.2.1, (hm x e).2.2.2.1⟩
    · exact hr x e
  rw [listed_text l]
  apply key
  cases l with
  | mov d src =>
    exact chars_cons _ _ c32 (register_text_chars d h.1 _ (chars_cons _ _ c44
      (chars_cons _ _ c32 (source_text_chars src h.2))))
  | add d s1 src =>
    exact chars_cons _ _ c32 (register_text_chars d h.1 _ (chars_cons _ _ c44
      (chars_cons _ _ c32 (register_text_chars s1 h.2.1 _ (chars_cons _ _ c44
        (chars_cons _ _ c32 (source_text_chars src h.2.2)))))))
  | sub d s1 src =>
    exact chars_cons _ _ c32 (register_text_chars d h.1 _ (chars_cons _ _ c44
      (chars_cons _ _ c32 (register_text_chars s1 h.2.1 _ (chars_cons _ _ c44
        (chars_cons _ _ c32 (source_text_chars src h.2.2)))))))
  | cmp d src =>
    exact chars_cons _ _ c32 (register_text_chars d h.1 _ (chars_cons _ _ c44
      (chars_cons _ _ c32 (source_text_chars src h.2))))
  | load_indirect d s =>
    exact chars_cons _ _ c32 (register_text_chars d h.1 _ (chars_cons _ _ c44
      (chars_cons _ _ c32 (chars_cons _ _ c91
        (register_text_chars s h.2 _ (chars_cons _ _ c93 chars_nil))))))
  | load_direct d a =>
    exact chars_cons _ _ c32 (register_text_chars d h.1 _ (chars_cons _ _ c44
      (chars_cons _ _ c32 (chars_cons _ _ c91
        (number_text_chars a h.2 _ (chars_cons _ _ c93 chars_nil))))))
  | inc d =>
    have e := register_text_chars d h [] chars_nil
    rw [List.append_nil] at e
    exact chars_cons _ _ c32 e
  | dec d =>
    have e := register_text_chars d h [] chars_nil
    rw [List.append_nil] at e
    exact chars_cons _ _ c32 e
  | branch k t =>
    have e := number_text_chars t h.2 [] chars_nil
    rw [List.append_nil] at e
    exact chars_cons _ _ c32 e
  | halt => exact chars_nil
  | nop => exact chars_nil

theorem listed_text_head (l : Listed) (h : l.ok) :
    ∃ c cs, l.text = c :: cs ∧ isspace c = false := by
  obtain ⟨-, h0, hm, -⟩ := mnemonic_facts l h
  obtain ⟨c, cs, e⟩ := List.exists_cons_of_ne_nil h0
  have hc := (hm c (by rw [e]; exact List.mem_cons_self _ _)).1
  rw [listed_text l, e, List.cons_append]
  exact ⟨c, _, rfl, hc⟩

theorem parse_listed (l : Listed) (h : l.ok) :
    parse_line (assembler_create false) l.text {}
      = some (PARSE_INSTRUCTION, l.instruction, assembler_create false) := by
  obtain ⟨c, cs, e, hc⟩ := listed_text_head l h
  have hx := listed_text_chars l h
  rw [parse_line_plain _ _ _ (fun m => (hx 59 m).1 rfl) (fun m => (hx 58 m).2 rfl)
    (by rw [e]; exact skip_spaces_head _ _ hc) (by rw [e]; simp)]
  exact parse_statement_listed l h []

/-! ## Encoder: the instructions that the disassembler lists -/

theorem two_operand_indirect_layout (state : AssemblerState) (inst : Instruction)
    (info : OpcodeMetadata) (pass d s : Nat) (hi : inst.info = some info)
    (hop : info.opcode ∈ [OP_MOV, OP_LOAD, OP_STORE, OP_CMP, OP_TEST])
    (hd : d < 32) (hs : s < 32) (hc : inst.operand_count = 2)
    (h0 : inst.operand 0 = register_operand d) (h1 : inst.operand 1 = indirect_operand s) :
    emit_instruction state inst pass = emit_bytes state [info.opcode, d, 0, s] := by
  obtain ⟨hm, _⟩ := two_operand_narrow_case _ hop
  have hmode : is_wide_mode (indirect_operand s).mode = false := rfl
  have hreg : (indirect_operand s).reg_num = s := by
    simp only [indirect_operand, Operand.set_reg_num, Operand.reg_num]
    omega
  simp only [emit_instruction, hi, hm, hc, if_true, h0, h1, register_operand_reg_num hd,
    hreg, emit_bytes, List.foldl, hmode]
  simp

theorem two_operand_direct_layout (state : AssemblerState) (inst : Instruction)
    (info : OpcodeMetadata) (pass d a : Nat) (hi : inst.info = some info)
    (hop : info.opcode ∈ [OP_MOV, OP_LOAD, OP_STORE, OP_CMP, OP_TEST])
    (hd : d < 32) (ha : a < 65536) (hc : inst.operand_count = 2)
    (h0 : inst.operand 0 = register_operand d) (h1 : inst.operand 1 = direct_operand a) :
    emit_instruction state inst pass = emit_bytes state [info.opcode, d, 1, a % 256, a / 256] := by
  obtain ⟨hm, hw⟩ := two_operand_narrow_case _ hop
  have hmode : is_wide_mode (direct_operand a).mode = true := rfl
  have himm : (direct_operand a).immediate = a := by
    simp only [direct_operand, Operand.set_address, Operand.immediate]
    omega
  have hlabel : (direct_operand a).label = [] := rfl
  have b1 : (a >>> 8) &&& 0xFF = a / 256 := by
    rw [and_0xFF, Nat.shiftRight_eq_div_pow]
    omega
  simp only [emit_instruction, hi, hm, hw, hc, if_true, if_false, h0, h1,
    register_operand_reg_num hd, emit_bytes, List.foldl, hmode,
    resolve_value_no_label _ _ _ hlabel, himm, and_0xFF, b1]
  simp

theorem branch_number_layout (state : AssemblerState) (inst : Instruction)
    (info : OpcodeMetadata) (pass t : Nat) (hi : inst.info = some info)
    (hop : info.opcode ∈ branch_ops) (ht : t < 65536)
    (h0 : inst.operand 0 = immediate_operand t) :
    emit_instruction state inst pass = emit_bytes state [info.opcode, t % 256, t / 256] := by
  obtain ⟨c1, c2, c3, c4, _, c6⟩ := branch_ops_case _ hop
  have himm : (immediate_operand t).immediate = t := by
    simp only [immediate_operand, Operand.set_immediate, Operand.immediate]
    omega
  have b1 : (t >>> 8) &&& 0xFF = t / 256 := by
    rw [and_0xFF, Nat.shiftRight_eq_div_pow]
    omega
  simp only [emit_instruction, hi, c1, c2, c3, c4, c6, hop, if_true, if_false, h0,
    emit_bytes, List.foldl, resolve_value_no_label _ _ _ (immediate_operand_label t), himm,
    and_0xFF, b1]

theorem niladic_layout (state : AssemblerState) (inst : Instruction)
    (info : OpcodeMetadata) (pass : Nat) (hi : inst.info = some info)
    (hop : info.opcode ∈ niladic_ops) :
    emit_instruction state inst pass = emit_bytes state [info.opcode] := by
  obtain ⟨c1, c2, c3, c4, _, c6, c7⟩ := niladic_ops_case _ hop
  simp only [emit_instruction, hi, c1, c2, c3, c4, c6, c7, hop, if_true, if_false, emit_bytes,
    List.foldl]

theorem word_bytes (n : Nat) (hn : n < 65536) :
    ((n : Int) % 256).toNat = n % 256 ∧ ((n : Int) / 256 % 256).toNat = n / 256 := by
  omega

theorem emit_listed (state : AssemblerState) (pass : Nat) (l : Listed) (h : l.ok) :
    emit_instruction state l.instruction pass = emit_bytes state l.bytes := by
  cases l with
  | mov d src =>
    obtain ⟨hd, hs⟩ := h
    obtain ⟨info, hi, ho⟩ : ∃ info, opcode_find (cstr "MOV") = some info ∧ info.opcode = OP_MOV :=
      ⟨_, rfl, rfl⟩
    cases src with
    | reg s =>
      rw [two_operand_register_layout state (Listed.mov d (Source.reg s)).instruction
        info pass d s hi (by rw [ho]; decide) hd hs rfl
        rfl rfl, ho]
      rfl
    | imm n =>
      rw [two_operand_immediate_layout state (Listed.mov d (Source.imm n)).instruction
        info pass d n hi (by rw [ho]; decide) hd rfl
        rfl rfl, ho, (word_bytes n hs).1, (word_bytes n hs).2]
      rfl
  | add d s1 src =>
    obtain ⟨hd, hs1, hs⟩ := h
    obtain ⟨info, hi, ho⟩ : ∃ info, opcode_find (cstr "ADD") = some info ∧ info.opcode = OP_ADD :=
      ⟨_, rfl, rfl⟩
    cases src with
    | reg s =>
      rw [three_operand_register_layout state (Listed.add d s1 (Source.reg s)).instruction
        info pass d s1 s hi (by rw [ho]; decide) hd hs1
        hs rfl rfl rfl rfl, ho]
      rfl
    | imm n =>
      rw [three_operand_immediate_layout state (Listed.add d s1 (Source.imm n)).instruction
        info pass d s1 n hi (by rw [ho]; decide) hd
        hs1 rfl rfl rfl rfl, ho, (word_bytes n hs).1, (word_bytes n hs).2]
      rfl
  | sub d s1 src =>
    obtain ⟨hd, hs1, hs⟩ := h
    obtain ⟨info, hi, ho⟩ : ∃ info, opcode_find (cstr "SUB") = some info ∧ info.opcode = OP_SUB :=
      ⟨_, rfl, rfl⟩
    cases src with
    | reg s =>
      rw [three_operand_register_layout state (Listed.sub d s1 (Source.reg s)).instruction
        info pass d s1 s hi (by rw [ho]; decide) hd hs1
        hs rfl rfl rfl rfl, ho]
      rfl
    | imm n =>
      rw [three_operand_immediate_layout state (Listed.sub d s1 (Source.imm n)).instruction
        info pass d s1 n hi (by rw [ho]; decide) hd
        hs1 rfl rfl rfl rfl, ho, (word_bytes n hs).1, (word_bytes n hs).2]
      rfl
  | cmp a src =>
    obtain ⟨hd, hs⟩ := h
    obtain ⟨info, hi, ho⟩ : ∃ info, opcode_find (cstr "CMP") = some info ∧ info.opcode = OP_CMP :=
      ⟨_, rfl, rfl⟩
    cases src with
    | reg s =>
      rw [two_operand_register_layout state (Listed.cmp a (Source.reg s)).instruction
        info pass a s hi (by rw [ho]; decide) hd hs rfl
        rfl rfl, ho]
      rfl
    | imm n =>
      rw [two_operand_immediate_layout state (Listed.cmp a (Source.imm n)).instruction
        info pass a n hi (by rw [ho]; decide) hd rfl
        rfl rfl, ho, (word_bytes n hs).1, (word_bytes n hs).2]
      rfl
  | load_indirect d s =>
    obtain ⟨hd, hs⟩ := h
    obtain ⟨info, hi, ho⟩ :
        ∃ info, opcode_find (cstr "LOAD") = some info ∧ info.opcode = OP_LOAD := ⟨_, rfl, rfl⟩
    rw [two_operand_indirect_layout state (Listed.load_indirect d s).instruction
      info pass d s hi (by rw [ho]; decide) hd hs rfl
      rfl rfl, ho]
    rfl
  | load_direct d a =>
    obtain ⟨hd, ha⟩ := h
    obtain ⟨info, hi, ho⟩ :
        ∃ info, opcode_find (cstr "LOAD") = some info ∧ info.opcode = OP_LOAD := ⟨_, rfl, rfl⟩
    rw [two_operand_direct_layout state (Listed.load_direct d a).instruction
      info pass d a hi (by rw [ho]; decide) hd ha rfl
      rfl rfl, ho]
    rfl
  | inc d =>
    obtain ⟨info, hi, ho⟩ : ∃ info, opcode_find (cstr "INC") = some info ∧ info.opcode = OP_INC :=
      ⟨_, rfl, rfl⟩
    rw [single_register_layout state (Listed.inc d).instruction
      info pass d hi (by rw [ho]; decide) h rfl, ho]
    rfl
  | dec d =>
    obtain ⟨info, hi, ho⟩ : ∃ info, opcode_find (cstr "DEC") = some info ∧ info.opcode = OP_DEC :=
      ⟨_, rfl, rfl⟩
    rw [single_register_layout state (Listed.dec d).instruction
      info pass d hi (by rw [ho]; decide) h rfl, ho]
    rfl
  | branch k t =>
    obtain ⟨hk, ht⟩ := h
    obtain ⟨info, hi, ho, hb⟩ : ∃ info, opcode_find (branch_listing.getD k ([], 0)).1 = some info ∧
        info.opcode = (branch_listing.getD k ([], 0)).2 ∧ info.opcode ∈ branch_ops := by
      interval_cases k
      · exact ⟨_, rfl, rfl, by decide⟩
      · exact ⟨_, rfl, rfl, by decide⟩
      · exact ⟨_, rfl, rfl, by decide⟩
      · exact ⟨_, rfl, rfl, by decide⟩
      · exact ⟨_, rfl, rfl, by decide⟩
    rw [branch_number_layout state (Listed.branch k t).instruction info pass t hi hb ht rfl, ho]
    rfl
  | halt =>
    obtain ⟨info, hi, ho⟩ :
        ∃ info, opcode_find (cstr "HALT") = some info ∧ info.opcode = OP_HALT := ⟨_, rfl, rfl⟩
    rw [niladic_layout state Listed.halt.instruction info pass hi (by rw [ho]; decide), ho]
    rfl
  | nop =>
    obtain ⟨info, hi, ho⟩ : ∃ info, opcode_find (cstr "NOP") = some info ∧ info.opcode = OP_NOP :=
      ⟨_, rfl, rfl⟩
    rw [niladic_layout state Listed.nop.instruction info pass hi (by rw [ho]; decide), ho]
    rfl

/-! ## Disassembler: the instructions it lists -/

theorem read_byte_spec (s : SimulatorState) (x : Nat) (h : x < MEMORY_SIZE) :
    ∃ t, memory_read_byte s x = (s.memory x, t) ∧ t.memory = s.memory := by
  unfold memory_read_byte
  rw [if_neg (by omega)]
  exact ⟨_, rfl, rfl⟩

theorem read_word_spec (s : SimulatorState) (x n : Nat) (h : x + 1 < MEMORY_SIZE)
    (hn : n < 65536) (h0 : s.memory x = n % 256) (h1 : s.memory (x + 1) = n / 256) :
    ∃ t, memory_read_word s x = (n, t) ∧ t.memory = s.memory := by
  obtain ⟨t, e, _, m⟩ := memory_read_word_spec s x n h hn h0 h1
  exact ⟨t, e, m.memory⟩

theorem disassemble_operand_register (s : SimulatorState) (pc : Nat) (opening closing : List Nat)
    (h : pc < MEMORY_SIZE) :
    ∃ t, disassemble_operand s pc 0 opening closing =
        (opening ++ cstr "R" ++ decimal (s.memory pc) ++ closing, pc + 1, t) ∧
      t.memory = s.memory := by
  obtain ⟨t, e, m⟩ := read_byte_spec s pc h
  have m1 : (pc + 1) % 2 ^ 32 = pc + 1 := Nat.mod_eq_of_lt (by unfold MEMORY_SIZE at h; omega)
  unfold disassemble_operand
  rw [if_pos rfl, e, m1]
  exact ⟨t, rfl, m⟩

theorem disassemble_operand_word (s : SimulatorState) (pc n : Nat) (opening closing : List Nat)
    (h : pc + 1 < MEMORY_SIZE) (hn : n < 65536) (h0 : s.memory pc = n % 256)
    (h1 : s.memory (pc + 1) = n / 256) :
    ∃ t, disassemble_operand s pc 1 opening closing =
        (opening ++ cstr "0x" ++ format_hex 4 n ++ closing, pc + 2, t) ∧
      t.memory = s.memory := by
  obtain ⟨t, e, m⟩ := read_word_spec s pc n h hn h0 h1
  have m1 : (pc + 2) % 2 ^ 32 = pc + 2 := Nat.mod_eq_of_lt (by unfold MEMORY_SIZE at h; omega)
  unfold disassemble_operand
  rw [if_neg (by decide), e, m1]
  exact ⟨t, rfl, m⟩

/-- The mode byte at `pc` and the operand after it, for a register or a number. -/
theorem disassemble_source (s : SimulatorState) (pc : Nat) (src : Source) (hs : src.ok)
    (h : pc + src.bytes.length ≤ MEMORY_SIZE) (hb : bytes_at s.memory pc src.bytes) :
    ∃ t u, memory_read_byte s pc = (src.bytes.headD 0, t) ∧
      disassemble_operand t (pc + 1) (src.bytes.headD 0) [] [] =
        (src.text, pc + src.bytes.length, u) ∧
      u.memory = s.memory := by
  cases src with
  | reg r =>
    obtain ⟨b0, b1, -⟩ := hb
    have hl : pc + 2 ≤ MEMORY_SIZE := h
    obtain ⟨t, e, m⟩ := read_byte_spec s pc (by omega)
    obtain ⟨u, e2, m2⟩ := disassemble_operand_register t (pc + 1) [] [] (by omega)
    rw [m, b1, List.nil_append, List.append_nil] at e2
    rw [b0] at e
    exact ⟨t, u, e, e2, m2.trans m⟩
  | imm n =>
    obtain ⟨b0, b1, b2, -⟩ := hb
    have hl : pc + 3 ≤ MEMORY_SIZE := h
    obtain ⟨t, e, m⟩ := read_byte_spec s pc (by omega)
    obtain ⟨u, e2, m2⟩ := disassemble_operand_word t (pc + 1) n [] [] (by omega) hs
      (by rw [m]; exact b1) (by rw [m]; exact b2)
    rw [List.nil_append, List.append_nil] at e2
    rw [b0] at e
    exact ⟨t, u, e, e2, m2.trans m⟩

theorem disassemble_case_mov (s : SimulatorState) (pc : Nat) :
    disassemble_case OP_MOV s pc =
      (match memory_read_byte s pc with
       | (dst, s1) =>
         match memory_read_byte s1 ((pc + 1) % 2 ^ 32) with
         | (mode, s2) =>
           match disassemble_operand s2 (((pc + 1) % 2 ^ 32 + 1) % 2 ^ 32) mode [] [] with
           | (text, next, s3) => (cstr "MOV R" ++ decimal dst ++ cstr ", " ++ text, next, s3)) :=
  rfl

theorem disassemble_case_cmp (s : SimulatorState) (pc : Nat) :
    disassemble_case OP_CMP s pc =
      (match memory_read_byte s pc with
       | (dst, s1) =>
         match memory_read_byte s1 ((pc + 1) % 2 ^ 32) with
         | (mode, s2) =>
           match disassemble_operand s2 (((pc + 1) % 2 ^ 32 + 1) % 2 ^ 32) mode [] [] with
           | (text, next, s3) => (cstr "CMP R" ++ decimal dst ++ cstr ", " ++ text, next, s3)) :=
  rfl

theorem disassemble_case_load (s : SimulatorState) (pc : Nat) :
    disassemble_case OP_LOAD s pc =
      (match memory_read_byte s pc with
       | (dst, s1) =>
         match memory_read_byte s1 ((pc + 1) % 2 ^ 32) with
         | (mode, s2) =>
           match disassemble_operand s2 (((pc + 1) % 2 ^ 32 + 1) % 2 ^ 32) mode (cstr "[")
             (cstr "]") with
           | (text, next, s3) => (cstr "LOAD R" ++ decimal dst ++ cstr ", " ++ text, next, s3)) :=
  rfl

theorem disassemble_case_add (s : SimulatorState) (pc : Nat) :
    disassemble_case OP_ADD s pc =
      (match memory_read_byte s pc with
       | (dst, s1) =>
         match memory_read_byte s1 ((pc + 1) % 2 ^ 32) with
         | (src1, s2) =>
           match memory_read_byte s2 (((pc + 1) % 2 ^ 32 + 1) % 2 ^ 32) with
           | (mode, s3) =>
             match disassemble_operand s3 ((((pc + 1) % 2 ^ 32 + 1) % 2 ^ 32 + 1) % 2 ^ 32)
               mode [] [] with
             | (text, next, s4) =>
               (cstr "ADD" ++ cstr " R" ++ decimal dst ++ cstr ", R" ++ decimal src1 ++
                 cstr ", " ++ text, next, s4)) :=
  rfl

theorem disassemble_case_sub (s : SimulatorState) (pc : Nat) :
    disassemble_case OP_SUB s pc =
      (match memory_read_byte s pc with
       | (dst, s1) =>
         match memory_read_byte s1 ((pc + 1) % 2 ^ 32) with
         | (src1, s2) =>
           match memory_read_byte s2 (((pc + 1) % 2 ^ 32 + 1) % 2 ^ 32) with
           | (mode, s3) =>
             match disassemble_operand s3 ((((pc + 1) % 2 ^ 32 + 1) % 2 ^ 32 + 1) % 2 ^ 32)
               mode [] [] with
             | (text, next, s4) =>
               (cstr "SUB" ++ cstr " R" ++ decimal dst ++ cstr ", R" ++ decimal src1 ++
                 cstr ", " ++ text, next, s4)) :=
  rfl

theorem disassemble_case_inc (s : SimulatorState) (pc : Nat) :
    disassemble_case OP_INC s pc =
      (match memory_read_byte s pc with
       | (reg, s1) => (cstr "INC" ++ cstr " R" ++ decimal reg, (pc + 1) % 2 ^ 32, s1)) :=
  rfl

theorem disassemble_case_dec (s : SimulatorState) (pc : Nat) :
    disassemble_case OP_DEC s pc =
      (match memory_read_byte s pc with
       | (reg, s1) => (cstr "DEC" ++ cstr " R" ++ decimal reg, (pc + 1) % 2 ^ 32, s1)) :=
  rfl

theorem disassemble_case_branch (s : SimulatorState) (pc k : Nat) (hk : k < 5) :
    disassemble_case (branch_listing.getD k ([], 0)).2 s pc =
      (match memory_read_word s pc with
       | (target, s1) =>
         ((branch_listing.getD k ([], 0)).1 ++ cstr " 0x" ++ format_hex 4 target,
           (pc + 2) % 2 ^ 32, s1)) := by
  interval_cases k <;> rfl

theorem disassemble_case_halt (s : SimulatorState) (pc : Nat) :
    disassemble_case OP_HALT s pc = (cstr "HALT", pc, s) := rfl

theorem disassemble_case_nop (s : SimulatorState) (pc : Nat) :
    disassemble_case OP_NOP s pc = (cstr "NOP", pc, s) := rfl

theorem disassemble_instruction_case (sim : SimulatorState) (a : Nat) (h : a < MEMORY_SIZE) :
    ∃ u, disassemble_instruction sim a = disassemble_case (sim.memory a) u (a + 1) ∧
      u.memory = sim.memory := by
  obtain ⟨u, e, m⟩ := read_byte_spec sim a h
  have m1 : (a + 1) % 2 ^ 32 = a + 1 := Nat.mod_eq_of_lt (by unfold MEMORY_SIZE at h; omega)
  unfold disassemble_instruction
  rw [e, m1]
  exact ⟨u, rfl, m⟩

theorem disassemble_reads (s : SimulatorState) (pc d : Nat) (src : Source) (hs : src.ok)
    (h : pc + 1 + src.bytes.length ≤ MEMORY_SIZE) (hb : bytes_at s.memory pc (d :: src.bytes)) :
    ∃ s1 s2 u, memory_read_byte s pc = (d, s1) ∧
      memory_read_byte s1 ((pc + 1) % 2 ^ 32) = (src.bytes.headD 0, s2) ∧
      disassemble_operand s2 (((pc + 1) % 2 ^ 32 + 1) % 2 ^ 32) (src.bytes.headD 0) [] [] =
        (src.text, pc + 1 + src.bytes.length, u) ∧
      u.memory = s.memory := by
  obtain ⟨b0, b1⟩ := hb
  have hl : 2 ≤ src.bytes.length := by
    cases src with
    | reg r => exact Nat.le_refl 2
    | imm n => exact Nat.le_succ 2
  obtain ⟨s1, e1, m1⟩ := read_byte_spec s pc (by omega)
  obtain ⟨s2, s3, e2, e3, m3⟩ := disassemble_source s1 (pc + 1) src hs h (by rw [m1]; exact b1)
  have p1 : (pc + 1) % 2 ^ 32 = pc + 1 := Nat.mod_eq_of_lt (by unfold MEMORY_SIZE at h; omega)
  have p2 : (pc + 1 + 1) % 2 ^ 32 = pc + 1 + 1 :=
    Nat.mod_eq_of_lt (by unfold MEMORY_SIZE at h; omega)
  rw [p1, p2]
  rw [b0] at e1
  exact ⟨s1, s2, s3, e1, e2, e3, m3.trans m1⟩

theorem disassemble_reads_three (s : SimulatorState) (pc d r : Nat) (src : Source)
    (hs : src.ok) (h : pc + 2 + src.bytes.length ≤ MEMORY_SIZE)
    (hb : bytes_at s.memory pc (d :: r :: src.bytes)) :
    ∃ s1 s2 s3 u, memory_read_byte s pc = (d, s1) ∧
      memory_read_byte s1 ((pc + 1) % 2 ^ 32) = (r, s2) ∧
      memory_read_byte s2 (((pc + 1) % 2 ^ 32 + 1) % 2 ^ 32) = (src.bytes.headD 0, s3) ∧
      disassemble_operand s3 ((((pc + 1) % 2 ^ 32 + 1) % 2 ^ 32 + 1) % 2 ^ 32)
          (src.bytes.headD 0) [] [] =
        (src.text, pc + 2 + src.bytes.length, u) ∧
      u.memory = s.memory := by
  obtain ⟨b0, b1⟩ := hb
  obtain ⟨s1, e1, m1⟩ := read_byte_spec s pc (by omega)
  obtain ⟨s2, s3, u, e2, e3, e4, m4⟩ := disassemble_reads s1 (pc + 1) r src hs (by omega)
    (by rw [m1]; exact b1)
  have p1 : (pc + 1) % 2 ^ 32 = pc + 1 := Nat.mod_eq_of_lt (by unfold MEMORY_SIZE at h; omega)
  rw [p1]
  rw [b0] at e1
  exact ⟨s1, s2, s3, u, e1, e2, e3, e4, m4.trans m1⟩

theorem disassemble_reads_indirect (s : SimulatorState) (pc d r : Nat)
    (h : pc + 3 ≤ MEMORY_SIZE) (hb : bytes_at s.memory pc [d, 0, r]) :
    ∃ s1 s2 u, memory_read_byte s pc = (d, s1) ∧
      memory_read_byte s1 ((pc + 1) % 2 ^ 32) = (0, s2) ∧
      disassemble_operand s2 (((pc + 1) % 2 ^ 32 + 1) % 2 ^ 32) 0 (cstr "[") (cstr "]") =
        (cstr "[" ++ cstr "R" ++ decimal r ++ cstr "]", pc + 3, u) ∧
      u.memory = s.memory := by
  obtain ⟨b0, b1, b2, -⟩ := hb
  obtain ⟨s1, e1, m1⟩ := read_byte_spec s pc (by omega)
  obtain ⟨s2, e2, m2⟩ := read_byte_spec s1 (pc + 1) (by omega)
  obtain ⟨u, e3, m3⟩ := disassemble_operand_register s2 (pc + 1 + 1) (cstr "[") (cstr "]")
    (by omega)
  have p1 : (pc + 1) % 2 ^ 32 = pc + 1 := Nat.mod_eq_of_lt (by unfold MEMORY_SIZE at h; omega)
  have p2 : (pc + 1 + 1) % 2 ^ 32 = pc + 1 + 1 :=
    Nat.mod_eq_of_lt (by unfold MEMORY_SIZE at h; omega)
  rw [p1, p2]
  rw [b0] at e1
  rw [m1, b1] at e2
  rw [m2, m1, b2] at e3
  exact ⟨s1, s2, u, e1, e2, e3, m3.trans (m2.trans m1)⟩

theorem disassemble_reads_direct (s : SimulatorState) (pc d n : Nat) (hn : n < 65536)
    (h : pc + 4 ≤ MEMORY_SIZE) (hb : bytes_at s.memory pc [d, 1, n % 256, n / 256]) :
    ∃ s1 s2 u, memory_read_byte s pc = (d, s1) ∧
      memory_read_byte s1 ((pc + 1) % 2 ^ 32) = (1, s2) ∧
      disassemble_operand s2 (((pc + 1) % 2 ^ 32 + 1) % 2 ^ 32) 1 (cstr "[") (cstr "]") =
        (cstr "[" ++ cstr "0x" ++ format_hex 4 n ++ cstr "]", pc + 4, u) ∧
      u.memory = s.memory := by
  obtain ⟨b0, b1, b2, b3, -⟩ := hb
  obtain ⟨s1, e1, m1⟩ := read_byte_spec s pc (by omega)
  obtain ⟨s2, e2, m2⟩ := read_byte_spec s1 (pc + 1) (by omega)
  obtain ⟨u, e3, m3⟩ := disassemble_operand_word s2 (pc + 1 + 1) n (cstr "[") (cstr "]")
    (by omega) hn (by rw [m2, m1]; exact b2) (by rw [m2, m1]; exact b3)
  have p1 : (pc + 1) % 2 ^ 32 = pc + 1 := Nat.mod_eq_of_lt (by unfold MEMORY_SIZE at h; omega)
  have p2 : (pc + 1 + 1) % 2 ^ 32 = pc + 1 + 1 :=
    Nat.mod_eq_of_lt (by unfold MEMORY_SIZE at h; omega)
  rw [p1, p2]
  rw [b0] at e1
  rw [m1, b1] at e2
  exact ⟨s1, s2, u, e1, e2, e3, m3.trans (m2.trans m1)⟩

theorem disassemble_listed (sim : SimulatorState) (a : Nat) (l : Listed) (h : l.ok)
    (ha : a + l.bytes.length ≤ MEMORY_SIZE) (hb : bytes_at sim.memory a l.bytes) :
    ∃ u, disassemble_instruction sim a = (l.text, a + l.bytes.length, u) ∧
      u.memory = sim.memory := by
  have hpos : 0 < l.bytes.length := by
    cases l <;> exact Nat.succ_pos _
  obtain ⟨u0, e0, m0⟩ := disassemble_instruction_case sim a (by omega)
  rw [e0]
  cases l with
  | mov d src =>
    obtain ⟨b0, b1⟩ := hb
    obtain ⟨s1, s2, u, e1, e2, e3, m⟩ := disassemble_reads u0 (a + 1) d src h.2
      (by simp only [Listed.bytes, List.length_append, List.length_cons, List.length_nil] at ha
          omega) (by rw [m0]; exact b1)
    rw [b0, disassemble_case_mov, e1]
    dsimp only
    rw [e2]
    dsimp only
    rw [e3]
    refine ⟨u, ?_, m.trans m0⟩
    simp only [Listed.text, Listed.bytes, List.length_append, List.length_cons, List.length_nil]
    congr 2
    omega
  | add d s1 src =>
    obtain ⟨b0, b1⟩ := hb
    obtain ⟨t1, t2, t3, u, e1, e2, e3, e4, m⟩ := disassemble_reads_three u0 (a + 1) d s1 src
      h.2.2
      (by simp only [Listed.bytes, List.length_append, List.length_cons, List.length_nil] at ha
          omega) (by rw [m0]; exact b1)
    rw [b0, disassemble_case_add, e1]
    dsimp only
    rw [e2]
    dsimp only
    rw [e3]
    dsimp only
    rw [e4]
    refine ⟨u, ?_, m.trans m0⟩
    simp only [Listed.text, Listed.bytes, List.length_append, List.length_cons, List.length_nil]
    rw [show cstr "ADD" ++ cstr " R" = cstr "ADD R" from rfl]
    congr 2
    omega
  | sub d s1 src =>
    obtain ⟨b0, b1⟩ := hb
    obtain ⟨t1, t2, t3, u, e1, e2, e3, e4, m⟩ := disassemble_reads_three u0 (a + 1) d s1 src
      h.2.2
      (by simp only [Listed.bytes, List.length_append, List.length_cons, List.length_nil] at ha
          omega) (by rw [m0]; exact b1)
    rw [b0, disassemble_case_sub, e1]
    dsimp only
    rw [e2]
    dsimp only
    rw [e3]
    dsimp only
    rw [e4]
    refine ⟨u, ?_, m.trans m0⟩
    simp only [Listed.text, Listed.bytes, List.length_append, List.length_cons, List.length_nil]
    rw [show cstr "SUB" ++ cstr " R" = cstr "SUB R" from rfl]
    congr 2
    omega
  | cmp r src =>
    obtain ⟨b0, b1⟩ := hb
    obtain ⟨s1, s2, u, e1, e2, e3, m⟩ := disassemble_reads u0 (a + 1) r src h.2
      (by simp only [Listed.bytes, List.length_append, List.length_cons, List.length_nil] at ha
          omega) (by rw [m0]; exact b1)
    rw [b0, disassemble_case_cmp, e1]
    dsimp only
    rw [e2]
    dsimp only
    rw [e3]
    refine ⟨u, ?_, m.trans m0⟩
    simp only [Listed.text, Listed.bytes, List.length_append, List.length_cons, List.length_nil]
    congr 2
    omega
  | load_indirect d s =>
    obtain ⟨b0, b1⟩ := hb
    have hl : a + 4 ≤ MEMORY_SIZE := ha
    obtain ⟨s1, s2, u, e1, e2, e3, m⟩ := disassemble_reads_indirect u0 (a + 1) d s (by omega)
      (by rw [m0]; exact b1)
    rw [b0, disassemble_case_load, e1]
    dsimp only
    rw [e2]
    dsimp only
    rw [e3]
    refine ⟨u, ?_, m.trans m0⟩
    simp only [Listed.text, Listed.bytes, List.length_cons, List.length_nil]
    rw [show cstr ", [R" = cstr ", " ++ (cstr "[" ++ cstr "R") from rfl]
    simp only [List.append_assoc]
  | load_direct d n =>
    obtain ⟨b0, b1⟩ := hb
    have hl : a + 5 ≤ MEMORY_SIZE := ha
    obtain ⟨s1, s2, u, e1, e2, e3, m⟩ := disassemble_reads_direct u0 (a + 1) d n h.2 (by omega)
      (by rw [m0]; exact b1)
    rw [b0, disassemble_case_load, e1]
    dsimp only
    rw [e2]
    dsimp only
    rw [e3]
    refine ⟨u, ?_, m.trans m0⟩
    simp only [Listed.text, Listed.bytes, List.length_cons, List.length_nil]
    rw [show cstr ", [0x" = cstr ", " ++ (cstr "[" ++ cstr "0x") from rfl]
    simp only [List.append_assoc]
  | inc d =>
    obtain ⟨b0, b1, -⟩ := hb
    have hl : a + 2 ≤ MEMORY_SIZE := ha
    obtain ⟨s1, e1, m1⟩ := read_byte_spec u0 (a + 1) (by omega)
    have p1 : (a + 1 + 1) % 2 ^ 32 = a + 1 + 1 :=
      Nat.mod_eq_of_lt (by unfold MEMORY_SIZE at hl; omega)
    rw [b0, disassemble_case_inc, e1, m0, b1, p1]
    exact ⟨s1, rfl, m1.trans m0⟩
  | dec d =>
    obtain ⟨b0, b1, -⟩ := hb
    have hl : a + 2 ≤ MEMORY_SIZE := ha
    obtain ⟨s1, e1, m1⟩ := read_byte_spec u0 (a + 1) (by omega)
    have p1 : (a + 1 + 1) % 2 ^ 32 = a + 1 + 1 :=
      Nat.mod_eq_of_lt (by unfold MEMORY_SIZE at hl; omega)
    rw [b0, disassemble_case_dec, e1, m0, b1, p1]
    exact ⟨s1, rfl, m1.trans m0⟩
  | branch k t =>
    obtain ⟨b0, b1, b2, -⟩ := hb
    have hl : a + 3 ≤ MEMORY_SIZE := ha
    obtain ⟨s1, e1, m1⟩ := read_word_spec u0 (a + 1) t (by omega) h.2 (by rw [m0]; exact b1)
      (by rw [m0]; exact b2)
    have p1 : (a + 1 + 2) % 2 ^ 32 = a + 1 + 2 :=
      Nat.mod_eq_of_lt (by unfold MEMORY_SIZE at hl; omega)
    rw [b0, disassemble_case_branch _ _ k h.1, e1, p1]
    exact ⟨s1, rfl, m1.trans m0⟩
  | halt =>
    obtain ⟨b0, -⟩ := hb
    rw [b0, disassemble_case_halt]
    exact ⟨u0, rfl, m0⟩
  | nop =>
    obtain ⟨b0, -⟩ := hb
    rw [b0, disassemble_case_nop]
    exact ⟨u0, rfl, m0⟩

/-! ## Disassembler: the printed line -/

theorem hex_char_plain (k : Nat) (hk : k < 16) : hex_char k ≠ 59 ∧ hex_char k ≠ 58 :=
  ⟨(hex_char_facts k hk).2.2.2.2.1, (hex_char_facts k hk).2.2.2.2.2⟩

theorem hex_digits_chars : ∀ (fuel n : Nat), ∀ x ∈ hex_digits fuel n, x ≠ 59 ∧ x ≠ 58 := by
  intro fuel
  induction fuel with
  | zero => intro n x hx; cases hx
  | succ fuel ih =>
    intro n x hx
    rw [hex_digits] at hx
    split at hx
    · rw [List.mem_singleton] at hx
      rw [hx]
      exact hex_char_plain n (by omega)
    · rcases List.mem_append.mp hx with e | e
      · exact ih _ x e
      · rw [List.mem_singleton] at e
        rw [e]
        exact hex_char_plain _ (Nat.mod_lt _ (by decide))

theorem format_hex_plain (w n : Nat) : ∀ x ∈ format_hex w n, x ≠ 59 ∧ x ≠ 58 := by
  intro x hx
  unfold format_hex at hx
  rcases List.mem_append.mp hx with e | e
  · rw [List.eq_of_mem_replicate e]
    decide
  · exact hex_digits_chars _ _ x e

theorem parse_line_labelled (st : AssemblerState) (line pre cs : List Nat) (c : Nat)
    (h59 : 59 ∉ line) (hs : skip_spaces line = pre ++ 58 :: 32 :: c :: cs) (h58 : 58 ∉ pre)
    (hc : isspace c = false) :
    ∃ lb, parse_line st line {} = parse_statement st (c :: cs) { label := lb } := by
  have ha : after_char 58 (pre ++ 58 :: 32 :: c :: cs) = some (32 :: c :: cs) :=
    after_char_append 58 pre _ h58
  have hne : pre ++ 58 :: 32 :: c :: cs ≠ [] := by simp
  have hk : skip_spaces (32 :: c :: cs) = c :: cs :=
    (rfl : skip_spaces (32 :: c :: cs) = skip_spaces (c :: cs)).trans (skip_spaces_head c cs hc)
  unfold parse_line
  simp only [before_char_absent 59 line h59, hs, ha, hne, if_false, hk]
  rw [if_neg (by simp)]
  split
  · exact ⟨_, rfl⟩
  · exact ⟨[], rfl⟩

/-- The line that `debugger_disassemble` prints for a listed instruction is read
back by `parse_line` as that instruction, the address column being its label. -/
theorem parse_listed_line (l : Listed) (h : l.ok) (mark pc : Nat)
    (hm : mark = 62 ∨ mark = 32) :
    ∃ lb, parse_line (assembler_create false)
        ([mark] ++ cstr " 0x" ++ format_hex 4 pc ++ cstr ": " ++ l.text) {}
      = some (PARSE_INSTRUCTION, { l.instruction with label := lb }, assembler_create false) := by
  obtain ⟨c, cs, e, hc⟩ := listed_text_head l h
  have hx := listed_text_chars l h
  have hf := format_hex_plain 4 pc
  have e1 : [mark] ++ cstr " 0x" ++ format_hex 4 pc ++ cstr ": " ++ l.text
      = mark :: 32 :: 48 :: 120 :: (format_hex 4 pc ++ 58 :: 32 :: l.text) := by
    rw [show cstr " 0x" = [32, 48, 120] from rfl, show cstr ": " = [58, 32] from rfl]
    simp only [List.append_assoc, List.cons_append, List.nil_append]
  have h59 : 59 ∉ mark :: 32 :: 48 :: 120 :: (format_hex 4 pc ++ 58 :: 32 :: l.text) := by
    intro hmem
    simp only [List.mem_cons, List.mem_append] at hmem
    rcases hmem with k | k | k | k | k | k | k | k
    · rcases hm with m | m <;> rw [m] at k <;> exact absurd k (by decide)
    · exact absurd k (by decide)
    · exact absurd k (by decide)
    · exact absurd k (by decide)
    · exact (hf 59 k).1 rfl
    · exact absurd k (by decide)
    · exact absurd k (by decide)
    · exact (hx 59 k).1 rfl
  have h58 : ∀ p : List Nat, 58 ∉ p → 58 ∉ p ++ 48 :: 120 :: format_hex 4 pc := by
    intro p hp hmem
    simp only [List.mem_cons, List.mem_append] at hmem
    rcases hmem with k | k | k | k
    · exact hp k
    · exact absurd k (by decide)
    · exact absurd k (by decide)
    · exact (hf 58 k).2 rfl
  have q : ∀ lb, parse_statement (assembler_create false) (c :: cs) { label := lb }
      = some (PARSE_INSTRUCTION, { l.instruction with label := lb }, assembler_create false) := by
    intro lb
    rw [← e]
    exact parse_statement_listed l h lb
  rw [e] at h59
  rw [e1, e]
  rcases hm with m | m
  · subst m
    obtain ⟨lb, p⟩ := parse_line_labelled (assembler_create false) _
      ([62, 32] ++ 48 :: 120 :: format_hex 4 pc) cs c h59
      (by rw [skip_spaces_head 62 _ rfl]; simp) (h58 _ (by decide)) hc
    rw [p]
    exact ⟨lb, q lb⟩
  · subst m
    obtain ⟨lb, p⟩ := parse_line_labelled (assembler_create false) _
      ([] ++ 48 :: 120 :: format_hex 4 pc) cs c h59
      (by
        show skip_spaces (48 :: 120 :: (format_hex 4 pc ++ 58 :: 32 :: c :: cs)) = _
        rw [skip_spaces_head 48 _ rfl]; simp) (h58 _ (by decide)) hc
    rw [p]
    exact ⟨lb, q lb⟩

theorem emit_byte_image (state : AssemblerState) (b : Nat) (hb : b < 256)
    (hpc : state.pc < MEMORY_SIZE) :
    (emit_byte state b).pc = state.pc + 1 ∧ (emit_byte state b).memory state.pc = b ∧
    ∀ a, a ≠ state.pc → (emit_byte state b).memory a = state.memory a := by
  have hm : (emit_byte state b).memory =
      (if state.pc < MEMORY_SIZE
        then (fun a => if a = state.pc then b % 256 else state.memory a) else state.memory) := rfl
  have hp : (emit_byte state b).pc = (state.pc + 1) % 2 ^ 32 := rfl
  rw [hm, hp, if_pos hpc]
  refine ⟨Nat.mod_eq_of_lt (by unfold MEMORY_SIZE at hpc; omega), ?_, ?_⟩
  · simp only [if_true]
    exact Nat.mod_eq_of_lt hb
  · intro a ha
    simp only [if_neg ha]

theorem emit_bytes_image : ∀ (bs : List Nat) (state : AssemblerState),
    state.pc + bs.length ≤ MEMORY_SIZE → (∀ b ∈ bs, b < 256) →
    bytes_at (emit_bytes state bs).memory state.pc bs ∧
    (emit_bytes state bs).pc = state.pc + bs.length ∧
    ∀ a, a < state.pc → (emit_bytes state bs).memory a = state.memory a := by
  intro bs
  induction bs with
  | nil => intro state _ _; exact ⟨trivial, rfl, fun _ _ => rfl⟩
  | cons b bs ih =>
    intro state hpc hb
    simp only [List.length_cons] at hpc
    obtain ⟨p1, v1, o1⟩ := emit_byte_image state b (hb b (List.mem_cons_self _ _)) (by omega)
    obtain ⟨i1, i2, i3⟩ := ih (emit_byte state b) (by rw [p1]; omega)
      (fun x hx => hb x (List.mem_cons_of_mem _ hx))
    rw [p1] at i1 i2 i3
    have e : emit_bytes state (b :: bs) = emit_bytes (emit_byte state b) bs := rfl
    rw [e]
    refine ⟨⟨?_, i1⟩, ?_, ?_⟩
    · rw [i3 state.pc (by omega)]; exact v1
    · rw [i2, List.length_cons]; omega
    · intro a ha
      rw [i3 a (by omega)]
      exact o1 a (by omega)

theorem source_bytes_small (src : Source) (hs : src.ok) : ∀ b ∈ src.bytes, b < 256 := by
  intro b hb
  cases src with
  | reg s =>
    have hs' : s < 32 := hs
    simp only [Source.bytes, List.mem_cons, List.mem_singleton, List.not_mem_nil, or_false] at hb
    rcases hb with e | e <;> omega
  | imm n =>
    have hs' : n < 65536 := hs
    simp only [Source.bytes, List.mem_cons, List.mem_singleton, List.not_mem_nil, or_false] at hb
    rcases hb with e | e | e <;> omega

theorem listed_bytes_small (l : Listed) (h : l.ok) : ∀ b ∈ l.bytes, b < 256 := by
  intro b hb
  cases l with
  | mov d src =>
    rcases List.mem_append.mp hb with e | e
    · simp only [List.mem_cons, List.mem_singleton, List.not_mem_nil, or_false] at e
      rcases e with e | e
      · rw [e]; decide
      · rw [e]; exact Nat.lt_trans h.1 (by decide)
    · exact source_bytes_small src h.2 b e
  | add d s1 src =>
    rcases List.mem_append.mp hb with e | e
    · simp only [List.mem_cons, List.mem_singleton, List.not_mem_nil, or_false] at e
      rcases e with e | e | e
      · rw [e]; decide
      · rw [e]; exact Nat.lt_trans h.1 (by decide)
      · rw [e]; exact Nat.lt_trans h.2.1 (by decide)
    · exact source_bytes_small src h.2.2 b e
  | sub d s1 src =>
    rcases List.mem_append.mp hb with e | e
    · simp only [List.mem_cons, List.mem_singleton, List.not_mem_nil, or_false] at e
      rcases e with e | e | e
      · rw [e]; decide
      · rw [e]; exact Nat.lt_trans h.1 (by decide)
      · rw [e]; exact Nat.lt_trans h.2.1 (by decide)
    · exact source_bytes_small src h.2.2 b e
  | cmp d src =>
    rcases List.mem_append.mp hb with e | e
    · simp only [List.mem_cons, List.mem_singleton, List.not_mem_nil, or_false] at e
      rcases e with e | e
      · rw [e]; decide
      · rw [e]; exact Nat.lt_trans h.1 (by decide)
    · exact source_bytes_small src h.2 b e
  | load_indirect d s =>
    obtain ⟨h1, h2⟩ := h
    simp only [Listed.bytes, List.mem_cons, List.mem_singleton, List.not_mem_nil, or_false] at hb
    rcases hb with e | e | e | e
    · rw [e]; decide
    · omega
    · omega
    · omega
  | load_direct d a =>
    obtain ⟨h1, h2⟩ := h
    simp only [Listed.bytes, List.mem_cons, List.mem_singleton, List.not_mem_nil, or_false] at hb
    rcases hb with e | e | e | e | e
    · rw [e]; decide
    · omega
    · omega
    · omega
    · omega
  | inc d =>
    have h1 : d < 32 := h
    simp only [Listed.bytes, List.mem_cons, List.mem_singleton, List.not_mem_nil, or_false] at hb
    rcases hb with e | e
    · rw [e]; decide
    · omega
  | dec d =>
    have h1 : d < 32 := h
    simp only [Listed.bytes, List.mem_cons, List.mem_singleton, List.not_mem_nil, or_false] at hb
    rcases hb with e | e
    · rw [e]; decide
    · omega
  | branch k t =>
    obtain ⟨h1, h2⟩ := h
    simp only [Listed.bytes, List.mem_cons, List.mem_singleton, List.not_mem_nil, or_false] at hb
    rcases hb with e | e | e
    · rw [e]; interval_cases k <;> decide
    · omega
    · omega
  | halt =>
    simp only [Listed.bytes, List.mem_singleton] at hb
    rw [hb]; decide
  | nop =>
    simp only [Listed.bytes, List.mem_singleton] at hb
    rw [hb]; decide

theorem debugger_disassemble_one (sim : SimulatorState) (a : Nat) :
    debugger_disassemble sim a 1 =
      ([[if a = sim.pc then 62 else 32] ++ cstr " 0x" ++ format_hex 4 a ++ cstr ": " ++
          (disassemble_instruction sim a).1], (disassemble_instruction sim a).2.2) := rfl

theorem round_trip (l : Listed) (h : l.ok) (state : AssemblerState) (sim : SimulatorState)
    (hpc : state.pc + l.bytes.length ≤ MEMORY_SIZE)
    (hm : sim.memory = (emit_instruction state l.instruction 2).memory) :
    ∃ lb u,
      disassemble_instruction sim state.pc
        = (l.text, (emit_instruction state l.instruction 2).pc, u) ∧
      (emit_instruction state l.instruction 2).pc = state.pc + l.bytes.length ∧
      debugger_disassemble sim state.pc 1 =
        ([[if state.pc = sim.pc then 62 else 32] ++ cstr " 0x" ++ format_hex 4 state.pc ++
            cstr ": " ++ l.text], u) ∧
      parse_line (assembler_create false) l.text {}
        = some (PARSE_INSTRUCTION, l.instruction, assembler_create false) ∧
      parse_line (assembler_create false)
          ([if state.pc = sim.pc then 62 else 32] ++ cstr " 0x" ++ format_hex 4 state.pc ++
            cstr ": " ++ l.text) {}
        = some (PARSE_INSTRUCTION, { l.instruction with label := lb }, assembler_create false) := by
  obtain ⟨i1, i2, -⟩ := emit_bytes_image l.bytes state hpc (listed_bytes_small l h)
  rw [← emit_listed state 2 l h, ← hm] at i1
  rw [← emit_listed state 2 l h] at i2
  obtain ⟨u, d1, -⟩ := disassemble_listed sim state.pc l h hpc i1
  obtain ⟨lb, p⟩ := parse_listed_line l h (if state.pc = sim.pc then 62 else 32) state.pc
    (by split; exact Or.inl rfl; exact Or.inr rfl)
  refine ⟨lb, u, ?_, i2, ?_, parse_listed l h, p⟩
  · rw [d1, i2]
  · rw [debugger_disassemble_one, d1]

/-- C32 (counterexample): `PUSH R0` is emitted as `0A 00`, two bytes; the
disassembler has no case for the opcode, prints `DB 0x0A` and goes on one byte
further, and `parse_line` rejects that line.  `MOV R1, [16]` is printed as
`MOV R1, 0x0010`, which is read back with an immediate operand, not a direct
one; `MOV R0, #70000` as `MOV R0, 0x1170`, read back as the number 4464; and
`JMP end` as `JMP 0x0003`, read back with a number, not the label. -/
theorem push_disassembles_as_data :
    (parse_line (assembler_create false) (cstr "PUSH R0") {}).map (fun r => r.1)
      = some PARSE_INSTRUCTION ∧
    (List.range 2).map
      (emit_instruction (assembler_create false) (parsed_instruction "PUSH R0") 2).memory
      = [0x0A, 0] ∧
    (emit_instruction (assembler_create false) (parsed_instruction "PUSH R0") 2).pc = 2 ∧
    ((disassemble_instruction (loaded ["PUSH R0"]) 0).1,
      (disassemble_instruction (loaded ["PUSH R0"]) 0).2.1) = (cstr "DB 0x0A", 1) ∧
    (debugger_disassemble (loaded ["PUSH R0"]) 0 2).1
      = [cstr "> 0x0000: DB 0x0A", cstr "  0x0001: DB 0x00"] ∧
    (parse_line (assembler_create false) (cstr "DB 0x0A") {}).map (fun r => r.1)
      = some PARSE_ERROR ∧
    (parse_line (assembler_create false) (cstr "> 0x0000: DB 0x0A") {}).map (fun r => r.1)
      = some PARSE_ERROR ∧
    (disassemble_instruction (loaded ["MOV R1, [16]"]) 0).1 = cstr "MOV R1, 0x0010" ∧
    ((parsed_instruction "MOV R1, [16]").operand 1).mode = AM_DIRECT ∧
    ((parsed_instruction "MOV R1, 0x0010").operand 1).mode = AM_IMMEDIATE ∧
    (disassemble_instruction (loaded ["MOV R0, #70000"]) 0).1 = cstr "MOV R0, 0x1170" ∧
    ((parsed_instruction "MOV R0, #70000").operand 1).immediate = 70000 ∧
    ((parsed_instruction "MOV R0, 0x1170").operand 1).immediate = 4464 ∧
    (disassemble_instruction (loaded ["JMP end", "end: HALT"]) 0).1 = cstr "JMP 0x0003" ∧
    ((parsed_instruction "JMP end").operand 0).label = cstr "end" ∧
    ((parsed_instruction "JMP 0x0003").operand 0).label = [] := by
  decide

/-- C32 (amended): for every instruction `l` among MOV, ADD, SUB, CMP with
register operands and a register or a number below 2^16 last, LOAD through a
register or from an address below 2^16, INC, DEC, the branches JMP, JE, JNE,
JG, JL to an address below 2^16 given as a number, HALT and NOP (registers
below 32): when the bytes that `emit_instruction` produces for `l` at `PC` are
in the memory of the simulator, the disassembler prints at `PC` a text that
`parse_line` reads back as `l` (same table row, same operands), also with the
address column in front, which is read as a label; and it goes on at the `PC`
that the encoder reached. -/
theorem disassemble_round_trip (l : Listed) (h : l.ok) (state : AssemblerState)
    (sim : SimulatorState) (hpc : state.pc + l.bytes.length ≤ MEMORY_SIZE)
    (hm : sim.memory = (emit_instruction state l.instruction 2).memory) :
    ∃ lb u,
      disassemble_instruction sim state.pc
        = (l.text, (emit_instruction state l.instruction 2).pc, u) ∧
      (emit_instruction state l.instruction 2).pc = state.pc + l.bytes.length ∧
      debugger_disassemble sim state.pc 1 =
        ([[if state.pc = sim.pc then 62 else 32] ++ cstr " 0x" ++ format_hex 4 state.pc ++
            cstr ": " ++ l.text], u) ∧
      parse_line (assembler_create false) l.text {}
        = some (PARSE_INSTRUCTION, l.instruction, assembler_create false) ∧
      parse_line (assembler_create false)
          ([if state.pc = sim.pc then 62 else 32] ++ cstr " 0x" ++ format_hex 4 state.pc ++
            cstr ": " ++ l.text) {}
        = some (PARSE_INSTRUCTION, { l.instruction with label := lb }, assembler_create false) :=
  round_trip l h state sim hpc hm

/-- Witness of `disassemble_round_trip`: `ADD R2, R1, #255` emitted at address 0
and loaded in a new simulator. -/
theorem disassemble_round_trip_witness :
    (Listed.add 2 1 (Source.imm 255)).instruction = parsed_instruction "ADD R2, R1, #255" ∧
    (Listed.add 2 1 (Source.imm 255)).text = cstr "ADD R2, R1, 0x00FF" ∧
    ∃ lb u,
      disassemble_instruction
          (simulator_create (emit_instruction (assembler_create false)
            (Listed.add 2 1 (Source.imm 255)).instruction 2).memory) (assembler_create false).pc
        = ((Listed.add 2 1 (Source.imm 255)).text,
            (emit_instruction (assembler_create false)
              (Listed.add 2 1 (Source.imm 255)).instruction 2).pc, u) ∧
      (emit_instruction (assembler_create false)
          (Listed.add 2 1 (Source.imm 255)).instruction 2).pc
        = (assembler_create false).pc + (Listed.add 2 1 (Source.imm 255)).bytes.length ∧
      debugger_disassemble
          (simulator_create (emit_instruction (assembler_create false)
            (Listed.add 2 1 (Source.imm 255)).instruction 2).memory)
          (assembler_create false).pc 1 =
        ([[if (assembler_create false).pc = (simulator_create (emit_instruction
              (assembler_create false) (Listed.add 2 1 (Source.imm 255)).instruction 2).memory).pc
            then 62 else 32] ++ cstr " 0x" ++ format_hex 4 (assembler_create false).pc ++
            cstr ": " ++ (Listed.add 2 1 (Source.imm 255)).text], u) ∧
      parse_line (assembler_create false) (Listed.add 2 1 (Source.imm 255)).text {}
        = some (PARSE_INSTRUCTION, (Listed.add 2 1 (Source.imm 255)).instruction,
            assembler_create false) ∧
      parse_line (assembler_create false)
          ([if (assembler_create false).pc = (simulator_create (emit_instruction
              (assembler_create false) (Listed.add 2 1 (Source.imm 255)).instruction 2).memory).pc
            then 62 else 32] ++ cstr " 0x" ++ format_hex 4 (assembler_create false).pc ++
            cstr ": " ++ (Listed.add 2 1 (Source.imm 255)).text) {}
        = some (PARSE_INSTRUCTION,
            { (Listed.add 2 1 (Source.imm 255)).instruction with label := lb },
            assembler_create false) :=
  ⟨by decide, by decide,
    disassemble_round_trip (Listed.add 2 1 (Source.imm 255))
      (show 2 < 32 ∧ 1 < 32 ∧ 255 < 65536 by decide) (assembler_create false)
      (simulator_create (emit_instruction (assembler_create false)
        (Listed.add 2 1 (Source.imm 255)).instruction 2).memory) (by decide) rfl⟩

end Basm
